import Mathlib

/-!
# rancher-conf: graph builder and template query functions

A shallow embedding of `cmd/rancher-conf` (`runner.go`, `template_types.go`,
`template_functions.go`).  Go pointers are indices into per-type arenas that
hold the allocated structs in allocation order; a nil pointer is `none`, and a
nil dereference ends the run with `Failure.nilDeref`.
-/

namespace RancherConf

/-! ## Go primitives -/

/-- Go `map[string]β`: a key-unique association list.  The list is kept in order of first
insertion, which is bookkeeping of the model only: a Go map has no order, and a `range` over
it may visit the keys in any order (`mayRange`). -/
abbrev GoMap (β : Type) := List (String × β)

/-- Go `v, ok := m[k]`. -/
def mapIndex {β : Type} : GoMap β → String → Option β
  | [], _ => none
  | (k', v) :: rest, k => if k' = k then some v else mapIndex rest k

/-- Go `m[k] = v`: overwrite the entry of `k`, or add one. -/
def mapAssign {β : Type} : GoMap β → String → β → GoMap β
  | [], k, v => [(k, v)]
  | (k', v') :: rest, k, v =>
    if k' = k then (k, v) :: rest else (k', v') :: mapAssign rest k v

/-- Go `sort.SliceStable(xs, less)`: the stable sort, as a stable insertion sort. -/
def insertStable {α : Type} (less : α → α → Bool) (a : α) : List α → List α
  | [] => [a]
  | b :: l => if less b a then b :: insertStable less a l else a :: b :: l

/-- Go `sort.SliceStable(xs, less)`. -/
def sortSliceStable {α : Type} (less : α → α → Bool) : List α → List α
  | [] => []
  | a :: l => insertStable less a (sortSliceStable less l)

/-- Lexicographic `<` on rune lists. -/
def runesLess : List Char → List Char → Bool
  | _, [] => false
  | [], _ :: _ => true
  | a :: l, b :: l' => if a = b then runesLess l l' else decide (a < b)

/-- Go `s < t` on strings: the bytewise order, which on UTF-8 text is the lexicographic
order of the runes. -/
def strLess (s t : String) : Bool := runesLess s.data t.data

/-- Go `sort.Strings`. -/
def sortStrings (xs : List String) : List String :=
  sortSliceStable strLess xs

/-- The case-folding table of the Unicode version of the Go release, as `strings.EqualFold`
consults it: `uc sr tr` tells, for runes `sr < tr` that are not both ASCII, whether the loop
`r := unicode.SimpleFold(sr); for r != sr && r < tr { r = unicode.SimpleFold(r) }` ends with
`r == tr`, that is, whether `tr` lies on the fold orbit of `sr`. -/
abbrev FoldTable := Char → Char → Bool

/-- One pass of the loop of `strings.EqualFold` on the runes `sr` and `tr`: the runes are
equal; or, after they are put in order, both are ASCII and they are an upper-case letter
and its lower-case form; or the larger is on the fold orbit of the smaller. -/
def runeEqualFold (uc : FoldTable) (sr tr : Char) : Bool :=
  if tr = sr then true
  else
    let lo : Char := if tr.toNat < sr.toNat then tr else sr
    let hi : Char := if tr.toNat < sr.toNat then sr else tr
    if hi.toNat < 128 then
      decide (65 ≤ lo.toNat ∧ lo.toNat ≤ 90 ∧ hi.toNat = lo.toNat + 32)
    else uc lo hi

/-- The loop of `strings.EqualFold` over the runes of both strings: the strings have the
same number of runes, and the runes at every position are equal under folding. -/
def equalFoldRunes (uc : FoldTable) : List Char → List Char → Bool
  | [], [] => true
  | sr :: s, tr :: t => runeEqualFold uc sr tr && equalFoldRunes uc s t
  | _, _ => false

/-- Go `strings.EqualFold`: equality of the strings under Unicode simple case folding. -/
def EqualFold (uc : FoldTable) (s t : String) : Bool :=
  equalFoldRunes uc s.data t.data

/-- Splits a rune list at every occurrence of `sep`, as `strings.Split` does for a
one-rune separator: the result always has one more piece than there are separators. -/
def splitRunes (sep : Char) : List Char → List (List Char)
  | [] => [[]]
  | c :: cs =>
    if c = sep then [] :: splitRunes sep cs
    else
      match splitRunes sep cs with
      | [] => [[c]]
      | p :: ps => (c :: p) :: ps

/-- Go `strings.Split(s, sep)` for a one-rune separator. -/
def Split (s : String) (sep : Char) : List String :=
  (splitRunes sep s.data).map String.mk

/-! ## template_types.go -/

/-- ServicePort represents a port exposed by a service. -/
structure ServicePort where
  BindAddress : String
  PublicPort : String
  InternalPort : String
  Protocol : String
  deriving DecidableEq

/-- LabelMap contains the labels of a service or host. -/
abbrev LabelMap := GoMap String

/-- MetadataMap contains the metadata of a service; the values are kept as strings. -/
abbrev MetadataMap := GoMap String

/-- Exists returns true if the Labels contain the given key. -/
def LabelMap.Exists (l : LabelMap) (key : String) : Bool :=
  (mapIndex l key).isSome

/-- GetValue returns the value of the given label key, else the first default, else "". -/
def LabelMap.GetValue (l : LabelMap) (key : String) (v : List String) : String :=
  match mapIndex l key with
  | some val => if val.length > 0 then val else v.headD ""
  | none => v.headD ""

/-- The fields of `metadata.Stack` that the program reads. -/
structure MetaStack where
  Name : String
  UUID : String
  deriving DecidableEq

/-- The fields of `metadata.Host` that the program reads. -/
structure MetaHost where
  UUID : String
  Name : String
  Labels : GoMap String
  deriving DecidableEq

/-- The fields of `metadata.Service` that the program reads. -/
structure MetaService where
  Name : String
  UUID : String
  StackName : String
  StackUUID : String
  PrimaryServiceName : String
  Sidekicks : List String
  Ports : List String
  Labels : GoMap String
  Links : GoMap String
  Metadata : GoMap String
  deriving DecidableEq

/-- The fields of `metadata.Container` that the program reads. -/
structure MetaContainer where
  Name : String
  UUID : String
  StackName : String
  ServiceName : String
  HostUUID : String
  CreateIndex : Int
  Ports : List String
  Labels : GoMap String
  Links : GoMap String
  deriving DecidableEq

/-- Stack: the embedded `metadata.Stack` and the pointers to its primary services. -/
structure Stack where
  metadata : MetaStack
  Services : List Nat
  deriving DecidableEq

/-- Host represents a Rancher Host. -/
structure Host where
  metadata : MetaHost
  Labels : LabelMap
  Containers : List Nat
  deriving DecidableEq

/-- Service represents a Rancher service. -/
structure Service where
  metadata : MetaService
  Sidekicks : List Nat
  Containers : List Nat
  Ports : List ServicePort
  Labels : LabelMap
  Links : LabelMap
  Metadata : MetadataMap
  Primary : Bool
  Sidekick : Bool
  Stack : Option Nat
  Parent : Option Nat
  deriving DecidableEq

/-- Container represents a container belonging to a Rancher Service. -/
structure Container where
  metadata : MetaContainer
  Ports : List ServicePort
  Labels : LabelMap
  Links : LabelMap
  Primary : Bool
  Sidekick : Bool
  Service : Option Nat
  Host : Option Nat
  Parent : Option Nat
  Sidekicks : List Nat
  deriving DecidableEq

/-- Self: pointers to the entities of the running process. -/
structure Self where
  Stack : Option Nat
  Service : Option Nat
  Container : Option Nat
  Host : Option Nat
  deriving DecidableEq

/-! ## template_functions.go: label queries -/

/-- The dynamic value a template passes as `in interface{}`. -/
inductive Input where
  | nil
  | services (xs : List Service)
  | containers (xs : List Container)
  | hosts (xs : List Host)
  | other (typeName : String)
  deriving DecidableEq

/-- One element of a `[]interface{}` result. -/
inductive Item where
  | service (s : Service)
  | container (c : Container)
  | host (h : Host)
  deriving DecidableEq

/-- Go `whereLabel`: the items whose label lookup `(value, ok)` passes `test`. -/
def whereLabel (funcName : String) (inp : Input) (label : String)
    (test : String → Bool → Bool) : List Item × Option String :=
  match inp with
  | .nil => ([], some ("(" ++ funcName ++ ") input is nil"))
  | _ =>
    if label = "" then ([], some ("(" ++ funcName ++ ") label is empty"))
    else
      match inp with
      | .services xs =>
        ((xs.filter (fun s => test ((mapIndex s.Labels label).getD "")
            (mapIndex s.Labels label).isSome)).map Item.service, none)
      | .containers xs =>
        ((xs.filter (fun c => test ((mapIndex c.Labels label).getD "")
            (mapIndex c.Labels label).isSome)).map Item.container, none)
      | .hosts xs =>
        ((xs.filter (fun h => test ((mapIndex h.Labels label).getD "")
            (mapIndex h.Labels label).isSome)).map Item.host, none)
      | .nil => ([], some ("(" ++ funcName ++ ") input is nil"))
      | .other t => ([], some ("(" ++ funcName ++ ") invalid input type " ++ t))

/-- Selects services or hosts from the input that have the given label. -/
def whereLabelExists (label : String) (inp : Input) : List Item × Option String :=
  whereLabel "whereLabelExists" inp label (fun _ ok => ok)

/-- Selects services or hosts from the input that have the given label and value. -/
def whereLabelEquals (uc : FoldTable)
    (label labelValue : String) (inp : Input) : List Item × Option String :=
  whereLabel "whereLabelEquals" inp label (fun value ok => ok && EqualFold uc value labelValue)

/-- Go `regexp.Compile` followed by `MatchString`: an external engine, taken as a parameter.
A pattern that does not compile yields the engine's error. -/
abbrev RegexEngine := String → Except String (String → Bool)

/-- Selects services or hosts from the input that have the given label whose value matches
the regex. -/
def whereLabelMatches (rx : RegexEngine) (label pattern : String) (inp : Input) :
    List Item × Option String :=
  match rx pattern with
  | .error err => ([], some err)
  | .ok m => whereLabel "whereLabelMatches" inp label (fun value ok => ok && m value)

/-- The shapes of the label functions bound into the template function map. -/
inductive TemplateFunc where
  | byLabel (f : String → Input → List Item × Option String)
  | byLabelValue (f : String → String → Input → List Item × Option String)

/-- Go `newFuncMap`: the label-filter entries of the function map, name and bound function
as written in the map literal. -/
def newFuncMap (uc : FoldTable) : List (String × TemplateFunc) :=
  [ ("whereLabelExists", .byLabel whereLabelExists),
    ("whereLabelEquals", .byLabelValue (whereLabelEquals uc)),
    ("whereLabelMatches", .byLabelValue (whereLabelEquals uc)) ]

/-- The function that a template reaches under the name `whereLabelMatches`. -/
def callWhereLabelMatches (uc : FoldTable) (label pattern : String) (inp : Input) :
    Option (List Item × Option String) :=
  match (newFuncMap uc).lookup "whereLabelMatches" with
  | some (.byLabelValue f) => some (f label pattern inp)
  | _ => none

/-! ## runner.go: building the context -/

/-- TemplateContext: the four sorted pointer slices and `Self`, together with the arenas
that the pointers index. -/
structure TemplateContext where
  stackArena : List Stack
  hostArena : List Host
  serviceArena : List Service
  containerArena : List Container
  Services : List Nat
  Containers : List Nat
  Hosts : List Nat
  Stacks : List Nat
  Self : Self
  deriving DecidableEq

/-- How a run of `createContext` can end without a graph: an error returned by the metadata
client, or a nil pointer dereference (a Go run-time panic). -/
inductive Failure where
  | fetch (err : String)
  | nilDeref
  deriving DecidableEq

/-- The part of `Config` that `createContext` reads (`SelfId`) and that
`overwriteConfigFromEnv` writes; the defaults are those that `initConfig` starts from. -/
structure Config where
  SelfId : String
  Interval : Int := 5
  MetadataVersion : String := "latest"
  LogLevel : String := "info"
  OneTime : Bool := false
  IncludeInactive : Bool := false
  MetadataUrl : String := "http://rancher-metadata.rancher.internal"
  deriving DecidableEq

/-- The metadata client: every fetch yields its records or an error. -/
structure Client where
  GetStacks : Except String (List MetaStack)
  GetServices : Except String (List MetaService)
  GetContainers : Except String (List MetaContainer)
  GetHosts : Except String (List MetaHost)
  GetSelfContainer : Except String MetaContainer

/-- Writes through a pointer: applies `f` to cell `n` of an arena. -/
def modifyAt {α : Type} (f : α → α) : List α → Nat → List α
  | [], _ => []
  | a :: l, 0 => f a :: l
  | a :: l, n + 1 => a :: modifyAt f l n

/-- One entry of a port list: `[bindAddress:]publicPort:internalPort/protocol`. -/
def parseServicePort (port : String) : Option ServicePort :=
  match Split port ':' with
  | [pub, rest] =>
    match Split rest '/' with
    | [inner, proto] =>
      some { BindAddress := "", PublicPort := pub, InternalPort := inner, Protocol := proto }
    | _ => none
  | [bind, pub, rest] =>
    match Split rest '/' with
    | [inner, proto] =>
      some { BindAddress := bind, PublicPort := pub, InternalPort := inner, Protocol := proto }
    | _ => none
  | _ => none

/-- Converts a `Ports` string slice to a ServicePort slice; entries of an unexpected format
are logged and left out. -/
def parseServicePorts (ports : List String) : List ServicePort :=
  ports.filterMap parseServicePort

/-- Go `sortedLabelMap`: a fresh map, filled key by key in the sorted order of the keys.  The
result is a Go map again, which keeps no order. -/
def sortedLabelMap (labelmap : GoMap String) : GoMap String :=
  (sortStrings (labelmap.map Prod.fst)).foldl
    (fun sorted k => mapAssign sorted k ((mapIndex labelmap k).getD "")) []

/-- Go `sortedMetaMap`: a fresh map, filled key by key in the sorted order of the keys.  The
result is a Go map again, which keeps no order. -/
def sortedMetaMap (metamap : GoMap String) : GoMap String :=
  (sortStrings (metamap.map Prod.fst)).foldl
    (fun sorted k => mapAssign sorted k ((mapIndex metamap k).getD "")) []

/-- Go `for k := range m`: the language leaves the order of the visit open, so `ks` can be
the order in which the keys are visited exactly when it is a rearrangement of the keys. -/
def mayRange {β : Type} (m : GoMap β) (ks : List String) : Bool :=
  decide (ks.Perm (m.map Prod.fst))

/-- The `range` action of text/template over a map with string keys: the entries are visited
in sorted key order, whatever map it is. -/
def templateRange (m : GoMap String) : List (String × String) :=
  (sortStrings (m.map Prod.fst)).map (fun k => (k, (mapIndex m k).getD ""))

/-- The label that tells a primary container from a sidekick. -/
def launchConfigLabel : String := "io.rancher.service.launch.config"

/-- The value of the launch-config label on a primary container. -/
def primaryLaunchConfig : String := "io.rancher.service.primary.launch.config"

/-- The label that names the deployment unit of a container. -/
def deploymentUnitLabel : String := "io.rancher.service.deployment.unit"

/-- Locals of the stack loop (runner.go 229-238). -/
structure StackLoop where
  arena : List Stack
  stackSlice : List Nat
  stackMap : GoMap Nat
  deriving DecidableEq

/-- Body of the stack loop: allocate the Stack, append its pointer, index it by name. -/
def stackLoopStep (st : StackLoop) (s : MetaStack) : StackLoop :=
  { arena := st.arena ++ [{ metadata := s, Services := [] }],
    stackSlice := st.stackSlice ++ [st.arena.length],
    stackMap := mapAssign st.stackMap s.Name st.arena.length }

/-- Locals of the host loop (runner.go 244-255). -/
structure HostLoop where
  arena : List Host
  hosts : List Nat
  hostMap : GoMap Nat
  deriving DecidableEq

/-- Body of the host loop: allocate the Host, append its pointer, index it by UUID. -/
def hostLoopStep (st : HostLoop) (h : MetaHost) : HostLoop :=
  { arena := st.arena ++ [{ metadata := h, Labels := sortedLabelMap h.Labels, Containers := [] }],
    hosts := st.hosts ++ [st.arena.length],
    hostMap := mapAssign st.hostMap h.UUID st.arena.length }

/-- UUID behind a stack pointer. -/
def stackUUID (arena : List Stack) (p : Nat) : String :=
  ((arena[p]?).map (fun s => s.metadata.UUID)).getD ""

/-- UUID behind a host pointer. -/
def hostUUID (arena : List Host) (p : Nat) : String :=
  ((arena[p]?).map (fun h => h.metadata.UUID)).getD ""

/-- UUID behind a service pointer. -/
def serviceUUID (arena : List Service) (p : Nat) : String :=
  ((arena[p]?).map (fun s => s.metadata.UUID)).getD ""

/-- Name behind a service pointer. -/
def serviceName (arena : List Service) (p : Nat) : String :=
  ((arena[p]?).map (fun s => s.metadata.Name)).getD ""

/-- Locals of the service loop (runner.go 261-296). -/
structure ServiceLoop where
  stackArena : List Stack
  arena : List Service
  services : List Nat
  serviceMap : GoMap Nat
  sidekickParent : GoMap Nat
  selfService : Option Nat
  deriving DecidableEq

/-- The Service that the loop allocates for a record (runner.go 268-279). -/
def newService (stackMap : GoMap Nat) (s : MetaService) : Service :=
  { metadata := s,
    Sidekicks := [],
    Containers := [],
    Ports := parseServicePorts s.Ports,
    Labels := sortedLabelMap s.Labels,
    Links := sortedLabelMap s.Links,
    Metadata := sortedMetaMap s.Metadata,
    Stack := mapIndex stackMap s.StackName,
    Primary := decide (s.Name = s.PrimaryServiceName),
    Sidekick := decide (s.Name ≠ s.PrimaryServiceName),
    Parent := none }

/-- Body of the service loop.  `stackMap[s.StackName].UUID` dereferences the looked-up stack
pointer, so a service whose stack is not in the map ends the run. -/
def serviceLoopStep (stackMap : GoMap Nat) (metaSelf : MetaContainer)
    (st : ServiceLoop) (s0 : MetaService) : Except Failure ServiceLoop :=
  match mapIndex stackMap s0.StackName with
  | none => .error .nilDeref
  | some sp =>
    match st.stackArena[sp]? with
    | none => .error .nilDeref
    | some stack =>
      let s : MetaService := { s0 with StackUUID := stack.metadata.UUID }
      let ptr := st.arena.length
      let service := newService stackMap s
      .ok
        { stackArena :=
            if service.Primary = true then
              modifyAt (fun t => { t with Services := t.Services ++ [ptr] }) st.stackArena sp
            else st.stackArena,
          arena := st.arena ++ [service],
          services := st.services ++ [ptr],
          serviceMap := mapAssign st.serviceMap (s.StackName ++ "." ++ s.Name) ptr,
          sidekickParent :=
            if service.Primary = true then
              s.Sidekicks.foldl
                (fun m sk => mapAssign m (stack.metadata.Name ++ "." ++ sk) ptr) st.sidekickParent
            else st.sidekickParent,
          selfService :=
            if s.StackName = metaSelf.StackName ∧ s.Name = metaSelf.ServiceName then some ptr
            else st.selfService }

/-- Body of the loop over `sidekickParent` (runner.go 298-302).  `serviceMap[sk]` is nil when
no service carries the name; the nil is appended to the primary's Sidekicks and the
assignment `serviceMap[sk].Parent = service` that follows dereferences it, so the run ends
there and `Sidekicks` never holds a nil in a state that is used. -/
def sidekickLoopStep (serviceMap : GoMap Nat) (arena : List Service) (e : String × Nat) :
    Except Failure (List Service) :=
  match mapIndex serviceMap e.1 with
  | none => .error .nilDeref
  | some t =>
    .ok (modifyAt (fun c => { c with Parent := some e.2 })
          (modifyAt (fun p => { p with Sidekicks := p.Sidekicks ++ [t] }) arena e.2) t)

/-- The `less` of the services sort (runner.go 304-310): by UUID, equal UUIDs by name. -/
def serviceLess (arena : List Service) (i j : Nat) : Bool :=
  if serviceUUID arena i = serviceUUID arena j then
    strLess (serviceName arena i) (serviceName arena j)
  else strLess (serviceUUID arena i) (serviceUUID arena j)

/-- Locals written by the loop that sorts the nested slices (runner.go 312-320). -/
structure NestedSortLoop where
  stackArena : List Stack
  serviceArena : List Service
  deriving DecidableEq

/-- The `less` of the nested sorts (runner.go 313-319): by the UUID behind the pointer. -/
def serviceUUIDLess (arena : List Service) (i j : Nat) : Bool :=
  strLess (serviceUUID arena i) (serviceUUID arena j)

/-- Body of the nested-sort loop: sort the service's Sidekicks and its stack's Services. -/
def nestedSortStep (st : NestedSortLoop) (p : Nat) : Except Failure NestedSortLoop :=
  match st.serviceArena[p]? with
  | none => .error .nilDeref
  | some service =>
    let less := serviceUUIDLess st.serviceArena
    let serviceArena :=
      modifyAt (fun s => { s with Sidekicks := sortSliceStable less s.Sidekicks })
        st.serviceArena p
    match service.Stack with
    | none => .error .nilDeref
    | some sp =>
      .ok
        { serviceArena := serviceArena,
          stackArena :=
            modifyAt (fun t => { t with Services := sortSliceStable less t.Services })
              st.stackArena sp }

/-- Locals of the container loop (runner.go 322-352). -/
structure ContainerLoop where
  arena : List Container
  containers : List Nat
  deploymentParent : GoMap Nat
  self : Self
  deriving DecidableEq

/-- The Container that the loop allocates for a record (runner.go 326-336). -/
def newContainer (serviceMap hostMap : GoMap Nat) (c : MetaContainer) : Container :=
  { metadata := c,
    Ports := parseServicePorts c.Ports,
    Labels := sortedLabelMap c.Labels,
    Links := sortedLabelMap c.Links,
    Primary := decide ((mapIndex c.Labels launchConfigLabel).getD "" = primaryLaunchConfig),
    Sidekick := decide ((mapIndex c.Labels launchConfigLabel).getD "" ≠ primaryLaunchConfig),
    Service := mapIndex serviceMap (c.StackName ++ "." ++ c.ServiceName),
    Host := mapIndex hostMap c.HostUUID,
    Parent := none,
    Sidekicks := [] }

/-- Body of the container loop.  On a Self match `container.Service.Stack` dereferences the
container's service pointer. -/
def containerLoopStep (cfg : Config) (metaSelf : MetaContainer) (serviceMap hostMap : GoMap Nat)
    (serviceArena : List Service) (st : ContainerLoop) (c : MetaContainer) :
    Except Failure ContainerLoop :=
  let ptr := st.arena.length
  let container := newContainer serviceMap hostMap c
  let deploymentParent :=
    if container.Primary then
      mapAssign st.deploymentParent (container.Labels.GetValue deploymentUnitLabel []) ptr
    else st.deploymentParent
  let self : Except Failure Self :=
    if (c.UUID = metaSelf.UUID ∧ cfg.SelfId = "") ∨ c.UUID = cfg.SelfId then
      match container.Service with
      | none => .error .nilDeref
      | some sp =>
        match serviceArena[sp]? with
        | none => .error .nilDeref
        | some svc =>
          .ok { Container := some ptr, Service := some sp, Stack := svc.Stack,
                Host := container.Host }
    else .ok st.self
  match self with
  | .error e => .error e
  | .ok self =>
    .ok { arena := st.arena ++ [container],
          containers := st.containers ++ [ptr],
          deploymentParent := deploymentParent,
          self := self }

/-- The Self test of the container loop (runner.go 343). -/
def selfMatches (cfg : Config) (metaSelf : MetaContainer) (u : String) : Prop :=
  (u = metaSelf.UUID ∧ cfg.SelfId = "") ∨ u = cfg.SelfId

/-- CreateIndex behind a container pointer. -/
def containerCreateIndex (arena : List Container) (p : Nat) : Int :=
  ((arena[p]?).map (fun c => c.metadata.CreateIndex)).getD 0

/-- UUID behind a container pointer. -/
def containerUUID (arena : List Container) (p : Nat) : String :=
  ((arena[p]?).map (fun c => c.metadata.UUID)).getD ""

/-- Name behind a container pointer. -/
def containerName (arena : List Container) (p : Nat) : String :=
  ((arena[p]?).map (fun c => c.metadata.Name)).getD ""

/-- The `less` of the containers sort (runner.go 354-362): by CreateIndex, then UUID, then
name. -/
def containerLess (arena : List Container) (i j : Nat) : Bool :=
  if containerCreateIndex arena i ≠ containerCreateIndex arena j then
    decide (containerCreateIndex arena i < containerCreateIndex arena j)
  else if containerUUID arena i ≠ containerUUID arena j then
    strLess (containerUUID arena i) (containerUUID arena j)
  else strLess (containerName arena i) (containerName arena j)

/-- Arenas written by the linking loop (runner.go 364-380). -/
structure LinkLoop where
  containerArena : List Container
  serviceArena : List Service
  hostArena : List Host
  deriving DecidableEq

/-- The sidekick branch of the linking loop (runner.go 367-371): `container.Service.Parent`
dereferences the container's service pointer. -/
def linkParent (deploymentParent : GoMap Nat) (st : LinkLoop) (p : Nat) (container : Container) :
    Except Failure LinkLoop :=
  match mapIndex deploymentParent (container.Labels.GetValue deploymentUnitLabel []) with
  | none => .ok st
  | some parent =>
    if container.Sidekick then
      match container.Service, st.containerArena[parent]? with
      | some sp, some pc =>
        .ok { st with
          containerArena :=
            modifyAt (fun q => { q with Sidekicks := q.Sidekicks ++ [p] })
              (modifyAt (fun c => { c with Parent := some parent }) st.containerArena p) parent,
          serviceArena :=
            modifyAt (fun s => { s with Parent := pc.Service }) st.serviceArena sp }
      | _, _ => .error .nilDeref
    else .ok st

/-- Body of the linking loop: parent link, then the back-references of service and host. -/
def linkStep (deploymentParent : GoMap Nat) (st : LinkLoop) (p : Nat) : Except Failure LinkLoop :=
  match st.containerArena[p]? with
  | none => .error .nilDeref
  | some container =>
    match linkParent deploymentParent st p container with
    | .error e => .error e
    | .ok st1 =>
      let st2 : LinkLoop :=
        match container.Service with
        | some sp =>
          { st1 with serviceArena :=
              modifyAt (fun s => { s with Containers := s.Containers ++ [p] }) st1.serviceArena sp }
        | none => st1
      let st3 : LinkLoop :=
        match container.Host with
        | some hp =>
          { st2 with hostArena :=
              modifyAt (fun h => { h with Containers := h.Containers ++ [p] }) st2.hostArena hp }
        | none => st2
      .ok st3

/-- The graph construction of `createContext`, after the five fetches.  The loop over
`sidekickParent` visits the entries in order of first insertion: Go leaves the order of a map
range open, and since the keys are distinct the Parent written for a service does not depend
on it. -/
def buildContext (cfg : Config) (metaStacks : List MetaStack) (metaServices : List MetaService)
    (metaContainers : List MetaContainer) (metaHosts : List MetaHost)
    (metaSelf : MetaContainer) : Except Failure TemplateContext :=
  let sl := metaStacks.foldl stackLoopStep { arena := [], stackSlice := [], stackMap := [] }
  let sortedStacks := sortSliceStable
    (fun i j => strLess (stackUUID sl.arena i) (stackUUID sl.arena j)) sl.stackSlice
  let hl := metaHosts.foldl hostLoopStep { arena := [], hosts := [], hostMap := [] }
  let hosts := sortSliceStable
    (fun i j => strLess (hostUUID hl.arena i) (hostUUID hl.arena j)) hl.hosts
  match metaServices.foldlM (serviceLoopStep sl.stackMap metaSelf)
      { stackArena := sl.arena, arena := [], services := [], serviceMap := [],
        sidekickParent := [], selfService := none } with
  | .error e => .error e
  | .ok svl =>
    match svl.sidekickParent.foldlM (sidekickLoopStep svl.serviceMap) svl.arena with
    | .error e => .error e
    | .ok serviceArena1 =>
      let services := sortSliceStable (serviceLess serviceArena1) svl.services
      match services.foldlM nestedSortStep
          { stackArena := svl.stackArena, serviceArena := serviceArena1 } with
      | .error e => .error e
      | .ok ns =>
        match metaContainers.foldlM
            (containerLoopStep cfg metaSelf svl.serviceMap hl.hostMap ns.serviceArena)
            { arena := [], containers := [], deploymentParent := [],
              self := { Stack := none, Service := svl.selfService, Container := none,
                        Host := none } } with
        | .error e => .error e
        | .ok cl =>
          let containers := sortSliceStable (containerLess cl.arena) cl.containers
          match containers.foldlM (linkStep cl.deploymentParent)
              { containerArena := cl.arena, serviceArena := ns.serviceArena,
                hostArena := hl.arena } with
          | .error e => .error e
          | .ok ll =>
            match cl.self.Service with
            | none => .error .nilDeref
            | some _ =>
              .ok { stackArena := ns.stackArena,
                    hostArena := ll.hostArena,
                    serviceArena := ll.serviceArena,
                    containerArena := ll.containerArena,
                    Hosts := hosts,
                    Services := services,
                    Containers := containers,
                    Stacks := sortedStacks,
                    Self := cl.self }

/-- Go `createContext`: five fetches, each returning its error at once, then the graph. -/
def createContext (cfg : Config) (client : Client) : Except Failure TemplateContext :=
  match client.GetStacks with
  | .error e => .error (.fetch e)
  | .ok metaStacks =>
    match client.GetServices with
    | .error e => .error (.fetch e)
    | .ok metaServices =>
      match client.GetContainers with
      | .error e => .error (.fetch e)
      | .ok metaContainers =>
        match client.GetHosts with
        | .error e => .error (.fetch e)
        | .ok metaHosts =>
          match client.GetSelfContainer with
          | .error e => .error (.fetch e)
          | .ok metaSelf =>
            buildContext cfg metaStacks metaServices metaContainers metaHosts metaSelf

/-! ## template_context.go: lookups -/

/-- How a lookup can fail: `NotFoundError`, another error value, or a run-time panic (a nil
dereference, or a slice expression out of range). -/
inductive LookupError where
  | notFound (msg : String)
  | other (msg : String)
  | nilDeref
  | sliceBounds
  deriving DecidableEq

/-- Go `c.Self.Stack.Name`. -/
def selfStackName (c : TemplateContext) : Except LookupError String :=
  match c.Self.Stack with
  | none => .error .nilDeref
  | some sp =>
    match c.stackArena[sp]? with
    | none => .error .nilDeref
    | some t => .ok t.metadata.Name

/-- Go `c.Self.Service.Name`. -/
def selfServiceName (c : TemplateContext) : Except LookupError String :=
  match c.Self.Service with
  | none => .error .nilDeref
  | some p =>
    match c.serviceArena[p]? with
    | none => .error .nilDeref
    | some s => .ok s.metadata.Name

/-- Go `s.Stack.Name` for a service `s`. -/
def serviceStackName (c : TemplateContext) (s : Service) : Except LookupError String :=
  match s.Stack with
  | none => .error .nilDeref
  | some sp =>
    match c.stackArena[sp]? with
    | none => .error .nilDeref
    | some t => .ok t.metadata.Name

/-- The search loop of `GetService` over `c.Services`: the first service whose name and
stack name both fold-equal the wanted ones. -/
def findService (uc : FoldTable) (c : TemplateContext) (service stack : String) :
    List Nat → Except LookupError (Option Service)
  | [] => .ok none
  | p :: ps =>
    match c.serviceArena[p]? with
    | none => .error .nilDeref
    | some s =>
      if EqualFold uc s.metadata.Name service then
        match serviceStackName c s with
        | .error e => .error e
        | .ok n => if EqualFold uc n stack then .ok (some s) else findService uc c service stack ps
      else findService uc c service stack ps

/-- GetService returns the service matching the given name, in the form
`service-name[.stack-name]`; without an argument, the service of the current container. -/
def GetService (uc : FoldTable)
    (c : TemplateContext) (v : List String) : Except LookupError Service :=
  let identifier := v.headD ""
  let names : Except LookupError (String × String) :=
    if identifier = "" then
      match selfStackName c with
      | .error e => .error e
      | .ok stack =>
        match selfServiceName c with
        | .error e => .error e
        | .ok service => .ok (stack, service)
    else
      match Split identifier '.' with
      | [service] =>
        match selfStackName c with
        | .error e => .error e
        | .ok stack => .ok (stack, service)
      | [service, stack] => .ok (stack, service)
      | _ => .error (.other ("(service) invalid service identifier '" ++ identifier ++ "'"))
  match names with
  | .error e => .error e
  | .ok (stack, service) =>
    match findService uc c service stack c.Services with
    | .error e => .error e
    | .ok (some s) => .ok s
    | .ok none =>
      .error (.notFound ("(service) could not find service by identifier: " ++ identifier))

/-- Go `c.Self.Host.UUID`. -/
def selfHostUUID (c : TemplateContext) : Except LookupError String :=
  match c.Self.Host with
  | none => .error .nilDeref
  | some hp =>
    match c.hostArena[hp]? with
    | none => .error .nilDeref
    | some h => .ok h.metadata.UUID

/-- The search loop of `GetHost` over `c.Hosts`: the first host whose UUID fold-equals
`uuid`. -/
def findHost (uc : FoldTable)
    (c : TemplateContext) (uuid : String) : List Nat → Except LookupError (Option Host)
  | [] => .ok none
  | p :: ps =>
    match c.hostArena[p]? with
    | none => .error .nilDeref
    | some h => if EqualFold uc uuid h.metadata.UUID then .ok (some h) else findHost uc c uuid ps

/-- GetHost returns the Host with the given UUID. If the argument is omitted the local host is
returned. -/
def GetHost (uc : FoldTable) (c : TemplateContext) (v : List String) : Except LookupError Host :=
  let uuid0 := v.headD ""
  let uuid : Except LookupError String := if uuid0 = "" then selfHostUUID c else .ok uuid0
  match uuid with
  | .error e => .error e
  | .ok uuid =>
    match findHost uc c uuid c.Hosts with
    | .error e => .error e
    | .ok (some h) => .ok h
    | .ok none => .error (.notFound ("(host) could not find host by UUID: " ++ uuid))

/-- The search loop of `GetStack` over `c.Stacks`: the first stack whose name fold-equals
`stack`. -/
def findStack (uc : FoldTable) (c : TemplateContext) (stack : String) :
    List Nat → Except LookupError (Option Stack)
  | [] => .ok none
  | p :: ps =>
    match c.stackArena[p]? with
    | none => .error .nilDeref
    | some s => if EqualFold uc s.metadata.Name stack then .ok (some s) else findStack uc c stack ps

/-- GetStack returns the stack of the given name; without an argument, the stack of the
current container. -/
def GetStack (uc : FoldTable) (c : TemplateContext) (v : List String) : Except LookupError Stack :=
  let identifier := v.headD ""
  let stack : Except LookupError String :=
    if identifier = "" then selfStackName c else .ok identifier
  match stack with
  | .error e => .error e
  | .ok stack =>
    match findStack uc c stack c.Stacks with
    | .error e => .error e
    | .ok (some s) => .ok s
    | .ok none =>
      .error (.notFound ("(stack) could not find stack by identifier: " ++ identifier))

/-- serviceFunc returns a single service given a string argument in the form
`<service-name>[.<stack-name>]`.  `.ok (some x)` is the Go result `(x, nil)`, `.ok none` is
`(nil, nil)`, and `.error e` is the error (or panic) `e`. -/
def serviceFunc (uc : FoldTable)
    (ctx : TemplateContext) (s : List String) : Except LookupError (Option Service) :=
  match GetService uc ctx s with
  | .error (.notFound _) => .ok none
  | .error e => .error e
  | .ok result => .ok (some result)

/-- stackFunc returns a single stack given its name. -/
def stackFunc (uc : FoldTable)
    (ctx : TemplateContext) (s : List String) : Except LookupError (Option Stack) :=
  match GetStack uc ctx s with
  | .error (.notFound _) => .ok none
  | .error e => .error e
  | .ok result => .ok (some result)

/-- hostFunc returns a single host given its UUID. -/
def hostFunc (uc : FoldTable)
    (ctx : TemplateContext) (s : List String) : Except LookupError (Option Host) :=
  match GetHost uc ctx s with
  | .error (.notFound _) => .ok none
  | .error e => .error e
  | .ok result => .ok (some result)

/-- Go `inLabelMap`: true if the LabelMap `needle` is a subset of the LabelMap `labels`; the
needle values may be regular expressions.  The loop leaves at the first entry that fails, so
the result does not depend on the order in which the needle is ranged over. -/
def inLabelMap (uc : FoldTable) (rx : RegexEngine) (labels needle : LabelMap) : Bool :=
  needle.all (fun kv =>
    labels.Exists kv.1 &&
      (EqualFold uc (labels.GetValue kv.1 []) kv.2 ||
        match rx kv.2 with
        | .ok m => m (labels.GetValue kv.1 [])
        | .error _ => false))

/-- Go `filterServicesByLabel`. -/
def filterServicesByLabel (uc : FoldTable)
    (rx : RegexEngine) (c : TemplateContext) (labels : LabelMap) :
    List Nat → Except LookupError (List Nat)
  | [] => .ok []
  | p :: ps =>
    match c.serviceArena[p]? with
    | none => .error .nilDeref
    | some s =>
      match filterServicesByLabel uc rx c labels ps with
      | .error e => .error e
      | .ok r => .ok (if inLabelMap uc rx s.Labels labels then p :: r else r)

/-- Go `filterServicesByStack`. -/
def filterServicesByStack (uc : FoldTable) (c : TemplateContext) (stack : String) :
    List Nat → Except LookupError (List Nat)
  | [] => .ok []
  | p :: ps =>
    match c.serviceArena[p]? with
    | none => .error .nilDeref
    | some s =>
      match serviceStackName c s with
      | .error e => .error e
      | .ok n =>
        match filterServicesByStack uc c stack ps with
        | .error e => .error e
        | .ok r => .ok (if EqualFold uc n stack then p :: r else r)

/-- Locals of the selector loop of `GetServices`. -/
structure ServiceSelectors where
  labels : LabelMap
  stack : String
  deriving DecidableEq

/-- Body of the selector loop of `GetServices` (template_context.go 132-148).  `f[:1]` is out
of range for the empty string. -/
def servicesSelectorStep (st : ServiceSelectors) (f : String) :
    Except LookupError ServiceSelectors :=
  match f.data with
  | [] => .error .sliceBounds
  | '.' :: rest =>
    if st.stack.length > 0 then
      .error (.other ("(services) invalid use of multiple stack selectors '" ++ f ++ "'"))
    else .ok { st with stack := String.mk rest }
  | '@' :: rest =>
    match Split (String.mk rest) '=' with
    | [k, v] => .ok { st with labels := mapAssign st.labels k v }
    | _ => .error (.other ("(services) malformed label selector '" ++ f ++ "'"))
  | _ => .error (.other ("(services) invalid argument '" ++ f ++ "'"))

/-- Go `GetServices`: all services, or those passing the stack and label selectors. -/
def GetServices (uc : FoldTable)
    (rx : RegexEngine) (c : TemplateContext) (selectors : List String) :
    Except LookupError (List Nat) :=
  match selectors with
  | [] => .ok c.Services
  | _ =>
    match selectors.foldlM servicesSelectorStep { labels := [], stack := "" } with
    | .error e => .error e
    | .ok st =>
      let byStack : Except LookupError (List Nat) :=
        if st.stack.length > 0 then filterServicesByStack uc c st.stack c.Services
        else .ok c.Services
      match byStack with
      | .error e => .error e
      | .ok services =>
        if st.labels.length > 0 then filterServicesByLabel uc rx c st.labels services
        else .ok services

/-! ## Example snapshots -/

/-- A fold table for the examples: the Unicode table cut down to the capital letters U+00C0
to U+00DE (without the multiplication sign U+00D7), each with its small form 32 places on,
and to the Kelvin sign U+212A, which is on the fold orbit of `K` and of `k`.  It folds no
other rune that is not ASCII. -/
def exampleFold : FoldTable := fun sr tr =>
  decide (192 ≤ sr.toNat ∧ sr.toNat ≤ 222 ∧ sr.toNat ≠ 215 ∧ tr.toNat = sr.toNat + 32) ||
    decide ((sr.toNat = 75 ∨ sr.toNat = 107) ∧ tr.toNat = 8490)

/-- A container record with the given identity, creation index and labels. -/
def exContainer (name uuid stack service : String) (createIndex : Int)
    (labels : GoMap String) : MetaContainer :=
  { Name := name, UUID := uuid, StackName := stack, ServiceName := service, HostUUID := "h1",
    CreateIndex := createIndex, Ports := [], Labels := labels, Links := [] }

/-- A service record with the given identity, primary-service name and declared sidekicks. -/
def exService (name uuid stack primary : String) (sidekicks : List String) : MetaService :=
  { Name := name, UUID := uuid, StackName := stack, StackUUID := "",
    PrimaryServiceName := primary, Sidekicks := sidekicks, Ports := [], Labels := [],
    Links := [], Metadata := [] }

/-- The host records that `exClient` serves. -/
def exHosts : List MetaHost := [{ UUID := "h1", Name := "host-1", Labels := [] }]

/-- A client that serves the given records without error. -/
def exClient (stackRecords : List MetaStack) (services : List MetaService)
    (containers : List MetaContainer) (self : MetaContainer) : Client :=
  { GetStacks := .ok stackRecords,
    GetServices := .ok services,
    GetContainers := .ok containers,
    GetHosts := .ok exHosts,
    GetSelfContainer := .ok self }

/-- Stack `web`, primary service `app`, container `app-1` of `app` (which is Self). -/
def webSnapshot : Client :=
  exClient [{ Name := "web", UUID := "st1" }] [exService "app" "sv1" "web" "app" []]
    [exContainer "app-1" "c1" "web" "app" 1 []] (exContainer "app-1" "c1" "web" "app" 1 [])

/-- Two containers labelled `version=1.2` and `version=2.0`. -/
def versionedContainers : List Container :=
  [ newContainer [] [] (exContainer "v12" "c1" "web" "app" 1 [("version", "1.2")]),
    newContainer [] [] (exContainer "v20" "c2" "web" "app" 2 [("version", "2.0")]) ]

/-- A host record with the given identity and labels, allocated as the host loop does. -/
def exHost (uuid name : String) (labels : GoMap String) : Host :=
  { metadata := { UUID := uuid, Name := name, Labels := labels },
    Labels := sortedLabelMap labels, Containers := [] }

/-- Three hosts labelled `drink=CAFÉ`, `drink=café` and `drink=Tea`. -/
def drinkHosts : List Host :=
  [ exHost "h1" "host-1" [("drink", "CAFÉ")],
    exHost "h2" "host-2" [("drink", "café")],
    exHost "h3" "host-3" [("drink", "Tea")] ]

/-- As `webSnapshot`, but `app` declares a sidekick `ghost` that no service record carries. -/
def ghostSidekickSnapshot : Client :=
  exClient [{ Name := "web", UUID := "st1" }] [exService "app" "sv1" "web" "app" ["ghost"]]
    [exContainer "app-1" "c1" "web" "app" 1 []] (exContainer "app-1" "c1" "web" "app" 1 [])

/-! ## Specification vocabulary for the loops of `createContext` -/

/-- Invariant of `deploymentParent`: every entry points at a primary container of that
deployment unit, and every primary container has its unit in the map. -/
def DeployInv (st : ContainerLoop) : Prop :=
  (∀ d q, mapIndex st.deploymentParent d = some q →
    ∃ c : Container, st.arena[q]? = some c ∧ c.Primary = true ∧
      c.Labels.GetValue deploymentUnitLabel [] = d) ∧
  (∀ (q : Nat) (c : Container), st.arena[q]? = some c → c.Primary = true →
    (mapIndex st.deploymentParent (c.Labels.GetValue deploymentUnitLabel [])).isSome = true)

/-- Invariant of `self` in the container loop. `init` is the Self the loop starts from. -/
def SelfInv (cfg : Config) (metaSelf : MetaContainer) (sa : List Service) (init : Self)
    (st : ContainerLoop) : Prop :=
  (∀ p, st.self.Container = some p →
    ∃ c : Container, st.arena[p]? = some c ∧ selfMatches cfg metaSelf c.metadata.UUID ∧
      st.self.Service = c.Service ∧ st.self.Host = c.Host ∧
      (∃ k svc, c.Service = some k ∧ sa[k]? = some svc ∧ st.self.Stack = svc.Stack) ∧
      (∀ (j : Nat) (c' : Container), p < j → st.arena[j]? = some c' →
        ¬ selfMatches cfg metaSelf c'.metadata.UUID)) ∧
  (st.self.Container = none →
    st.self = init ∧
      ∀ (j : Nat) (c' : Container), st.arena[j]? = some c' →
        ¬ selfMatches cfg metaSelf c'.metadata.UUID)

/-- The name under which `serviceMap` files a service: `StackName.Name`. -/
def Service.qualifiedName (s : Service) : String :=
  s.metadata.StackName ++ "." ++ s.metadata.Name

/-- The name under which a container looks up its service: `StackName.ServiceName`. -/
def Container.serviceKey (c : Container) : String :=
  c.metadata.StackName ++ "." ++ c.metadata.ServiceName

/-- The fields of a service that are fixed once it is allocated. -/
def Service.core (s : Service) : Service :=
  { s with Parent := none, Sidekicks := [], Containers := [] }

/-- The fields of a container that the linking loop leaves alone. -/
def Container.frozen (c : Container) : Container := { c with Parent := none, Sidekicks := [] }

/-- The fields of a service that the linking loop leaves alone. -/
def Service.frozen (s : Service) : Service := { s with Parent := none, Containers := [] }

/-- The parent that the linking loop assigns to the container behind `i`: the entry of its
deployment unit in `deploymentParent`, if the container is a sidekick. -/
def linkedParent (dp : GoMap Nat) (arena : List Container) (i : Nat) : Option Nat :=
  match arena[i]? with
  | some c =>
    if c.Sidekick = true then mapIndex dp (c.Labels.GetValue deploymentUnitLabel []) else none
  | none => none

/-- The service pointer of the container behind `i`. -/
def serviceOf (arena : List Container) (i : Nat) : Option Nat :=
  match arena[i]? with
  | some c => c.Service
  | none => none

/-- Effect of one pass of the linking loop, field by field. -/
structure LinkStepSpec (dp : GoMap Nat) (st st' : LinkLoop) (p : Nat) : Prop where
  frozen : ∀ i : Nat, (st'.containerArena[i]?).map Container.frozen =
    (st.containerArena[i]?).map Container.frozen
  parent : ∀ i : Nat, (st'.containerArena[i]?).map (fun x => x.Parent) =
    (st.containerArena[i]?).map (fun x =>
      if i = p ∧ (linkedParent dp st.containerArena p).isSome = true then
        linkedParent dp st.containerArena p
      else x.Parent)
  sidekicks : ∀ j : Nat, (st'.containerArena[j]?).map (fun x => x.Sidekicks) =
    (st.containerArena[j]?).map (fun x =>
      x.Sidekicks ++ if linkedParent dp st.containerArena p = some j then [p] else [])
  svcFrozen : ∀ k : Nat, (st'.serviceArena[k]?).map Service.frozen =
    (st.serviceArena[k]?).map Service.frozen
  svcContainers : ∀ k : Nat, (st'.serviceArena[k]?).map (fun s => s.Containers) =
    (st.serviceArena[k]?).map (fun s =>
      s.Containers ++ if serviceOf st.containerArena p = some k then [p] else [])
  svcParent : ∀ k : Nat, (linkedParent dp st.containerArena p = none ∨
      serviceOf st.containerArena p ≠ some k) →
    (st'.serviceArena[k]?).map (fun s => s.Parent) =
      (st.serviceArena[k]?).map (fun s => s.Parent)
  host : ∀ h : Nat, (st'.hostArena[h]?).map (fun x => x.metadata) =
    (st.hostArena[h]?).map (fun x => x.metadata)

/-- Effect of the linking loop over the pointer list `L`, field by field. -/
structure LinkLoopSpec (dp : GoMap Nat) (st r : LinkLoop) (L : List Nat) : Prop where
  frozen : ∀ i : Nat, (r.containerArena[i]?).map Container.frozen =
    (st.containerArena[i]?).map Container.frozen
  parent : ∀ i : Nat, (r.containerArena[i]?).map (fun x => x.Parent) =
    (st.containerArena[i]?).map (fun x =>
      if i ∈ L ∧ (linkedParent dp st.containerArena i).isSome = true then
        linkedParent dp st.containerArena i
      else x.Parent)
  sidekicks : ∀ j : Nat, (r.containerArena[j]?).map (fun x => x.Sidekicks) =
    (st.containerArena[j]?).map (fun x =>
      x.Sidekicks ++ L.filter (fun i => decide (linkedParent dp st.containerArena i = some j)))
  svcFrozen : ∀ k : Nat, (r.serviceArena[k]?).map Service.frozen =
    (st.serviceArena[k]?).map Service.frozen
  svcContainers : ∀ k : Nat, (r.serviceArena[k]?).map (fun s => s.Containers) =
    (st.serviceArena[k]?).map (fun s =>
      s.Containers ++ L.filter (fun i => decide (serviceOf st.containerArena i = some k)))
  svcParent : ∀ k : Nat, (∀ i ∈ L, linkedParent dp st.containerArena i = none ∨
      serviceOf st.containerArena i ≠ some k) →
    (r.serviceArena[k]?).map (fun s => s.Parent) =
      (st.serviceArena[k]?).map (fun s => s.Parent)
  host : ∀ h : Nat, (r.hostArena[h]?).map (fun x => x.metadata) =
    (st.hostArena[h]?).map (fun x => x.metadata)

/-- Invariant of `stackMap`: an entry points at a stack of that name. -/
def StackMapInv (st : StackLoop) : Prop :=
  ∀ (k : String) (sp : Nat), mapIndex st.stackMap k = some sp →
    ∃ t : Stack, st.arena[sp]? = some t ∧ t.metadata.Name = k

/-- Invariant of the service loop. `stackArena0` is the stack arena the loop starts from. -/
structure ServiceLoopInv (stackArena0 : List Stack) (metaSelf : MetaContainer)
    (st : ServiceLoop) : Prop where
  stackMeta : ∀ i : Nat, (st.stackArena[i]?).map (fun t => t.metadata) =
    (stackArena0[i]?).map (fun t => t.metadata)
  mapSome : ∀ (k : String) (t : Nat), mapIndex st.serviceMap k = some t →
    ∃ svc : Service, st.arena[t]? = some svc ∧ svc.qualifiedName = k ∧
      ∀ (j : Nat) (svc' : Service), t < j → st.arena[j]? = some svc' → svc'.qualifiedName ≠ k
  mapTotal : ∀ (j : Nat) (svc : Service), st.arena[j]? = some svc →
    (mapIndex st.serviceMap svc.qualifiedName).isSome = true
  skSome : ∀ (k : String) (p : Nat), mapIndex st.sidekickParent k = some p →
    ∃ P : Service, st.arena[p]? = some P ∧ P.Primary = true ∧
      (∃ sk ∈ P.metadata.Sidekicks, P.metadata.StackName ++ "." ++ sk = k) ∧
      ∀ (j : Nat) (P' : Service), p < j → st.arena[j]? = some P' → P'.Primary = true →
        ∀ sk ∈ P'.metadata.Sidekicks, P'.metadata.StackName ++ "." ++ sk ≠ k
  skTotal : ∀ (j : Nat) (P : Service), st.arena[j]? = some P → P.Primary = true →
    ∀ sk ∈ P.metadata.Sidekicks,
      (mapIndex st.sidekickParent (P.metadata.StackName ++ "." ++ sk)).isSome = true
  skNodup : (st.sidekickParent.map Prod.fst).Nodup
  selfSvc : ∀ t : Nat, st.selfService = some t →
    ∃ svc : Service, st.arena[t]? = some svc ∧ svc.metadata.StackName = metaSelf.StackName ∧
      svc.metadata.Name = metaSelf.ServiceName
  fresh : ∀ (i : Nat) (svc : Service), st.arena[i]? = some svc →
    svc.Parent = none ∧ svc.Containers = [] ∧ svc.Sidekicks = []

/-- Effect of the loop over `sidekickParent` on the service arena. -/
structure SidekickLoopSpec (sm : GoMap Nat) (es : List (String × Nat))
    (a r : List Service) : Prop where
  core : ∀ i : Nat, (r[i]?).map Service.core = (a[i]?).map Service.core
  containers : ∀ i : Nat, (r[i]?).map (fun s => s.Containers) =
    (a[i]?).map (fun s => s.Containers)
  parentKeep : ∀ i : Nat, (∀ e ∈ es, mapIndex sm e.1 ≠ some i) →
    (r[i]?).map (fun s => s.Parent) = (a[i]?).map (fun s => s.Parent)
  parentSet : ∀ (i : Nat) (e : String × Nat), e ∈ es → mapIndex sm e.1 = some i →
    (∀ e' ∈ es, mapIndex sm e'.1 = some i → e'.2 = e.2) →
    (r[i]?).map (fun s => s.Parent) = (a[i]?).map (fun _ => some e.2)

/-- Effect of the nested-sort loop: only Sidekicks and a stack's Services are reordered. -/
structure NestedSortInv (init st : NestedSortLoop) : Prop where
  core : ∀ i : Nat, (st.serviceArena[i]?).map Service.core =
    (init.serviceArena[i]?).map Service.core
  containers : ∀ i : Nat, (st.serviceArena[i]?).map (fun s => s.Containers) =
    (init.serviceArena[i]?).map (fun s => s.Containers)
  parent : ∀ i : Nat, (st.serviceArena[i]?).map (fun s => s.Parent) =
    (init.serviceArena[i]?).map (fun s => s.Parent)
  stackMeta : ∀ i : Nat, (st.stackArena[i]?).map (fun t => t.metadata) =
    (init.stackArena[i]?).map (fun t => t.metadata)

/-- The stack loop run from empty locals. -/
def stackLoop (metaStacks : List MetaStack) : StackLoop :=
  metaStacks.foldl stackLoopStep { arena := [], stackSlice := [], stackMap := [] }

/-- The host loop run from empty locals. -/
def hostLoop (metaHosts : List MetaHost) : HostLoop :=
  metaHosts.foldl hostLoopStep { arena := [], hosts := [], hostMap := [] }

/-- The intermediate results of a run of `buildContext` that ends with the graph `ctx`. -/
structure BuildRun (cfg : Config) (metaStacks : List MetaStack) (metaServices : List MetaService)
    (metaContainers : List MetaContainer) (metaHosts : List MetaHost) (metaSelf : MetaContainer)
    (ctx : TemplateContext) where
  svl : ServiceLoop
  sa1 : List Service
  ns : NestedSortLoop
  cl : ContainerLoop
  ll : LinkLoop
  hsvl : metaServices.foldlM (serviceLoopStep (stackLoop metaStacks).stackMap metaSelf)
      { stackArena := (stackLoop metaStacks).arena, arena := [], services := [], serviceMap := [],
        sidekickParent := [], selfService := none } = .ok svl
  hsa1 : svl.sidekickParent.foldlM (sidekickLoopStep svl.serviceMap) svl.arena = .ok sa1
  hns : (sortSliceStable (serviceLess sa1) svl.services).foldlM nestedSortStep
      { stackArena := svl.stackArena, serviceArena := sa1 } = .ok ns
  hcl : metaContainers.foldlM
      (containerLoopStep cfg metaSelf svl.serviceMap (hostLoop metaHosts).hostMap ns.serviceArena)
      { arena := [], containers := [], deploymentParent := [],
        self := { Stack := none, Service := svl.selfService, Container := none,
                  Host := none } } = .ok cl
  hll : (sortSliceStable (containerLess cl.arena) cl.containers).foldlM
      (linkStep cl.deploymentParent)
      { containerArena := cl.arena, serviceArena := ns.serviceArena,
        hostArena := (hostLoop metaHosts).arena } = .ok ll
  hself : ∃ t, cl.self.Service = some t
  hctx : ctx =
    { stackArena := ns.stackArena,
      hostArena := ll.hostArena,
      serviceArena := ll.serviceArena,
      containerArena := ll.containerArena,
      Hosts := sortSliceStable
        (fun i j => strLess (hostUUID (hostLoop metaHosts).arena i)
          (hostUUID (hostLoop metaHosts).arena j)) (hostLoop metaHosts).hosts,
      Services := sortSliceStable (serviceLess sa1) svl.services,
      Containers := sortSliceStable (containerLess cl.arena) cl.containers,
      Stacks := sortSliceStable
        (fun i j => strLess (stackUUID (stackLoop metaStacks).arena i)
          (stackUUID (stackLoop metaStacks).arena j)) (stackLoop metaStacks).stackSlice,
      Self := cl.self }

/-- Sort key of the containers sort. -/
def containerKey (arena : List Container) (p : Nat) : ℤ ×ₗ (String ×ₗ String) :=
  toLex (containerCreateIndex arena p, toLex (containerUUID arena p, containerName arena p))

/-- Sort key of the services sort. -/
def serviceKey (arena : List Service) (p : Nat) : String ×ₗ String :=
  toLex (serviceUUID arena p, serviceName arena p)

/-- The graph of a run that returned one (the empty graph otherwise). -/
def contextOf (r : Except Failure TemplateContext) : TemplateContext :=
  match r with
  | .ok c => c
  | .error _ =>
    { stackArena := [], hostArena := [], serviceArena := [], containerArena := [],
      Services := [], Containers := [], Hosts := [], Stacks := [],
      Self := { Stack := none, Service := none, Container := none, Host := none } }

/-- The graph that `createContext` returns for a client and a Self override. -/
def graphOf (selfId : String) (client : Client) : TemplateContext :=
  contextOf (createContext { SelfId := selfId } client)

/-- The stack records of the `web` snapshots. -/
def webStacks : List MetaStack := [{ Name := "web", UUID := "st1" }]

/-- Primary `app` declaring the sidekick `db`, and the service `db`. -/
def sidekickServices : List MetaService :=
  [exService "app" "sv1" "web" "app" ["db"], exService "db" "sv2" "web" "app" []]

/-- One deployment unit `u1` with the primary container `app-1` and the sidekick container
`db-1`. -/
def sidekickContainers : List MetaContainer :=
  [exContainer "app-1" "c1" "web" "app" 1
     [(launchConfigLabel, primaryLaunchConfig), (deploymentUnitLabel, "u1")],
   exContainer "db-1" "c2" "web" "db" 2
     [(launchConfigLabel, "db"), (deploymentUnitLabel, "u1")]]

/-- Stack `web` with primary `app` declaring the sidekick `db`; one deployment unit `u1` holds
the primary container `app-1` and the sidekick container `db-1`. -/
def sidekickSnapshot : Client :=
  exClient webStacks sidekickServices sidekickContainers
    (exContainer "app-1" "c1" "web" "app" 1 [])

/-- Stack `web` with primary `app` declaring the sidekick `db`, and the container `app-1`. -/
def declaredSidekickSnapshot : Client :=
  exClient [{ Name := "web", UUID := "st1" }]
    [exService "app" "sv1" "web" "app" ["db"], exService "db" "sv2" "web" "app" []]
    [exContainer "app-1" "c1" "web" "app" 1 []] (exContainer "app-1" "c1" "web" "app" 1 [])

/-- Service `db` names `app` as its primary, but `app` declares no sidekick. -/
def orphanSidekickSnapshot : Client :=
  exClient [{ Name := "web", UUID := "st1" }]
    [exService "app" "sv1" "web" "app" [], exService "db" "sv2" "web" "app" []]
    [exContainer "app-1" "c1" "web" "app" 1 []] (exContainer "app-1" "c1" "web" "app" 1 [])

/-- Primary `app` declares the sidekick `db`, but the sidekick container `db-1` shares its
deployment unit with the primary container of another primary service, `other`. -/
def foreignUnitSnapshot : Client :=
  exClient [{ Name := "web", UUID := "st1" }]
    [exService "app" "sv1" "web" "app" ["db"], exService "db" "sv2" "web" "app" [],
     exService "other" "sv3" "web" "other" []]
    [exContainer "other-1" "c1" "web" "other" 1
       [(launchConfigLabel, primaryLaunchConfig), (deploymentUnitLabel, "u1")],
     exContainer "db-1" "c2" "web" "db" 2
       [(launchConfigLabel, "db"), (deploymentUnitLabel, "u1")]]
    (exContainer "other-1" "c1" "web" "other" 1 [])

/-- Two containers of `app`: the one created first has the greater UUID. -/
def createIndexSnapshot : Client :=
  exClient [{ Name := "web", UUID := "st1" }] [exService "app" "sv1" "web" "app" []]
    [exContainer "app-1" "b" "web" "app" 1 [], exContainer "app-2" "a" "web" "app" 2 []]
    (exContainer "app-1" "b" "web" "app" 1 [])

/-- Stacks `a` and `a.b`; service `b.c` of stack `a` and service `c` of stack `a.b` share the
qualified name `a.b.c`; the container belongs to service `b.c` of stack `a`. -/
def dottedNameSnapshot : Client :=
  exClient [{ Name := "a", UUID := "st1" }, { Name := "a.b", UUID := "st2" }]
    [exService "b.c" "sv1" "a" "b.c" [], exService "c" "sv2" "a.b" "c" []]
    [exContainer "x-1" "c1" "a" "b.c" 1 []] (exContainer "x-1" "c1" "a" "b.c" 1 [])

/-- Two containers of `app`; the second has no UUID. Self is the first. -/
def emptyUUIDSnapshot : Client :=
  exClient [{ Name := "web", UUID := "st1" }] [exService "app" "sv1" "web" "app" []]
    [exContainer "app-1" "c1" "web" "app" 1 [], exContainer "app-2" "" "web" "app" 2 []]
    (exContainer "app-1" "c1" "web" "app" 1 [])

/-! ### The graphs of the example snapshots (empty Self override) -/

/-- The graph built from `webSnapshot`. -/
def webGraph : TemplateContext := graphOf "" webSnapshot

/-- The graph built from `sidekickSnapshot`. -/
def sidekickGraph : TemplateContext := graphOf "" sidekickSnapshot

/-- The graph built from `declaredSidekickSnapshot`. -/
def declaredSidekickGraph : TemplateContext := graphOf "" declaredSidekickSnapshot

/-- The graph built from `orphanSidekickSnapshot`. -/
def orphanSidekickGraph : TemplateContext := graphOf "" orphanSidekickSnapshot

/-- The graph built from `foreignUnitSnapshot`. -/
def foreignUnitGraph : TemplateContext := graphOf "" foreignUnitSnapshot

/-- The graph built from `createIndexSnapshot`. -/
def createIndexGraph : TemplateContext := graphOf "" createIndexSnapshot

/-- The graph built from `dottedNameSnapshot`. -/
def dottedNameGraph : TemplateContext := graphOf "" dottedNameSnapshot

/-- The graph built from `emptyUUIDSnapshot`. -/
def emptyUUIDGraph : TemplateContext := graphOf "" emptyUUIDSnapshot

/-! ## Specification vocabulary for ports and lookups -/

/-- The shape that a port entry must have to be kept: it splits on ':' into exactly 2 or 3
segments and its last segment splits on '/' into exactly 2 pieces. -/
def portShape (port : String) : Bool :=
  ((Split port ':').length == 2 || (Split port ':').length == 3) &&
    (Split ((Split port ':').getLastD "") '/').length == 2

/-- Every pointer of `c.Services` leads to a service that has a stack, as in the graphs
that `createContext` builds. -/
def wellLinked (c : TemplateContext) : Bool :=
  c.Services.all (fun p =>
    match c.serviceArena[p]? with
    | some s =>
      match s.Stack with
      | some sp => (c.stackArena[sp]?).isSome
      | none => false
    | none => false)

/-- The name of the stack of the service behind `p` (empty if there is none). -/
def stackNameOf (c : TemplateContext) (p : Nat) : String :=
  match c.serviceArena[p]? with
  | some s =>
    match s.Stack with
    | some sp => ((c.stackArena[sp]?).map (fun t => t.metadata.Name)).getD ""
    | none => ""
  | none => ""

/-- The labels of the service behind `p` (none if there is no such service). -/
def labelsOf (c : TemplateContext) (p : Nat) : LabelMap :=
  ((c.serviceArena[p]?).map (fun s => s.Labels)).getD []

/-- The service behind `p` has the given name and stack name, both compared with
`EqualFold`. -/
def serviceMatches (uc : FoldTable)
    (c : TemplateContext) (service stack : String) (p : Nat) : Bool :=
  EqualFold uc (serviceName c.serviceArena p) service && EqualFold uc (stackNameOf c p) stack

/-- A label map satisfies the selector `@key=value`: it has the key, and the label's value
fold-equals `value` or is matched by `value` taken as a regular expression. -/
def labelSatisfies (uc : FoldTable)
    (rx : RegexEngine) (labels : LabelMap) (key value : String) : Bool :=
  labels.Exists key &&
    (EqualFold uc (labels.GetValue key []) value ||
      match rx value with
      | .ok m => m (labels.GetValue key [])
      | .error _ => false)

/-- The selector `@key=value`. -/
def labelSelector (kv : String × String) : String := "@" ++ kv.1 ++ "=" ++ kv.2

/-- The selector `.stackName`. -/
def stackSelector (name : String) : String := "." ++ name

/-- A selector of `GetServices`, before it is written as a string. -/
inductive Selector where
  | stack (name : String)
  | label (key value : String)
  deriving DecidableEq

/-- The string form of a selector. -/
def Selector.render : Selector → String
  | .stack name => stackSelector name
  | .label key value => labelSelector (key, value)

/-- The `@key=value` selectors of a list, as pairs. -/
def labelPairs : List Selector → List (String × String)
  | [] => []
  | .stack _ :: rest => labelPairs rest
  | .label k v :: rest => (k, v) :: labelPairs rest

/-- The names of the `.stackName` selectors of a list. -/
def stackNames : List Selector → List String
  | [] => []
  | .stack n :: rest => n :: stackNames rest
  | .label _ _ :: rest => stackNames rest

/-! ## Further example snapshots -/

/-- As `webSnapshot`, but the source names a self container `ghost-1` of a service `ghost`
that no record carries. -/
def unresolvedSelfSnapshot : Client :=
  exClient webStacks [exService "app" "sv1" "web" "app" []]
    [exContainer "app-1" "c1" "web" "app" 1 []] (exContainer "ghost-1" "c9" "web" "ghost" 9 [])

/-- Services `APP` and `app` of stack `web`; Self is the container `app-1` of `app`. -/
def caseCollisionSnapshot : Client :=
  exClient webStacks
    [exService "APP" "sv1" "web" "APP" [], exService "app" "sv2" "web" "app" []]
    [exContainer "app-1" "c1" "web" "app" 1 []] (exContainer "app-1" "c1" "web" "app" 1 [])

/-- The graph built from `caseCollisionSnapshot`. -/
def caseCollisionGraph : TemplateContext := graphOf "" caseCollisionSnapshot

/-- The value contains the pattern as a contiguous run of runes. -/
def containsRunes (pattern : List Char) : List Char → Bool
  | [] => pattern.isEmpty
  | v :: vs => pattern.isPrefixOf (v :: vs) || containsRunes pattern vs

/-- A regex engine for patterns without metacharacters: such a pattern compiles, and matches
the values that contain it. -/
def literalEngine : RegexEngine :=
  fun pattern => .ok (fun value => containsRunes pattern.data value.data)

/-- Stack `web` with services `api` (labels env=prod, tier=web) and `db` (label env=dev). -/
def labelledSnapshot : Client :=
  exClient webStacks
    [{ exService "api" "sv1" "web" "api" [] with Labels := [("env", "prod"), ("tier", "web")] },
     { exService "db" "sv2" "web" "db" [] with Labels := [("env", "dev")] }]
    [exContainer "api-1" "c1" "web" "api" 1 []] (exContainer "api-1" "c1" "web" "api" 1 [])

/-- The graph built from `labelledSnapshot`. -/
def labelledGraph : TemplateContext := graphOf "" labelledSnapshot

/-! ## template_context.go: GetHosts -/

/-- Go `filterHostsByLabel`. -/
def filterHostsByLabel (uc : FoldTable)
    (rx : RegexEngine) (c : TemplateContext) (labels : LabelMap) :
    List Nat → Except LookupError (List Nat)
  | [] => .ok []
  | p :: ps =>
    match c.hostArena[p]? with
    | none => .error .nilDeref
    | some h =>
      match filterHostsByLabel uc rx c labels ps with
      | .error e => .error e
      | .ok r => .ok (if inLabelMap uc rx h.Labels labels then p :: r else r)

/-- Body of the selector loop of `GetHosts` (template_context.go 109-119).  The message for a
malformed selector shows the selector without its leading '@', since `f` has been re-assigned
by then. -/
def hostsSelectorStep (labels : LabelMap) (f : String) : Except LookupError LabelMap :=
  match f.data with
  | '@' :: rest =>
    match Split (String.mk rest) '=' with
    | [k, v] => .ok (mapAssign labels k v)
    | _ =>
      .error (.other ("(hosts) malformed label selector '" ++ String.mk rest ++ "'"))
  | _ => .error (.other ("(hosts) invalid argument '" ++ f ++ "'"))

/-- Go `GetHosts`: all hosts, or those passing the label selectors. -/
def GetHosts (uc : FoldTable) (rx : RegexEngine) (c : TemplateContext) (selectors : List String) :
    Except LookupError (List Nat) :=
  match selectors with
  | [] => .ok c.Hosts
  | _ =>
    match selectors.foldlM hostsSelectorStep [] with
    | .error e => .error e
    | .ok labels => filterHostsByLabel uc rx c labels c.Hosts

/-! ## template_functions.go: groupByLabel -/

/-- The label map of an item. -/
def Item.Labels : Item → LabelMap
  | .service s => s.Labels
  | .container c => c.Labels
  | .host h => h.Labels

/-- Body of the three loops of `groupByLabel`: an item whose label is present and non-empty is
appended to the group of its value. -/
def groupStep (label : String) (m : GoMap (List Item)) (item : Item) : GoMap (List Item) :=
  match mapIndex item.Labels label with
  | some value =>
    if value.length > 0 then mapAssign m value ((mapIndex m value).getD [] ++ [item]) else m
  | none => m

/-- Go `groupByLabel`: takes a label key and a slice of services, containers or hosts and
returns a map from the values of the label to the items that carry the value. -/
def groupByLabel (label : String) (inp : Input) : GoMap (List Item) × Option String :=
  match inp with
  | .nil => ([], some "(groupByLabel) input is nil")
  | .services xs => (xs.foldl (fun m s => groupStep label m (Item.service s)) [], none)
  | .containers xs => (xs.foldl (fun m c => groupStep label m (Item.container c)) [], none)
  | .hosts xs => (xs.foldl (fun m h => groupStep label m (Item.host h)) [], none)
  | .other t => ([], some ("(groupByLabel) invalid input type " ++ t))

/-! ## runner.go: publishing a rendered template

The operating system is a state that the functions pass along: the files by path, and the
list of the effects performed so far.  What the program cannot decide (a failing system call,
the name of a temporary file, the exit status of a command, the MD5 sum, the rendering of a
template) is read from a `Kernel`.  `os.Stat` fails exactly when there is no file at the path,
`os.Remove` removes the file if there is one, and a command that is run leaves the files
alone. -/

/-- A byte string. -/
abbrev Bytes := List Nat

/-- What `os.Stat` tells of a file: `Mode()`, and `Uid` and `Gid` of `Sys().(*syscall.Stat_t)`. -/
structure FileStat where
  Mode : Nat
  Uid : Nat
  Gid : Nat
  deriving DecidableEq

/-- A file: its bytes and its metadata. -/
structure File where
  content : Bytes
  stat : FileStat
  deriving DecidableEq

/-- An effect on the outside world. -/
inductive Event where
  | stdout (content : Bytes)
  | tempFile (path : String)
  | write (path : String) (content : Bytes)
  | chmod (path : String) (mode : Nat)
  | chown (path : String) (uid gid : Nat)
  | remove (path : String)
  | rename (oldpath newpath : String)
  | writeFile (path : String) (content : Bytes)
  | check (command : String)
  | notify (command : String)
  | post (command : String)
  deriving DecidableEq

/-- The outside world: the files by path, and the effects performed so far, oldest first. -/
structure World where
  files : GoMap File
  events : List Event
  deriving DecidableEq

/-- A system call or command that can fail for reasons outside the program. -/
inductive Op where
  | openFile (path : String)
  | copy (path : String)
  | tempFile (dir pattern : String)
  | write (path : String)
  | chmod (path : String)
  | chown (path : String)
  | rename (oldpath newpath : String)
  | readFile (path : String)
  | writeFile (path : String)
  | exec (command : String)
  deriving DecidableEq

/-- The fields of `Template` that `processTemplate` and `processVersion` read.  `UpdateCmd`
is read by `processVersion` (runner.go 73-74); config.go declares the field as `PollCmd`. -/
structure Template where
  Source : String
  Dest : String
  CheckCmd : String
  NotifyCmd : String
  NotifyOutput : Bool
  UpdateCmd : String
  deriving DecidableEq

/-- What the program reads from its environment.  `fault w op` is the error of `op` in the
world `w`, if it fails; `render` stands for lines 84-112 of `processTemplate`, which read,
parse and execute the template; `md5` gives the 16 bytes of `md5.Sum`. -/
structure Kernel where
  fault : World → Op → Option String
  tempName : World → String → String → String
  render : TemplateContext → World → Template → Except String Bytes
  md5 : Bytes → Fin 16 → Nat
  Dir : String → String
  Base : String → String
  umask : Nat
  uid : Nat
  gid : Nat

/-- How a call of `processTemplate` ends: `return nil`, `return err`, or `log.Fatalf`, which
ends the process. -/
inductive Outcome where
  | done
  | failed (err : String)
  | fatal (msg : String)
  deriving DecidableEq

/-- Go `delete(m, k)`. -/
def mapDelete {β : Type} (m : GoMap β) (k : String) : GoMap β :=
  m.filter (fun e => e.1 ≠ k)

/-- Go `strings.Contains`. -/
def Contains (s substr : String) : Bool := containsRunes substr.data s.data

/-- The scan of `strings.Replace(s, old, new, -1)` for a non-empty `old`: `skip` counts the
runes of a match that are still to be passed over. -/
def replaceFrom (old new : List Char) : Nat → List Char → List Char
  | _, [] => []
  | skip + 1, _ :: cs => replaceFrom old new skip cs
  | 0, c :: cs =>
    if old.isPrefixOf (c :: cs) then new ++ replaceFrom old new (old.length - 1) cs
    else c :: replaceFrom old new 0 cs

/-- Go `strings.Replace(s, old, new, -1)` for a non-empty `old`. -/
def Replace (s old new : String) : String :=
  String.mk (replaceFrom old.data new.data 0 s.data)

/-- One hexadecimal digit, lower case. -/
def hexDigit (n : Nat) : Char := if n < 10 then Char.ofNat (48 + n) else Char.ofNat (87 + n)

/-- Go `fmt.Sprintf("%x", sum)` for a byte slice: two digits per byte. -/
def hexString (sum : List Nat) : String :=
  String.mk (sum.flatMap (fun b => [hexDigit (b / 16 % 16), hexDigit (b % 16)]))

/-- The hexadecimal MD5 digest of a byte string. -/
def md5Hex (k : Kernel) (content : Bytes) : String := hexString (List.ofFn (k.md5 content))

/-- Appends an effect to the record of the world. -/
def World.record (w : World) (e : Event) : World := { w with events := w.events ++ [e] }

/-- Go `os.Remove`, its error ignored: removes the file if there is one. -/
def removeFile (w : World) (path : String) : World :=
  match mapIndex w.files path with
  | none => w
  | some _ => { files := mapDelete w.files path, events := w.events ++ [.remove path] }

/-- Applies `f` to the file at `path`, if there is one. -/
def updateFile (w : World) (path : String) (f : File → File) : GoMap File :=
  match mapIndex w.files path with
  | none => w.files
  | some x => mapAssign w.files path (f x)

/-- The mode with which a file is created: the requested bits without those of the umask. -/
def createMode (k : Kernel) (perm : Nat) : Nat := perm ^^^ (perm &&& k.umask)

/-- Go `ioutil.TempFile(dir, pattern)`: creates a new, empty file of mode 0600 whose name the
kernel chooses; a name that is taken is the error that TempFile gives after its retries. -/
def TempFile (k : Kernel) (w : World) (dir pattern : String) : Except String String × World :=
  match k.fault w (.tempFile dir pattern) with
  | some e => (.error e, w)
  | none =>
    let name := k.tempName w dir pattern
    match mapIndex w.files name with
    | some _ => (.error ("open " ++ name ++ ": file exists"), w)
    | none =>
      (.ok name,
        { files := mapAssign w.files name
            { content := [], stat := { Mode := createMode k 0o600, Uid := k.uid, Gid := k.gid } },
          events := w.events ++ [.tempFile name] })

/-- Go `computeFileMd5`: the empty string for a missing file, else the digest of the file. -/
def computeFileMd5 (k : Kernel) (w : World) (filePath : String) : Except String String :=
  match mapIndex w.files filePath with
  | none => .ok ""
  | some file =>
    match k.fault w (.openFile filePath) with
    | some e => .error e
    | none =>
      match k.fault w (.copy filePath) with
      | some e => .error e
      | none => .ok (md5Hex k file.content)

/-- Go `sameContent`: whether the digest of the file equals the digest of the content. -/
def sameContent (k : Kernel) (w : World) (content : Bytes) (filePath : String) :
    Except String Bool :=
  match computeFileMd5 k w filePath with
  | .error e => .error ("Could not calculate checksum for " ++ filePath ++ ": " ++ e)
  | .ok fileMd5 => .ok (decide (fileMd5 = md5Hex k content))

/-- Go `createStagingFile`: a temporary file next to the destination that holds the content
and has the mode and owner of the destination, if there is one.  After a failed write, chmod
or chown the file is removed again (`onErr`). -/
def createStagingFile (k : Kernel) (w : World) (content : Bytes) (destFile : String) :
    Except String String × World :=
  match TempFile k w (k.Dir destFile) ("." ++ k.Base destFile ++ "-") with
  | (.error e, w1) =>
    (.error ("Could not create staging file for " ++ destFile ++ ": " ++ e), w1)
  | (.ok name, w1) =>
    match k.fault w1 (.write name) with
    | some e =>
      (.error ("Could not write staging file for " ++ destFile ++ ": " ++ e),
        removeFile w1 name)
    | none =>
      let w2 : World :=
        { files := updateFile w1 name (fun x => { x with content := content }),
          events := w1.events ++ [.write name content] }
      match mapIndex w2.files destFile with
      | none => (.ok name, w2)
      | some dest =>
        match k.fault w2 (.chmod name) with
        | some e =>
          (.error ("Failed to copy permissions from " ++ destFile ++ ": " ++ e),
            removeFile w2 name)
        | none =>
          let w3 : World :=
            { files := updateFile w2 name
                (fun x => { x with stat := { x.stat with Mode := dest.stat.Mode } }),
              events := w2.events ++ [.chmod name dest.stat.Mode] }
          match k.fault w3 (.chown name) with
          | some e => (.error ("Failed to copy ownership: " ++ e), removeFile w3 name)
          | none =>
            (.ok name,
              { files := updateFile w3 name
                  (fun x => { x with stat := { x.stat with Uid := dest.stat.Uid,
                                                           Gid := dest.stat.Gid } }),
                events := w3.events ++ [.chown name dest.stat.Uid dest.stat.Gid] })

/-- Go `os.Rename`: moves the file at `oldpath` to `newpath`, replacing what is there. -/
def renameFile (k : Kernel) (w : World) (oldpath newpath : String) : Option String × World :=
  match mapIndex w.files oldpath with
  | none => (some ("rename " ++ oldpath ++ " " ++ newpath ++ ": no such file or directory"), w)
  | some file =>
    match k.fault w (.rename oldpath newpath) with
    | some e => (some e, w)
    | none =>
      (none,
        { files := mapAssign (mapDelete w.files oldpath) newpath file,
          events := w.events ++ [.rename oldpath newpath] })

/-- Go `ioutil.ReadFile`. -/
def readFile (k : Kernel) (w : World) (path : String) : Except String Bytes :=
  match mapIndex w.files path with
  | none => .error ("open " ++ path ++ ": no such file or directory")
  | some file =>
    match k.fault w (.readFile path) with
    | some e => .error e
    | none => .ok file.content

/-- Go `ioutil.WriteFile(path, content, perm)`: an existing file is truncated and keeps its
mode and owner; a new file gets `perm` (less the umask) and the owner of the process. -/
def writeFile (k : Kernel) (w : World) (path : String) (content : Bytes) (perm : Nat) :
    Option String × World :=
  match k.fault w (.writeFile path) with
  | some e => (some e, w)
  | none =>
    let file : File :=
      match mapIndex w.files path with
      | some old => { old with content := content }
      | none => { content := content,
                  stat := { Mode := createMode k perm, Uid := k.uid, Gid := k.gid } }
    (none, { files := mapAssign w.files path file,
             events := w.events ++ [.writeFile path content] })

/-- Go `copyStagingToDestination`: rename, and after a "device or resource busy" failure of
the rename, read the staging file and write its content, with its mode and owner, to the
destination. -/
def copyStagingToDestination (k : Kernel) (w : World) (stagingPath destPath : String) :
    Option String × World :=
  match renameFile k w stagingPath destPath with
  | (none, w1) => (none, w1)
  | (some err, w1) =>
    if !Contains err "device or resource busy" then (some err, w1)
    else
      match readFile k w1 stagingPath with
      | .error e => (some e, w1)
      | .ok content =>
        match mapIndex w1.files stagingPath with
        | none => (some ("stat " ++ stagingPath ++ ": no such file or directory"), w1)
        | some sfi =>
          match writeFile k w1 destPath content sfi.stat.Mode with
          | (some e, w2) => (some e, w2)
          | (none, w2) =>
            match k.fault w2 (.chown destPath) with
            | some e => (some e, w2)
            | none =>
              (none,
                { files := updateFile w2 destPath
                    (fun x => { x with stat := { x.stat with Uid := sfi.stat.Uid,
                                                             Gid := sfi.stat.Gid } }),
                  events := w2.events ++ [.chown destPath sfi.stat.Uid sfi.stat.Gid] })

/-- Go `check`: runs the check command, in which the placeholder for the staging file has
been replaced by its path. -/
def check (k : Kernel) (w : World) (command filePath : String) : Option String × World :=
  let command := Replace command "\x7b\x7bstaging\x7d\x7d" filePath
  (k.fault w (.exec command), w.record (.check command))

/-- Go `notify`: runs the notify command. -/
def notify (k : Kernel) (w : World) (command : String) : Option String × World :=
  (k.fault w (.exec command), w.record (.notify command))

/-- Lines 141-160 of `processTemplate`: check command, writing of the destination, notify
command. -/
def publish (k : Kernel) (w : World) (t : Template) (stagingFile : String) : Outcome × World :=
  let checked : Option String × World :=
    if t.CheckCmd ≠ "" then check k w t.CheckCmd stagingFile else (none, w)
  match checked with
  | (some err, w1) => (.failed ("Check command failed: " ++ err), w1)
  | (none, w1) =>
    match copyStagingToDestination k w1 stagingFile t.Dest with
    | (some err, w2) =>
      (.failed ("Could not write destination file " ++ t.Dest ++ ": " ++ err), w2)
    | (none, w2) =>
      if t.NotifyCmd ≠ "" then
        match notify k w2 t.NotifyCmd with
        | (some err, w3) => (.failed ("Notify command failed: " ++ err), w3)
        | (none, w3) => (.done, w3)
      else (.done, w2)

/-- Go `processTemplate`: render, compare with the destination, stage, check, write, notify.
`funcs` is the context that the function map is built on.  `defer os.Remove(stagingFile)`
runs on every return that follows the creation of the staging file. -/
def processTemplate (k : Kernel) (funcs : TemplateContext) (w : World) (t : Template) :
    Outcome × World :=
  match k.render funcs w t with
  | .error e => (.fatal e, w)
  | .ok content =>
    if t.Dest = "" then (.done, w.record (.stdout content))
    else
      match sameContent k w content t.Dest with
      | .error e => (.failed ("Could not compare content for " ++ t.Dest ++ ": " ++ e), w)
      | .ok true => (.done, w)
      | .ok false =>
        match createStagingFile k w content t.Dest with
        | (.error e, w1) => (.failed e, w1)
        | (.ok stagingFile, w1) =>
          match publish k w1 t stagingFile with
          | (r, w2) => (r, removeFile w2 stagingFile)

/-! ## Specification vocabulary for label queries -/

/-- The input is one of the three supported list types. -/
def Input.supported : Input → Bool
  | .services _ => true
  | .containers _ => true
  | .hosts _ => true
  | _ => false

/-- The items of an input list, in order. -/
def Input.items : Input → List Item
  | .services xs => xs.map Item.service
  | .containers xs => xs.map Item.container
  | .hosts xs => xs.map Item.host
  | _ => []

/-- The label map of the item contains the key. -/
def Item.hasLabel (label : String) (item : Item) : Bool := item.Labels.Exists label

/-- The label map of the item contains the key with a value that fold-equals `value`. -/
def Item.labelFoldEquals (uc : FoldTable) (label value : String) (item : Item) : Bool :=
  match mapIndex item.Labels label with
  | some v => EqualFold uc v value
  | none => false

/-- The item carries the label with exactly this value. -/
def Item.hasLabelValue (label value : String) (item : Item) : Bool :=
  decide (mapIndex item.Labels label = some value)

/-- A selector that `GetHosts` rejects: it does not start with '@', or what follows the '@'
does not split on '=' into exactly two parts. -/
def badHostSelector (f : String) : Bool :=
  match f.data with
  | '@' :: rest => (Split (String.mk rest) '=').length != 2
  | _ => true

/-! ## Example worlds -/

/-- A stand-in for the MD5 sum: byte `i` of the sum is byte `i` of the content plus the length
of the content, modulo 256. -/
def toySum (content : Bytes) (i : Fin 16) : Nat := (content.getD i.val 0 + content.length) % 256

/-- A kernel in which no system call fails and every command exits with status 0; a template
renders to the bytes 1, 2, 3 and the temporary file is called `<dir>/<pattern>tmp`. -/
def calmKernel : Kernel :=
  { fault := fun _ _ => none,
    tempName := fun _ dir pattern => dir ++ "/" ++ pattern ++ "tmp",
    render := fun _ _ _ => .ok [1, 2, 3],
    md5 := toySum,
    Dir := fun _ => "/etc",
    Base := fun _ => "app.conf",
    umask := 0o022,
    uid := 0,
    gid := 0 }

/-- The template job of the examples: destination `/etc/app.conf`, a check command that
tests the staging file, notify command `reload`. -/
def exTemplate : Template :=
  { Source := "/tpl/app.tmpl", Dest := "/etc/app.conf",
    CheckCmd := "test -s \x7b\x7bstaging\x7d\x7d", NotifyCmd := "reload", NotifyOutput := false,
    UpdateCmd := "" }

/-- A world whose destination `/etc/app.conf` holds the given bytes, with mode 0644 and owner
33:33. -/
def worldWith (content : Bytes) : World :=
  { files := [("/etc/app.conf", { content := content,
                                  stat := { Mode := 0o644, Uid := 33, Gid := 33 } })],
    events := [] }

/-- A world without files. -/
def emptyWorld : World := { files := [], events := [] }

/-- As `calmKernel`, but every command exits with a non-zero status. -/
def failingCommands : Kernel :=
  { calmKernel with
    fault := fun _ op =>
      match op with
      | .exec _ => some "exit status 1"
      | _ => none }

/-- As `calmKernel`, but the destination cannot be opened. -/
def unreadableDest : Kernel :=
  { calmKernel with
    fault := fun _ op =>
      match op with
      | .openFile path => some ("open " ++ path ++ ": permission denied")
      | _ => none }

/-- As `calmKernel`, but every rename fails with the given error text. -/
def renameFails (err : String) : Kernel :=
  { calmKernel with
    fault := fun _ op =>
      match op with
      | .rename _ _ => some err
      | _ => none }

/-- As `renameFails`, and writing a file by path fails as well. -/
def readOnlyDest (err : String) : Kernel :=
  { calmKernel with
    fault := fun _ op =>
      match op with
      | .rename _ _ => some err
      | .writeFile path => some ("open " ++ path ++ ": read-only file system")
      | _ => none }

/-- A world with a staging file `/tmp/.app.conf-1` (bytes 7, 8, mode 0644, owner 33:33) and the
destination `/etc/app.conf` (bytes 1, mode 0644, owner 33:33). -/
def stagedWorld : World :=
  { files := [("/etc/app.conf", { content := [1], stat := { Mode := 0o644, Uid := 33, Gid := 33 } }),
              ("/tmp/.app.conf-1", { content := [7, 8],
                                     stat := { Mode := 0o644, Uid := 33, Gid := 33 } })],
    events := [] }

/-! ## runner.go: processVersion -/

/-- Go `post`: runs the post-version command. -/
def post (k : Kernel) (w : World) (command : String) : Option String × World :=
  (k.fault w (.exec command), w.record (.post command))

/-- How a call of `processVersion` ends: it returns, `log.Fatalf` ends the process, or a nil
dereference panics. -/
inductive CycleEnd where
  | returned
  | exited (msg : String)
  | panicked
  deriving DecidableEq

/-- What a call of `processVersion` did: how it ended, the calls of `processTemplate` in
order, each with its outcome, and the world it left. -/
structure CycleRun where
  ending : CycleEnd
  jobs : List (Template × Outcome)
  world : World
  deriving DecidableEq

/-- The loop of `processVersion` over the configured templates (runner.go 69-79): an error
of `processTemplate` is logged and the loop goes on; after a success the post-version command
is run, and its error is logged; `log.Fatalf` inside `processTemplate` ends the process. -/
def processJobs (k : Kernel) (funcs : TemplateContext) : World → List Template → CycleRun
  | w, [] => { ending := .returned, jobs := [], world := w }
  | w, tmpl :: rest =>
    match processTemplate k funcs w tmpl with
    | (.fatal msg, w1) => { ending := .exited msg, jobs := [(tmpl, .fatal msg)], world := w1 }
    | (.failed err, w1) =>
      let c := processJobs k funcs w1 rest
      { c with jobs := (tmpl, .failed err) :: c.jobs }
    | (.done, w1) =>
      let w2 := if tmpl.UpdateCmd ≠ "" then (post k w1 tmpl.UpdateCmd).2 else w1
      let c := processJobs k funcs w2 rest
      { c with jobs := (tmpl, .done) :: c.jobs }

/-- Go `processVersion`: build the context, and if that succeeds process every template.
`templates` is `r.Config.Templates`. -/
def processVersion (k : Kernel) (cfg : Config) (client : Client) (templates : List Template)
    (w : World) : CycleRun :=
  match createContext cfg client with
  | .error (.fetch _) => { ending := .returned, jobs := [], world := w }
  | .error .nilDeref => { ending := .panicked, jobs := [], world := w }
  | .ok ctx => processJobs k ctx w templates

/-! ## The polling runners: src/runner.go and runner.go of the repository

Both keep the last seen metadata version in the runner and rebuild when the version has
changed.  A call of `poll` is given what the calls it makes return. -/

/-- What the calls made by one `poll` return: `r.Client.GetVersion()`, `r.createContext()`,
and `r.processTemplate(tmplFuncs, tmpl)` for a template. -/
structure PollEnv where
  GetVersion : Except String String
  createContext : Except String Unit
  processTemplate : Template → Option String

/-- The runner of the polling variants: the last seen version. -/
structure runner where
  Version : String
  deriving DecidableEq

/-- What one call of `poll` did: the runner afterwards, whether `createContext` was called,
the templates for which `processTemplate` was called, and the error returned. -/
structure PollResult where
  runner : runner
  built : Bool
  processed : List Template
  err : Option String
  deriving DecidableEq

/-- The loop of `poll` over the templates: the first error is returned at once. -/
def pollJobs (processTemplate : Template → Option String) :
    List Template → List Template × Option String
  | [] => ([], none)
  | tmpl :: rest =>
    match processTemplate tmpl with
    | some err => ([tmpl], some err)
    | none => ((tmpl :: (pollJobs processTemplate rest).1), (pollJobs processTemplate rest).2)

namespace SrcRunner

/-- Go `poll` of src/runner.go (lines 77-113): the version is stored before the context is
built, and a failed build returns an error. -/
def poll (r : runner) (env : PollEnv) (templates : List Template) : PollResult :=
  match env.GetVersion with
  | .error err =>
    { runner := r, built := false, processed := [],
      err := some ("Failed to get Metadata version: " ++ err) }
  | .ok newVersion =>
    if r.Version = newVersion then { runner := r, built := false, processed := [], err := none }
    else
      match env.createContext with
      | .error err =>
        { runner := { Version := newVersion }, built := true, processed := [],
          err := some ("Failed to create context from Rancher Metadata: " ++ err) }
      | .ok _ =>
        { runner := { Version := newVersion }, built := true,
          processed := (pollJobs env.processTemplate templates).1,
          err := (pollJobs env.processTemplate templates).2 }

end SrcRunner

namespace RootRunner

/-- Go `poll` of runner.go at the root (lines 82-118): the version is stored before the
context is built, and a failed build is logged and returns nil. -/
def poll (r : runner) (env : PollEnv) (templates : List Template) : PollResult :=
  match env.GetVersion with
  | .error _ => { runner := r, built := false, processed := [], err := none }
  | .ok newVersion =>
    if r.Version = newVersion then { runner := r, built := false, processed := [], err := none }
    else
      match env.createContext with
      | .error _ =>
        { runner := { Version := newVersion }, built := true, processed := [], err := none }
      | .ok _ =>
        { runner := { Version := newVersion }, built := true,
          processed := (pollJobs env.processTemplate templates).1,
          err := (pollJobs env.processTemplate templates).2 }

end RootRunner

/-! ## config.go: overwriteConfigFromEnv -/

/-- The value of a decimal digit. -/
def digitValue (c : Char) : Option Nat :=
  if 48 ≤ c.toNat ∧ c.toNat ≤ 57 then some (c.toNat - 48) else none

/-- The value of a run of decimal digits read after `acc`; none if a rune is not a digit. -/
def parseDigits (acc : Nat) : List Char → Option Nat
  | [] => some acc
  | c :: cs =>
    match digitValue c with
    | some d => parseDigits (acc * 10 + d) cs
    | none => none

/-- The magnitude of the digits of a decimal integer; none for a syntax error. -/
def parseMagnitude (digits : List Char) : Option Nat :=
  match digits with
  | [] => none
  | _ => parseDigits 0 digits

/-- Go `strconv.Atoi` on a 64-bit platform: the value and the error.  A syntax error comes
with the value 0, a range error with the nearest value of the range. -/
def Atoi (s : String) : Int × Option String :=
  let signed : Bool × List Char :=
    match s.data with
    | '-' :: rest => (true, rest)
    | '+' :: rest => (false, rest)
    | rest => (false, rest)
  match parseMagnitude signed.2 with
  | none => (0, some ("strconv.Atoi: parsing \x22" ++ s ++ "\x22: invalid syntax"))
  | some n =>
    if signed.1 then
      if n ≤ 2 ^ 63 then (-(n : Int), none)
      else (-(2 ^ 63 : Int), some ("strconv.Atoi: parsing \x22" ++ s ++ "\x22: value out of range"))
    else
      if n < 2 ^ 63 then ((n : Int), none)
      else ((2 ^ 63 - 1 : Int), some ("strconv.Atoi: parsing \x22" ++ s ++ "\x22: value out of range"))

/-- Go `overwriteConfigFromEnv`: the configuration after the environment has been applied,
and the warnings that were logged.  `getenv` is `os.Getenv`. -/
def overwriteConfigFromEnv (getenv : String → String) (conf : Config) : Config × List String :=
  let conf1 : Config :=
    if (getenv "RANCHER_GEN_LOGLEVEL").length > 0 then
      { conf with LogLevel := getenv "RANCHER_GEN_LOGLEVEL" }
    else conf
  let conf2 : Config :=
    if (getenv "RANCHER_GEN_METADATA_URL").length > 0 then
      { conf1 with MetadataUrl := getenv "RANCHER_GEN_METADATA_URL" }
    else conf1
  let step3 : Config × List String :=
    if (getenv "RANCHER_GEN_INTERVAL").length > 0 then
      match Atoi (getenv "RANCHER_GEN_INTERVAL") with
      | (interval, some _) => ({ conf2 with Interval := interval }, [])
      | (_, none) =>
        (conf2, ["Invalid value for environment variable 'RANCHER_GEN_INTERVAL': " ++
          getenv "RANCHER_GEN_INTERVAL"])
    else (conf2, [])
  let conf4 : Config :=
    if (getenv "RANCHER_GEN_METADATA_VER").length > 0 then
      { step3.1 with MetadataVersion := getenv "RANCHER_GEN_METADATA_VER" }
    else step3.1
  let conf5 : Config :=
    if (getenv "RANCHER_GEN_ONETIME").length > 0 then { conf4 with OneTime := true } else conf4
  let conf6 : Config :=
    if (getenv "RANCHER_GEN_INACTIVE").length > 0 then { conf5 with IncludeInactive := true }
    else conf5
  (conf6, step3.2)

/-! ## Specification vocabulary for the last claims -/

/-- The result of a label function, a `[]interface{}`, passed on as the input of another:
its dynamic type is none of `[]*Service`, `[]*Container`, `[]*Host`. -/
def Input.ofItems (_ : List Item) : Input := .other "[]interface {}"

/-- The key and the value of a well-formed `@key=value` selector: the selector starts with
'@', and what follows the '@' splits on '=' into exactly two parts. -/
def labelSelectorParts (f : String) : Option (String × String) :=
  match f.data with
  | '@' :: rest =>
    match Split (String.mk rest) '=' with
    | [k, v] => some (k, v)
    | _ => none
  | _ => none

/-- The selectors of a list from which every well-formed `@key=value` selector has been
removed whose key occurs again in a later well-formed `@key=value` selector. -/
def dropEarlier : List String → List String
  | [] => []
  | f :: rest =>
    match labelSelectorParts f with
    | some kv =>
      if rest.any (fun g => (labelSelectorParts g).map Prod.fst = some kv.1) then
        dropEarlier rest
      else f :: dropEarlier rest
    | none => f :: dropEarlier rest

/-- The record behind a host pointer. -/
def hostRecord (c : TemplateContext) (p : Nat) : Option MetaHost :=
  (c.hostArena[p]?).map (fun h => h.metadata)

/-- The record behind a stack pointer. -/
def stackRecord (c : TemplateContext) (p : Nat) : Option MetaStack :=
  (c.stackArena[p]?).map (fun t => t.metadata)

/-! ## Further example worlds and environments -/

/-- As `calmKernel`, but the template `/tpl/bad.tmpl` does not parse. -/
def brokenTemplateKernel : Kernel :=
  { calmKernel with
    render := fun _ _ t =>
      if t.Source = "/tpl/bad.tmpl" then
        .error "Could not parse template '/tpl/bad.tmpl': unexpected EOF"
      else .ok [1, 2, 3] }

/-- A template job whose template does not parse in `brokenTemplateKernel`. -/
def badTemplate : Template :=
  { Source := "/tpl/bad.tmpl", Dest := "/etc/bad.conf", CheckCmd := "", NotifyCmd := "",
    NotifyOutput := false, UpdateCmd := "" }

/-- An environment given by its non-empty variables. -/
def envOf (vars : List (String × String)) : String → String :=
  fun name => (mapIndex vars name).getD ""

/-- Two host records with the UUIDs h2 and h1, in this order. -/
def twoHosts : List MetaHost :=
  [{ UUID := "h2", Name := "host-2", Labels := [] }, { UUID := "h1", Name := "host-1", Labels := [] }]

/-- As `webSnapshot`, with the given host records. -/
def hostsSnapshot (hosts : List MetaHost) : Client :=
  { webSnapshot with GetHosts := .ok hosts }

end RancherConf

namespace RancherConf

/-! ## Go primitives: basic facts -/

theorem mapIndex_mapAssign {β : Type} (m : GoMap β) (k k' : String) (v : β) :
    mapIndex (mapAssign m k v) k' = if k = k' then some v else mapIndex m k' := by
  induction m with
  | nil => simp [mapAssign, mapIndex]
  | cons e rest ih =>
    obtain ⟨k0, v0⟩ := e
    by_cases h0 : k0 = k
    · subst h0
      by_cases h1 : k0 = k' <;> simp [mapAssign, mapIndex, h1]
    · by_cases h1 : k0 = k'
      · subst h1
        have : ¬ k = k0 := fun h => h0 h.symm
        simp [mapAssign, mapIndex, h0, this]
      · simp [mapAssign, mapIndex, h0, h1, ih]

theorem mapIndex_isSome_iff {β : Type} (m : GoMap β) (k : String) :
    (mapIndex m k).isSome = true ↔ k ∈ m.map Prod.fst := by
  induction m with
  | nil => simp [mapIndex]
  | cons e rest ih =>
    obtain ⟨k0, v0⟩ := e
    by_cases h0 : k0 = k
    · simp [mapIndex, h0]
    · have : ¬ k = k0 := fun h => h0 h.symm
      simp [mapIndex, h0, this, ih]

theorem mapAssign_keys_nodup {β : Type} (m : GoMap β) (k : String) (v : β)
    (h : (m.map Prod.fst).Nodup) : ((mapAssign m k v).map Prod.fst).Nodup := by
  induction m with
  | nil => simp [mapAssign]
  | cons e rest ih =>
    obtain ⟨k0, v0⟩ := e
    simp only [List.map_cons, List.nodup_cons] at h
    by_cases h0 : k0 = k
    · subst h0
      simpa [mapAssign] using h
    · simp only [mapAssign, h0, if_false, List.map_cons, List.nodup_cons]
      refine ⟨?_, ih h.2⟩
      intro hmem
      have h1 := (mapIndex_isSome_iff (mapAssign rest k v) k0).2 hmem
      rw [mapIndex_mapAssign] at h1
      have : ¬ k = k0 := fun h => h0 h.symm
      simp only [this, if_false] at h1
      exact h.1 ((mapIndex_isSome_iff rest k0).1 h1)

theorem mapIndex_eq_some_of_mem {β : Type} (m : GoMap β) (k : String) (v : β)
    (h : (m.map Prod.fst).Nodup) (hmem : (k, v) ∈ m) : mapIndex m k = some v := by
  induction m with
  | nil => simp at hmem
  | cons e rest ih =>
    obtain ⟨k0, v0⟩ := e
    simp only [List.map_cons, List.nodup_cons] at h
    rcases List.mem_cons.1 hmem with heq | hin
    · cases heq
      simp [mapIndex]
    · have hk : k0 ≠ k := by
        intro hk
        subst hk
        exact h.1 (List.mem_map.2 ⟨(k0, v), hin, rfl⟩)
      simp [mapIndex, hk, ih h.2 hin]

theorem mem_of_mapIndex_eq_some {β : Type} (m : GoMap β) (k : String) (v : β)
    (h : mapIndex m k = some v) : (k, v) ∈ m := by
  induction m with
  | nil => simp [mapIndex] at h
  | cons e rest ih =>
    obtain ⟨k0, v0⟩ := e
    by_cases h0 : k0 = k
    · simp [mapIndex, h0] at h
      simp [h0, h]
    · simp [mapIndex, h0] at h
      exact List.mem_cons_of_mem _ (ih h)

theorem length_modifyAt {α : Type} (f : α → α) (l : List α) (n : Nat) :
    (modifyAt f l n).length = l.length := by
  induction l generalizing n with
  | nil => simp [modifyAt]
  | cons a l ih => cases n <;> simp [modifyAt, ih]

theorem getElem?_modifyAt {α : Type} (f : α → α) (l : List α) (n i : Nat) :
    (modifyAt f l n)[i]? = if i = n then (l[i]?).map f else l[i]? := by
  induction l generalizing n i with
  | nil => simp [modifyAt]
  | cons a l ih =>
    cases n with
    | zero => cases i <;> simp [modifyAt]
    | succ n => cases i <;> simp [modifyAt, ih]

theorem insertStable_perm {α : Type} (less : α → α → Bool) (a : α) (l : List α) :
    (insertStable less a l).Perm (a :: l) := by
  induction l with
  | nil => simp [insertStable]
  | cons b l ih =>
    by_cases h : less b a = true
    · simp only [insertStable, h, if_true]
      exact (List.Perm.cons b ih).trans (List.Perm.swap a b l)
    · simp [insertStable, h]

theorem sortSliceStable_perm {α : Type} (less : α → α → Bool) (l : List α) :
    (sortSliceStable less l).Perm l := by
  induction l with
  | nil => simp [sortSliceStable]
  | cons a l ih =>
    simp only [sortSliceStable]
    exact (insertStable_perm less a _).trans (List.Perm.cons a ih)

theorem insertStable_sorted {α κ : Type} [LinearOrder κ] (key : α → κ) (less : α → α → Bool)
    (hless : ∀ a b, less a b = true ↔ key a < key b) (a : α) (l : List α)
    (hl : l.Pairwise (fun x y => key x ≤ key y)) :
    (insertStable less a l).Pairwise (fun x y => key x ≤ key y) := by
  induction l with
  | nil => simp [insertStable]
  | cons b l ih =>
    rw [List.pairwise_cons] at hl
    by_cases h : less b a = true
    · simp only [insertStable, h, if_true]
      rw [List.pairwise_cons]
      refine ⟨?_, ih hl.2⟩
      intro x hx
      rcases List.mem_cons.1 ((insertStable_perm less a l).subset hx) with hxa | hxl
      · subst hxa
        exact le_of_lt ((hless b x).1 h)
      · exact hl.1 x hxl
    · have hf : less b a = false := by simpa using h
      simp only [insertStable, hf]
      have hab : key a ≤ key b := by
        by_contra hc
        exact h ((hless b a).2 (lt_of_not_le hc))
      refine List.pairwise_cons.2 ⟨?_, List.pairwise_cons.2 hl⟩
      intro x hx
      rcases List.mem_cons.1 hx with hxb | hxl
      · subst hxb
        exact hab
      · exact le_trans hab (hl.1 x hxl)

theorem sortSliceStable_sorted {α κ : Type} [LinearOrder κ] (key : α → κ) (less : α → α → Bool)
    (hless : ∀ a b, less a b = true ↔ key a < key b) (l : List α) :
    (sortSliceStable less l).Pairwise (fun x y => key x ≤ key y) := by
  induction l with
  | nil => simp [sortSliceStable]
  | cons a l ih =>
    simp only [sortSliceStable]
    exact insertStable_sorted key less hless a _ ih

theorem runesLess_iff (l l' : List Char) : runesLess l l' = true ↔ List.Lex (· < ·) l l' := by
  induction l generalizing l' with
  | nil =>
    cases l' with
    | nil =>
      simp only [runesLess]
      constructor
      · intro h; cases h
      · intro h; cases h
    | cons b l' =>
      simp only [runesLess, true_iff]
      exact List.Lex.nil
  | cons a l ih =>
    cases l' with
    | nil =>
      simp only [runesLess]
      constructor
      · intro h; cases h
      · intro h; cases h
    | cons b l' =>
      by_cases hab : a = b
      · subst hab
        simp only [runesLess, if_true, ih]
        exact List.Lex.cons_iff.symm
      · simp only [runesLess, hab, if_false, decide_eq_true_eq]
        constructor
        · intro h
          exact List.Lex.rel h
        · intro h
          cases h with
          | cons h' => exact absurd rfl hab
          | rel h' => exact h'

theorem strLess_iff (s t : String) : strLess s t = true ↔ s < t := by
  unfold strLess
  rw [runesLess_iff]
  exact String.lt_iff_toList_lt.symm

end RancherConf

namespace RancherConf

/-! ## Loop invariants -/

theorem foldlM_inv {σ α ε : Type} (f : σ → α → Except ε σ) (P : σ → Prop)
    (hstep : ∀ s a s', P s → f s a = .ok s' → P s') :
    ∀ (l : List α) (s s' : σ), P s → l.foldlM f s = .ok s' → P s' := by
  intro l
  induction l with
  | nil =>
    intro s s' hs h
    simp only [List.foldlM_nil, pure, Except.pure, Except.ok.injEq] at h
    exact h ▸ hs
  | cons a l ih =>
    intro s s' hs h
    rw [List.foldlM_cons] at h
    cases hf : f s a with
    | error e => simp [hf, bind, Except.bind] at h
    | ok s1 =>
      simp only [hf, bind, Except.bind] at h
      exact ih s1 s' (hstep s a s1 hs hf) h

theorem foldlM_cons_ok {σ α ε : Type} (f : σ → α → Except ε σ) (a : α) (l : List α)
    (s s' : σ) (h : (a :: l).foldlM f s = .ok s') :
    ∃ s1, f s a = .ok s1 ∧ l.foldlM f s1 = .ok s' := by
  rw [List.foldlM_cons] at h
  cases hf : f s a with
  | error e => simp [hf, bind, Except.bind] at h
  | ok s1 =>
    simp only [hf, bind, Except.bind] at h
    exact ⟨s1, rfl, h⟩

theorem foldlM_nil_ok {σ α ε : Type} (f : σ → α → Except ε σ) (s s' : σ)
    (h : ([] : List α).foldlM f s = .ok s') : s' = s := by
  simp only [List.foldlM_nil, pure, Except.pure, Except.ok.injEq] at h
  exact h.symm

theorem containerLoopStep_ok (cfg : Config) (metaSelf : MetaContainer)
    (sm hm : GoMap Nat) (sa : List Service) (st st' : ContainerLoop) (c : MetaContainer)
    (h : containerLoopStep cfg metaSelf sm hm sa st c = .ok st') :
    st'.arena = st.arena ++ [newContainer sm hm c] ∧
    st'.containers = st.containers ++ [st.arena.length] ∧
    st'.deploymentParent =
      (if (newContainer sm hm c).Primary = true then
        mapAssign st.deploymentParent
          ((newContainer sm hm c).Labels.GetValue deploymentUnitLabel []) st.arena.length
       else st.deploymentParent) ∧
    ((selfMatches cfg metaSelf c.UUID ∧ ∃ sp svc, (newContainer sm hm c).Service = some sp ∧
        sa[sp]? = some svc ∧
        st'.self = { Container := some st.arena.length, Service := some sp, Stack := svc.Stack,
                     Host := (newContainer sm hm c).Host }) ∨
     (¬ selfMatches cfg metaSelf c.UUID ∧ st'.self = st.self)) := by
  unfold containerLoopStep at h
  by_cases hm' : (c.UUID = metaSelf.UUID ∧ cfg.SelfId = "") ∨ c.UUID = cfg.SelfId
  · simp only [hm', if_true] at h
    cases hs : (newContainer sm hm c).Service with
    | none => simp [hs] at h
    | some sp =>
      simp only [hs] at h
      cases hsv : sa[sp]? with
      | none => simp [hsv] at h
      | some svc =>
        simp only [hsv, Except.ok.injEq] at h
        subst h
        refine ⟨rfl, rfl, rfl, Or.inl ⟨hm', sp, svc, rfl, hsv, ?_⟩⟩
        simp [hs]
  · simp only [hm', if_false, Except.ok.injEq] at h
    subst h
    exact ⟨rfl, rfl, rfl, Or.inr ⟨hm', rfl⟩⟩

theorem containerLoop_arena (cfg : Config) (metaSelf : MetaContainer)
    (sm hm : GoMap Nat) (sa : List Service) (l : List MetaContainer) :
    ∀ (st r : ContainerLoop),
      l.foldlM (containerLoopStep cfg metaSelf sm hm sa) st = .ok r →
      r.arena = st.arena ++ l.map (newContainer sm hm) ∧
      r.containers = st.containers ++ List.range' st.arena.length l.length := by
  induction l with
  | nil =>
    intro st r h
    have := foldlM_nil_ok _ _ _ h
    subst this
    simp
  | cons c l ih =>
    intro st r h
    obtain ⟨s1, h1, h2⟩ := foldlM_cons_ok _ _ _ _ _ h
    obtain ⟨ha, hc, -, -⟩ := containerLoopStep_ok _ _ _ _ _ _ _ _ h1
    obtain ⟨hra, hrc⟩ := ih s1 r h2
    rw [hra, hrc, ha, hc]
    constructor
    · simp
    · simp [List.range'_succ, List.length_append]

theorem getElem?_append_singleton_some {α : Type} (l : List α) (x : α) (i : Nat) (a : α)
    (h : (l ++ [x])[i]? = some a) : l[i]? = some a ∨ (i = l.length ∧ a = x) := by
  by_cases hi : i < l.length
  · rw [List.getElem?_append_left hi] at h
    exact Or.inl h
  · have hi' : l.length ≤ i := Nat.le_of_not_lt hi
    rw [List.getElem?_append_right hi'] at h
    right
    by_cases h0 : i - l.length = 0
    · rw [h0] at h
      simp at h
      exact ⟨by omega, h.symm⟩
    · obtain ⟨n, hn⟩ := Nat.exists_eq_succ_of_ne_zero h0
      rw [hn] at h
      simp at h

theorem getElem?_append_of_some {α : Type} (l l' : List α) (i : Nat) (a : α)
    (h : l[i]? = some a) : (l ++ l')[i]? = some a := by
  have hi : i < l.length := by
    by_contra hc
    rw [List.getElem?_eq_none (Nat.le_of_not_lt hc)] at h
    cases h
  rw [List.getElem?_append_left hi]
  exact h

theorem containerLoopStep_deployInv (cfg : Config) (metaSelf : MetaContainer)
    (sm hm : GoMap Nat) (sa : List Service) (st st' : ContainerLoop) (c : MetaContainer)
    (hinv : DeployInv st)
    (h : containerLoopStep cfg metaSelf sm hm sa st c = .ok st') : DeployInv st' := by
  obtain ⟨ha, -, hd, -⟩ := containerLoopStep_ok _ _ _ _ _ _ _ _ h
  obtain ⟨h1, h2⟩ := hinv
  constructor
  · intro d q hq
    rw [hd] at hq
    rw [ha]
    by_cases hp : (newContainer sm hm c).Primary = true
    · simp only [hp, if_true] at hq
      rw [mapIndex_mapAssign] at hq
      by_cases hk : (newContainer sm hm c).Labels.GetValue deploymentUnitLabel [] = d
      · simp only [hk, if_true, Option.some.injEq] at hq
        subst hq
        exact ⟨newContainer sm hm c, by simp, hp, hk⟩
      · simp only [hk, if_false] at hq
        obtain ⟨c', hc', hp', hd'⟩ := h1 d q hq
        exact ⟨c', getElem?_append_of_some _ _ _ _ hc', hp', hd'⟩
    · simp only [hp] at hq
      obtain ⟨c', hc', hp', hd'⟩ := h1 d q hq
      exact ⟨c', getElem?_append_of_some _ _ _ _ hc', hp', hd'⟩
  · intro q c' hc' hp'
    rw [ha] at hc'
    rw [hd]
    rcases getElem?_append_singleton_some _ _ _ _ hc' with hold | ⟨-, hnew⟩
    · have := h2 q c' hold hp'
      by_cases hp : (newContainer sm hm c).Primary = true
      · simp only [hp, if_true]
        rw [mapIndex_mapAssign]
        split
        · rfl
        · exact this
      · simpa only [hp] using this
    · subst hnew
      simp only [hp', if_true]
      rw [mapIndex_mapAssign]
      simp

theorem containerLoopStep_selfInv (cfg : Config) (metaSelf : MetaContainer)
    (sm hm : GoMap Nat) (sa : List Service) (init : Self) (st st' : ContainerLoop)
    (c : MetaContainer) (hinv : SelfInv cfg metaSelf sa init st)
    (h : containerLoopStep cfg metaSelf sm hm sa st c = .ok st') :
    SelfInv cfg metaSelf sa init st' := by
  obtain ⟨ha, -, -, hs⟩ := containerLoopStep_ok _ _ _ _ _ _ _ _ h
  obtain ⟨h1, h2⟩ := hinv
  rcases hs with ⟨hmatch, sp, svc, hsp, hsvc, hself⟩ | ⟨hno, hself⟩
  · constructor
    · intro p hp
      rw [hself] at hp
      simp only [Option.some.injEq] at hp
      subst hp
      refine ⟨newContainer sm hm c, by rw [ha]; simp, hmatch, ?_, ?_, ⟨sp, svc, hsp, hsvc, ?_⟩, ?_⟩
      · rw [hself, hsp]
      · rw [hself]
      · rw [hself]
      · intro j c' hj hc'
        rw [ha] at hc'
        have : j < (st.arena ++ [newContainer sm hm c]).length := by
          by_contra hc
          rw [List.getElem?_eq_none (Nat.le_of_not_lt hc)] at hc'
          cases hc'
        simp at this
        omega
    · intro hnone
      rw [hself] at hnone
      cases hnone
  · constructor
    · intro p hp
      rw [hself] at hp
      obtain ⟨c0, hc0, hm0, hsv0, hh0, hk0, hlast⟩ := h1 p hp
      refine ⟨c0, by rw [ha]; exact getElem?_append_of_some _ _ _ _ hc0, hm0, ?_, ?_, ?_, ?_⟩
      · rw [hself]; exact hsv0
      · rw [hself]; exact hh0
      · rw [hself]; exact hk0
      · intro j c' hj hc'
        rw [ha] at hc'
        rcases getElem?_append_singleton_some _ _ _ _ hc' with hold | ⟨-, hnew⟩
        · exact hlast j c' hj hold
        · subst hnew
          exact hno
    · intro hnone
      rw [hself] at hnone
      obtain ⟨hi, hall⟩ := h2 hnone
      refine ⟨by rw [hself]; exact hi, ?_⟩
      intro j c' hc'
      rw [ha] at hc'
      rcases getElem?_append_singleton_some _ _ _ _ hc' with hold | ⟨-, hnew⟩
      · exact hall j c' hold
      · subst hnew
        exact hno

end RancherConf

namespace RancherConf

/-! ## The linking loop -/

theorem linkedParent_congr (dp : GoMap Nat) (a b : List Container) (i : Nat)
    (h : (a[i]?).map Container.frozen = (b[i]?).map Container.frozen) :
    linkedParent dp a i = linkedParent dp b i := by
  unfold linkedParent
  cases ha : a[i]? with
  | none =>
    cases hb : b[i]? with
    | none => rfl
    | some y => simp [ha, hb] at h
  | some x =>
    cases hb : b[i]? with
    | none => simp [ha, hb] at h
    | some y =>
      simp only [ha, hb, Option.map_some', Option.some.injEq] at h
      have h1 := congrArg Container.Sidekick h
      have h2 := congrArg Container.Labels h
      simp only [Container.frozen] at h1 h2
      simp only [h1, h2]

theorem serviceOf_congr (a b : List Container) (i : Nat)
    (h : (a[i]?).map Container.frozen = (b[i]?).map Container.frozen) :
    serviceOf a i = serviceOf b i := by
  unfold serviceOf
  cases ha : a[i]? with
  | none =>
    cases hb : b[i]? with
    | none => rfl
    | some y => simp [ha, hb] at h
  | some x =>
    cases hb : b[i]? with
    | none => simp [ha, hb] at h
    | some y =>
      simp only [ha, hb, Option.map_some', Option.some.injEq] at h
      have h1 := congrArg Container.Service h
      simp only [Container.frozen] at h1
      exact h1

theorem linkParent_ok (dp : GoMap Nat) (st st1 : LinkLoop) (p : Nat) (c : Container)
    (hc : st.containerArena[p]? = some c)
    (h : linkParent dp st p c = .ok st1) :
    (linkedParent dp st.containerArena p = none ∧ st1 = st) ∨
    (∃ q sp pc, linkedParent dp st.containerArena p = some q ∧ c.Service = some sp ∧
      st.containerArena[q]? = some pc ∧
      st1 = { st with
        containerArena :=
          modifyAt (fun x => { x with Sidekicks := x.Sidekicks ++ [p] })
            (modifyAt (fun x => { x with Parent := some q }) st.containerArena p) q,
        serviceArena := modifyAt (fun s => { s with Parent := pc.Service }) st.serviceArena sp }) := by
  unfold linkParent at h
  have hlp : linkedParent dp st.containerArena p =
      if c.Sidekick = true then mapIndex dp (c.Labels.GetValue deploymentUnitLabel [])
      else none := by
    simp only [linkedParent, hc]
  rw [hlp]
  cases hd : mapIndex dp (c.Labels.GetValue deploymentUnitLabel []) with
  | none =>
    simp only [hd, Except.ok.injEq] at h
    left
    exact ⟨by simp, h.symm⟩
  | some q =>
    simp only [hd] at h
    by_cases hs : c.Sidekick = true
    · simp only [hs, if_true] at h
      cases hsv : c.Service with
      | none => simp [hsv] at h
      | some sp =>
        cases hq : st.containerArena[q]? with
        | none => simp [hsv, hq] at h
        | some pc =>
          simp only [hsv, hq, Except.ok.injEq] at h
          right
          exact ⟨q, sp, pc, by simp [hs], rfl, hq, h.symm⟩
    · have hs' : c.Sidekick = false := by simpa using hs
      simp only [hs', Bool.false_eq_true, if_false, Except.ok.injEq] at h
      left
      exact ⟨by simp [hs'], h.symm⟩

theorem option_map_ext {α β : Type} {f g : α → β} (o : Option α)
    (h : ∀ x, o = some x → f x = g x) : o.map f = o.map g := by
  cases o with
  | none => rfl
  | some x => simp [h x rfl]

theorem map_getElem?_modifyAt {α β : Type} (f : α → α) (g : α → β) (l : List α) (n i : Nat) :
    ((modifyAt f l n)[i]?).map g = (l[i]?).map (fun x => if i = n then g (f x) else g x) := by
  rw [getElem?_modifyAt]
  by_cases h : i = n
  · simp only [h, if_true, Option.map_map]
    rfl
  · simp only [h, if_false]

theorem linkStep_ok (dp : GoMap Nat) (st st' : LinkLoop) (p : Nat)
    (h : linkStep dp st p = .ok st') : LinkStepSpec dp st st' p := by
  unfold linkStep at h
  cases hc : st.containerArena[p]? with
  | none => simp [hc] at h
  | some c =>
    simp only [hc] at h
    cases hl : linkParent dp st p c with
    | error e => simp [hl] at h
    | ok st1 =>
      simp only [hl, Except.ok.injEq] at h
      have hso : serviceOf st.containerArena p = c.Service := by simp [serviceOf, hc]
      rcases linkParent_ok dp st st1 p c hc hl with ⟨hlp, hst1⟩ | ⟨q, sp, pc, hlp, hsp, hq, hst1⟩
      · subst hst1
        cases hcs : c.Service <;> cases hch : c.Host <;> simp only [hcs, hch] at h <;>
          subst h <;>
          refine ⟨?_, ?_, ?_, ?_, ?_, ?_, ?_⟩ <;> intros <;>
          simp only [hlp, hso, hcs, map_getElem?_modifyAt] <;>
          apply option_map_ext <;> intros <;> (try split_ifs) <;> simp_all [Service.frozen]
      · subst hst1
        rw [hsp] at h
        cases hch : c.Host <;> simp only [hch] at h <;>
          subst h <;>
          refine ⟨?_, ?_, ?_, ?_, ?_, ?_, ?_⟩ <;> intros <;>
          simp only [hlp, hso, hsp, map_getElem?_modifyAt] <;>
          apply option_map_ext <;> intros <;> (try split_ifs) <;>
          simp_all [Service.frozen, Container.frozen]

theorem option_map_post {α β γ : Type} {a b : Option α} {g g' : α → β} (φ : β → γ)
    (h : a.map g = b.map g') : a.map (fun x => φ (g x)) = b.map (fun x => φ (g' x)) := by
  have := congrArg (Option.map φ) h
  simpa only [Option.map_map] using this

theorem linkLoop_ok (dp : GoMap Nat) (L : List Nat) :
    ∀ (st r : LinkLoop), L.foldlM (linkStep dp) st = .ok r → LinkLoopSpec dp st r L := by
  induction L with
  | nil =>
    intro st r h
    have := foldlM_nil_ok _ _ _ h
    subst this
    refine ⟨?_, ?_, ?_, ?_, ?_, ?_, ?_⟩ <;> intros <;> simp
  | cons p L ih =>
    intro st r h
    obtain ⟨s1, h1, h2⟩ := foldlM_cons_ok _ _ _ _ _ h
    have S := linkStep_ok dp st s1 p h1
    have R := ih s1 r h2
    have hlp : ∀ i, linkedParent dp s1.containerArena i = linkedParent dp st.containerArena i :=
      fun i => linkedParent_congr dp _ _ i (S.frozen i)
    have hso : ∀ i, serviceOf s1.containerArena i = serviceOf st.containerArena i :=
      fun i => serviceOf_congr _ _ i (S.frozen i)
    refine ⟨?_, ?_, ?_, ?_, ?_, ?_, ?_⟩
    · intro i
      rw [R.frozen i, S.frozen i]
    · intro i
      rw [R.parent i]
      simp only [hlp]
      refine (option_map_post (fun o => if i ∈ L ∧
        (linkedParent dp st.containerArena i).isSome = true then
          linkedParent dp st.containerArena i else o) (S.parent i)).trans ?_
      apply option_map_ext
      intro x _
      by_cases hip : i = p
      · subst hip
        by_cases hs : (linkedParent dp st.containerArena i).isSome = true <;> simp [hs]
      · simp [hip]
    · intro j
      rw [R.sidekicks j]
      simp only [hlp]
      refine (option_map_post (fun o => o ++ L.filter
        (fun i => decide (linkedParent dp st.containerArena i = some j))) (S.sidekicks j)).trans ?_
      apply option_map_ext
      intro x _
      by_cases hj : linkedParent dp st.containerArena p = some j <;>
        simp [hj, List.filter_cons]
    · intro k
      rw [R.svcFrozen k, S.svcFrozen k]
    · intro k
      rw [R.svcContainers k]
      simp only [hso]
      refine (option_map_post (fun o => o ++ L.filter
        (fun i => decide (serviceOf st.containerArena i = some k))) (S.svcContainers k)).trans ?_
      apply option_map_ext
      intro x _
      by_cases hj : serviceOf st.containerArena p = some k <;>
        simp [hj, List.filter_cons]
    · intro k hk
      rw [R.svcParent k, S.svcParent k]
      · exact hk p (List.mem_cons_self _ _)
      · intro i hi
        rw [hlp, hso]
        exact hk i (List.mem_cons_of_mem _ hi)
    · intro h'
      rw [R.host h', S.host h']

end RancherConf

namespace RancherConf

/-! ## The stack, host and service loops -/

theorem foldl_inv {σ α : Type} (f : σ → α → σ) (P : σ → Prop)
    (hstep : ∀ s a, P s → P (f s a)) : ∀ (l : List α) (s : σ), P s → P (l.foldl f s) := by
  intro l
  induction l with
  | nil => intro s hs; exact hs
  | cons a l ih => intro s hs; exact ih (f s a) (hstep s a hs)

theorem stackLoop_arena (l : List MetaStack) :
    ∀ st : StackLoop,
      (l.foldl stackLoopStep st).arena =
        st.arena ++ l.map (fun s => { metadata := s, Services := [] }) ∧
      (l.foldl stackLoopStep st).stackSlice =
        st.stackSlice ++ List.range' st.arena.length l.length := by
  induction l with
  | nil => intro st; simp
  | cons s l ih =>
    intro st
    obtain ⟨h1, h2⟩ := ih (stackLoopStep st s)
    simp only [List.foldl_cons]
    rw [h1, h2]
    constructor
    · simp [stackLoopStep]
    · simp [stackLoopStep, List.range'_succ]

theorem stackLoop_mapInv (l : List MetaStack) :
    StackMapInv (l.foldl stackLoopStep { arena := [], stackSlice := [], stackMap := [] }) := by
  apply foldl_inv stackLoopStep StackMapInv
  · intro st s hinv k sp hk
    simp only [stackLoopStep] at hk ⊢
    rw [mapIndex_mapAssign] at hk
    by_cases hn : s.Name = k
    · simp only [hn, if_true, Option.some.injEq] at hk
      subst hk
      exact ⟨{ metadata := s, Services := [] }, by simp, hn⟩
    · simp only [hn, if_false] at hk
      obtain ⟨t, ht, hname⟩ := hinv k sp hk
      exact ⟨t, getElem?_append_of_some _ _ _ _ ht, hname⟩
  · intro k sp hk
    simp [mapIndex] at hk

theorem hostLoop_arena (l : List MetaHost) :
    ∀ st : HostLoop,
      (l.foldl hostLoopStep st).arena =
        st.arena ++ l.map (fun h =>
          { metadata := h, Labels := sortedLabelMap h.Labels, Containers := [] }) ∧
      (l.foldl hostLoopStep st).hosts = st.hosts ++ List.range' st.arena.length l.length := by
  induction l with
  | nil => intro st; simp
  | cons s l ih =>
    intro st
    obtain ⟨h1, h2⟩ := ih (hostLoopStep st s)
    simp only [List.foldl_cons]
    rw [h1, h2]
    constructor
    · simp [hostLoopStep]
    · simp [hostLoopStep, List.range'_succ]

theorem sidekickFold_mapIndex (n : String) (ptr : Nat) (sks : List String) :
    ∀ (m : GoMap Nat) (k : String),
      mapIndex (sks.foldl (fun m sk => mapAssign m (n ++ "." ++ sk) ptr) m) k =
        if ∃ sk ∈ sks, n ++ "." ++ sk = k then some ptr else mapIndex m k := by
  induction sks with
  | nil => intro m k; simp
  | cons sk sks ih =>
    intro m k
    simp only [List.foldl_cons]
    rw [ih, mapIndex_mapAssign]
    by_cases h1 : ∃ sk' ∈ sks, n ++ "." ++ sk' = k
    · have : ∃ sk' ∈ sk :: sks, n ++ "." ++ sk' = k := by
        obtain ⟨x, hx, hk⟩ := h1
        exact ⟨x, List.mem_cons_of_mem _ hx, hk⟩
      simp only [h1, this, if_true]
    · by_cases h2 : n ++ "." ++ sk = k
      · have : ∃ sk' ∈ sk :: sks, n ++ "." ++ sk' = k := ⟨sk, List.mem_cons_self _ _, h2⟩
        simp only [h1, this, h2, if_true, if_false]
      · have : ¬ ∃ sk' ∈ sk :: sks, n ++ "." ++ sk' = k := by
          rintro ⟨x, hx, hk⟩
          rcases List.mem_cons.1 hx with hxe | hxs
          · subst hxe; exact h2 hk
          · exact h1 ⟨x, hxs, hk⟩
        simp only [h1, this, h2, if_false]

theorem sidekickFold_nodup (n : String) (ptr : Nat) (sks : List String) :
    ∀ (m : GoMap Nat), (m.map Prod.fst).Nodup →
      ((sks.foldl (fun m sk => mapAssign m (n ++ "." ++ sk) ptr) m).map Prod.fst).Nodup := by
  induction sks with
  | nil => intro m h; simpa using h
  | cons sk sks ih =>
    intro m h
    simp only [List.foldl_cons]
    exact ih _ (mapAssign_keys_nodup m _ _ h)

theorem serviceLoopStep_ok (stackMap : GoMap Nat) (metaSelf : MetaContainer)
    (st st' : ServiceLoop) (s0 : MetaService)
    (h : serviceLoopStep stackMap metaSelf st s0 = .ok st') :
    ∃ sp stack, mapIndex stackMap s0.StackName = some sp ∧ st.stackArena[sp]? = some stack ∧
      st' =
        { stackArena :=
            if (newService stackMap { s0 with StackUUID := stack.metadata.UUID }).Primary = true
            then modifyAt (fun t => { t with Services := t.Services ++ [st.arena.length] })
              st.stackArena sp
            else st.stackArena,
          arena := st.arena ++ [newService stackMap { s0 with StackUUID := stack.metadata.UUID }],
          services := st.services ++ [st.arena.length],
          serviceMap := mapAssign st.serviceMap (s0.StackName ++ "." ++ s0.Name) st.arena.length,
          sidekickParent :=
            if (newService stackMap { s0 with StackUUID := stack.metadata.UUID }).Primary = true
            then s0.Sidekicks.foldl
              (fun m sk => mapAssign m (stack.metadata.Name ++ "." ++ sk) st.arena.length)
              st.sidekickParent
            else st.sidekickParent,
          selfService :=
            if s0.StackName = metaSelf.StackName ∧ s0.Name = metaSelf.ServiceName then
              some st.arena.length
            else st.selfService } := by
  unfold serviceLoopStep at h
  cases hsp : mapIndex stackMap s0.StackName with
  | none => simp [hsp] at h
  | some sp =>
    simp only [hsp] at h
    cases hst : st.stackArena[sp]? with
    | none => simp [hst] at h
    | some stack =>
      simp only [hst, Except.ok.injEq] at h
      exact ⟨sp, stack, rfl, hst, h.symm⟩

theorem lt_length_of_getElem?_eq_some {α : Type} (l : List α) (i : Nat) (a : α)
    (h : l[i]? = some a) : i < l.length := by
  by_contra hc
  rw [List.getElem?_eq_none (Nat.le_of_not_lt hc)] at h
  cases h

theorem serviceLoopStep_inv (stackMap : GoMap Nat) (stackArena0 : List Stack)
    (metaSelf : MetaContainer)
    (hsm : ∀ (k : String) (sp : Nat), mapIndex stackMap k = some sp →
      ∃ t : Stack, stackArena0[sp]? = some t ∧ t.metadata.Name = k)
    (st : ServiceLoop) (s0 : MetaService) (st' : ServiceLoop)
    (hinv : ServiceLoopInv stackArena0 metaSelf st)
    (h : serviceLoopStep stackMap metaSelf st s0 = .ok st') :
    ServiceLoopInv stackArena0 metaSelf st' := by
  obtain ⟨sp, stack, hsp, hstack, hst'⟩ := serviceLoopStep_ok _ _ _ _ _ h
  have hname : stack.metadata.Name = s0.StackName := by
    obtain ⟨t, ht, htn⟩ := hsm _ _ hsp
    have := hinv.stackMeta sp
    rw [hstack, ht] at this
    simp only [Option.map_some', Option.some.injEq] at this
    rw [this, htn]
  rw [hname] at hst'
  generalize hN : newService stackMap { s0 with StackUUID := stack.metadata.UUID } = svcN at hst'
  have hq : svcN.qualifiedName = s0.StackName ++ "." ++ s0.Name := by rw [← hN]; rfl
  have hsn : svcN.metadata.StackName = s0.StackName := by rw [← hN]; rfl
  have hnn : svcN.metadata.Name = s0.Name := by rw [← hN]; rfl
  have hsk : svcN.metadata.Sidekicks = s0.Sidekicks := by rw [← hN]; rfl
  have hfresh : svcN.Parent = none ∧ svcN.Containers = [] ∧ svcN.Sidekicks = [] := by
    rw [← hN]; exact ⟨rfl, rfl, rfl⟩
  have hnew : ∀ (j : Nat) (x : Service), (st.arena ++ [svcN])[j]? = some x →
      st.arena[j]? = some x ∨ (j = st.arena.length ∧ x = svcN) :=
    fun j x hx => getElem?_append_singleton_some _ _ _ _ hx
  subst hst'
  refine ⟨?_, ?_, ?_, ?_, ?_, ?_, ?_, ?_⟩
  · intro i
    rw [← hinv.stackMeta i]
    by_cases hp : svcN.Primary = true
    · simp only [hp, if_true, map_getElem?_modifyAt]
      apply option_map_ext
      intro x _
      split <;> rfl
    · simp only [hp]
      rfl
  · intro k t hk
    simp only at hk ⊢
    rw [mapIndex_mapAssign] at hk
    by_cases hkk : s0.StackName ++ "." ++ s0.Name = k
    · simp only [hkk, if_true, Option.some.injEq] at hk
      subst hk
      refine ⟨svcN, by simp, hq.trans hkk, ?_⟩
      intro j svc' hj hsvc'
      have := lt_length_of_getElem?_eq_some _ _ _ hsvc'
      simp at this
      omega
    · simp only [hkk, if_false] at hk
      obtain ⟨svc, hsvc, hkey, hlast⟩ := hinv.mapSome k t hk
      refine ⟨svc, getElem?_append_of_some _ _ _ _ hsvc, hkey, ?_⟩
      intro j svc' hj hsvc'
      rcases hnew j svc' hsvc' with hold | ⟨-, hn⟩
      · exact hlast j svc' hj hold
      · subst hn
        rw [hq]
        exact hkk
  · intro j svc hsvc
    simp only at hsvc ⊢
    rw [mapIndex_mapAssign]
    rcases hnew j svc hsvc with hold | ⟨-, hn⟩
    · split
      · rfl
      · exact hinv.mapTotal j svc hold
    · subst hn
      simp [hq]
  · intro k p hk
    simp only at hk ⊢
    by_cases hp : svcN.Primary = true
    · simp only [hp, if_true] at hk
      rw [sidekickFold_mapIndex] at hk
      by_cases hex : ∃ sk ∈ s0.Sidekicks, s0.StackName ++ "." ++ sk = k
      · simp only [hex, if_true, Option.some.injEq] at hk
        subst hk
        refine ⟨svcN, by simp, hp, ?_, ?_⟩
        · rw [hsk, hsn]; exact hex
        · intro j P' hj hP'
          have := lt_length_of_getElem?_eq_some _ _ _ hP'
          simp at this
          omega
      · simp only [hex, if_false] at hk
        obtain ⟨P, hP, hPp, hPk, hlast⟩ := hinv.skSome k p hk
        refine ⟨P, getElem?_append_of_some _ _ _ _ hP, hPp, hPk, ?_⟩
        intro j P' hj hP' hprim sk hskm
        rcases hnew j P' hP' with hold | ⟨-, hn⟩
        · exact hlast j P' hj hold hprim sk hskm
        · subst hn
          rw [hsn]
          rw [hsk] at hskm
          intro hc
          exact hex ⟨sk, hskm, hc⟩
    · simp only [hp] at hk
      obtain ⟨P, hP, hPp, hPk, hlast⟩ := hinv.skSome k p hk
      refine ⟨P, getElem?_append_of_some _ _ _ _ hP, hPp, hPk, ?_⟩
      intro j P' hj hP' hprim sk hskm
      rcases hnew j P' hP' with hold | ⟨-, hn⟩
      · exact hlast j P' hj hold hprim sk hskm
      · subst hn
        exact absurd hprim hp
  · intro j P hP hprim sk hskm
    simp only at hP ⊢
    rcases hnew j P hP with hold | ⟨-, hn⟩
    · have := hinv.skTotal j P hold hprim sk hskm
      by_cases hp : svcN.Primary = true
      · simp only [hp, if_true]
        rw [sidekickFold_mapIndex]
        split
        · rfl
        · exact this
      · simpa only [hp] using this
    · subst hn
      simp only [hprim, if_true]
      rw [sidekickFold_mapIndex]
      rw [hsk] at hskm
      rw [hsn]
      have : ∃ sk' ∈ s0.Sidekicks, s0.StackName ++ "." ++ sk' = s0.StackName ++ "." ++ sk :=
        ⟨sk, hskm, rfl⟩
      simp only [this, if_true, Option.isSome_some]
  · simp only
    split
    · exact sidekickFold_nodup _ _ _ _ hinv.skNodup
    · exact hinv.skNodup
  · intro t ht
    simp only at ht ⊢
    by_cases hm : s0.StackName = metaSelf.StackName ∧ s0.Name = metaSelf.ServiceName
    · simp only [hm, and_self, if_true, Option.some.injEq] at ht
      subst ht
      exact ⟨svcN, by simp, hsn.trans hm.1, hnn.trans hm.2⟩
    · simp only [hm, if_false] at ht
      obtain ⟨svc, hsvc, h1, h2⟩ := hinv.selfSvc t ht
      exact ⟨svc, getElem?_append_of_some _ _ _ _ hsvc, h1, h2⟩
  · intro i svc hsvc
    simp only at hsvc
    rcases hnew i svc hsvc with hold | ⟨-, hn⟩
    · exact hinv.fresh i svc hold
    · subst hn
      exact hfresh

end RancherConf

namespace RancherConf

/-! ## The service arena through the service, sidekick and nested-sort loops -/

theorem serviceLoop_arena (stackMap : GoMap Nat) (metaSelf : MetaContainer)
    (l : List MetaService) :
    ∀ (st r : ServiceLoop), l.foldlM (serviceLoopStep stackMap metaSelf) st = .ok r →
      r.services = st.services ++ List.range' st.arena.length l.length ∧
      r.arena.length = st.arena.length + l.length ∧
      (∀ (j : Nat) (svc : Service), st.arena[j]? = some svc → r.arena[j]? = some svc) ∧
      (∀ (i : Nat) (s0 : MetaService), l[i]? = some s0 →
        ∃ u, r.arena[st.arena.length + i]? =
          some (newService stackMap { s0 with StackUUID := u })) := by
  induction l with
  | nil =>
    intro st r h
    have := foldlM_nil_ok _ _ _ h
    subst this
    simp
  | cons s0 l ih =>
    intro st r h
    obtain ⟨s1, h1, h2⟩ := foldlM_cons_ok _ _ _ _ _ h
    obtain ⟨sp, stack, -, -, hs1⟩ := serviceLoopStep_ok _ _ _ _ _ h1
    obtain ⟨hsv, hlen, hpre, hnew⟩ := ih s1 r h2
    have ha : s1.arena = st.arena ++
        [newService stackMap { s0 with StackUUID := stack.metadata.UUID }] := by rw [hs1]
    have hs : s1.services = st.services ++ [st.arena.length] := by rw [hs1]
    refine ⟨?_, ?_, ?_, ?_⟩
    · rw [hsv, hs, ha]
      simp [List.range'_succ]
    · rw [hlen, ha]
      simp
      omega
    · intro j svc hj
      apply hpre
      rw [ha]
      exact getElem?_append_of_some _ _ _ _ hj
    · intro i x hi
      cases i with
      | zero =>
        simp only [List.getElem?_cons_zero, Option.some.injEq] at hi
        subst hi
        refine ⟨stack.metadata.UUID, ?_⟩
        apply hpre
        rw [ha]
        simp
      | succ i =>
        simp only [List.getElem?_cons_succ] at hi
        obtain ⟨u, hu⟩ := hnew i x hi
        refine ⟨u, ?_⟩
        rw [ha] at hu
        simp only [List.length_append, List.length_singleton] at hu
        have : st.arena.length + (i + 1) = st.arena.length + 1 + i := by omega
        rw [this]
        exact hu

theorem sidekickLoopStep_ok (sm : GoMap Nat) (a a' : List Service) (e : String × Nat)
    (h : sidekickLoopStep sm a e = .ok a') :
    ∃ t, mapIndex sm e.1 = some t ∧
      a' = modifyAt (fun c => { c with Parent := some e.2 })
        (modifyAt (fun p => { p with Sidekicks := p.Sidekicks ++ [t] }) a e.2) t := by
  unfold sidekickLoopStep at h
  cases ht : mapIndex sm e.1 with
  | none => simp [ht] at h
  | some t =>
    simp only [ht, Except.ok.injEq] at h
    exact ⟨t, rfl, h.symm⟩

theorem sidekickLoop_ok (sm : GoMap Nat) (es : List (String × Nat)) :
    ∀ (a r : List Service), es.foldlM (sidekickLoopStep sm) a = .ok r →
      SidekickLoopSpec sm es a r := by
  induction es with
  | nil =>
    intro a r h
    have := foldlM_nil_ok _ _ _ h
    subst this
    refine ⟨fun _ => rfl, fun _ => rfl, fun _ _ => rfl, ?_⟩
    intro i e he
    simp at he
  | cons e0 es ih =>
    intro a r h
    obtain ⟨a1, h1, h2⟩ := foldlM_cons_ok _ _ _ _ _ h
    obtain ⟨t, ht, ha1⟩ := sidekickLoopStep_ok _ _ _ _ h1
    have R := ih a1 r h2
    have hcore : ∀ i : Nat, (a1[i]?).map Service.core = (a[i]?).map Service.core := by
      intro i
      rw [ha1]
      simp only [map_getElem?_modifyAt]
      apply option_map_ext
      intro x _
      split_ifs <;> rfl
    have hcont : ∀ i : Nat, (a1[i]?).map (fun s => s.Containers) =
        (a[i]?).map (fun s => s.Containers) := by
      intro i
      rw [ha1]
      simp only [map_getElem?_modifyAt]
      apply option_map_ext
      intro x _
      split_ifs <;> rfl
    have hpar : ∀ i : Nat, (a1[i]?).map (fun s => s.Parent) =
        (a[i]?).map (fun s => if i = t then some e0.2 else s.Parent) := by
      intro i
      rw [ha1]
      simp only [map_getElem?_modifyAt]
      apply option_map_ext
      intro x _
      split_ifs <;> rfl
    have hconst : ∀ (i : Nat) (v : Option Nat), (a1[i]?).map (fun _ => v) =
        (a[i]?).map (fun _ => v) := by
      intro i v
      have := option_map_post (fun _ => v) (hcore i)
      exact this
    refine ⟨?_, ?_, ?_, ?_⟩
    · intro i
      rw [R.core i, hcore i]
    · intro i
      rw [R.containers i, hcont i]
    · intro i hi
      rw [R.parentKeep i (fun e he => hi e (List.mem_cons_of_mem _ he)), hpar i]
      have hne : i ≠ t := by
        intro hc
        subst hc
        exact hi e0 (List.mem_cons_self _ _) ht
      apply option_map_ext
      intro x _
      simp [hne]
    · intro i e he hei huniq
      by_cases hex : ∃ e' ∈ es, mapIndex sm e'.1 = some i
      · obtain ⟨e', he', he'i⟩ := hex
        have h2' : e'.2 = e.2 := huniq e' (List.mem_cons_of_mem _ he') he'i
        rw [← h2']
        rw [R.parentSet i e' he' he'i ?_, hconst]
        intro e'' he'' he''i
        rw [huniq e'' (List.mem_cons_of_mem _ he'') he''i, h2']
      · have hnone : ∀ e' ∈ es, mapIndex sm e'.1 ≠ some i :=
          fun e' he' hc => hex ⟨e', he', hc⟩
        rcases List.mem_cons.1 he with hhead | htail
        · subst hhead
          rw [R.parentKeep i hnone, hpar i]
          have hit : i = t := by
            rw [ht] at hei
            exact (Option.some.inj hei).symm
          apply option_map_ext
          intro x _
          simp [hit]
        · exact absurd hei (hnone e htail)

theorem nestedSortLoop_ok (init : NestedSortLoop) (l : List Nat) (r : NestedSortLoop)
    (h : l.foldlM nestedSortStep init = .ok r) : NestedSortInv init r := by
  refine foldlM_inv nestedSortStep (NestedSortInv init) ?_ l init r
    ⟨fun _ => rfl, fun _ => rfl, fun _ => rfl, fun _ => rfl⟩ h
  intro st p st' hinv hstep
  unfold nestedSortStep at hstep
  cases hs : st.serviceArena[p]? with
  | none => simp [hs] at hstep
  | some service =>
    simp only [hs] at hstep
    cases hst : service.Stack with
    | none => simp [hst] at hstep
    | some sp =>
      simp only [hst, Except.ok.injEq] at hstep
      subst hstep
      refine ⟨?_, ?_, ?_, ?_⟩
      · intro i
        rw [← hinv.core i]
        simp only [map_getElem?_modifyAt]
        apply option_map_ext
        intro x _
        split_ifs <;> rfl
      · intro i
        rw [← hinv.containers i]
        simp only [map_getElem?_modifyAt]
        apply option_map_ext
        intro x _
        split_ifs <;> rfl
      · intro i
        rw [← hinv.parent i]
        simp only [map_getElem?_modifyAt]
        apply option_map_ext
        intro x _
        split_ifs <;> rfl
      · intro i
        rw [← hinv.stackMeta i]
        simp only [map_getElem?_modifyAt]
        apply option_map_ext
        intro x _
        split_ifs <;> rfl

end RancherConf

namespace RancherConf

/-! ## The run of `buildContext`, stage by stage -/

theorem buildContext_ok (cfg : Config) (metaStacks : List MetaStack)
    (metaServices : List MetaService) (metaContainers : List MetaContainer)
    (metaHosts : List MetaHost) (metaSelf : MetaContainer) (ctx : TemplateContext)
    (h : buildContext cfg metaStacks metaServices metaContainers metaHosts metaSelf = .ok ctx) :
    Nonempty (BuildRun cfg metaStacks metaServices metaContainers metaHosts metaSelf ctx) := by
  unfold buildContext at h
  simp only at h
  split at h
  · cases h
  · rename_i svl hsvl
    split at h
    · cases h
    · rename_i sa1 hsa1
      split at h
      · cases h
      · rename_i ns hns
        split at h
        · cases h
        · rename_i cl hcl
          split at h
          · cases h
          · rename_i ll hll
            split at h
            · cases h
            · rename_i t hself
              simp only [Except.ok.injEq] at h
              exact ⟨{ svl := svl, sa1 := sa1, ns := ns, cl := cl, ll := ll, hsvl := hsvl,
                       hsa1 := hsa1, hns := hns, hcl := hcl, hll := hll, hself := ⟨t, hself⟩,
                       hctx := h.symm }⟩

theorem createContext_ok (cfg : Config) (client : Client) (ctx : TemplateContext)
    (h : createContext cfg client = .ok ctx) :
    ∃ metaStacks metaServices metaContainers metaHosts metaSelf,
      client.GetStacks = .ok metaStacks ∧ client.GetServices = .ok metaServices ∧
      client.GetContainers = .ok metaContainers ∧ client.GetHosts = .ok metaHosts ∧
      client.GetSelfContainer = .ok metaSelf ∧
      buildContext cfg metaStacks metaServices metaContainers metaHosts metaSelf = .ok ctx := by
  unfold createContext at h
  split at h
  · cases h
  · rename_i a ha
    split at h
    · cases h
    · rename_i b hb
      split at h
      · cases h
      · rename_i c hc
        split at h
        · cases h
        · rename_i d hd
          split at h
          · cases h
          · rename_i e he
            exact ⟨a, b, c, d, e, ha, hb, hc, hd, he, h⟩

end RancherConf

namespace RancherConf

/-! ## Facts about a finished run -/

theorem length_le_of_map_getElem? {α α' β : Type} (a : List α) (b : List α') (f : α → β)
    (g : α' → β) (h : ∀ i : Nat, (a[i]?).map f = (b[i]?).map g) : a.length ≤ b.length := by
  by_contra hc
  have hlt : b.length < a.length := Nat.lt_of_not_le hc
  have := h b.length
  rw [List.getElem?_eq_none (Nat.le_refl _), List.getElem?_eq_getElem hlt] at this
  simp at this

theorem length_eq_of_map_getElem? {α α' β : Type} (a : List α) (b : List α') (f : α → β)
    (g : α' → β) (h : ∀ i : Nat, (a[i]?).map f = (b[i]?).map g) : a.length = b.length :=
  Nat.le_antisymm (length_le_of_map_getElem? a b f g h)
    (length_le_of_map_getElem? b a g f (fun i => (h i).symm))

theorem exists_of_map_getElem? {α α' β : Type} {a : Option α} {b : Option α'} {f : α → β}
    {g : α' → β} (h : a.map f = b.map g) (y : α') (hb : b = some y) :
    ∃ x, a = some x ∧ f x = g y := by
  subst hb
  cases a with
  | none => simp at h
  | some x => exact ⟨x, rfl, by simpa using h⟩

section Run

variable {cfg : Config} {metaStacks : List MetaStack} {metaServices : List MetaService}
  {metaContainers : List MetaContainer} {metaHosts : List MetaHost} {metaSelf : MetaContainer}
  {ctx : TemplateContext}

theorem run_ctx_fields
    (R : BuildRun cfg metaStacks metaServices metaContainers metaHosts metaSelf ctx) :
    ctx.containerArena = R.ll.containerArena ∧ ctx.serviceArena = R.ll.serviceArena ∧
    ctx.hostArena = R.ll.hostArena ∧ ctx.stackArena = R.ns.stackArena ∧
    ctx.Containers = sortSliceStable (containerLess R.cl.arena) R.cl.containers ∧
    ctx.Services = sortSliceStable (serviceLess R.sa1) R.svl.services ∧
    ctx.Hosts = sortSliceStable
      (fun i j => strLess (hostUUID (hostLoop metaHosts).arena i)
        (hostUUID (hostLoop metaHosts).arena j)) (hostLoop metaHosts).hosts ∧
    ctx.Stacks = sortSliceStable
      (fun i j => strLess (stackUUID (stackLoop metaStacks).arena i)
        (stackUUID (stackLoop metaStacks).arena j)) (stackLoop metaStacks).stackSlice ∧
    ctx.Self = R.cl.self := by
  have h := R.hctx
  refine ⟨?_, ?_, ?_, ?_, ?_, ?_, ?_, ?_, ?_⟩
  · exact congrArg TemplateContext.containerArena h
  · exact congrArg TemplateContext.serviceArena h
  · exact congrArg TemplateContext.hostArena h
  · exact congrArg TemplateContext.stackArena h
  · exact congrArg TemplateContext.Containers h
  · exact congrArg TemplateContext.Services h
  · exact congrArg TemplateContext.Hosts h
  · exact congrArg TemplateContext.Stacks h
  · exact congrArg TemplateContext.Self h

theorem run_cl_arena
    (R : BuildRun cfg metaStacks metaServices metaContainers metaHosts metaSelf ctx) :
    R.cl.arena =
      metaContainers.map (newContainer R.svl.serviceMap (hostLoop metaHosts).hostMap) ∧
    R.cl.containers = List.range metaContainers.length := by
  have := containerLoop_arena _ _ _ _ _ _ _ _ R.hcl
  simpa [List.range_eq_range'] using this

theorem run_link
    (R : BuildRun cfg metaStacks metaServices metaContainers metaHosts metaSelf ctx) :
    LinkLoopSpec R.cl.deploymentParent
      { containerArena := R.cl.arena, serviceArena := R.ns.serviceArena,
        hostArena := (hostLoop metaHosts).arena } R.ll
      (sortSliceStable (containerLess R.cl.arena) R.cl.containers) :=
  linkLoop_ok _ _ _ _ R.hll

theorem run_containers_perm
    (R : BuildRun cfg metaStacks metaServices metaContainers metaHosts metaSelf ctx) :
    ctx.Containers.Perm (List.range metaContainers.length) := by
  rw [(run_ctx_fields R).2.2.2.2.1, ← (run_cl_arena R).2]
  exact sortSliceStable_perm _ _

theorem run_container_frozen
    (R : BuildRun cfg metaStacks metaServices metaContainers metaHosts metaSelf ctx) (i : Nat) :
    (ctx.containerArena[i]?).map Container.frozen = (R.cl.arena[i]?).map Container.frozen := by
  rw [(run_ctx_fields R).1]
  exact (run_link R).frozen i

theorem run_container_length
    (R : BuildRun cfg metaStacks metaServices metaContainers metaHosts metaSelf ctx) :
    ctx.containerArena.length = metaContainers.length := by
  rw [length_eq_of_map_getElem? _ _ _ _ (run_container_frozen R), (run_cl_arena R).1]
  simp

theorem run_container_entry
    (R : BuildRun cfg metaStacks metaServices metaContainers metaHosts metaSelf ctx)
    (i : Nat) (c : Container) (hc : ctx.containerArena[i]? = some c) :
    ∃ c0, R.cl.arena[i]? = some c0 ∧ c0.frozen = c.frozen ∧ metaContainers[i]? = some c.metadata ∧
      c0 = newContainer R.svl.serviceMap (hostLoop metaHosts).hostMap c.metadata := by
  obtain ⟨c0, hc0, hfr⟩ := exists_of_map_getElem? (run_container_frozen R i).symm c hc
  have harena := (run_cl_arena R).1
  have h1 := hc0
  rw [harena, List.getElem?_map] at h1
  cases hrec : metaContainers[i]? with
  | none => simp [hrec] at h1
  | some rec =>
    simp only [hrec, Option.map_some', Option.some.injEq] at h1
    have hmeta : c.metadata = rec := by
      have := congrArg Container.metadata hfr
      simp only [Container.frozen] at this
      rw [← this, ← h1]
      rfl
    refine ⟨c0, hc0, hfr, by rw [hmeta], ?_⟩
    rw [hmeta, h1]

theorem run_container_of_record
    (R : BuildRun cfg metaStacks metaServices metaContainers metaHosts metaSelf ctx)
    (i : Nat) (rec : MetaContainer) (hrec : metaContainers[i]? = some rec) :
    ∃ c, ctx.containerArena[i]? = some c ∧ c.metadata = rec := by
  have hi : i < ctx.containerArena.length := by
    rw [run_container_length R]
    exact lt_length_of_getElem?_eq_some _ _ _ hrec
  refine ⟨ctx.containerArena[i], List.getElem?_eq_getElem hi, ?_⟩
  obtain ⟨c0, -, -, hm, -⟩ := run_container_entry R i _ (List.getElem?_eq_getElem hi)
  rw [hrec] at hm
  exact (Option.some.inj hm).symm

theorem run_deployInv
    (R : BuildRun cfg metaStacks metaServices metaContainers metaHosts metaSelf ctx) :
    DeployInv R.cl := by
  refine foldlM_inv _ DeployInv ?_ _ _ _ ?_ R.hcl
  · intro s a s' hs hstep
    exact containerLoopStep_deployInv _ _ _ _ _ _ _ _ hs hstep
  · constructor
    · intro d q hq
      simp [mapIndex] at hq
    · intro q c hc
      simp at hc

theorem run_selfInv
    (R : BuildRun cfg metaStacks metaServices metaContainers metaHosts metaSelf ctx) :
    SelfInv cfg metaSelf R.ns.serviceArena
      { Stack := none, Service := R.svl.selfService, Container := none, Host := none } R.cl := by
  refine foldlM_inv _ (SelfInv cfg metaSelf R.ns.serviceArena _) ?_ _ _ _ ?_ R.hcl
  · intro s a s' hs hstep
    exact containerLoopStep_selfInv _ _ _ _ _ _ _ _ _ hs hstep
  · constructor
    · intro p hp
      simp at hp
    · intro _
      refine ⟨rfl, ?_⟩
      intro j c hc
      simp at hc

theorem run_serviceInv
    (R : BuildRun cfg metaStacks metaServices metaContainers metaHosts metaSelf ctx) :
    ServiceLoopInv (stackLoop metaStacks).arena metaSelf R.svl := by
  refine foldlM_inv _ (ServiceLoopInv (stackLoop metaStacks).arena metaSelf) ?_ _ _ _ ?_ R.hsvl
  · intro s a s' hs hstep
    exact serviceLoopStep_inv _ _ _ (stackLoop_mapInv metaStacks) _ _ _ hs hstep
  · refine ⟨fun _ => rfl, ?_, ?_, ?_, ?_, ?_, ?_, ?_⟩
    · intro k t hk; simp [mapIndex] at hk
    · intro j svc hj; simp at hj
    · intro k p hk; simp [mapIndex] at hk
    · intro j P hj; simp at hj
    · simp
    · intro t ht; simp at ht
    · intro i svc hi; simp at hi

theorem core_of_frozen {a b : Option Service}
    (h : a.map Service.frozen = b.map Service.frozen) :
    a.map Service.core = b.map Service.core := by
  have := option_map_post Service.core h
  exact this

theorem run_service_core
    (R : BuildRun cfg metaStacks metaServices metaContainers metaHosts metaSelf ctx) (i : Nat) :
    (ctx.serviceArena[i]?).map Service.core = (R.svl.arena[i]?).map Service.core := by
  rw [(run_ctx_fields R).2.1]
  have h1 := core_of_frozen ((run_link R).svcFrozen i)
  have h2 := (nestedSortLoop_ok _ _ _ R.hns).core i
  have h3 := (sidekickLoop_ok _ _ _ _ R.hsa1).core i
  exact h1.trans (h2.trans h3)

theorem run_service_ns_core
    (R : BuildRun cfg metaStacks metaServices metaContainers metaHosts metaSelf ctx) (i : Nat) :
    (ctx.serviceArena[i]?).map Service.core = (R.ns.serviceArena[i]?).map Service.core := by
  rw [(run_ctx_fields R).2.1]
  exact core_of_frozen ((run_link R).svcFrozen i)

end Run

end RancherConf

namespace RancherConf

/-! ## Sort keys -/

theorem containerLess_iff (arena : List Container) (a b : Nat) :
    containerLess arena a b = true ↔ containerKey arena a < containerKey arena b := by
  unfold containerLess containerKey
  rw [Prod.Lex.lt_iff]
  simp only [Prod.Lex.lt_iff]
  by_cases h1 : containerCreateIndex arena a = containerCreateIndex arena b
  · by_cases h2 : containerUUID arena a = containerUUID arena b
    · simp [h1, h2, strLess_iff]
    · simp [h1, h2, strLess_iff]
  · simp [h1]

theorem serviceLess_iff (arena : List Service) (a b : Nat) :
    serviceLess arena a b = true ↔ serviceKey arena a < serviceKey arena b := by
  unfold serviceLess serviceKey
  rw [Prod.Lex.lt_iff]
  by_cases h1 : serviceUUID arena a = serviceUUID arena b
  · simp [h1, strLess_iff]
  · simp [h1, strLess_iff]

theorem containerKey_congr (a b : List Container) (p : Nat)
    (h : (a[p]?).map Container.frozen = (b[p]?).map Container.frozen) :
    containerKey a p = containerKey b p := by
  have h1 := option_map_post (fun c : Container => c.metadata) h
  have h2 : (a[p]?).map (fun c => c.metadata) = (b[p]?).map (fun c => c.metadata) := h1
  unfold containerKey containerCreateIndex containerUUID containerName
  have e1 := option_map_post (fun m : MetaContainer => m.CreateIndex) h2
  have e2 := option_map_post (fun m : MetaContainer => m.UUID) h2
  have e3 := option_map_post (fun m : MetaContainer => m.Name) h2
  rw [e1, e2, e3]

theorem serviceKey_congr (a b : List Service) (p : Nat)
    (h : (a[p]?).map Service.core = (b[p]?).map Service.core) :
    serviceKey a p = serviceKey b p := by
  have h1 := option_map_post (fun c : Service => c.metadata) h
  have h2 : (a[p]?).map (fun c => c.metadata) = (b[p]?).map (fun c => c.metadata) := h1
  unfold serviceKey serviceUUID serviceName
  have e2 := option_map_post (fun m : MetaService => m.UUID) h2
  have e3 := option_map_post (fun m : MetaService => m.Name) h2
  rw [e2, e3]

theorem run_of_createContext (cfg : Config) (client : Client) (ctx : TemplateContext)
    (h : createContext cfg client = .ok ctx) :
    ∃ metaStacks metaServices metaContainers metaHosts metaSelf,
      client.GetStacks = .ok metaStacks ∧ client.GetServices = .ok metaServices ∧
      client.GetContainers = .ok metaContainers ∧ client.GetHosts = .ok metaHosts ∧
      client.GetSelfContainer = .ok metaSelf ∧
      Nonempty (BuildRun cfg metaStacks metaServices metaContainers metaHosts metaSelf ctx) := by
  obtain ⟨a, b, c, d, e, ha, hb, hc, hd, he, hrun⟩ := createContext_ok cfg client ctx h
  exact ⟨a, b, c, d, e, ha, hb, hc, hd, he, buildContext_ok _ _ _ _ _ _ _ hrun⟩

end RancherConf

namespace RancherConf

variable (uc : FoldTable)

/-! ## Claims about the registered label functions and the graph builder -/

/-- C1: `newFuncMap` binds the name `whereLabelMatches` to `whereLabelEquals`, so the call
`whereLabelMatches "version" "^1\\."` on containers labelled `version=1.2` and `version=2.0`
compares the label values with the pattern text and returns no container, not the first. -/
theorem whereLabelMatches_bound_to_equals :
    (newFuncMap uc).lookup "whereLabelMatches" = some (.byLabelValue (whereLabelEquals uc)) ∧
    callWhereLabelMatches uc "version" "^1\\." (.containers versionedContainers) =
      some ([], none) :=
  ⟨rfl, rfl⟩

/-- C2: on a snapshot whose primary service `app` declares the sidekick `ghost`, a name that no
service record carries, `createContext` ends in a nil dereference instead of a graph. -/
theorem createContext_ghost_sidekick_panics :
    createContext { SelfId := "" } ghostSidekickSnapshot = .error .nilDeref := by
  rfl

/-- C3 (as stated, refuted): in the graph of `webSnapshot` the container `app-1`, whose record
has no launch-config label, has Primary = false and Sidekick = true. -/
theorem absent_launch_config_not_primary :
    createContext { SelfId := "" } webSnapshot = .ok webGraph ∧
    ∃ c, webGraph.containerArena[0]? = some c ∧
      mapIndex c.metadata.Labels launchConfigLabel = none ∧
      ¬ (c.Primary = true ∧ c.Sidekick = false) :=
  ⟨rfl, _, rfl, rfl, by decide⟩

/-- C3 (amended): in every graph returned by `createContext`, the container built from a
record that has no `io.rancher.service.launch.config` label has Primary = false and
Sidekick = true. -/
theorem absent_launch_config_yields_sidekick (cfg : Config) (client : Client)
    (ctx : TemplateContext) (metaContainers : List MetaContainer)
    (hrun : createContext cfg client = .ok ctx)
    (hfetch : client.GetContainers = .ok metaContainers)
    (i : Nat) (rec : MetaContainer) (hrec : metaContainers[i]? = some rec)
    (hlabel : mapIndex rec.Labels launchConfigLabel = none) :
    ∃ c, ctx.containerArena[i]? = some c ∧ c.metadata = rec ∧
      c.Primary = false ∧ c.Sidekick = true := by
  obtain ⟨mst, msv, mc, mh, ms, -, -, hc, -, -, ⟨R⟩⟩ := run_of_createContext cfg client ctx hrun
  rw [hfetch] at hc
  cases hc
  obtain ⟨c, hc, hmeta⟩ := run_container_of_record R i rec hrec
  obtain ⟨c0, -, hfr, -, hc0⟩ := run_container_entry R i c hc
  have hp := congrArg Container.Primary hfr
  have hs := congrArg Container.Sidekick hfr
  simp only [Container.frozen] at hp hs
  refine ⟨c, hc, hmeta, ?_, ?_⟩
  · rw [← hp, hc0, hmeta]
    simp [newContainer, hlabel, primaryLaunchConfig]
  · rw [← hs, hc0, hmeta]
    simp [newContainer, hlabel, primaryLaunchConfig]

/-- Witness of C3 (amended) on `webSnapshot`. -/
theorem absent_launch_config_yields_sidekick_witness :
    createContext { SelfId := "" } webSnapshot =
        .ok webGraph ∧
      ∃ c, webGraph.containerArena[0]? = some c ∧
        c.metadata = exContainer "app-1" "c1" "web" "app" 1 [] ∧
        c.Primary = false ∧ c.Sidekick = true :=
  ⟨rfl, absent_launch_config_yields_sidekick { SelfId := "" } webSnapshot _
    [exContainer "app-1" "c1" "web" "app" 1 []] rfl rfl 0 _ rfl rfl⟩

theorem lexKey_le_iff (a1 a2 : ℤ) (b1 b2 c1 c2 : String) :
    (toLex (a1, toLex (b1, c1)) : ℤ ×ₗ (String ×ₗ String)) ≤ toLex (a2, toLex (b2, c2)) ↔
      a1 < a2 ∨ (a1 = a2 ∧ (b1 < b2 ∨ (b1 = b2 ∧ c1 ≤ c2))) := by
  rw [Prod.Lex.le_iff]
  simp only [Prod.Lex.le_iff]

/-- C6 (as stated, refuted): in the graph of `createIndexSnapshot` the Containers collection
is not in non-decreasing UUID order: the container created first comes first although its
UUID is the greater one. -/
theorem containers_not_sorted_by_uuid :
    createContext { SelfId := "" } createIndexSnapshot = .ok createIndexGraph ∧
    ¬ createIndexGraph.Containers.Pairwise
      (fun p q =>
        containerUUID createIndexGraph.containerArena p ≤
          containerUUID createIndexGraph.containerArena q) := by
  refine ⟨rfl, ?_⟩
  have h1 : createIndexGraph.Containers = [0, 1] := rfl
  have h2 : containerUUID createIndexGraph.containerArena 0 = "b" := rfl
  have h3 : containerUUID createIndexGraph.containerArena 1 = "a" := rfl
  rw [h1]
  intro hp
  have h4 := (List.pairwise_cons.1 hp).1 1 (by simp)
  rw [h2, h3] at h4
  exact absurd ((strLess_iff "a" "b").1 (by decide)) (not_lt.2 h4)

/-- C6 (amended): after `createContext` the Containers collection holds every container
exactly once, sorted by creation index; containers with equal creation index are ordered by
UUID, and those with equal creation index and UUID by name. -/
theorem containers_sorted_by_createIndex (cfg : Config) (client : Client)
    (ctx : TemplateContext) (hrun : createContext cfg client = .ok ctx) :
    ctx.Containers.Perm (List.range ctx.containerArena.length) ∧
    ctx.Containers.Pairwise (fun p q =>
      containerCreateIndex ctx.containerArena p < containerCreateIndex ctx.containerArena q ∨
      (containerCreateIndex ctx.containerArena p = containerCreateIndex ctx.containerArena q ∧
        (containerUUID ctx.containerArena p < containerUUID ctx.containerArena q ∨
          (containerUUID ctx.containerArena p = containerUUID ctx.containerArena q ∧
            containerName ctx.containerArena p ≤ containerName ctx.containerArena q)))) := by
  obtain ⟨mst, msv, mc, mh, ms, -, -, -, -, -, ⟨R⟩⟩ := run_of_createContext cfg client ctx hrun
  constructor
  · rw [run_container_length R]
    exact run_containers_perm R
  · rw [(run_ctx_fields R).2.2.2.2.1]
    have hs := sortSliceStable_sorted (containerKey R.cl.arena) (containerLess R.cl.arena)
      (containerLess_iff R.cl.arena) R.cl.containers
    refine hs.imp ?_
    intro p q hpq
    rw [← containerKey_congr _ _ p (run_container_frozen R p),
      ← containerKey_congr _ _ q (run_container_frozen R q)] at hpq
    exact (lexKey_le_iff _ _ _ _ _ _).1 hpq

/-- Witness of C6 (amended) on `createIndexSnapshot`. -/
theorem containers_sorted_by_createIndex_witness :
    createContext { SelfId := "" } createIndexSnapshot =
        .ok createIndexGraph ∧
      (createIndexGraph.Containers.Perm
        (List.range
          createIndexGraph.containerArena.length) ∧
       createIndexGraph.Containers.Pairwise
        (fun p q =>
          containerCreateIndex
              createIndexGraph.containerArena p <
            containerCreateIndex
              createIndexGraph.containerArena q ∨
          (containerCreateIndex
              createIndexGraph.containerArena p =
            containerCreateIndex
              createIndexGraph.containerArena q ∧
            (containerUUID
                createIndexGraph.containerArena p <
              containerUUID
                createIndexGraph.containerArena q ∨
              (containerUUID
                  createIndexGraph.containerArena p =
                containerUUID
                  createIndexGraph.containerArena q ∧
                containerName
                  createIndexGraph.containerArena p ≤
                containerName
                  createIndexGraph.containerArena q))))) :=
  ⟨rfl, containers_sorted_by_createIndex { SelfId := "" } createIndexSnapshot _ rfl⟩

section Run

variable {cfg : Config} {metaStacks : List MetaStack} {metaServices : List MetaService}
  {metaContainers : List MetaContainer} {metaHosts : List MetaHost} {metaSelf : MetaContainer}
  {ctx : TemplateContext}

theorem run_host_meta
    (R : BuildRun cfg metaStacks metaServices metaContainers metaHosts metaSelf ctx) (i : Nat) :
    (ctx.hostArena[i]?).map (fun h => h.metadata) = metaHosts[i]? := by
  rw [(run_ctx_fields R).2.2.1, (run_link R).host i]
  have := (hostLoop_arena metaHosts { arena := [], hosts := [], hostMap := [] }).1
  simp only [List.nil_append] at this
  show (((hostLoop metaHosts).arena)[i]?).map (fun h => h.metadata) = metaHosts[i]?
  unfold hostLoop
  rw [this, List.getElem?_map, Option.map_map]
  cases metaHosts[i]? <;> rfl

theorem run_stack_meta
    (R : BuildRun cfg metaStacks metaServices metaContainers metaHosts metaSelf ctx) (i : Nat) :
    (ctx.stackArena[i]?).map (fun t => t.metadata) = metaStacks[i]? := by
  rw [(run_ctx_fields R).2.2.2.1]
  have h1 := (nestedSortLoop_ok _ _ _ R.hns).stackMeta i
  have h2 := (run_serviceInv R).stackMeta i
  have h3 : (R.ns.stackArena[i]?).map (fun t => t.metadata) =
      (((stackLoop metaStacks).arena)[i]?).map (fun t => t.metadata) := h1.trans h2
  rw [h3]
  have := (stackLoop_arena metaStacks { arena := [], stackSlice := [], stackMap := [] }).1
  simp only [List.nil_append] at this
  unfold stackLoop
  rw [this, List.getElem?_map, Option.map_map]
  cases metaStacks[i]? <;> rfl

theorem run_service_sa1_core
    (R : BuildRun cfg metaStacks metaServices metaContainers metaHosts metaSelf ctx) (i : Nat) :
    (ctx.serviceArena[i]?).map Service.core = (R.sa1[i]?).map Service.core := by
  rw [(run_ctx_fields R).2.1]
  have h1 := core_of_frozen ((run_link R).svcFrozen i)
  have h2 := (nestedSortLoop_ok _ _ _ R.hns).core i
  exact h1.trans h2

end Run

theorem hostUUID_congr (a b : List Host) (p : Nat)
    (h : (a[p]?).map (fun x => x.metadata) = (b[p]?).map (fun x => x.metadata)) :
    hostUUID a p = hostUUID b p := by
  unfold hostUUID
  have e := option_map_post (fun m : MetaHost => m.UUID) h
  rw [e]

theorem stackUUID_congr (a b : List Stack) (p : Nat)
    (h : (a[p]?).map (fun x => x.metadata) = (b[p]?).map (fun x => x.metadata)) :
    stackUUID a p = stackUUID b p := by
  unfold stackUUID
  have e := option_map_post (fun m : MetaStack => m.UUID) h
  rw [e]

theorem serviceKey_le_iff (a1 a2 b1 b2 : String) :
    (toLex (a1, b1) : String ×ₗ String) ≤ toLex (a2, b2) ↔ a1 < a2 ∨ (a1 = a2 ∧ b1 ≤ b2) :=
  Prod.Lex.le_iff _ _

/-- C7: after `createContext` the Hosts, Stacks and Services collections each hold the entity
built from every input record exactly once (the arenas keep the records in input order, a
service record carrying the StackUUID that the service loop fills in), Hosts and Stacks in
non-decreasing UUID order, Services in non-decreasing UUID order with equal UUIDs in
non-decreasing name order. -/
theorem hosts_stacks_services_sorted (cfg : Config) (client : Client) (ctx : TemplateContext)
    (metaStacks : List MetaStack) (metaServices : List MetaService)
    (metaHosts : List MetaHost)
    (hrun : createContext cfg client = .ok ctx)
    (hst : client.GetStacks = .ok metaStacks)
    (hsv : client.GetServices = .ok metaServices)
    (hh : client.GetHosts = .ok metaHosts) :
    (ctx.Hosts.Perm (List.range metaHosts.length) ∧
      (∀ i : Nat, (ctx.hostArena[i]?).map (fun h => h.metadata) = metaHosts[i]?) ∧
      ctx.Hosts.Pairwise (fun p q => hostUUID ctx.hostArena p ≤ hostUUID ctx.hostArena q)) ∧
    (ctx.Stacks.Perm (List.range metaStacks.length) ∧
      (∀ i : Nat, (ctx.stackArena[i]?).map (fun t => t.metadata) = metaStacks[i]?) ∧
      ctx.Stacks.Pairwise (fun p q => stackUUID ctx.stackArena p ≤ stackUUID ctx.stackArena q)) ∧
    (ctx.Services.Perm (List.range metaServices.length) ∧
      ctx.serviceArena.length = metaServices.length ∧
      (∀ (i : Nat) (s0 : MetaService), metaServices[i]? = some s0 →
        ∃ svc : Service, ctx.serviceArena[i]? = some svc ∧
          svc.metadata = { s0 with StackUUID := svc.metadata.StackUUID }) ∧
      ctx.Services.Pairwise (fun p q =>
        serviceUUID ctx.serviceArena p < serviceUUID ctx.serviceArena q ∨
        (serviceUUID ctx.serviceArena p = serviceUUID ctx.serviceArena q ∧
          serviceName ctx.serviceArena p ≤ serviceName ctx.serviceArena q))) := by
  obtain ⟨mst, msv, mc, mh, ms, h1, h2, -, h4, -, ⟨R⟩⟩ := run_of_createContext cfg client ctx hrun
  rw [hst] at h1
  rw [hsv] at h2
  rw [hh] at h4
  cases h1
  cases h2
  cases h4
  refine ⟨⟨?_, run_host_meta R, ?_⟩, ⟨?_, run_stack_meta R, ?_⟩, ⟨?_, ?_, ?_, ?_⟩⟩
  · rw [(run_ctx_fields R).2.2.2.2.2.2.1]
    have := (hostLoop_arena metaHosts { arena := [], hosts := [], hostMap := [] }).2
    simp only [List.nil_append, List.length_nil] at this
    have h' : (hostLoop metaHosts).hosts = List.range metaHosts.length := by
      unfold hostLoop
      rw [this, List.range_eq_range']
    rw [← h']
    exact sortSliceStable_perm _ _
  · rw [(run_ctx_fields R).2.2.2.2.2.2.1]
    have hs := sortSliceStable_sorted (hostUUID (hostLoop metaHosts).arena)
      (fun i j => strLess (hostUUID (hostLoop metaHosts).arena i)
        (hostUUID (hostLoop metaHosts).arena j))
      (fun a b => strLess_iff _ _) (hostLoop metaHosts).hosts
    refine hs.imp ?_
    intro p q hpq
    have e : ∀ p, hostUUID ctx.hostArena p = hostUUID (hostLoop metaHosts).arena p := by
      intro p
      apply hostUUID_congr
      rw [(run_ctx_fields R).2.2.1]
      exact (run_link R).host p
    rw [e p, e q]
    exact hpq
  · rw [(run_ctx_fields R).2.2.2.2.2.2.2.1]
    have := (stackLoop_arena metaStacks { arena := [], stackSlice := [], stackMap := [] }).2
    simp only [List.nil_append, List.length_nil] at this
    have h' : (stackLoop metaStacks).stackSlice = List.range metaStacks.length := by
      unfold stackLoop
      rw [this, List.range_eq_range']
    rw [← h']
    exact sortSliceStable_perm _ _
  · rw [(run_ctx_fields R).2.2.2.2.2.2.2.1]
    have hs := sortSliceStable_sorted (stackUUID (stackLoop metaStacks).arena)
      (fun i j => strLess (stackUUID (stackLoop metaStacks).arena i)
        (stackUUID (stackLoop metaStacks).arena j))
      (fun a b => strLess_iff _ _) (stackLoop metaStacks).stackSlice
    refine hs.imp ?_
    intro p q hpq
    have e : ∀ p, stackUUID ctx.stackArena p = stackUUID (stackLoop metaStacks).arena p := by
      intro p
      apply stackUUID_congr
      rw [(run_ctx_fields R).2.2.2.1]
      exact ((nestedSortLoop_ok _ _ _ R.hns).stackMeta p).trans ((run_serviceInv R).stackMeta p)
    rw [e p, e q]
    exact hpq
  · rw [(run_ctx_fields R).2.2.2.2.2.1]
    have := (serviceLoop_arena _ _ _ _ _ R.hsvl).1
    simp only [List.nil_append, List.length_nil] at this
    rw [this, ← List.range_eq_range']
    exact sortSliceStable_perm _ _
  · rw [length_eq_of_map_getElem? _ _ _ _ (run_service_core R)]
    have := (serviceLoop_arena _ _ _ _ _ R.hsvl).2.1
    simpa using this
  · intro i s0 hs0
    obtain ⟨u, hu⟩ := (serviceLoop_arena _ _ _ _ _ R.hsvl).2.2.2 i s0 hs0
    simp only [List.length_nil, Nat.zero_add] at hu
    obtain ⟨svc, hsvc, hcore⟩ := exists_of_map_getElem? (run_service_core R i) _ hu
    refine ⟨svc, hsvc, ?_⟩
    have hm := congrArg Service.metadata hcore
    simp only [Service.core] at hm
    rw [hm]
    rfl
  · rw [(run_ctx_fields R).2.2.2.2.2.1]
    have hs := sortSliceStable_sorted (serviceKey R.sa1) (serviceLess R.sa1)
      (serviceLess_iff R.sa1) R.svl.services
    refine hs.imp ?_
    intro p q hpq
    rw [← serviceKey_congr _ _ p (run_service_sa1_core R p),
      ← serviceKey_congr _ _ q (run_service_sa1_core R q)] at hpq
    exact (serviceKey_le_iff _ _ _ _).1 hpq

/-- Witness of C7 on `sidekickSnapshot`. -/
theorem hosts_stacks_services_sorted_witness :
    createContext { SelfId := "" } sidekickSnapshot = .ok sidekickGraph ∧
    sidekickSnapshot.GetStacks = .ok webStacks ∧
    sidekickSnapshot.GetServices = .ok sidekickServices ∧
    sidekickSnapshot.GetHosts = .ok exHosts ∧
    ((sidekickGraph.Hosts.Perm (List.range exHosts.length) ∧
      (∀ i : Nat, (sidekickGraph.hostArena[i]?).map (fun h => h.metadata) = exHosts[i]?) ∧
      sidekickGraph.Hosts.Pairwise (fun p q =>
        hostUUID sidekickGraph.hostArena p ≤ hostUUID sidekickGraph.hostArena q)) ∧
    (sidekickGraph.Stacks.Perm (List.range webStacks.length) ∧
      (∀ i : Nat, (sidekickGraph.stackArena[i]?).map (fun t => t.metadata) = webStacks[i]?) ∧
      sidekickGraph.Stacks.Pairwise (fun p q =>
        stackUUID sidekickGraph.stackArena p ≤ stackUUID sidekickGraph.stackArena q)) ∧
    (sidekickGraph.Services.Perm (List.range sidekickServices.length) ∧
      sidekickGraph.serviceArena.length = sidekickServices.length ∧
      (∀ (i : Nat) (s0 : MetaService), sidekickServices[i]? = some s0 →
        ∃ svc : Service, sidekickGraph.serviceArena[i]? = some svc ∧
          svc.metadata = { s0 with StackUUID := svc.metadata.StackUUID }) ∧
      sidekickGraph.Services.Pairwise (fun p q =>
        serviceUUID sidekickGraph.serviceArena p < serviceUUID sidekickGraph.serviceArena q ∨
        (serviceUUID sidekickGraph.serviceArena p = serviceUUID sidekickGraph.serviceArena q ∧
          serviceName sidekickGraph.serviceArena p ≤ serviceName sidekickGraph.serviceArena q)))) :=
  ⟨rfl, rfl, rfl, rfl,
    hosts_stacks_services_sorted { SelfId := "" } sidekickSnapshot _ webStacks sidekickServices
      exHosts rfl rfl rfl rfl⟩

end RancherConf

namespace RancherConf

section Run

variable {cfg : Config} {metaStacks : List MetaStack} {metaServices : List MetaService}
  {metaContainers : List MetaContainer} {metaHosts : List MetaHost} {metaSelf : MetaContainer}
  {ctx : TemplateContext}

theorem run_container_fields
    (R : BuildRun cfg metaStacks metaServices metaContainers metaHosts metaSelf ctx)
    (i : Nat) (c : Container) (hc : ctx.containerArena[i]? = some c) :
    c.Primary = decide ((mapIndex c.metadata.Labels launchConfigLabel).getD "" =
      primaryLaunchConfig) ∧
    c.Sidekick = decide ((mapIndex c.metadata.Labels launchConfigLabel).getD "" ≠
      primaryLaunchConfig) ∧
    c.Service = mapIndex R.svl.serviceMap c.serviceKey ∧
    ∃ c0, R.cl.arena[i]? = some c0 ∧ c0.frozen = c.frozen ∧ c0.Sidekicks = [] ∧
      c0.Parent = none := by
  obtain ⟨c0, hc0, hfr, -, hnew⟩ := run_container_entry R i c hc
  have hp := congrArg Container.Primary hfr
  have hs := congrArg Container.Sidekick hfr
  have hv := congrArg Container.Service hfr
  simp only [Container.frozen] at hp hs hv
  refine ⟨?_, ?_, ?_, c0, hc0, hfr, ?_, ?_⟩
  · rw [← hp, hnew]; rfl
  · rw [← hs, hnew]; rfl
  · rw [← hv, hnew]; rfl
  · rw [hnew]; rfl
  · rw [hnew]; rfl

theorem run_mem_containers
    (R : BuildRun cfg metaStacks metaServices metaContainers metaHosts metaSelf ctx)
    (i : Nat) (c : Container) (hc : ctx.containerArena[i]? = some c) :
    i ∈ sortSliceStable (containerLess R.cl.arena) R.cl.containers := by
  have hi : i < metaContainers.length := by
    rw [← run_container_length R]
    exact lt_length_of_getElem?_eq_some _ _ _ hc
  have hperm := run_containers_perm R
  rw [(run_ctx_fields R).2.2.2.2.1] at hperm
  exact hperm.mem_iff.2 (List.mem_range.2 hi)

theorem run_containers_nodup
    (R : BuildRun cfg metaStacks metaServices metaContainers metaHosts metaSelf ctx) :
    (sortSliceStable (containerLess R.cl.arena) R.cl.containers).Nodup := by
  have hperm := run_containers_perm R
  rw [(run_ctx_fields R).2.2.2.2.1] at hperm
  exact hperm.nodup_iff.2 (List.nodup_range _)

end Run

/-- C5: after `createContext`, every container whose launch-config label is not the primary
value, and whose deployment unit (the value read from its deployment-unit label) is also the
unit of some container with the primary launch-config label, has a Parent with the primary
launch-config label and the same deployment unit, and occurs exactly once in that parent's
Sidekicks. -/
theorem sidekick_container_parent (cfg : Config) (client : Client) (ctx : TemplateContext)
    (hrun : createContext cfg client = .ok ctx)
    (i : Nat) (c : Container) (hc : ctx.containerArena[i]? = some c)
    (hside : (mapIndex c.metadata.Labels launchConfigLabel).getD "" ≠ primaryLaunchConfig)
    (hprim : ∃ (j : Nat) (q : Container), ctx.containerArena[j]? = some q ∧
      (mapIndex q.metadata.Labels launchConfigLabel).getD "" = primaryLaunchConfig ∧
      q.Labels.GetValue deploymentUnitLabel [] = c.Labels.GetValue deploymentUnitLabel []) :
    ∃ (p : Nat) (P : Container), c.Parent = some p ∧ ctx.containerArena[p]? = some P ∧
      (mapIndex P.metadata.Labels launchConfigLabel).getD "" = primaryLaunchConfig ∧
      P.Labels.GetValue deploymentUnitLabel [] = c.Labels.GetValue deploymentUnitLabel [] ∧
      P.Sidekicks.count i = 1 := by
  obtain ⟨mst, msv, mc, mh, ms, -, -, -, -, -, ⟨R⟩⟩ := run_of_createContext cfg client ctx hrun
  obtain ⟨j, q, hq, hqprim, hqdu⟩ := hprim
  obtain ⟨-, hcs, -, c0, hc0, hcfr, -, hc0par⟩ := run_container_fields R i c hc
  obtain ⟨hqp, -, -, q0, hq0, hqfr, -, -⟩ := run_container_fields R j q hq
  have hcside : c.Sidekick = true := by rw [hcs]; simpa using hside
  have hqprimary : q.Primary = true := by rw [hqp]; simpa using hqprim
  have hc0side : c0.Sidekick = true := by
    have := congrArg Container.Sidekick hcfr
    simp only [Container.frozen] at this
    rw [this, hcside]
  have hc0lab : c0.Labels = c.Labels := by
    have := congrArg Container.Labels hcfr
    simpa only [Container.frozen] using this
  have hq0prim : q0.Primary = true := by
    have := congrArg Container.Primary hqfr
    simp only [Container.frozen] at this
    rw [this, hqprimary]
  have hq0lab : q0.Labels = q.Labels := by
    have := congrArg Container.Labels hqfr
    simpa only [Container.frozen] using this
  have hD := run_deployInv R
  have hsome := hD.2 j q0 hq0 hq0prim
  rw [hq0lab, hqdu] at hsome
  obtain ⟨p, hp⟩ := Option.isSome_iff_exists.1 hsome
  obtain ⟨P0, hP0, hP0prim, hP0du⟩ := hD.1 _ p hp
  have hlp : linkedParent R.cl.deploymentParent R.cl.arena i = some p := by
    simp only [linkedParent, hc0, hc0side, if_true, hc0lab]
    exact hp
  have hL := run_link R
  have himem := run_mem_containers R i c hc
  -- the parent pointer
  have hpar := hL.parent i
  rw [← (run_ctx_fields R).1, hc] at hpar
  simp only [hc0, Option.map_some', Option.some.injEq, himem, hlp, Option.isSome_some,
    and_self, if_true] at hpar
  -- the parent container in the final arena
  have hPfr := run_container_frozen R p
  rw [hP0] at hPfr
  obtain ⟨P, hP, hPP0⟩ := exists_of_map_getElem? hPfr P0 rfl
  obtain ⟨hPp, -, -, P0', hP0', -, hP0sk, -⟩ := run_container_fields R p P hP
  rw [hP0] at hP0'
  cases hP0'
  have hPprim : P.Primary = true := by
    have := congrArg Container.Primary hPP0
    simp only [Container.frozen] at this
    rw [this, hP0prim]
  have hPlab : P.Labels = P0.Labels := by
    have := congrArg Container.Labels hPP0
    simpa only [Container.frozen] using this
  refine ⟨p, P, hpar, hP, ?_, ?_, ?_⟩
  · rw [hPp] at hPprim
    simpa using hPprim
  · rw [hPlab, hP0du]
  · have hsk := hL.sidekicks p
    rw [← (run_ctx_fields R).1, hP] at hsk
    simp only [hP0, Option.map_some', Option.some.injEq, hP0sk, List.nil_append] at hsk
    rw [hsk]
    apply List.count_eq_one_of_mem
    · exact (run_containers_nodup R).filter _
    · rw [List.mem_filter]
      exact ⟨himem, by simp [hlp]⟩

/-- Witness of C5 on `sidekickSnapshot`: the sidekick container `db-1`. -/
theorem sidekick_container_parent_witness :
    createContext { SelfId := "" } sidekickSnapshot = .ok sidekickGraph ∧
    ∃ c : Container, sidekickGraph.containerArena[1]? = some c ∧
      (mapIndex c.metadata.Labels launchConfigLabel).getD "" ≠ primaryLaunchConfig ∧
      (∃ (j : Nat) (q : Container), sidekickGraph.containerArena[j]? = some q ∧
        (mapIndex q.metadata.Labels launchConfigLabel).getD "" = primaryLaunchConfig ∧
        q.Labels.GetValue deploymentUnitLabel [] = c.Labels.GetValue deploymentUnitLabel []) ∧
      ∃ (p : Nat) (P : Container), c.Parent = some p ∧
        sidekickGraph.containerArena[p]? = some P ∧
        (mapIndex P.metadata.Labels launchConfigLabel).getD "" = primaryLaunchConfig ∧
        P.Labels.GetValue deploymentUnitLabel [] = c.Labels.GetValue deploymentUnitLabel [] ∧
        P.Sidekicks.count 1 = 1 :=
  ⟨rfl, _, rfl, by decide, ⟨0, _, rfl, by decide, by decide⟩,
    sidekick_container_parent { SelfId := "" } sidekickSnapshot _ rfl 1 _ rfl (by decide)
      ⟨0, _, rfl, by decide, by decide⟩⟩

end RancherConf

namespace RancherConf

variable (uc : FoldTable)

/-! ## Containers and their services -/

theorem runes_split_inj (l1 : List Char) :
    ∀ (l2 r1 r2 : List Char), '.' ∉ l1 → '.' ∉ l2 → l1 ++ '.' :: r1 = l2 ++ '.' :: r2 →
      l1 = l2 ∧ r1 = r2 := by
  induction l1 with
  | nil =>
    intro l2 r1 r2 _ h2 h
    cases l2 with
    | nil => simpa using h
    | cons b l2 =>
      simp only [List.nil_append, List.cons_append, List.cons.injEq] at h
      exact absurd (h.1 ▸ List.mem_cons_self _ _) h2
  | cons a l1 ih =>
    intro l2 r1 r2 h1 h2 h
    cases l2 with
    | nil =>
      simp only [List.nil_append, List.cons_append, List.cons.injEq] at h
      exact absurd (h.1 ▸ List.mem_cons_self _ _) h1
    | cons b l2 =>
      simp only [List.cons_append, List.cons.injEq] at h
      obtain ⟨e1, e2⟩ := ih l2 r1 r2 (fun hm => h1 (List.mem_cons_of_mem _ hm))
        (fun hm => h2 (List.mem_cons_of_mem _ hm)) h.2
      exact ⟨by rw [h.1, e1], e2⟩

theorem qualified_inj (s1 n1 s2 n2 : String) (h1 : '.' ∉ s1.data) (h2 : '.' ∉ s2.data)
    (h : s1 ++ "." ++ n1 = s2 ++ "." ++ n2) : s1 = s2 ∧ n1 = n2 := by
  have hd := congrArg String.data h
  simp only [String.data_append] at hd
  simp only [List.append_assoc, List.singleton_append] at hd
  obtain ⟨e1, e2⟩ := runes_split_inj _ _ _ _ h1 h2 hd
  exact ⟨String.ext e1, String.ext e2⟩

theorem qualifiedName_of_core (s s' : Service) (h : s.core = s'.core) :
    s.qualifiedName = s'.qualifiedName := by
  have := congrArg Service.metadata h
  simp only [Service.core] at this
  unfold Service.qualifiedName
  rw [this]

section Run

variable {cfg : Config} {metaStacks : List MetaStack} {metaServices : List MetaService}
  {metaContainers : List MetaContainer} {metaHosts : List MetaHost} {metaSelf : MetaContainer}
  {ctx : TemplateContext}

theorem run_service_to_loop
    (R : BuildRun cfg metaStacks metaServices metaContainers metaHosts metaSelf ctx)
    (j : Nat) (s : Service) (hs : ctx.serviceArena[j]? = some s) :
    ∃ x, R.svl.arena[j]? = some x ∧ x.core = s.core :=
  exists_of_map_getElem? (run_service_core R j).symm s hs

theorem run_service_of_loop
    (R : BuildRun cfg metaStacks metaServices metaContainers metaHosts metaSelf ctx)
    (j : Nat) (x : Service) (hx : R.svl.arena[j]? = some x) :
    ∃ s, ctx.serviceArena[j]? = some s ∧ s.core = x.core :=
  exists_of_map_getElem? (run_service_core R j) x hx

theorem run_container_service
    (R : BuildRun cfg metaStacks metaServices metaContainers metaHosts metaSelf ctx)
    (i : Nat) (c : Container) (hc : ctx.containerArena[i]? = some c) :
    (∀ k, c.Service = some k →
      ∃ s : Service, ctx.serviceArena[k]? = some s ∧ s.qualifiedName = c.serviceKey ∧
        ∀ (j : Nat) (s' : Service), k < j → ctx.serviceArena[j]? = some s' →
          s'.qualifiedName ≠ c.serviceKey) ∧
    (c.Service = none →
      ∀ (j : Nat) (s' : Service), ctx.serviceArena[j]? = some s' →
        s'.qualifiedName ≠ c.serviceKey) := by
  obtain ⟨-, -, hsvc, -⟩ := run_container_fields R i c hc
  have hI := run_serviceInv R
  constructor
  · intro k hk
    rw [hsvc] at hk
    obtain ⟨x, hx, hxq, hlast⟩ := hI.mapSome _ k hk
    obtain ⟨s, hs, hsx⟩ := run_service_of_loop R k x hx
    refine ⟨s, hs, (qualifiedName_of_core _ _ hsx).trans hxq, ?_⟩
    intro j s' hj hs'
    obtain ⟨x', hx', hx's'⟩ := run_service_to_loop R j s' hs'
    rw [← qualifiedName_of_core _ _ hx's']
    exact hlast j x' hj hx'
  · intro hnone j s' hs' heq
    rw [hsvc] at hnone
    obtain ⟨x', hx', hx's'⟩ := run_service_to_loop R j s' hs'
    have := hI.mapTotal j x' hx'
    rw [qualifiedName_of_core _ _ hx's', heq, hnone] at this
    cases this

theorem run_service_containers
    (R : BuildRun cfg metaStacks metaServices metaContainers metaHosts metaSelf ctx)
    (k : Nat) (s : Service) (hs : ctx.serviceArena[k]? = some s) :
    s.Containers = (sortSliceStable (containerLess R.cl.arena) R.cl.containers).filter
      (fun i => decide (serviceOf R.cl.arena i = some k)) := by
  have hL := run_link R
  have h1 := hL.svcContainers k
  rw [← (run_ctx_fields R).2.1, hs] at h1
  have h2 : (R.ns.serviceArena[k]?).map (fun s => s.Containers) =
      (R.svl.arena[k]?).map (fun s => s.Containers) :=
    ((nestedSortLoop_ok _ _ _ R.hns).containers k).trans
      ((sidekickLoop_ok _ _ _ _ R.hsa1).containers k)
  obtain ⟨x, hx, -⟩ := run_service_to_loop R k s hs
  have hfresh := ((run_serviceInv R).fresh k x hx).2.1
  rw [hx] at h2
  cases hns : R.ns.serviceArena[k]? with
  | none => simp [hns] at h2
  | some y =>
    simp only [hns, Option.map_some', Option.some.injEq] at h2 h1
    rw [h1, h2, hfresh, List.nil_append]

end Run

/-- C8: in the graph that `createContext` builds from `dottedNameSnapshot` the container of
service `b.c` in stack `a` is not linked to that service, although its record exists, but to
service `c` of stack `a.b`, which has the same qualified name `a.b.c`. -/
theorem container_linked_to_other_stack :
    createContext { SelfId := "" } dottedNameSnapshot = .ok dottedNameGraph ∧
    ∃ (c : Container) (s0 s1 : Service),
      dottedNameGraph.containerArena[0]? = some c ∧
      dottedNameGraph.serviceArena[0]? = some s0 ∧
      dottedNameGraph.serviceArena[1]? = some s1 ∧
      s0.metadata.StackName = c.metadata.StackName ∧
      s0.metadata.Name = c.metadata.ServiceName ∧
      c.Service = some 1 ∧ s1.metadata.StackName ≠ c.metadata.StackName :=
  ⟨rfl, _, _, _, rfl, rfl, rfl, rfl, rfl, rfl, by decide⟩

/-- The linking in general: after `createContext`, every container is linked to the last service record
whose qualified name `StackName.Name` equals the container's `StackName.ServiceName`, and to
no service if there is none; when no stack name contains a '.', this is a service whose stack
name and service name both equal the container's own, whenever such a record exists.  Each
service's Containers list holds exactly the containers linked to it, each once.  For the
snapshot with stack `web`, primary service `app` and container `app-1` of `app`,
`GetService("app.web").Containers` has the single element named `app-1`. -/
theorem container_service_links (cfg : Config) (client : Client) (ctx : TemplateContext)
    (hrun : createContext cfg client = .ok ctx) :
    (∀ (i : Nat) (c : Container), ctx.containerArena[i]? = some c →
      (∀ k, c.Service = some k →
        ∃ s : Service, ctx.serviceArena[k]? = some s ∧ s.qualifiedName = c.serviceKey ∧
          ∀ (j : Nat) (s' : Service), k < j → ctx.serviceArena[j]? = some s' →
            s'.qualifiedName ≠ c.serviceKey) ∧
      (c.Service = none →
        ∀ (j : Nat) (s' : Service), ctx.serviceArena[j]? = some s' →
          s'.qualifiedName ≠ c.serviceKey)) ∧
    (∀ (i : Nat) (c : Container), ctx.containerArena[i]? = some c →
      '.' ∉ c.metadata.StackName.data →
      (∀ (j : Nat) (s : Service), ctx.serviceArena[j]? = some s →
        '.' ∉ s.metadata.StackName.data) →
      (∃ (j : Nat) (s : Service), ctx.serviceArena[j]? = some s ∧
        s.metadata.StackName = c.metadata.StackName ∧
        s.metadata.Name = c.metadata.ServiceName) →
      ∃ (k : Nat) (s : Service), c.Service = some k ∧ ctx.serviceArena[k]? = some s ∧
        s.metadata.StackName = c.metadata.StackName ∧
        s.metadata.Name = c.metadata.ServiceName) ∧
    (∀ (k : Nat) (s : Service), ctx.serviceArena[k]? = some s →
      s.Containers.Nodup ∧
      ∀ i : Nat, i ∈ s.Containers ↔
        ∃ c : Container, ctx.containerArena[i]? = some c ∧ c.Service = some k) ∧
    (createContext { SelfId := "" } webSnapshot = .ok webGraph ∧
      ∃ (s : Service) (p : Nat) (c : Container),
        GetService uc webGraph ["app.web"] = .ok s ∧ s.Containers = [p] ∧
        webGraph.containerArena[p]? = some c ∧ c.metadata.Name = "app-1") := by
  obtain ⟨mst, msv, mc, mh, ms, -, -, -, -, -, ⟨R⟩⟩ := run_of_createContext cfg client ctx hrun
  refine ⟨fun i c hc => run_container_service R i c hc, ?_, ?_, ⟨rfl, _, _, _, rfl, rfl, rfl, rfl⟩⟩
  · intro i c hc hdot hdots ⟨j, s, hs, hsn, hnn⟩
    obtain ⟨hsome, hnone⟩ := run_container_service R i c hc
    have hkey : s.qualifiedName = c.serviceKey := by
      unfold Service.qualifiedName Container.serviceKey
      rw [hsn, hnn]
    cases hsv : c.Service with
    | none => exact absurd hkey (hnone hsv j s hs)
    | some k =>
      obtain ⟨s', hs', hq, -⟩ := hsome k hsv
      have := qualified_inj _ _ _ _ (hdots k s' hs') hdot hq
      exact ⟨k, s', rfl, hs', this.1, this.2⟩
  · intro k s hs
    rw [run_service_containers R k s hs]
    refine ⟨(run_containers_nodup R).filter _, ?_⟩
    intro i
    rw [List.mem_filter]
    have hso : serviceOf R.cl.arena i = serviceOf ctx.containerArena i :=
      (serviceOf_congr _ _ i (run_container_frozen R i)).symm
    rw [hso]
    constructor
    · rintro ⟨-, hd⟩
      simp only [decide_eq_true_eq] at hd
      unfold serviceOf at hd
      cases hci : ctx.containerArena[i]? with
      | none => simp [hci] at hd
      | some c =>
        simp only [hci] at hd
        exact ⟨c, rfl, hd⟩
    · rintro ⟨c, hc, hcs⟩
      refine ⟨run_mem_containers R i c hc, ?_⟩
      simp only [decide_eq_true_eq]
      unfold serviceOf
      simp only [hc]
      exact hcs

/-- The linking of containers and services in the graph of `sidekickSnapshot`. -/
theorem container_service_links_witness :
    createContext { SelfId := "" } sidekickSnapshot = .ok sidekickGraph ∧
    ((∀ (i : Nat) (c : Container), sidekickGraph.containerArena[i]? = some c →
      (∀ k, c.Service = some k →
        ∃ s : Service, sidekickGraph.serviceArena[k]? = some s ∧ s.qualifiedName = c.serviceKey ∧
          ∀ (j : Nat) (s' : Service), k < j → sidekickGraph.serviceArena[j]? = some s' →
            s'.qualifiedName ≠ c.serviceKey) ∧
      (c.Service = none →
        ∀ (j : Nat) (s' : Service), sidekickGraph.serviceArena[j]? = some s' →
          s'.qualifiedName ≠ c.serviceKey)) ∧
    (∀ (i : Nat) (c : Container), sidekickGraph.containerArena[i]? = some c →
      '.' ∉ c.metadata.StackName.data →
      (∀ (j : Nat) (s : Service), sidekickGraph.serviceArena[j]? = some s →
        '.' ∉ s.metadata.StackName.data) →
      (∃ (j : Nat) (s : Service), sidekickGraph.serviceArena[j]? = some s ∧
        s.metadata.StackName = c.metadata.StackName ∧
        s.metadata.Name = c.metadata.ServiceName) →
      ∃ (k : Nat) (s : Service), c.Service = some k ∧ sidekickGraph.serviceArena[k]? = some s ∧
        s.metadata.StackName = c.metadata.StackName ∧
        s.metadata.Name = c.metadata.ServiceName) ∧
    (∀ (k : Nat) (s : Service), sidekickGraph.serviceArena[k]? = some s →
      s.Containers.Nodup ∧
      ∀ i : Nat, i ∈ s.Containers ↔
        ∃ c : Container, sidekickGraph.containerArena[i]? = some c ∧ c.Service = some k) ∧
    (createContext { SelfId := "" } webSnapshot = .ok webGraph ∧
      ∃ (s : Service) (p : Nat) (c : Container),
        GetService exampleFold webGraph ["app.web"] = .ok s ∧ s.Containers = [p] ∧
        webGraph.containerArena[p]? = some c ∧ c.metadata.Name = "app-1")) :=
  ⟨rfl, container_service_links exampleFold { SelfId := "" } sidekickSnapshot _ rfl⟩

end RancherConf

namespace RancherConf

/-! ## Self -/

section Run

variable {cfg : Config} {metaStacks : List MetaStack} {metaServices : List MetaService}
  {metaContainers : List MetaContainer} {metaHosts : List MetaHost} {metaSelf : MetaContainer}
  {ctx : TemplateContext}

theorem run_container_to_loop
    (R : BuildRun cfg metaStacks metaServices metaContainers metaHosts metaSelf ctx)
    (j : Nat) (c : Container) (hc : ctx.containerArena[j]? = some c) :
    ∃ x, R.cl.arena[j]? = some x ∧ x.frozen = c.frozen :=
  exists_of_map_getElem? (run_container_frozen R j).symm c hc

theorem run_container_of_loop
    (R : BuildRun cfg metaStacks metaServices metaContainers metaHosts metaSelf ctx)
    (j : Nat) (x : Container) (hx : R.cl.arena[j]? = some x) :
    ∃ c, ctx.containerArena[j]? = some c ∧ c.frozen = x.frozen :=
  exists_of_map_getElem? (run_container_frozen R j) x hx

theorem run_self_set
    (R : BuildRun cfg metaStacks metaServices metaContainers metaHosts metaSelf ctx)
    (p : Nat) (hp : ctx.Self.Container = some p) :
    ∃ c : Container, ctx.containerArena[p]? = some c ∧
      selfMatches cfg metaSelf c.metadata.UUID ∧
      ctx.Self.Service = c.Service ∧ ctx.Self.Host = c.Host ∧
      (∃ (k : Nat) (svc : Service), c.Service = some k ∧ ctx.serviceArena[k]? = some svc ∧
        ctx.Self.Stack = svc.Stack) ∧
      (∀ (j : Nat) (c' : Container), p < j → ctx.containerArena[j]? = some c' →
        ¬ selfMatches cfg metaSelf c'.metadata.UUID) := by
  have hS := run_selfInv R
  rw [(run_ctx_fields R).2.2.2.2.2.2.2.2] at hp ⊢
  obtain ⟨c0, hc0, hm, hsv, hh, ⟨k, svc, hk, hsvc, hst⟩, hlast⟩ := hS.1 p hp
  obtain ⟨c, hc, hfr⟩ := run_container_of_loop R p c0 hc0
  have e1 := congrArg Container.metadata hfr
  have e2 := congrArg Container.Service hfr
  have e3 := congrArg Container.Host hfr
  simp only [Container.frozen] at e1 e2 e3
  obtain ⟨svc', hsvc', hcore⟩ := exists_of_map_getElem? (run_service_ns_core R k) svc hsvc
  have e4 := congrArg Service.Stack hcore
  simp only [Service.core] at e4
  refine ⟨c, hc, by rw [e1]; exact hm, by rw [e2]; exact hsv, by rw [e3]; exact hh,
    ⟨k, svc', by rw [e2]; exact hk, hsvc', by rw [e4]; exact hst⟩, ?_⟩
  intro j c' hj hc'
  obtain ⟨x, hx, hxfr⟩ := run_container_to_loop R j c' hc'
  have e5 := congrArg Container.metadata hxfr
  simp only [Container.frozen] at e5
  rw [← e5]
  exact hlast j x hj hx

theorem run_self_unset
    (R : BuildRun cfg metaStacks metaServices metaContainers metaHosts metaSelf ctx)
    (hp : ctx.Self.Container = none) :
    ctx.Self.Stack = none ∧ ctx.Self.Host = none ∧
      (∃ (k : Nat) (svc : Service), ctx.Self.Service = some k ∧
        ctx.serviceArena[k]? = some svc ∧ svc.metadata.StackName = metaSelf.StackName ∧
        svc.metadata.Name = metaSelf.ServiceName) ∧
      (∀ (j : Nat) (c' : Container), ctx.containerArena[j]? = some c' →
        ¬ selfMatches cfg metaSelf c'.metadata.UUID) := by
  have hS := run_selfInv R
  rw [(run_ctx_fields R).2.2.2.2.2.2.2.2] at hp ⊢
  obtain ⟨hinit, hall⟩ := hS.2 hp
  obtain ⟨t, ht⟩ := R.hself
  rw [hinit] at ht ⊢
  simp only at ht
  obtain ⟨x, hx, hxs, hxn⟩ := (run_serviceInv R).selfSvc t ht
  obtain ⟨svc, hsvc, hcore⟩ := run_service_of_loop R t x hx
  have e := congrArg Service.metadata hcore
  simp only [Service.core] at e
  refine ⟨rfl, rfl, ⟨t, svc, ht, hsvc, by rw [e]; exact hxs, by rw [e]; exact hxn⟩, ?_⟩
  intro j c' hc'
  obtain ⟨y, hy, hyfr⟩ := run_container_to_loop R j c' hc'
  have e5 := congrArg Container.metadata hyfr
  simp only [Container.frozen] at e5
  rw [← e5]
  exact hall j y hy

end Run

/-- C9 (as stated, refuted): with the override `nope`, which matches no container of
`webSnapshot`, `createContext` returns a graph whose Self.Service is set while Self.Container
is unset. -/
theorem self_service_without_container :
    createContext { SelfId := "nope" } webSnapshot = .ok (graphOf "nope" webSnapshot) ∧
    (graphOf "nope" webSnapshot).Self.Container = none ∧
    (graphOf "nope" webSnapshot).Self.Service = some 0 :=
  ⟨rfl, rfl, rfl⟩

/-- C9 (amended): in every graph returned by `createContext`, if Self.Container is set then
Self.Service, Self.Stack and Self.Host are the Service of Self.Container, that Service's
Stack, and the Host of Self.Container; if Self.Container is unset (no container matched),
Self.Stack and Self.Host are unset and Self.Service is a service whose stack name and name
are those of the source's self container. -/
theorem self_links (cfg : Config) (client : Client) (ctx : TemplateContext)
    (metaSelf : MetaContainer)
    (hrun : createContext cfg client = .ok ctx)
    (hself : client.GetSelfContainer = .ok metaSelf) :
    (∀ p : Nat, ctx.Self.Container = some p →
      ∃ c : Container, ctx.containerArena[p]? = some c ∧
        ctx.Self.Service = c.Service ∧ ctx.Self.Host = c.Host ∧
        ∃ (k : Nat) (svc : Service), c.Service = some k ∧ ctx.serviceArena[k]? = some svc ∧
          ctx.Self.Stack = svc.Stack) ∧
    (ctx.Self.Container = none →
      ctx.Self.Stack = none ∧ ctx.Self.Host = none ∧
      ∃ (k : Nat) (svc : Service), ctx.Self.Service = some k ∧
        ctx.serviceArena[k]? = some svc ∧ svc.metadata.StackName = metaSelf.StackName ∧
        svc.metadata.Name = metaSelf.ServiceName) := by
  obtain ⟨mst, msv, mc, mh, ms, -, -, -, -, h5, ⟨R⟩⟩ := run_of_createContext cfg client ctx hrun
  rw [hself] at h5
  cases h5
  constructor
  · intro p hp
    obtain ⟨c, hc, -, hsv, hh, hk, -⟩ := run_self_set R p hp
    exact ⟨c, hc, hsv, hh, hk⟩
  · intro hp
    obtain ⟨h1, h2, h3, -⟩ := run_self_unset R hp
    exact ⟨h1, h2, h3⟩

/-- Witness of C9 (amended) on `webSnapshot` with the override `nope`. -/
theorem self_links_witness :
    createContext { SelfId := "nope" } webSnapshot = .ok (graphOf "nope" webSnapshot) ∧
    webSnapshot.GetSelfContainer = .ok (exContainer "app-1" "c1" "web" "app" 1 []) ∧
    ((∀ p : Nat, (graphOf "nope" webSnapshot).Self.Container = some p →
      ∃ c : Container, (graphOf "nope" webSnapshot).containerArena[p]? = some c ∧
        (graphOf "nope" webSnapshot).Self.Service = c.Service ∧
        (graphOf "nope" webSnapshot).Self.Host = c.Host ∧
        ∃ (k : Nat) (svc : Service), c.Service = some k ∧
          (graphOf "nope" webSnapshot).serviceArena[k]? = some svc ∧
          (graphOf "nope" webSnapshot).Self.Stack = svc.Stack) ∧
    ((graphOf "nope" webSnapshot).Self.Container = none →
      (graphOf "nope" webSnapshot).Self.Stack = none ∧
      (graphOf "nope" webSnapshot).Self.Host = none ∧
      ∃ (k : Nat) (svc : Service), (graphOf "nope" webSnapshot).Self.Service = some k ∧
        (graphOf "nope" webSnapshot).serviceArena[k]? = some svc ∧
        svc.metadata.StackName = (exContainer "app-1" "c1" "web" "app" 1 []).StackName ∧
        svc.metadata.Name = (exContainer "app-1" "c1" "web" "app" 1 []).ServiceName)) :=
  ⟨rfl, rfl, self_links { SelfId := "nope" } webSnapshot _ _ rfl rfl⟩

/-- C10: with an empty override, the graph that `createContext` builds from
`emptyUUIDSnapshot` has Self.Container pointing at the container without UUID, not at the one
whose UUID equals the self UUID `c1` of the source. -/
theorem self_container_empty_uuid :
    createContext { SelfId := "" } emptyUUIDSnapshot = .ok emptyUUIDGraph ∧
    emptyUUIDSnapshot.GetSelfContainer = .ok (exContainer "app-1" "c1" "web" "app" 1 []) ∧
    ∃ c : Container, emptyUUIDGraph.Self.Container = some 1 ∧
      emptyUUIDGraph.containerArena[1]? = some c ∧
      c.metadata.UUID ≠ (exContainer "app-1" "c1" "web" "app" 1 []).UUID :=
  ⟨rfl, rfl, _, rfl, rfl, by decide⟩

/-- The choice of Self.Container in general: in every graph returned by `createContext`, when
the override identifier is non-empty, Self.Container is the last container whose UUID equals the override and is
unset if there is none, whatever the self UUID of the source is; when the override is empty
and no container has an empty UUID, Self.Container is the last container whose UUID equals
the self UUID of the source and is unset if there is none. -/
theorem self_container_choice (cfg : Config) (client : Client) (ctx : TemplateContext)
    (metaSelf : MetaContainer)
    (hrun : createContext cfg client = .ok ctx)
    (hself : client.GetSelfContainer = .ok metaSelf) :
    (cfg.SelfId ≠ "" →
      (∀ p : Nat, ctx.Self.Container = some p →
        ∃ c : Container, ctx.containerArena[p]? = some c ∧ c.metadata.UUID = cfg.SelfId ∧
          ∀ (j : Nat) (c' : Container), p < j → ctx.containerArena[j]? = some c' →
            c'.metadata.UUID ≠ cfg.SelfId) ∧
      (ctx.Self.Container = none →
        ∀ (j : Nat) (c' : Container), ctx.containerArena[j]? = some c' →
          c'.metadata.UUID ≠ cfg.SelfId)) ∧
    (cfg.SelfId = "" →
      (∀ (j : Nat) (c' : Container), ctx.containerArena[j]? = some c' →
        c'.metadata.UUID ≠ "") →
      (∀ p : Nat, ctx.Self.Container = some p →
        ∃ c : Container, ctx.containerArena[p]? = some c ∧ c.metadata.UUID = metaSelf.UUID ∧
          ∀ (j : Nat) (c' : Container), p < j → ctx.containerArena[j]? = some c' →
            c'.metadata.UUID ≠ metaSelf.UUID) ∧
      (ctx.Self.Container = none →
        ∀ (j : Nat) (c' : Container), ctx.containerArena[j]? = some c' →
          c'.metadata.UUID ≠ metaSelf.UUID)) := by
  obtain ⟨mst, msv, mc, mh, ms, -, -, -, -, h5, ⟨R⟩⟩ := run_of_createContext cfg client ctx hrun
  rw [hself] at h5
  cases h5
  constructor
  · intro hne
    have hiff : ∀ u, selfMatches cfg metaSelf u ↔ u = cfg.SelfId := by
      intro u
      unfold selfMatches
      constructor
      · rintro (⟨-, h⟩ | h)
        · exact absurd h hne
        · exact h
      · intro h
        exact Or.inr h
    constructor
    · intro p hp
      obtain ⟨c, hc, hm, -, -, -, hlast⟩ := run_self_set R p hp
      refine ⟨c, hc, (hiff _).1 hm, ?_⟩
      intro j c' hj hc' heq
      exact hlast j c' hj hc' ((hiff _).2 heq)
    · intro hp j c' hc' heq
      exact (run_self_unset R hp).2.2.2 j c' hc' ((hiff _).2 heq)
  · intro he hnonempty
    have hiff : ∀ (j : Nat) (c' : Container), ctx.containerArena[j]? = some c' →
        (selfMatches cfg metaSelf c'.metadata.UUID ↔ c'.metadata.UUID = metaSelf.UUID) := by
      intro j c' hc'
      unfold selfMatches
      constructor
      · rintro (⟨h, -⟩ | h)
        · exact h
        · rw [he] at h
          exact absurd h (hnonempty j c' hc')
      · intro h
        exact Or.inl ⟨h, he⟩
    constructor
    · intro p hp
      obtain ⟨c, hc, hm, -, -, -, hlast⟩ := run_self_set R p hp
      refine ⟨c, hc, (hiff p c hc).1 hm, ?_⟩
      intro j c' hj hc' heq
      exact hlast j c' hj hc' ((hiff j c' hc').2 heq)
    · intro hp j c' hc' heq
      exact (run_self_unset R hp).2.2.2 j c' hc' ((hiff j c' hc').2 heq)

/-- The choice of Self.Container in the graph of `webSnapshot` with an empty override. -/
theorem self_container_choice_witness :
    createContext { SelfId := "" } webSnapshot = .ok webGraph ∧
    webSnapshot.GetSelfContainer = .ok (exContainer "app-1" "c1" "web" "app" 1 []) ∧
    ((({ SelfId := "" } : Config).SelfId ≠ "" →
      (∀ p : Nat, webGraph.Self.Container = some p →
        ∃ c : Container, webGraph.containerArena[p]? = some c ∧
          c.metadata.UUID = ({ SelfId := "" } : Config).SelfId ∧
          ∀ (j : Nat) (c' : Container), p < j → webGraph.containerArena[j]? = some c' →
            c'.metadata.UUID ≠ ({ SelfId := "" } : Config).SelfId) ∧
      (webGraph.Self.Container = none →
        ∀ (j : Nat) (c' : Container), webGraph.containerArena[j]? = some c' →
          c'.metadata.UUID ≠ ({ SelfId := "" } : Config).SelfId)) ∧
    (({ SelfId := "" } : Config).SelfId = "" →
      (∀ (j : Nat) (c' : Container), webGraph.containerArena[j]? = some c' →
        c'.metadata.UUID ≠ "") →
      (∀ p : Nat, webGraph.Self.Container = some p →
        ∃ c : Container, webGraph.containerArena[p]? = some c ∧
          c.metadata.UUID = (exContainer "app-1" "c1" "web" "app" 1 []).UUID ∧
          ∀ (j : Nat) (c' : Container), p < j → webGraph.containerArena[j]? = some c' →
            c'.metadata.UUID ≠ (exContainer "app-1" "c1" "web" "app" 1 []).UUID) ∧
      (webGraph.Self.Container = none →
        ∀ (j : Nat) (c' : Container), webGraph.containerArena[j]? = some c' →
          c'.metadata.UUID ≠ (exContainer "app-1" "c1" "web" "app" 1 []).UUID))) :=
  ⟨rfl, rfl, self_container_choice { SelfId := "" } webSnapshot _ _ rfl rfl⟩

end RancherConf

namespace RancherConf

/-! ## Sidekick services and their parent -/

section Run

variable {cfg : Config} {metaStacks : List MetaStack} {metaServices : List MetaService}
  {metaContainers : List MetaContainer} {metaHosts : List MetaHost} {metaSelf : MetaContainer}
  {ctx : TemplateContext}

theorem run_service_parent_kept
    (R : BuildRun cfg metaStacks metaServices metaContainers metaHosts metaSelf ctx)
    (t : Nat)
    (hfree : ∀ (i : Nat) (c : Container), ctx.containerArena[i]? = some c →
      c.Service = some t → c.Parent = none) :
    (ctx.serviceArena[t]?).map (fun s => s.Parent) = (R.sa1[t]?).map (fun s => s.Parent) := by
  have hL := run_link R
  have h1 := hL.svcParent t ?_
  · rw [← (run_ctx_fields R).2.1] at h1
    exact h1.trans ((nestedSortLoop_ok _ _ _ R.hns).parent t)
  · intro i hi
    by_cases hso : serviceOf R.cl.arena i = some t
    · left
      have hin : i < metaContainers.length := by
        have hperm := run_containers_perm R
        rw [(run_ctx_fields R).2.2.2.2.1] at hperm
        exact List.mem_range.1 (hperm.mem_iff.1 hi)
      have hic : i < ctx.containerArena.length := by rw [run_container_length R]; exact hin
      have hc : ctx.containerArena[i]? = some ctx.containerArena[i] :=
        List.getElem?_eq_getElem hic
      obtain ⟨x, hx, hxfr⟩ := run_container_to_loop R i _ hc
      have hsvc : (ctx.containerArena[i]).Service = some t := by
        have e := congrArg Container.Service hxfr
        simp only [Container.frozen] at e
        rw [← e]
        simpa [serviceOf, hx] using hso
      have hpn := hfree i _ hc hsvc
      have hpar := hL.parent i
      rw [← (run_ctx_fields R).1, hc] at hpar
      simp only [hx, Option.map_some', Option.some.injEq] at hpar
      cases hlp : linkedParent R.cl.deploymentParent R.cl.arena i with
      | none => rfl
      | some q =>
        simp only [hlp] at hpar
        rw [hpn] at hpar
        simp [hi] at hpar
    · right
      exact hso

end Run

/-- C4, counterexample: in the graph of `orphanSidekickSnapshot` the service `db` has the
Sidekick flag and no Parent, because no primary declares it; in the graph of
`foreignUnitSnapshot` the Parent of the sidekick service `db` is `other`, the service of the
primary container of its container's deployment unit, which does not declare `db`. -/
theorem sidekick_service_parent_not_declaring :
    (createContext { SelfId := "" } orphanSidekickSnapshot =
        .ok orphanSidekickGraph ∧
      ∃ S : Service, orphanSidekickGraph.serviceArena[1]? = some S ∧
        S.Sidekick = true ∧ S.Parent = none) ∧
    (createContext { SelfId := "" } foreignUnitSnapshot = .ok foreignUnitGraph ∧
      ∃ S P : Service, foreignUnitGraph.serviceArena[1]? = some S ∧
      S.Sidekick = true ∧ S.Parent = some 2 ∧
      foreignUnitGraph.serviceArena[2]? = some P ∧
      S.metadata.Name ∉ P.metadata.Sidekicks) :=
  ⟨⟨rfl, _, rfl, rfl, rfl⟩, ⟨rfl, _, _, rfl, rfl, rfl, rfl, by decide⟩⟩

/-- The Parent that the loop over `sidekickParent` leaves, when the linking loop does not
overwrite it: let S be a service of stack T that is declared as a sidekick by at least one
primary service of T.  If no stack name contains a '.', S is the last service record of its
name in T, and no container linked to S has a Parent, then S.Parent is the last primary
service of T, in input order, whose declared sidekick-name list contains S.Name. -/
theorem sidekick_service_parent_declared (cfg : Config) (client : Client) (ctx : TemplateContext)
    (hrun : createContext cfg client = .ok ctx)
    (t : Nat) (S : Service) (hS : ctx.serviceArena[t]? = some S)
    (hdots : ∀ (j : Nat) (s : Service), ctx.serviceArena[j]? = some s →
      '.' ∉ s.metadata.StackName.data)
    (hlast : ∀ (j : Nat) (s : Service), t < j → ctx.serviceArena[j]? = some s →
      ¬ (s.metadata.StackName = S.metadata.StackName ∧ s.metadata.Name = S.metadata.Name))
    (hdecl : ∃ (j : Nat) (P : Service), ctx.serviceArena[j]? = some P ∧ P.Primary = true ∧
      P.metadata.StackName = S.metadata.StackName ∧ S.metadata.Name ∈ P.metadata.Sidekicks)
    (hfree : ∀ (i : Nat) (c : Container), ctx.containerArena[i]? = some c →
      c.Service = some t → c.Parent = none) :
    ∃ (p : Nat) (P : Service), S.Parent = some p ∧ ctx.serviceArena[p]? = some P ∧
      P.Primary = true ∧ P.metadata.StackName = S.metadata.StackName ∧
      S.metadata.Name ∈ P.metadata.Sidekicks ∧
      ∀ (j : Nat) (P' : Service), p < j → ctx.serviceArena[j]? = some P' →
        ¬ (P'.Primary = true ∧ P'.metadata.StackName = S.metadata.StackName ∧
          S.metadata.Name ∈ P'.metadata.Sidekicks) := by
  obtain ⟨mst, msv, mc, mh, ms, -, -, -, -, -, ⟨R⟩⟩ := run_of_createContext cfg client ctx hrun
  have hI := run_serviceInv R
  -- transfer of the fixed fields between the loop arena and the final arena
  have hfields : ∀ (j : Nat) (s x : Service), ctx.serviceArena[j]? = some s →
      R.svl.arena[j]? = some x → x.metadata = s.metadata ∧ x.Primary = s.Primary := by
    intro j s x hs hx
    obtain ⟨x', hx', hcore⟩ := run_service_to_loop R j s hs
    rw [hx] at hx'
    cases hx'
    have e1 := congrArg Service.metadata hcore
    have e2 := congrArg Service.Primary hcore
    simp only [Service.core] at e1 e2
    exact ⟨e1, e2⟩
  obtain ⟨xt, hxt, hxtcore⟩ := run_service_to_loop R t S hS
  have hxtm : xt.metadata = S.metadata := (hfields t S xt hS hxt).1
  have hxtq : xt.qualifiedName = S.metadata.StackName ++ "." ++ S.metadata.Name := by
    unfold Service.qualifiedName
    rw [hxtm]
  -- `serviceMap` files S under its qualified name
  have hmap : mapIndex R.svl.serviceMap (S.metadata.StackName ++ "." ++ S.metadata.Name) =
      some t := by
    have hsome := hI.mapTotal t xt hxt
    rw [hxtq] at hsome
    obtain ⟨t', ht'⟩ := Option.isSome_iff_exists.1 hsome
    obtain ⟨y, hy, hyq, hylast⟩ := hI.mapSome _ t' ht'
    have hle : ¬ t' < t := fun hlt => hylast t xt hlt hxt hxtq
    have hge : ¬ t < t' := by
      intro hlt
      obtain ⟨s, hs, hscore⟩ := run_service_of_loop R t' y hy
      have hsq : s.qualifiedName = S.metadata.StackName ++ "." ++ S.metadata.Name :=
        (qualifiedName_of_core _ _ hscore).trans hyq
      have := qualified_inj _ _ _ _ (hdots t' s hs) (hdots t S hS) hsq
      exact hlast t' s hlt hs this
    have : t' = t := by omega
    rw [← this]
    exact ht'
  -- `sidekickParent` has an entry for that name
  obtain ⟨j, P, hP, hPprim, hPstack, hPdecl⟩ := hdecl
  obtain ⟨xj, hxj, -⟩ := run_service_to_loop R j P hP
  obtain ⟨hxjm, hxjp⟩ := hfields j P xj hP hxj
  have hsk := hI.skTotal j xj hxj (by rw [hxjp]; exact hPprim) S.metadata.Name
    (by rw [hxjm]; exact hPdecl)
  rw [hxjm, hPstack] at hsk
  obtain ⟨p, hp⟩ := Option.isSome_iff_exists.1 hsk
  obtain ⟨xp, hxp, hxpprim, ⟨sk, hskmem, hskkey⟩, hxplast⟩ := hI.skSome _ p hp
  obtain ⟨Pp, hPp, hPpcore⟩ := run_service_of_loop R p xp hxp
  obtain ⟨hxpm, hxpp⟩ := hfields p Pp xp hPp hxp
  have hinj := qualified_inj _ _ _ _ (by rw [hxpm]; exact hdots p Pp hPp) (hdots t S hS) hskkey
  -- the Parent written by the loop over `sidekickParent`
  have hsa1 : (R.sa1[t]?).map (fun s => s.Parent) = some (some p) := by
    have hspec := sidekickLoop_ok _ _ _ _ R.hsa1
    have hmem := mem_of_mapIndex_eq_some _ _ _ hp
    rw [hspec.parentSet t (_, p) hmem hmap ?_, hxt]
    · rfl
    · intro e' he' he't
      obtain ⟨y, hy, hyq, -⟩ := hI.mapSome _ t he't
      rw [hxt] at hy
      cases hy
      have hkey : e'.1 = S.metadata.StackName ++ "." ++ S.metadata.Name := by
        rw [← hyq, hxtq]
      have h1 := mapIndex_eq_some_of_mem _ e'.1 e'.2 hI.skNodup he'
      rw [hkey, hp] at h1
      exact (Option.some.inj h1).symm
  have hfinal := run_service_parent_kept R t hfree
  rw [hsa1, hS] at hfinal
  simp only [Option.map_some', Option.some.injEq] at hfinal
  refine ⟨p, Pp, hfinal, hPp, by rw [← hxpp]; exact hxpprim, by rw [← hxpm]; exact hinj.1,
    by rw [← hxpm, ← hinj.2]; exact hskmem, ?_⟩
  rintro j' P' hj' hP' ⟨hP'prim, hP'stack, hP'decl⟩
  obtain ⟨xj', hxj', -⟩ := run_service_to_loop R j' P' hP'
  obtain ⟨hxj'm, hxj'p⟩ := hfields j' P' xj' hP' hxj'
  refine hxplast j' xj' hj' hxj' (by rw [hxj'p]; exact hP'prim) S.metadata.Name
    (by rw [hxj'm]; exact hP'decl) ?_
  rw [hxj'm, hP'stack]

theorem forall_getElem?_of_forall_mem {α : Type} {P : α → Prop} (l : List α)
    (h : ∀ a ∈ l, P a) : ∀ (i : Nat) (a : α), l[i]? = some a → P a := by
  intro i a hi
  have hlt := lt_length_of_getElem?_eq_some _ _ _ hi
  rw [List.getElem?_eq_getElem hlt] at hi
  cases hi
  exact h _ (List.getElem_mem _)

end RancherConf

namespace RancherConf

variable (uc : FoldTable)

/-! ## Splitting strings -/

theorem splitRunes_ne_nil (sep : Char) (l : List Char) : splitRunes sep l ≠ [] := by
  induction l with
  | nil => simp [splitRunes]
  | cons c cs ih =>
    unfold splitRunes
    split
    · simp
    · split <;> simp

theorem splitRunes_of_not_mem (sep : Char) (l : List Char) (h : sep ∉ l) :
    splitRunes sep l = [l] := by
  induction l with
  | nil => rfl
  | cons c cs ih =>
    have hc : c ≠ sep := fun e => h (by simp [e])
    have hcs : sep ∉ cs := fun e => h (by simp [e])
    unfold splitRunes
    rw [if_neg hc, ih hcs]

theorem splitRunes_append_sep (sep : Char) (l1 l2 : List Char) (h : sep ∉ l1) :
    splitRunes sep (l1 ++ sep :: l2) = l1 :: splitRunes sep l2 := by
  induction l1 with
  | nil => simp [splitRunes]
  | cons c cs ih =>
    have hc : c ≠ sep := fun e => h (by simp [e])
    have hcs : sep ∉ cs := fun e => h (by simp [e])
    rw [List.cons_append]
    simp only [splitRunes, if_neg hc, ih hcs]

theorem splitRunes_length (sep : Char) (l : List Char) :
    (splitRunes sep l).length = l.count sep + 1 := by
  induction l with
  | nil => rfl
  | cons c cs ih =>
    unfold splitRunes
    by_cases hc : c = sep
    · rw [if_pos hc, List.length_cons, ih, hc, List.count_cons_self]
    · rw [if_neg hc, List.count_cons_of_ne (fun e => hc e.symm)]
      rcases hs : splitRunes sep cs with _ | ⟨p, ps⟩
      · exact absurd hs (splitRunes_ne_nil sep cs)
      · rw [hs] at ih
        simpa using ih

theorem Split_of_not_mem (s : String) (sep : Char) (h : sep ∉ s.data) : Split s sep = [s] := by
  unfold Split
  rw [splitRunes_of_not_mem sep s.data h]
  rfl

theorem Split_append_sep (a b : String) (sep : Char) (h : sep ∉ a.data) :
    Split (a ++ String.singleton sep ++ b) sep = a :: Split b sep := by
  unfold Split
  have hd : (a ++ String.singleton sep ++ b).data = a.data ++ sep :: b.data := by
    simp [String.data_append, String.singleton]
  rw [hd, splitRunes_append_sep sep a.data b.data h]
  rfl

theorem Split_length (s : String) (sep : Char) :
    (Split s sep).length = s.data.count sep + 1 := by
  unfold Split
  rw [List.length_map, splitRunes_length]

theorem Split_pair (a b : String) (sep : Char) (ha : sep ∉ a.data) (hb : sep ∉ b.data) :
    Split (a ++ String.singleton sep ++ b) sep = [a, b] := by
  rw [Split_append_sep a b sep ha, Split_of_not_mem b sep hb]

/-! ## parseServicePorts -/

theorem parseServicePort_two (pub inner proto : String) (hpub : ':' ∉ pub.data)
    (hint : ':' ∉ inner.data ∧ '/' ∉ inner.data) (hproto : ':' ∉ proto.data ∧ '/' ∉ proto.data) :
    parseServicePort (pub ++ ":" ++ inner ++ "/" ++ proto) =
      some { BindAddress := "", PublicPort := pub, InternalPort := inner, Protocol := proto } := by
  have hrest : ':' ∉ (inner ++ "/" ++ proto).data := by
    simp [String.data_append, hint.1, hproto.1]
  have h1 : Split (pub ++ ":" ++ inner ++ "/" ++ proto) ':' = [pub, inner ++ "/" ++ proto] := by
    have e : pub ++ ":" ++ inner ++ "/" ++ proto =
        pub ++ String.singleton ':' ++ (inner ++ "/" ++ proto) := by
      apply String.ext
      simp [String.data_append, String.singleton]
    rw [e]
    exact Split_pair pub (inner ++ "/" ++ proto) ':' hpub hrest
  have h2 : Split (inner ++ "/" ++ proto) '/' = [inner, proto] :=
    Split_pair inner proto '/' hint.2 hproto.2
  unfold parseServicePort
  rw [h1]
  simp only [h2]

theorem parseServicePort_three (bind pub inner proto : String) (hbind : ':' ∉ bind.data)
    (hpub : ':' ∉ pub.data) (hint : ':' ∉ inner.data ∧ '/' ∉ inner.data)
    (hproto : ':' ∉ proto.data ∧ '/' ∉ proto.data) :
    parseServicePort (bind ++ ":" ++ pub ++ ":" ++ inner ++ "/" ++ proto) =
      some { BindAddress := bind, PublicPort := pub, InternalPort := inner,
             Protocol := proto } := by
  have hrest : ':' ∉ (inner ++ "/" ++ proto).data := by
    simp [String.data_append, hint.1, hproto.1]
  have h1 : Split (bind ++ ":" ++ pub ++ ":" ++ inner ++ "/" ++ proto) ':' =
      [bind, pub, inner ++ "/" ++ proto] := by
    have e : bind ++ ":" ++ pub ++ ":" ++ inner ++ "/" ++ proto =
        bind ++ String.singleton ':' ++ (pub ++ String.singleton ':' ++ (inner ++ "/" ++ proto)) := by
      apply String.ext
      simp [String.data_append, String.singleton]
    rw [e, Split_append_sep bind _ ':' hbind]
    rw [Split_pair pub (inner ++ "/" ++ proto) ':' hpub hrest]
  have h2 : Split (inner ++ "/" ++ proto) '/' = [inner, proto] :=
    Split_pair inner proto '/' hint.2 hproto.2
  unfold parseServicePort
  rw [h1]
  simp only [h2]

/-- C13: for strings `bind`, `pub`, `int`, `proto` without ':' (and `int`, `proto` without
'/'), `parseServicePorts` turns the single entry `pub:int/proto` into exactly one ServicePort
with an empty BindAddress and the three fields, and the single entry `bind:pub:int/proto` into
exactly one ServicePort with BindAddress `bind`; "8080:80/tcp" and "10.0.0.1:8080:80/tcp" are
the two examples. -/
theorem parseServicePorts_well_formed (bind pub int proto : String)
    (hbind : ':' ∉ bind.data) (hpub : ':' ∉ pub.data)
    (hint : ':' ∉ int.data ∧ '/' ∉ int.data) (hproto : ':' ∉ proto.data ∧ '/' ∉ proto.data) :
    parseServicePorts [pub ++ ":" ++ int ++ "/" ++ proto] =
        [{ BindAddress := "", PublicPort := pub, InternalPort := int, Protocol := proto }] ∧
      parseServicePorts [bind ++ ":" ++ pub ++ ":" ++ int ++ "/" ++ proto] =
        [{ BindAddress := bind, PublicPort := pub, InternalPort := int, Protocol := proto }] ∧
      parseServicePorts ["8080:80/tcp"] =
        [{ BindAddress := "", PublicPort := "8080", InternalPort := "80", Protocol := "tcp" }] ∧
      parseServicePorts ["10.0.0.1:8080:80/tcp"] =
        [{ BindAddress := "10.0.0.1", PublicPort := "8080", InternalPort := "80",
           Protocol := "tcp" }] := by
  refine ⟨?_, ?_, by decide, by decide⟩
  · simp [parseServicePorts, parseServicePort_two pub int proto hpub hint hproto]
  · simp [parseServicePorts, parseServicePort_three bind pub int proto hbind hpub hint hproto]

/-- Witness for C13 at bind = "10.0.0.1", pub = "8080", int = "80", proto = "tcp". -/
theorem parseServicePorts_well_formed_witness :
    parseServicePorts ["8080" ++ ":" ++ "80" ++ "/" ++ "tcp"] =
        [{ BindAddress := "", PublicPort := "8080", InternalPort := "80", Protocol := "tcp" }] ∧
      parseServicePorts ["10.0.0.1" ++ ":" ++ "8080" ++ ":" ++ "80" ++ "/" ++ "tcp"] =
        [{ BindAddress := "10.0.0.1", PublicPort := "8080", InternalPort := "80",
           Protocol := "tcp" }] :=
  have h := parseServicePorts_well_formed "10.0.0.1" "8080" "80" "tcp"
    (by decide) (by decide) (by decide) (by decide)
  ⟨h.1, h.2.1⟩

theorem parseServicePort_isSome (port : String) :
    (parseServicePort port).isSome = portShape port := by
  unfold parseServicePort portShape
  rcases h : Split port ':' with _ | ⟨a, _ | ⟨b, _ | ⟨c, _ | ⟨d, t⟩⟩⟩⟩
  · simp
  · simp
  · rcases h2 : Split b '/' with _ | ⟨x, _ | ⟨y, _ | ⟨z, u⟩⟩⟩ <;> simp [List.getLastD, h2]
  · rcases h2 : Split c '/' with _ | ⟨x, _ | ⟨y, _ | ⟨z, u⟩⟩⟩ <;> simp [List.getLastD, h2]
  · simp

theorem parseServicePorts_pairing (ports : List String) :
    List.Forall₂ (fun port sp => parseServicePort port = some sp)
      (ports.filter portShape) (parseServicePorts ports) := by
  induction ports with
  | nil => exact List.Forall₂.nil
  | cons p ps ih =>
    have hs := parseServicePort_isSome p
    unfold parseServicePorts at ih ⊢
    rcases hp : parseServicePort p with _ | sp
    · rw [hp] at hs
      have hf : portShape p = false := by simpa using hs.symm
      rw [List.filter_cons_of_neg (by simp [hf]), List.filterMap_cons_none hp]
      exact ih
    · rw [hp] at hs
      have hf : portShape p = true := by simpa using hs.symm
      rw [List.filter_cons_of_pos hf, List.filterMap_cons_some hp]
      exact List.Forall₂.cons hp ih

/-- C14: for every list of port strings `parseServicePorts` yields a list (it is a total
function) that holds, in input order, exactly one ServicePort for each entry that splits on
':' into 2 or 3 segments and whose last segment splits on '/' into 2 pieces: an entry yields
a ServicePort exactly when it has that shape, the entries of that shape and the result
correspond one to one in order, "not-a-port", "8080:80" and "a:b:c:d/tcp" contribute nothing,
and the result is never longer than the input. -/
theorem parseServicePorts_keeps_shaped (ports : List String) :
    (∀ port : String, (parseServicePort port).isSome = portShape port) ∧
      List.Forall₂ (fun port sp => parseServicePort port = some sp)
        (ports.filter portShape) (parseServicePorts ports) ∧
      (parseServicePorts ports).length = (ports.filter portShape).length ∧
      (parseServicePorts ports).length ≤ ports.length ∧
      parseServicePorts ["not-a-port", "8080:80", "a:b:c:d/tcp"] = [] ∧
      parseServicePorts ("not-a-port" :: "8080:80" :: "a:b:c:d/tcp" :: ports) =
        parseServicePorts ports := by
  have h2 := parseServicePorts_pairing ports
  refine ⟨parseServicePort_isSome, h2, h2.length_eq.symm, ?_, by decide, ?_⟩
  · rw [← h2.length_eq]
    exact List.length_filter_le _ _
  · have e1 : parseServicePort "not-a-port" = none := by decide
    have e2 : parseServicePort "8080:80" = none := by decide
    have e3 : parseServicePort "a:b:c:d/tcp" = none := by decide
    simp [parseServicePorts, e1, e2, e3]

/-! ## GetService: malformed identifiers -/

/-- C15: for every context and every identifier with two or more '.' characters, `GetService`
returns the error "(service) invalid service identifier", which is not a NotFoundError, and no
service, whatever the context holds. -/
theorem getService_malformed_identifier (c : TemplateContext) (identifier : String)
    (rest : List String) (h : 2 ≤ identifier.data.count '.') :
    GetService uc c (identifier :: rest) =
      .error (.other ("(service) invalid service identifier '" ++ identifier ++ "'")) := by
  have hne : identifier ≠ "" := by
    intro e
    rw [e] at h
    simp at h
  have hl := Split_length identifier '.'
  unfold GetService
  simp only [List.headD_cons, if_neg hne]
  rcases hs : Split identifier '.' with _ | ⟨a, _ | ⟨b, _ | ⟨d, t⟩⟩⟩
  · rfl
  · rw [hs] at hl; simp only [List.length_cons, List.length_nil] at hl; omega
  · rw [hs] at hl; simp only [List.length_cons, List.length_nil] at hl; omega
  · rfl

/-- Witness for C15 at the identifier "a.b.c" in the context of the `web` snapshot. -/
theorem getService_malformed_identifier_witness :
    GetService exampleFold webGraph ["a.b.c"] =
      .error (.other ("(service) invalid service identifier '" ++ "a.b.c" ++ "'")) :=
  getService_malformed_identifier exampleFold webGraph "a.b.c" [] (by decide)

end RancherConf

namespace RancherConf

variable (uc : FoldTable)

/-! ## createContext: failures -/

/-- C11: the snapshot `unresolvedSelfSnapshot` serves all five fetches without error, and its
self container names a service `ghost` and a UUID `c9` that no record carries; with no
override, and with the override "c9", `createContext` ends in the nil dereference of
`ctx.Self.Service.Containers` rather than returning an error value. -/
theorem createContext_unresolved_self_panics :
    createContext { SelfId := "" } unresolvedSelfSnapshot = .error .nilDeref ∧
      createContext { SelfId := "c9" } unresolvedSelfSnapshot = .error .nilDeref :=
  ⟨rfl, rfl⟩

/-- C12: a failing fetch ends `createContext` with that fetch's error and without a context,
and the fetches are tried in the order stacks, services, containers, hosts, self container: a
failure is reported whenever all fetches before it succeeded, whatever the later ones give. -/
theorem createContext_fetch_failure (cfg : Config) (e : String)
    (stackRecords : List MetaStack) (services : List MetaService)
    (containers : List MetaContainer) (hosts : List MetaHost)
    (r2 : Except String (List MetaService)) (r3 : Except String (List MetaContainer))
    (r4 : Except String (List MetaHost)) (r5 : Except String MetaContainer) :
    createContext cfg { GetStacks := .error e, GetServices := r2, GetContainers := r3,
                        GetHosts := r4, GetSelfContainer := r5 } = .error (.fetch e) ∧
      createContext cfg { GetStacks := .ok stackRecords, GetServices := .error e,
                          GetContainers := r3, GetHosts := r4, GetSelfContainer := r5 } =
        .error (.fetch e) ∧
      createContext cfg { GetStacks := .ok stackRecords, GetServices := .ok services,
                          GetContainers := .error e, GetHosts := r4,
                          GetSelfContainer := r5 } = .error (.fetch e) ∧
      createContext cfg { GetStacks := .ok stackRecords, GetServices := .ok services,
                          GetContainers := .ok containers, GetHosts := .error e,
                          GetSelfContainer := r5 } = .error (.fetch e) ∧
      createContext cfg { GetStacks := .ok stackRecords, GetServices := .ok services,
                          GetContainers := .ok containers, GetHosts := .ok hosts,
                          GetSelfContainer := .error e } = .error (.fetch e) :=
  ⟨rfl, rfl, rfl, rfl, rfl⟩

/-! ## The template functions service, host and stack -/

/-- C18: for every context and argument list, `serviceFunc`, `hostFunc` and `stackFunc` give
the absent value without error when `GetService`, `GetHost`, `GetStack` return a
NotFoundError, give the found entity without error on success, and hand any other failure on
unchanged. -/
theorem lookup_funcs_absent_on_not_found (ctx : TemplateContext) (s : List String) :
    ((∀ msg : String, GetService uc ctx s = .error (.notFound msg) → serviceFunc uc ctx s = .ok none) ∧
      (∀ x : Service, GetService uc ctx s = .ok x → serviceFunc uc ctx s = .ok (some x)) ∧
      (∀ e : LookupError, GetService uc ctx s = .error e → (∀ msg : String, e ≠ .notFound msg) →
        serviceFunc uc ctx s = .error e)) ∧
    ((∀ msg : String, GetHost uc ctx s = .error (.notFound msg) → hostFunc uc ctx s = .ok none) ∧
      (∀ x : Host, GetHost uc ctx s = .ok x → hostFunc uc ctx s = .ok (some x)) ∧
      (∀ e : LookupError, GetHost uc ctx s = .error e → (∀ msg : String, e ≠ .notFound msg) →
        hostFunc uc ctx s = .error e)) ∧
    ((∀ msg : String, GetStack uc ctx s = .error (.notFound msg) → stackFunc uc ctx s = .ok none) ∧
      (∀ x : Stack, GetStack uc ctx s = .ok x → stackFunc uc ctx s = .ok (some x)) ∧
      (∀ e : LookupError, GetStack uc ctx s = .error e → (∀ msg : String, e ≠ .notFound msg) →
        stackFunc uc ctx s = .error e)) := by
  refine ⟨⟨?_, ?_, ?_⟩, ⟨?_, ?_, ?_⟩, ⟨?_, ?_, ?_⟩⟩
  · intro msg h; unfold serviceFunc; rw [h]
  · intro x h; unfold serviceFunc; rw [h]
  · intro e h hne; unfold serviceFunc; rw [h]
    cases e with
    | notFound msg => exact absurd rfl (hne msg)
    | other msg => rfl
    | nilDeref => rfl
    | sliceBounds => rfl
  · intro msg h; unfold hostFunc; rw [h]
  · intro x h; unfold hostFunc; rw [h]
  · intro e h hne; unfold hostFunc; rw [h]
    cases e with
    | notFound msg => exact absurd rfl (hne msg)
    | other msg => rfl
    | nilDeref => rfl
    | sliceBounds => rfl
  · intro msg h; unfold stackFunc; rw [h]
  · intro x h; unfold stackFunc; rw [h]
  · intro e h hne; unfold stackFunc; rw [h]
    cases e with
    | notFound msg => exact absurd rfl (hne msg)
    | other msg => rfl
    | nilDeref => rfl
    | sliceBounds => rfl

/-- Witness for C18 in the context of the `web` snapshot: the service `nope`, the host `zz`
and the stack `zz` are absent without error, the service `app` is found, and the malformed
identifier `a.b.c` keeps its error. -/
theorem lookup_funcs_absent_on_not_found_witness :
    serviceFunc exampleFold webGraph ["nope"] = .ok none ∧
      hostFunc exampleFold webGraph ["zz"] = .ok none ∧
      stackFunc exampleFold webGraph ["zz"] = .ok none ∧
      (serviceFunc exampleFold webGraph ["app"]).toOption.isSome = true ∧
      serviceFunc exampleFold webGraph ["a.b.c"] =
        .error (.other "(service) invalid service identifier 'a.b.c'") :=
  have h1 := lookup_funcs_absent_on_not_found exampleFold webGraph ["nope"]
  have h2 := lookup_funcs_absent_on_not_found exampleFold webGraph ["zz"]
  have h3 := lookup_funcs_absent_on_not_found exampleFold webGraph ["a.b.c"]
  ⟨h1.1.1 _ rfl, h2.2.1.1 _ rfl, h2.2.2.1 _ rfl, rfl,
    h3.1.2.2 _ rfl (fun _ h => LookupError.noConfusion h)⟩

end RancherConf

namespace RancherConf

variable (uc : FoldTable)

/-! ## Well-linked contexts -/

theorem wellLinked_mem (c : TemplateContext) (h : wellLinked c = true) (p : Nat)
    (hp : p ∈ c.Services) :
    ∃ (s : Service) (sp : Nat) (t : Stack),
      c.serviceArena[p]? = some s ∧ s.Stack = some sp ∧ c.stackArena[sp]? = some t := by
  unfold wellLinked at h
  rw [List.all_eq_true] at h
  have hp' := h p hp
  rcases hs : c.serviceArena[p]? with _ | s
  · rw [hs] at hp'; simp at hp'
  · rw [hs] at hp'
    simp only at hp'
    rcases hsp : s.Stack with _ | sp
    · rw [hsp] at hp'; simp at hp'
    · rw [hsp] at hp'
      simp only at hp'
      rcases ht : c.stackArena[sp]? with _ | t
      · rw [ht] at hp'; simp at hp'
      · exact ⟨s, sp, t, rfl, hsp, ht⟩

theorem serviceMatches_eq (c : TemplateContext) (service stack : String) (p sp : Nat)
    (s : Service) (t : Stack) (hs : c.serviceArena[p]? = some s) (hsp : s.Stack = some sp)
    (ht : c.stackArena[sp]? = some t) :
    serviceMatches uc c service stack p =
      (EqualFold uc s.metadata.Name service && EqualFold uc t.metadata.Name stack) := by
  simp [serviceMatches, serviceName, stackNameOf, hs, hsp, ht]

theorem findService_eq_find (c : TemplateContext) (service stack : String) (ps : List Nat)
    (hwl : ∀ p ∈ ps, ∃ (s : Service) (sp : Nat) (t : Stack),
      c.serviceArena[p]? = some s ∧ s.Stack = some sp ∧ c.stackArena[sp]? = some t) :
    findService uc c service stack ps =
      .ok ((ps.find? (serviceMatches uc c service stack)).bind (fun p => c.serviceArena[p]?)) := by
  induction ps with
  | nil => rfl
  | cons p ps ih =>
    obtain ⟨s, sp, t, hs, hsp, ht⟩ := hwl p (List.mem_cons_self p ps)
    have ih' := ih (fun q hq => hwl q (List.mem_cons_of_mem p hq))
    have hm := serviceMatches_eq uc c service stack p sp s t hs hsp ht
    have hn : serviceStackName c s = .ok t.metadata.Name := by
      simp [serviceStackName, hsp, ht]
    unfold findService
    simp only [hs, hn]
    by_cases h1 : EqualFold uc s.metadata.Name service = true
    · by_cases h2 : EqualFold uc t.metadata.Name stack = true
      · have hm' : serviceMatches uc c service stack p = true := by rw [hm, h1, h2]; rfl
        rw [if_pos h1, if_pos h2, List.find?_cons_of_pos _ hm']
        simp [hs]
      · have hm' : ¬ serviceMatches uc c service stack p = true := by
          rw [hm, h1]; simpa using h2
        rw [if_pos h1, if_neg h2, List.find?_cons_of_neg _ hm']
        exact ih'
    · have hm' : ¬ serviceMatches uc c service stack p = true := by
        rw [hm]; simp [h1]
      rw [if_neg h1, List.find?_cons_of_neg _ hm']
      exact ih'

theorem findService_wellLinked (c : TemplateContext) (service stack : String)
    (hwl : wellLinked c = true) :
    findService uc c service stack c.Services =
      .ok ((c.Services.find? (serviceMatches uc c service stack)).bind
        (fun p => c.serviceArena[p]?)) :=
  findService_eq_find uc c service stack c.Services (wellLinked_mem c hwl)

theorem getService_of_names (c : TemplateContext) (identifier : String) (rest : List String)
    (name stack : String) (hne : identifier ≠ "")
    (hsplit : Split identifier '.' = [name, stack]) (hwl : wellLinked c = true) :
    GetService uc c (identifier :: rest) =
      match (c.Services.find? (serviceMatches uc c name stack)).bind
          (fun p => c.serviceArena[p]?) with
      | some s => .ok s
      | none =>
        .error (.notFound ("(service) could not find service by identifier: " ++ identifier)) := by
  unfold GetService
  simp only [List.headD_cons, if_neg hne, hsplit, findService_wellLinked uc c name stack hwl]
  cases (c.Services.find? (serviceMatches uc c name stack)).bind (fun p => c.serviceArena[p]?) <;>
    rfl

theorem find?_some_arena (c : TemplateContext) (hwl : wellLinked c = true)
    (f : Nat → Bool) (p : Nat) (h : c.Services.find? f = some p) :
    ∃ s : Service, c.serviceArena[p]? = some s := by
  obtain ⟨s, -, -, hs, -, -⟩ := wellLinked_mem c hwl p (List.mem_of_find?_eq_some h)
  exact ⟨s, hs⟩

/-! ## Graphs built by createContext are well linked -/

theorem serviceLoopStep_stackLink (arena0 : List Stack) (stackMap : GoMap Nat)
    (metaSelf : MetaContainer) (st st' : ServiceLoop) (s0 : MetaService)
    (hlen : st.stackArena.length = arena0.length)
    (hinv : ∀ (i : Nat) (x : Service), st.arena[i]? = some x →
      ∃ sp : Nat, x.Stack = some sp ∧ sp < arena0.length)
    (h : serviceLoopStep stackMap metaSelf st s0 = .ok st') :
    ∀ (i : Nat) (x : Service), st'.arena[i]? = some x →
      ∃ sp : Nat, x.Stack = some sp ∧ sp < arena0.length := by
  obtain ⟨sp, stack, hsp, hstack, hst'⟩ := serviceLoopStep_ok _ _ _ _ _ h
  intro i x hx
  have ha : st'.arena =
      st.arena ++ [newService stackMap { s0 with StackUUID := stack.metadata.UUID }] := by
    rw [hst']
  rw [ha] at hx
  by_cases hi : i < st.arena.length
  · rw [List.getElem?_append_left hi] at hx
    exact hinv i x hx
  · rw [List.getElem?_append_right (Nat.le_of_not_lt hi)] at hx
    rcases hk : i - st.arena.length with _ | k
    · rw [hk] at hx
      simp only [List.getElem?_cons_zero, Option.some.injEq] at hx
      subst hx
      refine ⟨sp, ?_, ?_⟩
      · simp only [newService]
        exact hsp
      · rw [← hlen]
        exact lt_length_of_getElem?_eq_some _ _ _ hstack
    · rw [hk] at hx
      simp at hx

section Run

variable {cfg : Config} {metaStacks : List MetaStack} {metaServices : List MetaService}
  {metaContainers : List MetaContainer} {metaHosts : List MetaHost} {metaSelf : MetaContainer}
  {ctx : TemplateContext}

theorem run_stackLink
    (R : BuildRun cfg metaStacks metaServices metaContainers metaHosts metaSelf ctx) :
    ∀ (i : Nat) (x : Service), R.svl.arena[i]? = some x →
      ∃ sp : Nat, x.Stack = some sp ∧ sp < (stackLoop metaStacks).arena.length := by
  refine (foldlM_inv _
    (fun st : ServiceLoop => st.stackArena.length = (stackLoop metaStacks).arena.length ∧
      ∀ (i : Nat) (x : Service), st.arena[i]? = some x →
        ∃ sp : Nat, x.Stack = some sp ∧ sp < (stackLoop metaStacks).arena.length)
    ?_ _ _ _ ?_ R.hsvl).2
  · intro s a s' hs hstep
    refine ⟨?_, serviceLoopStep_stackLink _ _ _ _ _ _ hs.1 hs.2 hstep⟩
    obtain ⟨sp, stack, -, -, hst'⟩ := serviceLoopStep_ok _ _ _ _ _ hstep
    rw [← hs.1, hst']
    simp only
    split
    · exact length_modifyAt _ _ _
    · rfl
  · refine ⟨rfl, ?_⟩
    intro i x hx
    simp at hx

theorem run_wellLinked
    (R : BuildRun cfg metaStacks metaServices metaContainers metaHosts metaSelf ctx) :
    wellLinked ctx = true := by
  unfold wellLinked
  rw [List.all_eq_true]
  intro p hp
  rw [(run_ctx_fields R).2.2.2.2.2.1] at hp
  have hp1 : p ∈ R.svl.services := (sortSliceStable_perm _ _).mem_iff.1 hp
  obtain ⟨hsv, hlen, -, -⟩ := serviceLoop_arena _ _ _ _ _ R.hsvl
  simp only [List.nil_append, List.length_nil, Nat.zero_add] at hsv hlen
  rw [hsv] at hp1
  have hlt : p < R.svl.arena.length := by
    rw [hlen]
    have := List.mem_range'.1 hp1
    omega
  have hx : R.svl.arena[p]? = some R.svl.arena[p] := List.getElem?_eq_getElem hlt
  obtain ⟨s, hs, hcore⟩ := run_service_of_loop R p _ hx
  obtain ⟨sp, hsp, hsplt⟩ := run_stackLink R p _ hx
  have hstk : s.Stack = some sp := by
    have e := congrArg Service.Stack hcore
    simp only [Service.core] at e
    rw [e, hsp]
  have hal : (stackLoop metaStacks).arena.length = metaStacks.length := by
    have := (stackLoop_arena metaStacks { arena := [], stackSlice := [], stackMap := [] }).1
    unfold stackLoop
    rw [this]
    simp
  have hm := run_stack_meta R sp
  rw [List.getElem?_eq_getElem (by omega : sp < metaStacks.length)] at hm
  rcases ht : ctx.stackArena[sp]? with _ | t
  · rw [ht] at hm
    simp at hm
  · simp [hs, hstk, ht]

end Run

/-- Every graph that `createContext` returns is well linked: each pointer of `Services` leads
to a service, and each such service has a stack. -/
theorem createContext_wellLinked (cfg : Config) (client : Client) (ctx : TemplateContext)
    (h : createContext cfg client = .ok ctx) : wellLinked ctx = true := by
  obtain ⟨_, _, _, _, _, -, -, -, -, -, ⟨R⟩⟩ := run_of_createContext cfg client ctx h
  exact run_wellLinked R

/-! ## GetService with a qualified identifier -/

/-- The lookup of `name.stack` in a context whose services all have a stack. -/
theorem getService_qualified_of_wellLinked (c : TemplateContext) (name stack : String) (rest : List String)
    (hwl : wellLinked c = true) (hname : '.' ∉ name.data) (hstack : '.' ∉ stack.data) :
    (∀ p : Nat, c.Services.find? (serviceMatches uc c name stack) = some p →
      ∃ s : Service, c.serviceArena[p]? = some s ∧
        GetService uc c ((name ++ "." ++ stack) :: rest) = .ok s) ∧
    (c.Services.find? (serviceMatches uc c name stack) = none →
      GetService uc c ((name ++ "." ++ stack) :: rest) =
        .error (.notFound ("(service) could not find service by identifier: " ++
          (name ++ "." ++ stack)))) ∧
    ((∃ msg : String, GetService uc c ((name ++ "." ++ stack) :: rest) = .error (.notFound msg)) ↔
      ∀ p ∈ c.Services, serviceMatches uc c name stack p = false) := by
  have hne : name ++ "." ++ stack ≠ "" := by
    intro e
    have := congrArg String.data e
    simp [String.data_append] at this
  have hsplit : Split (name ++ "." ++ stack) '.' = [name, stack] :=
    Split_pair name stack '.' hname hstack
  have hg := getService_of_names uc c (name ++ "." ++ stack) rest name stack hne hsplit hwl
  have hsome : ∀ p : Nat, c.Services.find? (serviceMatches uc c name stack) = some p →
      ∃ s : Service, c.serviceArena[p]? = some s ∧
        GetService uc c ((name ++ "." ++ stack) :: rest) = .ok s := by
    intro p hp
    obtain ⟨s, hs⟩ := find?_some_arena c hwl _ p hp
    refine ⟨s, hs, ?_⟩
    rw [hg, hp]
    simp [hs]
  have hnone : c.Services.find? (serviceMatches uc c name stack) = none →
      GetService uc c ((name ++ "." ++ stack) :: rest) =
        .error (.notFound ("(service) could not find service by identifier: " ++
          (name ++ "." ++ stack))) := by
    intro hp
    rw [hg, hp]
    rfl
  refine ⟨hsome, hnone, ?_⟩
  constructor
  · rintro ⟨msg, hmsg⟩
    rcases hf : c.Services.find? (serviceMatches uc c name stack) with _ | p
    · intro q hq
      have := List.find?_eq_none.1 hf q hq
      simpa using this
    · obtain ⟨s, -, hs⟩ := hsome p hf
      rw [hs] at hmsg
      cases hmsg
  · intro hall
    refine ⟨_, hnone (List.find?_eq_none.2 ?_)⟩
    intro q hq
    simp [hall q hq]

/-- C16: in every context that `createContext` returns, for every fold table and every
identifier `name.stack` with no '.' inside `name` or `stack`, `GetService` returns the first
service in `Services` order whose name equals `name` and whose stack name equals `stack`
under `strings.EqualFold`, and it returns a NotFoundError exactly when no service of the
context satisfies both. -/
theorem getService_qualified (cfg : Config) (client : Client) (c : TemplateContext)
    (hrun : createContext cfg client = .ok c) (name stack : String) (rest : List String)
    (hname : '.' ∉ name.data) (hstack : '.' ∉ stack.data) :
    (∀ p : Nat, c.Services.find? (serviceMatches uc c name stack) = some p →
      ∃ s : Service, c.serviceArena[p]? = some s ∧
        GetService uc c ((name ++ "." ++ stack) :: rest) = .ok s) ∧
    (c.Services.find? (serviceMatches uc c name stack) = none →
      GetService uc c ((name ++ "." ++ stack) :: rest) =
        .error (.notFound ("(service) could not find service by identifier: " ++
          (name ++ "." ++ stack)))) ∧
    ((∃ msg : String,
        GetService uc c ((name ++ "." ++ stack) :: rest) = .error (.notFound msg)) ↔
      ∀ p ∈ c.Services, serviceMatches uc c name stack p = false) :=
  getService_qualified_of_wellLinked uc c name stack rest
    (createContext_wellLinked cfg client c hrun) hname hstack

/-- Witness for C16 in the graph of the `web` snapshot: `APP.Web` finds the service `app` of
stack `web`, the first (and only) match, and `app.staging` finds none. -/
theorem getService_qualified_witness :
    createContext { SelfId := "" } webSnapshot = .ok webGraph ∧
      (∃ s : Service, webGraph.serviceArena[0]? = some s ∧ s.metadata.Name = "app" ∧
        GetService exampleFold webGraph ["APP" ++ "." ++ "Web"] = .ok s) ∧
      GetService exampleFold webGraph ["app" ++ "." ++ "staging"] =
        .error (.notFound ("(service) could not find service by identifier: " ++
          ("app" ++ "." ++ "staging"))) :=
  ⟨rfl,
    match (getService_qualified exampleFold { SelfId := "" } webSnapshot webGraph rfl "APP" "Web"
        [] (by decide) (by decide)).1 0 (by decide) with
    | ⟨s, hs, hg⟩ => ⟨s, hs, (Option.some.inj hs) ▸ rfl, hg⟩,
    (getService_qualified exampleFold { SelfId := "" } webSnapshot webGraph rfl "app" "staging"
      [] (by decide) (by decide)).2.1 (by decide)⟩

/-! ## GetService without an argument -/

/-- C17: the graph that `createContext` builds from `caseCollisionSnapshot` holds the services
`APP` (UUID sv1) and `app` (UUID sv2) of stack `web`; Self.Service is `app`, one of the
Services, and Self.Stack is set, yet `GetService` without an argument and with the empty
string returns `APP`, for every fold table: the lookup goes by the names of Self and takes
the first service whose names match under `strings.EqualFold`. -/
theorem getService_self_returns_other_service :
    createContext { SelfId := "" } caseCollisionSnapshot = .ok caseCollisionGraph ∧
      caseCollisionGraph.Self.Service = some 1 ∧
      caseCollisionGraph.Self.Stack = some 0 ∧
      1 ∈ caseCollisionGraph.Services ∧
      (caseCollisionGraph.serviceArena[1]?).map (fun s => s.metadata.UUID) = some "sv2" ∧
      (GetService uc caseCollisionGraph []).toOption.map (fun s => s.metadata.UUID) =
        some "sv1" ∧
      (GetService uc caseCollisionGraph [""]).toOption.map (fun s => s.metadata.UUID) =
        some "sv1" :=
  ⟨rfl, rfl, rfl, by decide, rfl, rfl, rfl⟩

end RancherConf

namespace RancherConf

variable (uc : FoldTable)

/-! ## The selector loop of GetServices -/

theorem mapAssign_of_not_mem {β : Type} (m : GoMap β) (k : String) (v : β)
    (h : k ∉ m.map Prod.fst) : mapAssign m k v = m ++ [(k, v)] := by
  induction m with
  | nil => rfl
  | cons e rest ih =>
    obtain ⟨k0, v0⟩ := e
    simp only [List.map_cons, List.mem_cons, not_or] at h
    have h0 : ¬ k0 = k := fun e => h.1 e.symm
    simp only [mapAssign, if_neg h0, ih h.2, List.cons_append]

theorem servicesSelectorStep_label (st : ServiceSelectors) (k v : String)
    (hk : '=' ∉ k.data) (hv : '=' ∉ v.data) :
    servicesSelectorStep st (labelSelector (k, v)) =
      .ok { st with labels := mapAssign st.labels k v } := by
  have hd : (labelSelector (k, v)).data = '@' :: (k.data ++ '=' :: v.data) := by
    simp [labelSelector, String.data_append]
  have hm : String.mk (k.data ++ '=' :: v.data) = k ++ String.singleton '=' ++ v := by
    apply String.ext
    simp [String.data_append, String.singleton]
  have hs : Split (String.mk (k.data ++ '=' :: v.data)) '=' = [k, v] := by
    rw [hm]
    exact Split_pair k v '=' hk hv
  unfold servicesSelectorStep
  rw [hd]
  simp only [hs]

theorem servicesSelectorStep_stack (st : ServiceSelectors) (n : String)
    (hst : st.stack = "") :
    servicesSelectorStep st (stackSelector n) = .ok { st with stack := n } := by
  have hd : (stackSelector n).data = '.' :: n.data := by
    simp [stackSelector, String.data_append]
  unfold servicesSelectorStep
  rw [hd, hst]
  rfl

theorem selectorFold (sels : List Selector) :
    ∀ st : ServiceSelectors,
      (∀ k v : String, Selector.label k v ∈ sels → '=' ∉ k.data ∧ '=' ∉ v.data) →
      ((labelPairs sels).map Prod.fst).Nodup →
      (∀ kv ∈ labelPairs sels, kv.1 ∉ st.labels.map Prod.fst) →
      (stackNames sels).length ≤ 1 →
      (stackNames sels ≠ [] → st.stack = "") →
      (sels.map Selector.render).foldlM servicesSelectorStep st =
        .ok { labels := st.labels ++ labelPairs sels,
              stack := (stackNames sels).headD st.stack } := by
  induction sels with
  | nil =>
    intro st _ _ _ _ _
    simp [labelPairs, stackNames, pure, Except.pure]
  | cons a rest ih =>
    intro st hwf hnd hfresh hone hempty
    cases a with
    | stack n =>
      have hstep := servicesSelectorStep_stack st n (hempty (by simp [stackNames]))
      have hrest : stackNames rest = [] := by
        simp only [stackNames, List.length_cons] at hone
        exact List.length_eq_zero.1 (by omega)
      have := ih { st with stack := n }
        (fun k v h => hwf k v (List.mem_cons_of_mem _ h))
        (by simpa [labelPairs] using hnd)
        (by simpa [labelPairs] using hfresh)
        (by simp [hrest])
        (fun h => absurd hrest h)
      simp only [List.map_cons, List.foldlM_cons, Selector.render, hstep, bind, Except.bind]
      rw [this]
      simp [labelPairs, stackNames, hrest]
    | label k v =>
      obtain ⟨hk, hv⟩ := hwf k v (List.mem_cons_self _ _)
      have hstep := servicesSelectorStep_label st k v hk hv
      simp only [labelPairs, List.map_cons, List.nodup_cons] at hnd
      have hknew : k ∉ st.labels.map Prod.fst := hfresh (k, v) (by simp [labelPairs])
      have hassign := mapAssign_of_not_mem st.labels k v hknew
      have := ih { st with labels := mapAssign st.labels k v }
        (fun k' v' h => hwf k' v' (List.mem_cons_of_mem _ h))
        hnd.2
        (by
          intro kv hkv
          rw [hassign]
          simp only [List.map_append, List.map_cons, List.map_nil, List.mem_append,
            List.mem_singleton, not_or]
          refine ⟨hfresh kv (by simp [labelPairs, hkv]), ?_⟩
          intro e
          exact hnd.1 (e ▸ List.mem_map_of_mem Prod.fst hkv))
        (by simpa [stackNames] using hone)
        (by simpa [stackNames] using hempty)
      simp only [List.map_cons, List.foldlM_cons, Selector.render, hstep, bind, Except.bind]
      rw [this, hassign]
      simp [labelPairs, stackNames]

theorem selectorFold_init (sels : List Selector)
    (hwf : ∀ k v : String, Selector.label k v ∈ sels → '=' ∉ k.data ∧ '=' ∉ v.data)
    (hnd : ((labelPairs sels).map Prod.fst).Nodup) (hone : (stackNames sels).length ≤ 1) :
    (sels.map Selector.render).foldlM servicesSelectorStep { labels := [], stack := "" } =
      .ok { labels := labelPairs sels, stack := (stackNames sels).headD "" } := by
  have := selectorFold sels { labels := [], stack := "" } hwf hnd (by simp) hone (fun _ => rfl)
  simpa using this

theorem getServices_of_fold (rx : RegexEngine) (c : TemplateContext) (selectors : List String)
    (st : ServiceSelectors) (services : List Nat) (hne : selectors ≠ [])
    (hfold : selectors.foldlM servicesSelectorStep { labels := [], stack := "" } = .ok st)
    (hstack : (if st.stack.length > 0 then filterServicesByStack uc c st.stack c.Services
      else .ok c.Services) = .ok services) :
    GetServices uc rx c selectors =
      if st.labels.length > 0 then filterServicesByLabel uc rx c st.labels services
      else .ok services := by
  cases selectors with
  | nil => exact absurd rfl hne
  | cons f fs =>
    unfold GetServices
    simp only [hfold, hstack]

/-! ## The filters -/

theorem filterServicesByStack_eq (c : TemplateContext) (stack : String) (ps : List Nat)
    (hwl : ∀ p ∈ ps, ∃ (s : Service) (sp : Nat) (t : Stack),
      c.serviceArena[p]? = some s ∧ s.Stack = some sp ∧ c.stackArena[sp]? = some t) :
    filterServicesByStack uc c stack ps =
      .ok (ps.filter (fun p => EqualFold uc (stackNameOf c p) stack)) := by
  induction ps with
  | nil => rfl
  | cons p ps ih =>
    obtain ⟨s, sp, t, hs, hsp, ht⟩ := hwl p (List.mem_cons_self p ps)
    have ih' := ih (fun q hq => hwl q (List.mem_cons_of_mem p hq))
    have hn : serviceStackName c s = .ok t.metadata.Name := by
      simp [serviceStackName, hsp, ht]
    have hname : stackNameOf c p = t.metadata.Name := by
      simp [stackNameOf, hs, hsp, ht]
    unfold filterServicesByStack
    simp only [hs, hn, ih', List.filter_cons, hname]

theorem filterServicesByLabel_eq (rx : RegexEngine) (c : TemplateContext) (labels : LabelMap)
    (ps : List Nat) (hwl : ∀ p ∈ ps, ∃ s : Service, c.serviceArena[p]? = some s) :
    filterServicesByLabel uc rx c labels ps =
      .ok (ps.filter (fun p => inLabelMap uc rx (labelsOf c p) labels)) := by
  induction ps with
  | nil => rfl
  | cons p ps ih =>
    obtain ⟨s, hs⟩ := hwl p (List.mem_cons_self p ps)
    have ih' := ih (fun q hq => hwl q (List.mem_cons_of_mem p hq))
    have hl : labelsOf c p = s.Labels := by simp [labelsOf, hs]
    unfold filterServicesByLabel
    simp only [hs, ih', List.filter_cons, hl]

theorem inLabelMap_perm (rx : RegexEngine) (labels : LabelMap) (n1 n2 : LabelMap)
    (h : n1.Perm n2) : inLabelMap uc rx labels n1 = inLabelMap uc rx labels n2 := by
  unfold inLabelMap
  rw [Bool.eq_iff_iff, List.all_eq_true, List.all_eq_true]
  constructor
  · intro h1 x hx
    exact h1 x (h.mem_iff.2 hx)
  · intro h1 x hx
    exact h1 x (h.mem_iff.1 hx)

theorem filterServicesByLabel_perm (rx : RegexEngine) (c : TemplateContext) (n1 n2 : LabelMap)
    (h : n1.Perm n2) (ps : List Nat) :
    filterServicesByLabel uc rx c n1 ps = filterServicesByLabel uc rx c n2 ps := by
  induction ps with
  | nil => rfl
  | cons p ps ih =>
    unfold filterServicesByLabel
    rw [ih]
    cases c.serviceArena[p]? with
    | none => rfl
    | some s => simp only [inLabelMap_perm uc rx s.Labels n1 n2 h]

end RancherConf

namespace RancherConf

variable (uc : FoldTable)

/-! ## GetServices with label selectors -/

theorem mem_labelPairs (sels : List Selector) (k v : String)
    (h : Selector.label k v ∈ sels) : (k, v) ∈ labelPairs sels := by
  induction sels with
  | nil => simp at h
  | cons a rest ih =>
    rcases List.mem_cons.1 h with e | hr
    · subst e
      simp [labelPairs]
    · cases a with
      | stack n => simpa [labelPairs] using ih hr
      | label k' v' => simp [labelPairs, ih hr]

theorem labelPairs_label (pairs : List (String × String)) :
    labelPairs (pairs.map (fun kv => Selector.label kv.1 kv.2)) = pairs := by
  induction pairs with
  | nil => rfl
  | cons a rest ih => simp [labelPairs, ih]

theorem stackNames_label (pairs : List (String × String)) :
    stackNames (pairs.map (fun kv => Selector.label kv.1 kv.2)) = [] := by
  induction pairs with
  | nil => rfl
  | cons a rest ih => simp [stackNames, ih]

theorem render_label (pairs : List (String × String)) :
    (pairs.map (fun kv => Selector.label kv.1 kv.2)).map Selector.render =
      pairs.map labelSelector := by
  rw [List.map_map]
  rfl

theorem getServices_labels (rx : RegexEngine) (c : TemplateContext)
    (a : String × String) (rest : List (String × String))
    (hwf : ∀ kv ∈ a :: rest, '=' ∉ kv.1.data ∧ '=' ∉ kv.2.data)
    (hkeys : ((a :: rest).map Prod.fst).Nodup) :
    GetServices uc rx c ((a :: rest).map labelSelector) =
      filterServicesByLabel uc rx c (a :: rest) c.Services := by
  have hfold := selectorFold_init ((a :: rest).map (fun kv => Selector.label kv.1 kv.2))
    (by
      intro k v h
      have := mem_labelPairs _ k v h
      rw [labelPairs_label] at this
      exact hwf (k, v) this)
    (by rw [labelPairs_label]; exact hkeys)
    (by rw [stackNames_label]; simp)
  rw [render_label, labelPairs_label, stackNames_label] at hfold
  have h0 : ¬ "".length > 0 := by decide
  rw [getServices_of_fold uc rx c _ _ c.Services (by simp) hfold
    (by simp only [List.headD_nil, if_neg h0])]
  simp only
  rw [if_pos (by simp)]

/-- C19, counterexample: in the graph of `labelledSnapshot` (service `api` labelled env=prod,
service `db` labelled env=dev) the well-formed selectors `@env=prod`, `@env=dev` select `db`,
and the same two selectors in the other order select `api`. -/
theorem getServices_selector_order_matters :
    createContext { SelfId := "" } labelledSnapshot = .ok labelledGraph ∧
      ["@env=prod", "@env=dev"].Perm ["@env=dev", "@env=prod"] ∧
      GetServices exampleFold literalEngine labelledGraph ["@env=prod", "@env=dev"] = .ok [1] ∧
      GetServices exampleFold literalEngine labelledGraph ["@env=dev", "@env=prod"] = .ok [0] :=
  ⟨rfl, List.Perm.swap _ _ _, rfl, rfl⟩

/-- C19, amended: for every context and every list of well-formed `@key=value` selectors
whose keys are pairwise distinct, `GetServices` returns the same result for every permutation
of the selectors; so `@env=prod`, `@tier=web` and `@tier=web`, `@env=prod` give the same. -/
theorem getServices_label_selectors_perm (rx : RegexEngine) (c : TemplateContext)
    (sel1 sel2 : List (String × String))
    (hwf : ∀ kv ∈ sel1, '=' ∉ kv.1.data ∧ '=' ∉ kv.2.data)
    (hkeys : (sel1.map Prod.fst).Nodup) (hperm : sel1.Perm sel2) :
    GetServices uc rx c (sel1.map labelSelector) = GetServices uc rx c (sel2.map labelSelector) := by
  cases sel1 with
  | nil =>
    rw [List.nil_perm.1 hperm]
  | cons a rest =>
    cases sel2 with
    | nil => exact absurd hperm.symm (List.nil_perm.not.2 (by simp))
    | cons b rest2 =>
      rw [getServices_labels uc rx c a rest hwf hkeys,
        getServices_labels uc rx c b rest2 (fun kv h => hwf kv (hperm.mem_iff.2 h))
          ((hperm.map Prod.fst).nodup_iff.1 hkeys)]
      exact filterServicesByLabel_perm uc rx c _ _ hperm c.Services

/-- Witness for C19: `@env=prod`, `@tier=web` against `@tier=web`, `@env=prod`, in the graph
of `labelledSnapshot`. -/
theorem getServices_label_selectors_perm_witness :
    GetServices exampleFold literalEngine labelledGraph ["@env=prod", "@tier=web"] =
      GetServices exampleFold literalEngine labelledGraph ["@tier=web", "@env=prod"] :=
  getServices_label_selectors_perm exampleFold literalEngine labelledGraph
    [("env", "prod"), ("tier", "web")] [("tier", "web"), ("env", "prod")]
    (by decide) (by decide) (List.Perm.swap _ _ _)

/-! ## GetServices with a stack selector and label selectors -/

theorem length_pos_of_ne_empty (n : String) (h : n ≠ "") : n.length > 0 := by
  have : n.data ≠ [] := fun e => h (String.ext e)
  exact List.length_pos.2 this

/-- C20, counterexample: in the graph of `labelledSnapshot`, `@env=prod` with `@env=dev`
returns `db`, whose label env=dev does not satisfy `@env=prod` (only the last selector of a
key is applied); and the stack selector `.` with the empty name returns both services,
although their stack is `web`. -/
theorem getServices_not_every_selector_applied :
    createContext { SelfId := "" } labelledSnapshot = .ok labelledGraph ∧
      GetServices exampleFold literalEngine labelledGraph ["@env=prod", "@env=dev"] = .ok [1] ∧
      labelSatisfies exampleFold literalEngine (labelsOf labelledGraph 1) "env" "prod" = false ∧
      GetServices exampleFold literalEngine labelledGraph ["."] = .ok [0, 1] ∧
      stackNameOf labelledGraph 0 = "web" ∧ stackNameOf labelledGraph 1 = "web" ∧
      EqualFold exampleFold "web" "" = false :=
  ⟨rfl, rfl, rfl, rfl, rfl, rfl, rfl⟩

/-- The selection of `GetServices` in a context whose services all have a stack. -/
theorem getServices_selectors_of_wellLinked (rx : RegexEngine) (c : TemplateContext) (sels : List Selector)
    (hwl : wellLinked c = true)
    (hone : (stackNames sels).length ≤ 1)
    (hnonempty : ∀ n ∈ stackNames sels, n ≠ "")
    (hwf : ∀ kv ∈ labelPairs sels, '=' ∉ kv.1.data ∧ '=' ∉ kv.2.data)
    (hkeys : ((labelPairs sels).map Prod.fst).Nodup) :
    GetServices uc rx c (sels.map Selector.render) =
      .ok (c.Services.filter (fun p =>
        (stackNames sels).all (fun n => EqualFold uc (stackNameOf c p) n) &&
          (labelPairs sels).all (fun kv => labelSatisfies uc rx (labelsOf c p) kv.1 kv.2))) := by
  have hval := wellLinked_mem c hwl
  cases hsels : sels with
  | nil =>
    simp [GetServices, stackNames, labelPairs]
  | cons a rest =>
    have hfold := selectorFold_init sels
      (fun k v h => hwf (k, v) (mem_labelPairs sels k v h)) hkeys hone
    have hne : sels.map Selector.render ≠ [] := by rw [hsels]; simp
    rw [← hsels]
    have hin : ∀ labels : LabelMap, ∀ p : Nat,
        inLabelMap uc rx (labelsOf c p) labels =
          labels.all (fun kv => labelSatisfies uc rx (labelsOf c p) kv.1 kv.2) :=
      fun _ _ => rfl
    rcases hsn : stackNames sels with _ | ⟨n, _ | ⟨n2, ns⟩⟩
    · -- no stack selector
      have h0 : ¬ "".length > 0 := by decide
      rw [hsn] at hfold
      rw [getServices_of_fold uc rx c _ _ c.Services hne hfold
        (by simp only [List.headD_nil, if_neg h0])]
      simp only
      rcases hlp : labelPairs sels with _ | ⟨kv, kvs⟩
      · simp
      · rw [if_pos (by simp), filterServicesByLabel_eq uc rx c _ _
          (fun p hp => by obtain ⟨s, -, -, hs, -, -⟩ := hval p hp; exact ⟨s, hs⟩)]
        simp only [hin, List.all_nil, Bool.true_and]
    · -- one stack selector
      have hn : n.length > 0 :=
        length_pos_of_ne_empty n (hnonempty n (by rw [hsn]; simp))
      rw [hsn] at hfold
      rw [getServices_of_fold uc rx c _ _ _ hne hfold
        (by
          simp only [List.headD_cons, if_pos hn]
          exact filterServicesByStack_eq uc c n c.Services hval)]
      simp only
      rcases hlp : labelPairs sels with _ | ⟨kv, kvs⟩
      · simp
      · rw [if_pos (by simp), filterServicesByLabel_eq uc rx c _ _
          (fun p hp => by
            obtain ⟨s, -, -, hs, -, -⟩ := hval p (List.mem_of_mem_filter hp)
            exact ⟨s, hs⟩)]
        rw [List.filter_filter]
        simp only [hin, List.all_cons, List.all_nil, Bool.and_true]
        congr 1
        apply List.filter_congr
        intro p _
        exact Bool.and_comm _ _
    · rw [hsn] at hone
      simp at hone

/-- C20, amended: in every context that `createContext` returns, for every fold table and
every selector list made of at most one `.stackName` selector with a non-empty name and any
number of well-formed `@key=value` selectors with pairwise distinct keys, in any order,
`GetServices` returns exactly the services, in context order, whose stack name equals
`stackName` under `strings.EqualFold` (when a stack selector is given) and whose labels
satisfy every one of the `@key=value` selectors. -/
theorem getServices_selectors (cfg : Config) (client : Client) (rx : RegexEngine)
    (c : TemplateContext) (sels : List Selector)
    (hrun : createContext cfg client = .ok c)
    (hone : (stackNames sels).length ≤ 1)
    (hnonempty : ∀ n ∈ stackNames sels, n ≠ "")
    (hwf : ∀ kv ∈ labelPairs sels, '=' ∉ kv.1.data ∧ '=' ∉ kv.2.data)
    (hkeys : ((labelPairs sels).map Prod.fst).Nodup) :
    GetServices uc rx c (sels.map Selector.render) =
      .ok (c.Services.filter (fun p =>
        (stackNames sels).all (fun n => EqualFold uc (stackNameOf c p) n) &&
          (labelPairs sels).all (fun kv => labelSatisfies uc rx (labelsOf c p) kv.1 kv.2))) :=
  getServices_selectors_of_wellLinked uc rx c sels (createContext_wellLinked cfg client c hrun)
    hone hnonempty hwf hkeys

/-- Witness for C20 in the graph of `labelledSnapshot`: `.WEB` with `@tier=Web` selects the
service `api` of stack `web`, labelled tier=web, alone. -/
theorem getServices_selectors_witness :
    createContext { SelfId := "" } labelledSnapshot = .ok labelledGraph ∧
      GetServices exampleFold literalEngine labelledGraph [".WEB", "@tier=Web"] = .ok [0] :=
  ⟨rfl,
    getServices_selectors exampleFold { SelfId := "" } labelledSnapshot literalEngine
      labelledGraph [Selector.stack "WEB", Selector.label "tier" "Web"]
      rfl (by decide) (by decide) (by decide) (by decide)⟩

end RancherConf

namespace RancherConf

variable (uc : FoldTable)

/-! ## GetServices: several stack selectors -/

/-- C21: a selector list with two selectors that begin with '.' is accepted when the first of
them is `.` alone: for every context, `.` followed by `.` returns all services without error,
and in the graph of `labelledSnapshot`, `.` followed by `.web` returns the services of stack
`web` without error. -/
theorem getServices_two_stack_selectors_accepted :
    (∀ (rx : RegexEngine) (c : TemplateContext),
        GetServices uc rx c [".", "."] = .ok c.Services) ∧
      createContext { SelfId := "" } labelledSnapshot = .ok labelledGraph ∧
      GetServices uc literalEngine labelledGraph [".", ".web"] = .ok [0, 1] :=
  ⟨fun _ _ => rfl, rfl, rfl⟩

/-! ## GetHosts -/

theorem hostsSelectorStep_bad (labels : LabelMap) (f : String) (h : badHostSelector f = true) :
    ∃ msg : String, hostsSelectorStep labels f = .error (.other msg) := by
  unfold badHostSelector at h
  unfold hostsSelectorStep
  split at h
  · rename_i rest hd
    rcases hs : Split (String.mk rest) '=' with _ | ⟨a, _ | ⟨b, _ | ⟨d, t⟩⟩⟩
    · exact ⟨_, rfl⟩
    · exact ⟨_, rfl⟩
    · rw [hs] at h
      simp at h
    · exact ⟨_, rfl⟩
  · exact ⟨_, rfl⟩

theorem hostsSelectorStep_good (labels : LabelMap) (f : String)
    (h : badHostSelector f = false) :
    ∃ labels1 : LabelMap, hostsSelectorStep labels f = .ok labels1 := by
  unfold badHostSelector at h
  unfold hostsSelectorStep
  split at h
  · rename_i rest hd
    rcases hs : Split (String.mk rest) '=' with _ | ⟨a, _ | ⟨b, _ | ⟨d, t⟩⟩⟩
    · rw [hs] at h; simp at h
    · rw [hs] at h; simp at h
    · exact ⟨_, rfl⟩
    · rw [hs] at h; simp at h
  · cases h

theorem hostsSelectorFold (selectors : List String) :
    ∀ labels : LabelMap,
      ((∃ f ∈ selectors, badHostSelector f = true) →
        ∃ msg : String, selectors.foldlM hostsSelectorStep labels = .error (.other msg)) ∧
      ((∀ f ∈ selectors, badHostSelector f = false) →
        ∃ labels1 : LabelMap, selectors.foldlM hostsSelectorStep labels = .ok labels1) := by
  induction selectors with
  | nil =>
    intro labels
    constructor
    · rintro ⟨f, hf, -⟩
      simp at hf
    · intro _
      exact ⟨labels, rfl⟩
  | cons f fs ih =>
    intro labels
    rw [List.foldlM_cons]
    cases hb : badHostSelector f with
    | true =>
      obtain ⟨msg, hmsg⟩ := hostsSelectorStep_bad labels f hb
      constructor
      · intro _
        exact ⟨msg, by rw [hmsg]; rfl⟩
      · intro hall
        have := hall f (List.mem_cons_self f fs)
        rw [hb] at this
        cases this
    | false =>
      obtain ⟨labels1, hl⟩ := hostsSelectorStep_good labels f hb
      rw [hl]
      constructor
      · rintro ⟨g, hg, hbad⟩
        rcases List.mem_cons.1 hg with e | hmem
        · subst e
          rw [hb] at hbad
          cases hbad
        · exact (ih labels1).1 ⟨g, hmem, hbad⟩
      · intro hall
        exact (ih labels1).2 (fun g hg => hall g (List.mem_cons_of_mem f hg))

theorem filterHostsByLabel_not_other (rx : RegexEngine) (c : TemplateContext)
    (labels : LabelMap) (ps : List Nat) (msg : String) :
    filterHostsByLabel uc rx c labels ps ≠ .error (.other msg) := by
  induction ps with
  | nil => intro h; cases h
  | cons p ps ih =>
    unfold filterHostsByLabel
    cases c.hostArena[p]? with
    | none => intro h; cases h
    | some x =>
      simp only
      cases hr : filterHostsByLabel uc rx c labels ps with
      | error e =>
        intro h
        simp only at h
        cases h
        exact ih hr
      | ok r => intro h; cases h

/-- C22: for every context and every selector list, `GetHosts` returns an error exactly when
some selector does not start with '@' or, after its leading '@', does not split on '=' into
exactly two parts; and with an empty selector list it returns the hosts of the context
unchanged. -/
theorem getHosts_error_iff (rx : RegexEngine) (c : TemplateContext)
    (selectors : List String) :
    GetHosts uc rx c [] = .ok c.Hosts ∧
      ((∃ msg : String, GetHosts uc rx c selectors = .error (.other msg)) ↔
        ∃ f ∈ selectors, badHostSelector f = true) := by
  refine ⟨rfl, ?_⟩
  cases selectors with
  | nil =>
    constructor
    · rintro ⟨msg, h⟩
      cases h
    · rintro ⟨f, hf, -⟩
      simp at hf
  | cons f fs =>
    obtain ⟨hbad, hgood⟩ := hostsSelectorFold (f :: fs) []
    unfold GetHosts
    simp only
    constructor
    · rintro ⟨msg, h⟩
      by_contra hno
      have hall : ∀ g ∈ f :: fs, badHostSelector g = false := by
        intro g hg
        cases hb : badHostSelector g with
        | false => rfl
        | true => exact absurd ⟨g, hg, hb⟩ hno
      obtain ⟨labels1, hl⟩ := hgood hall
      rw [hl] at h
      exact filterHostsByLabel_not_other uc rx c labels1 c.Hosts msg h
    · intro hex
      obtain ⟨msg, hmsg⟩ := hbad hex
      exact ⟨msg, by rw [hmsg]⟩

/-! ## inLabelMap -/

theorem length_eq_zero_eq_empty (s : String) (h : ¬ s.length > 0) : s = "" := by
  apply String.ext
  have : s.data.length = 0 := by
    have e : s.length = s.data.length := rfl
    omega
  exact List.length_eq_zero.1 this

theorem getValue_of_mapIndex (labels : LabelMap) (k val : String)
    (h : mapIndex labels k = some val) : labels.GetValue k [] = val := by
  unfold LabelMap.GetValue
  rw [h]
  by_cases hl : val.length > 0
  · simp [hl]
  · simp only [hl, if_false, List.headD_nil]
    exact (length_eq_zero_eq_empty val hl).symm

theorem labelSatisfies_iff (rx : RegexEngine) (labels : LabelMap) (k v : String) :
    labelSatisfies uc rx labels k v = true ↔
      ∃ val : String, mapIndex labels k = some val ∧
        (EqualFold uc val v = true ∨ ∃ m : String → Bool, rx v = .ok m ∧ m val = true) := by
  unfold labelSatisfies LabelMap.Exists
  rcases hm : mapIndex labels k with _ | val
  · simp
  · rw [getValue_of_mapIndex labels k val hm]
    simp only [Option.isSome_some, Bool.true_and, Bool.or_eq_true, Option.some.injEq,
      exists_eq_left']
    constructor
    · rintro (h | h)
      · exact Or.inl h
      · right
        cases hr : rx v with
        | error e => rw [hr] at h; cases h
        | ok m => rw [hr] at h; exact ⟨m, rfl, h⟩
    · rintro (h | ⟨m, hr, hmv⟩)
      · exact Or.inl h
      · right
        rw [hr]
        exact hmv

/-- C23: for all label maps `labels` and `needle`, `inLabelMap` is true exactly when every
key of the needle is present in `labels` with a value that either fold-equals the needle's
value or is matched by the needle's value compiled as a regular expression; a needle value
that does not compile and does not fold-equal the label's value makes the result false (there
is no error), and the empty needle matches every label map.  The keys of a map are distinct. -/
theorem inLabelMap_iff (rx : RegexEngine) (labels needle : LabelMap)
    (hneedle : (needle.map Prod.fst).Nodup) :
    (inLabelMap uc rx labels needle = true ↔
      ∀ k v : String, mapIndex needle k = some v →
        ∃ val : String, mapIndex labels k = some val ∧
          (EqualFold uc val v = true ∨ ∃ m : String → Bool, rx v = .ok m ∧ m val = true)) ∧
    (∀ (k v e : String), mapIndex needle k = some v → rx v = .error e →
      (∀ val : String, mapIndex labels k = some val → EqualFold uc val v = false) →
      inLabelMap uc rx labels needle = false) ∧
    inLabelMap uc rx labels [] = true := by
  have hall : inLabelMap uc rx labels needle = true ↔
      ∀ kv ∈ needle, labelSatisfies uc rx labels kv.1 kv.2 = true := by
    unfold inLabelMap
    rw [List.all_eq_true]
    rfl
  have hiff : inLabelMap uc rx labels needle = true ↔
      ∀ k v : String, mapIndex needle k = some v →
        ∃ val : String, mapIndex labels k = some val ∧
          (EqualFold uc val v = true ∨ ∃ m : String → Bool, rx v = .ok m ∧ m val = true) := by
    rw [hall]
    constructor
    · intro h k v hkv
      exact (labelSatisfies_iff uc rx labels k v).1
        (h (k, v) (mem_of_mapIndex_eq_some needle k v hkv))
    · intro h kv hkv
      exact (labelSatisfies_iff uc rx labels kv.1 kv.2).2
        (h kv.1 kv.2 (mapIndex_eq_some_of_mem needle kv.1 kv.2 hneedle hkv))
  refine ⟨hiff, ?_, rfl⟩
  intro k v e hkv hrx hne
  cases hr : inLabelMap uc rx labels needle with
  | false => rfl
  | true =>
    obtain ⟨val, hval, hor⟩ := hiff.1 hr k v hkv
    rcases hor with h | ⟨m, hm, -⟩
    · rw [hne val hval] at h
      cases h
    · rw [hrx] at hm
      cases hm

/-- Witness for C23: the labels env=Prod, drink=café and zone=eu-west against the needle
env=PROD, drink=CAFÉ, zone=west: the first two values are equal under `strings.EqualFold`,
the third is matched as a regular expression. -/
theorem inLabelMap_iff_witness :
    EqualFold exampleFold "Prod" "PROD" = true ∧ EqualFold exampleFold "café" "CAFÉ" = true ∧
      EqualFold exampleFold "eu-west" "west" = false ∧
      inLabelMap exampleFold literalEngine
        [("env", "Prod"), ("drink", "café"), ("zone", "eu-west")]
        [("env", "PROD"), ("drink", "CAFÉ"), ("zone", "west")] = true ∧
      inLabelMap exampleFold literalEngine
        [("env", "Prod"), ("drink", "café"), ("zone", "eu-west")] [] = true :=
  have h := inLabelMap_iff exampleFold literalEngine
    [("env", "Prod"), ("drink", "café"), ("zone", "eu-west")]
    [("env", "PROD"), ("drink", "CAFÉ"), ("zone", "west")] (by decide)
  ⟨by decide, by decide, by decide,
    h.1.2 (fun k v hkv => by
      have hmem := mem_of_mapIndex_eq_some
        [("env", "PROD"), ("drink", "CAFÉ"), ("zone", "west")] k v hkv
      simp only [List.mem_cons, List.mem_singleton, Prod.mk.injEq, List.not_mem_nil,
        or_false] at hmem
      rcases hmem with ⟨rfl, rfl⟩ | ⟨rfl, rfl⟩ | ⟨rfl, rfl⟩
      · exact ⟨"Prod", rfl, Or.inl (by decide)⟩
      · exact ⟨"café", rfl, Or.inl (by decide)⟩
      · exact ⟨"eu-west", rfl, Or.inr ⟨_, rfl, rfl⟩⟩),
    h.2.2⟩

end RancherConf

namespace RancherConf

variable (uc : FoldTable)

/-! ## whereLabelExists and whereLabelEquals -/

theorem whereLabel_supported (funcName label : String) (test : String → Bool → Bool)
    (inp : Input) (hlabel : label ≠ "") (hinp : inp.supported = true) :
    whereLabel funcName inp label test =
      (inp.items.filter (fun it => test ((mapIndex it.Labels label).getD "")
        (mapIndex it.Labels label).isSome), none) := by
  cases inp with
  | nil => cases hinp
  | other t => cases hinp
  | services xs =>
    unfold whereLabel
    simp only [if_neg hlabel, Input.items, List.filter_map]
    rfl
  | containers xs =>
    unfold whereLabel
    simp only [if_neg hlabel, Input.items, List.filter_map]
    rfl
  | hosts xs =>
    unfold whereLabel
    simp only [if_neg hlabel, Input.items, List.filter_map]
    rfl

/-- C24: for every non-empty label key and every list of hosts, of services or of containers,
`whereLabelExists` returns without error, in input order, exactly the items whose label map
contains the key, and `whereLabelEquals` returns without error, in input order, exactly the
items whose label map contains the key with a value that fold-equals the given value. -/
theorem whereLabel_filters (label value : String) (inp : Input) (hlabel : label ≠ "")
    (hinp : inp.supported = true) :
    whereLabelExists label inp = (inp.items.filter (Item.hasLabel label), none) ∧
      whereLabelEquals uc label value inp =
        (inp.items.filter (Item.labelFoldEquals uc label value), none) := by
  constructor
  · unfold whereLabelExists
    rw [whereLabel_supported _ label _ inp hlabel hinp]
    rfl
  · unfold whereLabelEquals
    rw [whereLabel_supported _ label _ inp hlabel hinp]
    congr 1
    apply List.filter_congr
    intro it _
    unfold Item.labelFoldEquals
    cases mapIndex it.Labels label <;> simp

/-- Witness for C24: of the three hosts labelled drink=CAFÉ, drink=café and drink=Tea, all
carry the key `drink`; the comparison with "café" keeps the first two, and the comparison
with "TEA" keeps the third. -/
theorem whereLabel_filters_witness :
    (whereLabelExists "drink" (.hosts drinkHosts)).1.length = 3 ∧
      (whereLabelEquals exampleFold "drink" "café" (.hosts drinkHosts)).1 =
        [Item.host (exHost "h1" "host-1" [("drink", "CAFÉ")]),
         Item.host (exHost "h2" "host-2" [("drink", "café")])] ∧
      (whereLabelEquals exampleFold "drink" "TEA" (.hosts drinkHosts)).1 =
        [Item.host (exHost "h3" "host-3" [("drink", "Tea")])] :=
  have h := whereLabel_filters exampleFold "drink" "café" (.hosts drinkHosts) (by decide) rfl
  have h2 := whereLabel_filters exampleFold "drink" "TEA" (.hosts drinkHosts) (by decide) rfl
  ⟨by rw [h.1]; rfl, by rw [h.2]; rfl, by rw [h2.2]; rfl⟩

/-! ## groupByLabel -/

theorem groupStep_mapIndex (label : String) (m : GoMap (List Item)) (it : Item) (v : String)
    (hv : v ≠ "") :
    mapIndex (groupStep label m it) v =
      if Item.hasLabelValue label v it = true then some ((mapIndex m v).getD [] ++ [it])
      else mapIndex m v := by
  unfold groupStep Item.hasLabelValue
  rcases hl : mapIndex it.Labels label with _ | value
  · simp
  · by_cases hlen : value.length > 0
    · simp only [hlen, if_true, mapIndex_mapAssign, Option.some.injEq, decide_eq_true_eq]
      by_cases e : value = v
      · subst e
        simp
      · simp [e]
    · have he := length_eq_zero_eq_empty value hlen
      have hne : ¬ value = v := fun e => hv (e ▸ he)
      simp [hlen, hne]

theorem groupStep_mapIndex_empty (label : String) (m : GoMap (List Item)) (it : Item) :
    mapIndex (groupStep label m it) "" = mapIndex m "" := by
  unfold groupStep
  rcases hl : mapIndex it.Labels label with _ | value
  · rfl
  · by_cases hlen : value.length > 0
    · have hne : ¬ value = "" := by
        intro e
        rw [e] at hlen
        exact absurd hlen (by decide)
      simp [hlen, mapIndex_mapAssign, hne]
    · simp [hlen]

theorem groupFold_mapIndex (label : String) (items : List Item) :
    ∀ (m : GoMap (List Item)) (v : String), v ≠ "" →
      mapIndex (items.foldl (groupStep label) m) v =
        if items.filter (Item.hasLabelValue label v) = [] then mapIndex m v
        else some ((mapIndex m v).getD [] ++ items.filter (Item.hasLabelValue label v)) := by
  induction items with
  | nil => intro m v _; simp
  | cons it rest ih =>
    intro m v hv
    rw [List.foldl_cons, ih (groupStep label m it) v hv, groupStep_mapIndex label m it v hv]
    by_cases hit : Item.hasLabelValue label v it = true
    · rw [List.filter_cons_of_pos hit]
      simp only [hit, if_true, Option.getD_some, reduceCtorEq, if_false]
      by_cases hr : rest.filter (Item.hasLabelValue label v) = []
      · simp [hr]
      · simp [hr]
    · rw [List.filter_cons_of_neg hit]
      simp [hit]

theorem groupFold_mapIndex_empty (label : String) (items : List Item) :
    ∀ m : GoMap (List Item), mapIndex (items.foldl (groupStep label) m) "" = mapIndex m "" := by
  induction items with
  | nil => intro m; rfl
  | cons it rest ih =>
    intro m
    rw [List.foldl_cons, ih, groupStep_mapIndex_empty]

theorem groupStep_nodup (label : String) (m : GoMap (List Item)) (it : Item)
    (h : (m.map Prod.fst).Nodup) : ((groupStep label m it).map Prod.fst).Nodup := by
  unfold groupStep
  split
  · split
    · exact mapAssign_keys_nodup _ _ _ h
    · exact h
  · exact h

theorem groupByLabel_fold (label : String) (inp : Input) (hinp : inp.supported = true) :
    groupByLabel label inp = (inp.items.foldl (groupStep label) [], none) := by
  cases inp with
  | nil => cases hinp
  | other t => cases hinp
  | services xs => simp only [groupByLabel, Input.items, List.foldl_map]
  | containers xs => simp only [groupByLabel, Input.items, List.foldl_map]
  | hosts xs => simp only [groupByLabel, Input.items, List.foldl_map]

/-- C25: for every label key and every list of hosts, of services or of containers,
`groupByLabel` returns without error a map with distinct keys in which the group under a
value `v` is exactly the sub-list, in input order, of the items whose label equals `v`; no
group is empty and none is stored under the empty value, so an item that lacks the label or
carries it with an empty value is in no group, and every other item is in the group of its
value and in no other. -/
theorem groupByLabel_groups (label : String) (inp : Input) (hinp : inp.supported = true) :
    (groupByLabel label inp).2 = none ∧
      (((groupByLabel label inp).1).map Prod.fst).Nodup ∧
      (∀ (v : String) (g : List Item), mapIndex (groupByLabel label inp).1 v = some g →
        v ≠ "" ∧ g ≠ [] ∧ g = inp.items.filter (Item.hasLabelValue label v)) ∧
      (∀ (v : String) (g : List Item) (it : Item),
        mapIndex (groupByLabel label inp).1 v = some g → it ∈ g →
          it ∈ inp.items ∧ mapIndex it.Labels label = some v) ∧
      (∀ (it : Item) (v : String), it ∈ inp.items → mapIndex it.Labels label = some v →
        v ≠ "" →
          mapIndex (groupByLabel label inp).1 v =
            some (inp.items.filter (Item.hasLabelValue label v)) ∧
          it ∈ inp.items.filter (Item.hasLabelValue label v)) := by
  rw [groupByLabel_fold label inp hinp]
  have hkey : ∀ (v : String) (g : List Item),
      mapIndex (inp.items.foldl (groupStep label) []) v = some g →
        v ≠ "" ∧ g ≠ [] ∧ g = inp.items.filter (Item.hasLabelValue label v) := by
    intro v g hg
    by_cases hv : v = ""
    · rw [hv, groupFold_mapIndex_empty] at hg
      cases hg
    · rw [groupFold_mapIndex label inp.items [] v hv] at hg
      by_cases hf : inp.items.filter (Item.hasLabelValue label v) = []
      · rw [if_pos hf] at hg
        cases hg
      · rw [if_neg hf] at hg
        simp only [mapIndex, Option.getD_none, List.nil_append, Option.some.injEq] at hg
        exact ⟨hv, hg ▸ hf, hg.symm⟩
  refine ⟨rfl, ?_, hkey, ?_, ?_⟩
  · exact foldl_inv (groupStep label) (fun m => (m.map Prod.fst).Nodup)
      (fun m it h => groupStep_nodup label m it h) inp.items [] (by simp)
  · intro v g it hg hit
    obtain ⟨-, -, hgeq⟩ := hkey v g hg
    rw [hgeq, List.mem_filter] at hit
    refine ⟨hit.1, ?_⟩
    simpa [Item.hasLabelValue] using hit.2
  · intro it v hit hl hv
    have hmem : it ∈ inp.items.filter (Item.hasLabelValue label v) := by
      rw [List.mem_filter]
      exact ⟨hit, by simp [Item.hasLabelValue, hl]⟩
    refine ⟨?_, hmem⟩
    rw [groupFold_mapIndex label inp.items [] v hv,
      if_neg (List.ne_nil_of_mem hmem)]
    simp [mapIndex]

/-- Witness for C25: the two containers labelled version=1.2 and version=2.0 are grouped under
their values, one container each. -/
theorem groupByLabel_groups_witness :
    ((groupByLabel "version" (.containers versionedContainers)).1).map
        (fun e => (e.1, e.2.length)) = [("1.2", 1), ("2.0", 1)] ∧
      (groupByLabel "version" (.containers versionedContainers)).2 = none :=
  ⟨rfl, (groupByLabel_groups "version" (.containers versionedContainers) rfl).1⟩

/-! ## Rejected inputs -/

theorem whereLabel_other (funcName label : String) (test : String → Bool → Bool)
    (t : String) :
    ∃ err : String, whereLabel funcName (.other t) label test = ([], some err) := by
  unfold whereLabel
  by_cases hl : label = ""
  · exact ⟨_, by simp only [if_pos hl]; rfl⟩
  · exact ⟨_, by simp only [if_neg hl]; rfl⟩

/-- C26: `whereLabelExists`, `whereLabelEquals` and `groupByLabel` return an error (and an
empty result) whenever the input is nil or is not a list of hosts, of services or of
containers; and the two whereLabel functions return an error with an empty result whenever
the label key is the empty string, whatever the input. -/
theorem label_functions_reject_bad_input (label value : String) (inp : Input) :
    (inp.supported = false →
      (∃ err : String, whereLabelExists label inp = ([], some err)) ∧
      (∃ err : String, whereLabelEquals uc label value inp = ([], some err)) ∧
      (∃ err : String, groupByLabel label inp = ([], some err))) ∧
    (∃ err : String, whereLabelExists "" inp = ([], some err)) ∧
    (∃ err : String, whereLabelEquals uc "" value inp = ([], some err)) ∧
    whereLabelExists label .nil = ([], some "(whereLabelExists) input is nil") ∧
    whereLabelEquals uc label value .nil = ([], some "(whereLabelEquals) input is nil") ∧
    groupByLabel label .nil = ([], some "(groupByLabel) input is nil") := by
  refine ⟨?_, ?_, ?_, rfl, rfl, rfl⟩
  · intro hinp
    cases inp with
    | nil => exact ⟨⟨_, rfl⟩, ⟨_, rfl⟩, ⟨_, rfl⟩⟩
    | other t =>
      exact ⟨whereLabel_other _ label _ t, whereLabel_other _ label _ t, ⟨_, rfl⟩⟩
    | services xs => cases hinp
    | containers xs => cases hinp
    | hosts xs => cases hinp
  · cases inp <;> exact ⟨_, rfl⟩
  · cases inp <;> exact ⟨_, rfl⟩

/-- Witness for C26: a string passed as input is rejected by the three functions, and the
empty label key is rejected for a list of containers. -/
theorem label_functions_reject_bad_input_witness :
    (∃ err : String, whereLabelExists "version" (.other "string") = ([], some err)) ∧
      (∃ err : String, groupByLabel "version" (.other "string") = ([], some err)) ∧
      (∃ err : String, whereLabelEquals exampleFold "" "2.0" (.containers versionedContainers) =
        ([], some err)) :=
  have h := label_functions_reject_bad_input exampleFold "version" "2.0" (.other "string")
  have h2 := label_functions_reject_bad_input exampleFold "version" "2.0" (.containers versionedContainers)
  ⟨(h.1 rfl).1, (h.1 rfl).2.2, h2.2.2.1⟩

end RancherConf

namespace RancherConf

/-! ## Files -/

theorem mapIndex_mapDelete {β : Type} (m : GoMap β) (k p : String) :
    mapIndex (mapDelete m k) p = if p = k then none else mapIndex m p := by
  induction m with
  | nil => simp [mapDelete, mapIndex]
  | cons e rest ih =>
    obtain ⟨k0, v0⟩ := e
    unfold mapDelete at ih ⊢
    by_cases h0 : k0 = k
    · subst h0
      simp only [List.filter_cons, ne_eq, not_true_eq_false, decide_False, Bool.false_eq_true,
        if_false, ih, mapIndex]
      by_cases hp : p = k0
      · simp [hp]
      · have : ¬ k0 = p := fun e => hp e.symm
        simp [hp, this]
    · simp only [List.filter_cons, ne_eq, h0, not_false_eq_true, decide_True, if_true, mapIndex,
        ih]
      by_cases hp : p = k
      · simp [hp, h0]
      · simp [hp]

theorem mapIndex_updateFile (w : World) (path p : String) (f : File → File) :
    mapIndex (updateFile w path f) p =
      if p = path then (mapIndex w.files path).map f else mapIndex w.files p := by
  unfold updateFile
  rcases h : mapIndex w.files path with _ | x
  · by_cases hp : p = path
    · simp [hp, h]
    · simp [hp]
  · simp only [mapIndex_mapAssign, Option.map_some']
    by_cases hp : p = path
    · simp [hp]
    · have : ¬ path = p := fun e => hp e.symm
      simp [hp, this]

theorem removeFile_files (w : World) (path p : String) :
    mapIndex (removeFile w path).files p = if p = path then none else mapIndex w.files p := by
  unfold removeFile
  rcases h : mapIndex w.files path with _ | x
  · by_cases hp : p = path
    · simp [hp, h]
    · simp [hp]
  · simp only [mapIndex_mapDelete]

theorem removeFile_events (w : World) (path : String) :
    ∃ new : List Event, (removeFile w path).events = w.events ++ new ∧
      ∀ e ∈ new, e = Event.remove path := by
  unfold removeFile
  rcases h : mapIndex w.files path with _ | x
  · exact ⟨[], by simp, by simp⟩
  · exact ⟨[.remove path], rfl, by simp⟩

/-! ## Digests -/

theorem hexString_length (sum : List Nat) : (hexString sum).length = 2 * sum.length := by
  unfold hexString
  show (sum.flatMap (fun b => [hexDigit (b / 16 % 16), hexDigit (b % 16)])).length = _
  induction sum with
  | nil => rfl
  | cons b bs ih =>
    simp only [List.flatMap_cons, List.length_append, List.length_cons, List.length_nil, ih]
    omega

theorem md5Hex_length (k : Kernel) (content : Bytes) : (md5Hex k content).length = 32 := by
  unfold md5Hex
  rw [hexString_length, List.length_ofFn]

theorem md5Hex_ne_empty (k : Kernel) (content : Bytes) : md5Hex k content ≠ "" := by
  intro h
  have := md5Hex_length k content
  rw [h] at this
  exact absurd this (by decide)

/-- C28: for every content, the empty byte string included, when there is no file at the
path `computeFileMd5` records the empty string as digest and `sameContent` reports false
without error: the hexadecimal digest of a content has 32 digits and is never empty. -/
theorem sameContent_missing_file (k : Kernel) (w : World) (content : Bytes) (filePath : String)
    (hmissing : mapIndex w.files filePath = none) :
    sameContent k w content filePath = .ok false ∧
      sameContent k w [] filePath = .ok false ∧
      computeFileMd5 k w filePath = .ok "" ∧
      (md5Hex k content).length = 32 ∧ md5Hex k content ≠ "" := by
  have hc : computeFileMd5 k w filePath = .ok "" := by
    unfold computeFileMd5
    rw [hmissing]
  have hs : ∀ b : Bytes, sameContent k w b filePath = .ok false := by
    intro b
    unfold sameContent
    rw [hc]
    have : ¬ "" = md5Hex k b := fun e => md5Hex_ne_empty k b e.symm
    simp [this]
  exact ⟨hs content, hs [], hc, md5Hex_length k content, md5Hex_ne_empty k content⟩

/-- Witness for C28: the empty content against a world without files. -/
theorem sameContent_missing_file_witness :
    sameContent calmKernel emptyWorld [] "/etc/app.conf" = .ok false :=
  (sameContent_missing_file calmKernel emptyWorld [] "/etc/app.conf" rfl).1

/-! ## An unchanged destination -/

/-- C27, counterexample: the destination holds exactly the rendered bytes 1, 2, 3, but it
cannot be opened; `processTemplate` returns an error, not success (the world is untouched). -/
theorem processTemplate_unreadable_destination :
    unreadableDest.render webGraph (worldWith [1, 2, 3]) exTemplate = .ok [1, 2, 3] ∧
      (mapIndex (worldWith [1, 2, 3]).files exTemplate.Dest).map (fun f => f.content) =
        some [1, 2, 3] ∧
      processTemplate unreadableDest webGraph (worldWith [1, 2, 3]) exTemplate =
        (.failed ("Could not compare content for /etc/app.conf: " ++
          "Could not calculate checksum for /etc/app.conf: " ++
          "open /etc/app.conf: permission denied"), worldWith [1, 2, 3]) :=
  ⟨rfl, rfl, rfl⟩

/-- C27, amended: if the template renders, a destination is configured, and the destination
file exists with bytes identical to the rendered bytes, then `processTemplate` leaves the
world exactly as it was (no file is created, written, renamed or removed, and no command is
run); and if moreover the destination can be opened and read, it returns success. -/
theorem processTemplate_identical_destination (k : Kernel) (funcs : TemplateContext)
    (w : World) (t : Template) (content : Bytes) (file : File)
    (hrender : k.render funcs w t = .ok content) (hname : t.Dest ≠ "")
    (hdest : mapIndex w.files t.Dest = some file) (hsame : file.content = content) :
    ∃ r : Outcome, processTemplate k funcs w t = (r, w) ∧ (∀ msg : String, r ≠ .fatal msg) ∧
      (k.fault w (.openFile t.Dest) = none → k.fault w (.copy t.Dest) = none → r = .done) := by
  unfold processTemplate
  rw [hrender]
  simp only [if_neg hname]
  unfold sameContent computeFileMd5
  rw [hdest]
  simp only
  rcases ho : k.fault w (.openFile t.Dest) with _ | e
  · rcases hc : k.fault w (.copy t.Dest) with _ | e
    · simp only [hsame, decide_True]
      exact ⟨.done, rfl, by simp, fun _ _ => rfl⟩
    · exact ⟨_, rfl, by simp, fun _ h => by cases h⟩
  · exact ⟨_, rfl, by simp, fun h => by cases h⟩

/-- Witness for C27: the destination holds the rendered bytes 1, 2, 3 and can be read. -/
theorem processTemplate_identical_destination_witness :
    processTemplate calmKernel webGraph (worldWith [1, 2, 3]) exTemplate =
      (.done, worldWith [1, 2, 3]) :=
  match processTemplate_identical_destination calmKernel webGraph (worldWith [1, 2, 3])
    exTemplate [1, 2, 3] _ rfl (by decide) rfl rfl with
  | ⟨_, h, _, hd⟩ => hd rfl rfl ▸ h

end RancherConf

namespace RancherConf

/-! ## The staging file -/

theorem TempFile_ok (k : Kernel) (w : World) (dir pattern name : String) (w1 : World)
    (h : TempFile k w dir pattern = (.ok name, w1)) :
    mapIndex w.files name = none ∧
      w1 = { files := mapAssign w.files name
               { content := [],
                 stat := { Mode := createMode k 0o600, Uid := k.uid, Gid := k.gid } },
             events := w.events ++ [.tempFile name] } := by
  unfold TempFile at h
  rcases hf : k.fault w (.tempFile dir pattern) with _ | e
  · rw [hf] at h
    simp only at h
    rcases hm : mapIndex w.files (k.tempName w dir pattern) with _ | x
    · rw [hm] at h
      simp only [Prod.mk.injEq, Except.ok.injEq] at h
      obtain ⟨h1, h2⟩ := h
      subst h1
      exact ⟨hm, h2.symm⟩
    · rw [hm] at h
      simp at h
  · rw [hf] at h
    simp at h

theorem createStagingFile_ok (k : Kernel) (w : World) (content : Bytes)
    (dest staging : String) (w1 : World)
    (h : createStagingFile k w content dest = (.ok staging, w1)) :
    mapIndex w.files staging = none ∧
      (∀ p : String, p ≠ staging → mapIndex w1.files p = mapIndex w.files p) ∧
      (∃ f : File, mapIndex w1.files staging = some f ∧ f.content = content ∧
        ∀ d : File, mapIndex w.files dest = some d → f.stat = d.stat) ∧
      ∃ new : List Event, w1.events = w.events ++ new ∧
        ∀ e ∈ new, ∀ c : String, e ≠ .check c ∧ e ≠ .notify c := by
  unfold createStagingFile at h
  rcases hT : TempFile k w (k.Dir dest) ("." ++ k.Base dest ++ "-") with ⟨r, wt⟩
  rw [hT] at h
  cases r with
  | error e => simp at h
  | ok name =>
    obtain ⟨hfresh, hwt⟩ := TempFile_ok k w _ _ name wt hT
    subst hwt
    simp only at h
    have hdest : ∀ d : File, mapIndex w.files dest = some d → dest ≠ name := by
      intro d hd e
      rw [e, hfresh] at hd
      cases hd
    rcases hw : k.fault _ (.write name) with _ | e
    · rw [hw] at h
      simp only [mapIndex_updateFile, mapIndex_mapAssign, if_true, Option.map_some'] at h
      split at h
      · -- no destination to copy mode and owner from
        rename_i hnone
        simp only [Prod.mk.injEq, Except.ok.injEq] at h
        obtain ⟨h1, h2⟩ := h
        subst h1
        subst h2
        refine ⟨hfresh, ?_,
          ⟨{ content := content,
             stat := { Mode := createMode k 0o600, Uid := k.uid, Gid := k.gid } },
            ?_, rfl, ?_⟩, ⟨[.tempFile name, .write name content], ?_, ?_⟩⟩
        · intro p hp
          have : ¬ name = p := fun e => hp e.symm
          simp [mapIndex_updateFile, mapIndex_mapAssign, hp, this]
        · simp [mapIndex_updateFile, mapIndex_mapAssign]
        · intro d hd
          have hne := hdest d hd
          have : ¬ name = dest := fun e => hne e.symm
          simp only [if_neg hne, if_neg this, hd] at hnone
          cases hnone
        · simp
        · intro e he c
          simp only [List.mem_cons, List.mem_singleton, List.not_mem_nil, or_false] at he
          rcases he with rfl | rfl <;> simp
      · rename_i d2 hd2
        rcases hc : k.fault _ (.chmod name) with _ | e
        · rw [hc] at h
          simp only at h
          rcases ho : k.fault _ (.chown name) with _ | e
          · rw [ho] at h
            simp only [Prod.mk.injEq, Except.ok.injEq] at h
            obtain ⟨h1, h2⟩ := h
            subst h1
            subst h2
            refine ⟨hfresh, ?_,
              ⟨{ content := content,
                 stat := { Mode := d2.stat.Mode, Uid := d2.stat.Uid, Gid := d2.stat.Gid } },
                ?_, rfl, ?_⟩,
              ⟨[.tempFile name, .write name content, .chmod name d2.stat.Mode,
                .chown name d2.stat.Uid d2.stat.Gid], ?_, ?_⟩⟩
            · intro p hp
              have : ¬ name = p := fun e => hp e.symm
              simp [mapIndex_updateFile, mapIndex_mapAssign, hp, this]
            · simp [mapIndex_updateFile, mapIndex_mapAssign]
            · intro d hd
              have hne := hdest d hd
              have : ¬ name = dest := fun e => hne e.symm
              simp only [if_neg hne, if_neg this, hd, Option.some.injEq] at hd2
              subst hd2
              rfl
            · simp
            · intro e he c
              simp only [List.mem_cons, List.mem_singleton, List.not_mem_nil, or_false] at he
              rcases he with rfl | rfl | rfl | rfl <;> simp
          · rw [ho] at h
            simp at h
        · rw [hc] at h
          simp at h
    · rw [hw] at h
      simp at h

/-! ## A failing check command -/

/-- C29: when the template renders, the comparison with the destination reports a
difference, the staging file is created, a check command is configured and that command
fails, then `processTemplate` returns the error "Check command failed", every path of the
file system (the destination among them) holds what it held before the call, the staging
file does not exist afterwards, and among the effects of the call there is no run of the
notify command. -/
theorem processTemplate_check_fails (k : Kernel) (funcs : TemplateContext) (w w1 : World)
    (t : Template) (content : Bytes) (staging err : String)
    (hrender : k.render funcs w t = .ok content) (hname : t.Dest ≠ "")
    (hdiff : sameContent k w content t.Dest = .ok false)
    (hstage : createStagingFile k w content t.Dest = (.ok staging, w1))
    (hcheck : t.CheckCmd ≠ "")
    (hfail : k.fault w1 (.exec (Replace t.CheckCmd "\x7b\x7bstaging\x7d\x7d" staging)) =
      some err) :
    ∃ w2 : World,
      processTemplate k funcs w t = (.failed ("Check command failed: " ++ err), w2) ∧
      mapIndex w2.files t.Dest = mapIndex w.files t.Dest ∧
      (∀ p : String, mapIndex w2.files p = mapIndex w.files p) ∧
      mapIndex w2.files staging = none ∧
      ∃ new : List Event, w2.events = w.events ++ new ∧
        ∀ c : String, Event.notify c ∉ new := by
  obtain ⟨hfresh, hother, -, new1, hev1, hnew1⟩ := createStagingFile_ok k w content t.Dest
    staging w1 hstage
  have hpub : publish k w1 t staging =
      (.failed ("Check command failed: " ++ err),
        w1.record (.check (Replace t.CheckCmd "\x7b\x7bstaging\x7d\x7d" staging))) := by
    unfold publish check
    simp only [hcheck, ne_eq, not_false_eq_true, if_true, hfail]
  have hp : processTemplate k funcs w t =
      (.failed ("Check command failed: " ++ err),
        removeFile (w1.record (.check (Replace t.CheckCmd "\x7b\x7bstaging\x7d\x7d" staging)))
          staging) := by
    unfold processTemplate
    rw [hrender]
    simp only [if_neg hname, hdiff, hstage, hpub]
  have hfiles : ∀ p : String,
      mapIndex (removeFile (w1.record (.check (Replace t.CheckCmd
        "\x7b\x7bstaging\x7d\x7d" staging))) staging).files p = mapIndex w.files p := by
    intro p
    rw [removeFile_files]
    by_cases hps : p = staging
    · rw [if_pos hps, hps, hfresh]
    · rw [if_neg hps]
      exact hother p hps
  obtain ⟨new2, hev2, hnew2⟩ := removeFile_events
    (w1.record (.check (Replace t.CheckCmd "\x7b\x7bstaging\x7d\x7d" staging))) staging
  refine ⟨_, hp, hfiles t.Dest, hfiles, ?_,
    ⟨new1 ++ [.check (Replace t.CheckCmd "\x7b\x7bstaging\x7d\x7d" staging)] ++ new2, ?_, ?_⟩⟩
  · rw [removeFile_files, if_pos rfl]
  · rw [hev2]
    simp only [World.record, hev1, List.append_assoc]
  · intro c hc
    simp only [List.mem_append, List.mem_singleton] at hc
    rcases hc with (h1 | h2) | h3
    · exact (hnew1 _ h1 c).2 rfl
    · cases h2
    · have := hnew2 _ h3
      cases this

/-- Witness for C29: the destination holds the bytes 1, 2, the template renders to 1, 2, 3,
and the check command exits with status 1. -/
theorem processTemplate_check_fails_witness :
    ∃ w2 : World,
      processTemplate failingCommands webGraph (worldWith [1, 2]) exTemplate =
        (.failed ("Check command failed: " ++ "exit status 1"), w2) ∧
      mapIndex w2.files exTemplate.Dest = mapIndex (worldWith [1, 2]).files exTemplate.Dest ∧
      mapIndex w2.files "/etc/.app.conf-tmp" = none :=
  match processTemplate_check_fails failingCommands webGraph (worldWith [1, 2])
    (createStagingFile failingCommands (worldWith [1, 2]) [1, 2, 3] "/etc/app.conf").2
    exTemplate [1, 2, 3] "/etc/.app.conf-tmp" "exit status 1" rfl (by decide) rfl rfl
    (by decide) rfl with
  | ⟨w2, h1, h2, _, h4, _⟩ => ⟨w2, h1, h2, h4⟩

end RancherConf

namespace RancherConf

/-! ## The fallback of copyStagingToDestination -/

/-- C30, counterexample: with a staging file and a destination in place, a rename that fails
with the error of a rename across mounts, "invalid cross-device link", does not reach the
fallback: the error is returned and nothing is written; and after a rename that fails with
"device or resource busy" the fallback is taken but fails in its turn when the destination
cannot be written. -/
theorem copyStagingToDestination_fallback_not_taken_or_fails :
    copyStagingToDestination
        (renameFails "rename /tmp/.app.conf-1 /etc/app.conf: invalid cross-device link")
        stagedWorld "/tmp/.app.conf-1" "/etc/app.conf" =
      (some "rename /tmp/.app.conf-1 /etc/app.conf: invalid cross-device link", stagedWorld) ∧
    copyStagingToDestination
        (readOnlyDest "rename /tmp/.app.conf-1 /etc/app.conf: device or resource busy")
        stagedWorld "/tmp/.app.conf-1" "/etc/app.conf" =
      (some "open /etc/app.conf: read-only file system", stagedWorld) :=
  ⟨rfl, rfl⟩

/-- C30, amended: if the staging file exists, the rename fails with an error whose text
contains "device or resource busy", and the read of the staging file, the write of the
destination and the chown of the destination do not fail, then `copyStagingToDestination`
succeeds by the fallback: afterwards the destination holds the content of the staging file
and has its owner and group; its permission bits are those the destination had before, if
it existed, and those of the staging file less the umask otherwise, so that a destination
whose bits the staging file had copied ends with the metadata of the staging file. -/
theorem copyStagingToDestination_busy_fallback (k : Kernel) (w : World)
    (stagingPath destPath err : String) (sf : File)
    (hstaging : mapIndex w.files stagingPath = some sf)
    (hrename : k.fault w (.rename stagingPath destPath) = some err)
    (hbusy : Contains err "device or resource busy" = true)
    (hread : k.fault w (.readFile stagingPath) = none)
    (hwrite : k.fault w (.writeFile destPath) = none)
    (hchown : k.fault (writeFile k w destPath sf.content sf.stat.Mode).2 (.chown destPath) =
      none) :
    ∃ (w1 : World) (d : File),
      copyStagingToDestination k w stagingPath destPath = (none, w1) ∧
      mapIndex w1.files destPath = some d ∧
      d.content = sf.content ∧ d.stat.Uid = sf.stat.Uid ∧ d.stat.Gid = sf.stat.Gid ∧
      (∀ old : File, mapIndex w.files destPath = some old → d.stat.Mode = old.stat.Mode) ∧
      (mapIndex w.files destPath = none → d.stat.Mode = createMode k sf.stat.Mode) ∧
      (∀ old : File, mapIndex w.files destPath = some old → old.stat.Mode = sf.stat.Mode →
        d.stat = sf.stat) := by
  have hren : renameFile k w stagingPath destPath = (some err, w) := by
    unfold renameFile
    rw [hstaging]
    simp only [hrename]
  have hrd : readFile k w stagingPath = .ok sf.content := by
    unfold readFile
    rw [hstaging]
    simp only [hread]
  have hwf : writeFile k w destPath sf.content sf.stat.Mode =
      (none, (writeFile k w destPath sf.content sf.stat.Mode).2) := by
    unfold writeFile
    simp only [hwrite]
  have hcopy : copyStagingToDestination k w stagingPath destPath =
      (none,
        { files := updateFile (writeFile k w destPath sf.content sf.stat.Mode).2 destPath
            (fun x => { x with stat := { x.stat with Uid := sf.stat.Uid,
                                                     Gid := sf.stat.Gid } }),
          events := (writeFile k w destPath sf.content sf.stat.Mode).2.events ++
            [.chown destPath sf.stat.Uid sf.stat.Gid] }) := by
    unfold copyStagingToDestination
    rw [hren]
    simp only [hbusy, Bool.not_true, Bool.false_eq_true, if_false, hrd, hstaging]
    rw [hwf]
    simp only [hchown]
  rcases hold : mapIndex w.files destPath with _ | old
  · have hw2 : mapIndex (writeFile k w destPath sf.content sf.stat.Mode).2.files destPath =
        some { content := sf.content,
               stat := { Mode := createMode k sf.stat.Mode, Uid := k.uid, Gid := k.gid } } := by
      unfold writeFile
      simp only [hwrite, hold, mapIndex_mapAssign, if_true]
    refine ⟨_, { content := sf.content,
                 stat := { Mode := createMode k sf.stat.Mode, Uid := sf.stat.Uid,
                           Gid := sf.stat.Gid } }, hcopy, ?_, rfl, rfl, rfl, ?_, ?_, ?_⟩
    · simp only [mapIndex_updateFile, if_true, hw2, Option.map_some']
    · intro o ho
      cases ho
    · intro _
      rfl
    · intro o ho
      cases ho
  · have hw2 : mapIndex (writeFile k w destPath sf.content sf.stat.Mode).2.files destPath =
        some { old with content := sf.content } := by
      unfold writeFile
      simp only [hwrite, hold, mapIndex_mapAssign, if_true]
    refine ⟨_, { content := sf.content,
                 stat := { Mode := old.stat.Mode, Uid := sf.stat.Uid,
                           Gid := sf.stat.Gid } }, hcopy, ?_, rfl, rfl, rfl, ?_, ?_, ?_⟩
    · simp only [mapIndex_updateFile, if_true, hw2, Option.map_some']
    · intro o ho
      cases ho
      rfl
    · intro h
      cases h
    · intro o ho hmode
      cases ho
      simp only [hmode]

/-- Witness for C30: the staging file with the bytes 7, 8 and the destination, both of mode
0644 and owner 33:33; the rename fails with "device or resource busy". -/
theorem copyStagingToDestination_busy_fallback_witness :
    ∃ (w1 : World) (d : File),
      copyStagingToDestination
          (renameFails "rename /tmp/.app.conf-1 /etc/app.conf: device or resource busy")
          stagedWorld "/tmp/.app.conf-1" "/etc/app.conf" = (none, w1) ∧
        mapIndex w1.files "/etc/app.conf" = some d ∧ d.content = [7, 8] ∧
        d.stat = { Mode := 0o644, Uid := 33, Gid := 33 } :=
  match copyStagingToDestination_busy_fallback
    (renameFails "rename /tmp/.app.conf-1 /etc/app.conf: device or resource busy")
    stagedWorld "/tmp/.app.conf-1" "/etc/app.conf"
    "rename /tmp/.app.conf-1 /etc/app.conf: device or resource busy"
    { content := [7, 8], stat := { Mode := 0o644, Uid := 33, Gid := 33 } }
    rfl rfl (by decide) rfl rfl rfl with
  | ⟨w1, d, h1, h2, h3, _, _, _, _, h8⟩ =>
    ⟨w1, d, h1, h2, h3, h8 { content := [1], stat := { Mode := 0o644, Uid := 33, Gid := 33 } }
      rfl rfl⟩

end RancherConf

namespace RancherConf

/-! ## processVersion -/

theorem processJobs_spec (k : Kernel) (funcs : TemplateContext) (templates : List Template) :
    ∀ w : World,
      ((processJobs k funcs w templates).jobs.map Prod.fst) <+: templates ∧
      ((∀ j ∈ (processJobs k funcs w templates).jobs, ∀ msg : String, j.2 ≠ .fatal msg) →
        (processJobs k funcs w templates).jobs.map Prod.fst = templates ∧
          (processJobs k funcs w templates).ending = .returned) := by
  induction templates with
  | nil =>
    intro w
    exact ⟨by simp [processJobs], fun _ => ⟨rfl, rfl⟩⟩
  | cons tmpl rest ih =>
    intro w
    rcases h : processTemplate k funcs w tmpl with ⟨o, w1⟩
    cases o with
    | fatal msg =>
      have e : processJobs k funcs w (tmpl :: rest) =
          { ending := .exited msg, jobs := [(tmpl, .fatal msg)], world := w1 } := by
        rw [processJobs, h]
      rw [e]
      refine ⟨?_, ?_⟩
      · simp only [List.map_cons, List.map_nil]
        exact List.prefix_iff_eq_append.2 (by simp)
      · intro hall
        exact absurd rfl (hall (tmpl, .fatal msg) (by simp) msg)
    | failed err =>
      have e : (processJobs k funcs w (tmpl :: rest)).jobs =
            (tmpl, .failed err) :: (processJobs k funcs w1 rest).jobs ∧
          (processJobs k funcs w (tmpl :: rest)).ending =
            (processJobs k funcs w1 rest).ending := by
        rw [processJobs, h]
        exact ⟨rfl, rfl⟩
      obtain ⟨ih1, ih2⟩ := ih w1
      rw [e.1, e.2]
      refine ⟨?_, ?_⟩
      · simp only [List.map_cons]
        exact (List.prefix_cons_inj tmpl).2 ih1
      · intro hall
        obtain ⟨h1, h2⟩ := ih2 (fun j hj msg => hall j (List.mem_cons_of_mem _ hj) msg)
        exact ⟨by simp only [List.map_cons, h1], h2⟩
    | done =>
      have e : (processJobs k funcs w (tmpl :: rest)).jobs =
            (tmpl, .done) :: (processJobs k funcs
              (if tmpl.UpdateCmd ≠ "" then (post k w1 tmpl.UpdateCmd).2 else w1) rest).jobs ∧
          (processJobs k funcs w (tmpl :: rest)).ending =
            (processJobs k funcs
              (if tmpl.UpdateCmd ≠ "" then (post k w1 tmpl.UpdateCmd).2 else w1) rest).ending := by
        rw [processJobs, h]
        exact ⟨rfl, rfl⟩
      obtain ⟨ih1, ih2⟩ := ih (if tmpl.UpdateCmd ≠ "" then (post k w1 tmpl.UpdateCmd).2 else w1)
      rw [e.1, e.2]
      refine ⟨?_, ?_⟩
      · simp only [List.map_cons]
        exact (List.prefix_cons_inj tmpl).2 ih1
      · intro hall
        obtain ⟨h1, h2⟩ := ih2 (fun j hj msg => hall j (List.mem_cons_of_mem _ hj) msg)
        exact ⟨by simp only [List.map_cons, h1], h2⟩

/-- C31, counterexample: the context is built, the template of the first job does not parse,
`log.Fatalf` ends the process, and `processTemplate` is never called for the second job. -/
theorem processVersion_stops_at_fatal_job :
    createContext { SelfId := "" } webSnapshot = .ok webGraph ∧
      processVersion brokenTemplateKernel { SelfId := "" } webSnapshot [badTemplate, exTemplate]
          emptyWorld =
        { ending := .exited "Could not parse template '/tpl/bad.tmpl': unexpected EOF",
          jobs := [(badTemplate,
            .fatal "Could not parse template '/tpl/bad.tmpl': unexpected EOF")],
          world := emptyWorld } :=
  ⟨rfl, rfl⟩

/-- C31, amended: when `createContext` fails, `processVersion` calls `processTemplate` for no
job and leaves the world as it was; when it succeeds, the jobs for which `processTemplate` is
called are an initial part of the configured jobs, each called once and in configuration
order, and they are all the configured jobs, with `processVersion` returning, provided no
call of `processTemplate` ends the process by `log.Fatalf`; errors that `processTemplate`
returns do not stop the loop. -/
theorem processVersion_jobs (k : Kernel) (cfg : Config) (client : Client)
    (templates : List Template) (w : World) :
    (∀ e : Failure, createContext cfg client = .error e →
      (processVersion k cfg client templates w).jobs = [] ∧
        (processVersion k cfg client templates w).world = w) ∧
    (∀ ctx : TemplateContext, createContext cfg client = .ok ctx →
      ((processVersion k cfg client templates w).jobs.map Prod.fst) <+: templates ∧
      ((∀ j ∈ (processVersion k cfg client templates w).jobs, ∀ msg : String,
          j.2 ≠ .fatal msg) →
        (processVersion k cfg client templates w).jobs.map Prod.fst = templates ∧
          (processVersion k cfg client templates w).ending = .returned)) := by
  constructor
  · intro e he
    unfold processVersion
    rw [he]
    cases e <;> exact ⟨rfl, rfl⟩
  · intro ctx hctx
    unfold processVersion
    rw [hctx]
    exact processJobs_spec k ctx templates w

/-- Witness for C31: two jobs whose check command fails; both are processed. -/
theorem processVersion_jobs_witness :
    (processVersion failingCommands { SelfId := "" } webSnapshot [exTemplate, exTemplate]
        (worldWith [1, 2])).jobs.map Prod.fst = [exTemplate, exTemplate] :=
  ((processVersion_jobs failingCommands { SelfId := "" } webSnapshot [exTemplate, exTemplate]
      (worldWith [1, 2])).2 webGraph rfl).2
    (by
      intro j hj msg
      have e : (processVersion failingCommands { SelfId := "" } webSnapshot
          [exTemplate, exTemplate] (worldWith [1, 2])).jobs =
          [(exTemplate, .failed "Check command failed: exit status 1"),
           (exTemplate, .failed "Check command failed: exit status 1")] := rfl
      rw [e] at hj
      simp only [List.mem_cons, List.mem_singleton, List.not_mem_nil, or_false, or_self] at hj
      rw [hj]
      intro h
      cases h) |>.1

/-! ## A template that does not render -/

/-- C32, counterexample: the template of `badTemplate` does not parse; `processTemplate` does
not return but ends the process, and the loop of `processVersion` never reaches the job that
follows. -/
theorem processTemplate_bad_template_ends_process :
    processTemplate brokenTemplateKernel webGraph emptyWorld badTemplate =
        (.fatal "Could not parse template '/tpl/bad.tmpl': unexpected EOF", emptyWorld) ∧
      (processJobs brokenTemplateKernel webGraph emptyWorld [badTemplate, exTemplate]).jobs.map
          Prod.fst = [badTemplate] ∧
      (processJobs brokenTemplateKernel webGraph emptyWorld [badTemplate, exTemplate]).ending =
        .exited "Could not parse template '/tpl/bad.tmpl': unexpected EOF" :=
  ⟨rfl, rfl, rfl⟩

/-- C32, amended: when the template of a job is missing, cannot be read, or fails to parse or
to execute, `processTemplate` ends the process by `log.Fatalf` without touching the world,
and the jobs that follow in the same cycle are not processed; in the polling runners, where
`processTemplate` returns the error, `poll` returns it at once and likewise processes none of
the jobs that follow. -/
theorem processTemplate_render_failure_is_fatal (k : Kernel) (funcs : TemplateContext)
    (w : World) (t : Template) (rest : List Template) (e : String)
    (h : k.render funcs w t = .error e) :
    processTemplate k funcs w t = (.fatal e, w) ∧
      processJobs k funcs w (t :: rest) =
        { ending := .exited e, jobs := [(t, .fatal e)], world := w } ∧
      ∀ pt : Template → Option String, pt t = some e →
        pollJobs pt (t :: rest) = ([t], some e) := by
  have h1 : processTemplate k funcs w t = (.fatal e, w) := by
    unfold processTemplate
    rw [h]
  refine ⟨h1, ?_, ?_⟩
  · rw [processJobs, h1]
  · intro pt hpt
    rw [pollJobs, hpt]

/-- Witness for C32: the job `badTemplate` in `brokenTemplateKernel`. -/
theorem processTemplate_render_failure_is_fatal_witness :
    processTemplate brokenTemplateKernel webGraph emptyWorld badTemplate =
      (.fatal "Could not parse template '/tpl/bad.tmpl': unexpected EOF", emptyWorld) :=
  (processTemplate_render_failure_is_fatal brokenTemplateKernel webGraph emptyWorld badTemplate
    [exTemplate] "Could not parse template '/tpl/bad.tmpl': unexpected EOF" rfl).1

/-! ## The polling runners -/

/-- C33: in both polling runners a call of `poll` that sees the version `v` stores it in the
runner even when `createContext` fails, and the next call of `poll` that sees the same
version returns without calling `createContext` and without processing a template; so for the
runner that starts at the version "init", the build that failed at version "v1" is not
attempted again while the version stays "v1". -/
theorem poll_does_not_retry_failed_build (r : runner) (v e : String)
    (pt pt2 : Template → Option String) (cc2 : Except String Unit)
    (templates : List Template) :
    ((SrcRunner.poll r ⟨.ok v, .error e, pt⟩ templates).runner.Version = v ∧
      (SrcRunner.poll (SrcRunner.poll r ⟨.ok v, .error e, pt⟩ templates).runner
        ⟨.ok v, cc2, pt2⟩ templates).built = false ∧
      (SrcRunner.poll (SrcRunner.poll r ⟨.ok v, .error e, pt⟩ templates).runner
        ⟨.ok v, cc2, pt2⟩ templates).processed = []) ∧
    ((RootRunner.poll r ⟨.ok v, .error e, pt⟩ templates).runner.Version = v ∧
      (RootRunner.poll (RootRunner.poll r ⟨.ok v, .error e, pt⟩ templates).runner
        ⟨.ok v, cc2, pt2⟩ templates).built = false ∧
      (RootRunner.poll (RootRunner.poll r ⟨.ok v, .error e, pt⟩ templates).runner
        ⟨.ok v, cc2, pt2⟩ templates).processed = []) ∧
    SrcRunner.poll { Version := "init" } ⟨.ok "v1", .error e, pt⟩ templates =
      { runner := { Version := "v1" }, built := true, processed := [],
        err := some ("Failed to create context from Rancher Metadata: " ++ e) } ∧
    SrcRunner.poll { Version := "v1" } ⟨.ok "v1", cc2, pt2⟩ templates =
      { runner := { Version := "v1" }, built := false, processed := [], err := none } ∧
    RootRunner.poll { Version := "init" } ⟨.ok "v1", .error e, pt⟩ templates =
      { runner := { Version := "v1" }, built := true, processed := [], err := none } ∧
    RootRunner.poll { Version := "v1" } ⟨.ok "v1", cc2, pt2⟩ templates =
      { runner := { Version := "v1" }, built := false, processed := [], err := none } := by
  have hs : (SrcRunner.poll r ⟨.ok v, .error e, pt⟩ templates).runner.Version = v := by
    unfold SrcRunner.poll
    by_cases hv : r.Version = v
    · simp [hv]
    · simp [hv]
  have hr : (RootRunner.poll r ⟨.ok v, .error e, pt⟩ templates).runner.Version = v := by
    unfold RootRunner.poll
    by_cases hv : r.Version = v
    · simp [hv]
    · simp [hv]
  have hs2 : ∀ r2 : runner, r2.Version = v →
      SrcRunner.poll r2 ⟨.ok v, cc2, pt2⟩ templates =
        { runner := r2, built := false, processed := [], err := none } := by
    intro r2 h2
    unfold SrcRunner.poll
    simp [h2]
  have hr2 : ∀ r2 : runner, r2.Version = v →
      RootRunner.poll r2 ⟨.ok v, cc2, pt2⟩ templates =
        { runner := r2, built := false, processed := [], err := none } := by
    intro r2 h2
    unfold RootRunner.poll
    simp [h2]
  refine ⟨⟨hs, ?_, ?_⟩, ⟨hr, ?_, ?_⟩, ?_, ?_, ?_, ?_⟩
  · rw [hs2 _ hs]
  · rw [hs2 _ hs]
  · rw [hr2 _ hr]
  · rw [hr2 _ hr]
  · unfold SrcRunner.poll
    simp
  · unfold SrcRunner.poll
    simp
  · unfold RootRunner.poll
    simp
  · unfold RootRunner.poll
    simp

end RancherConf

namespace RancherConf

/-! ## sortedLabelMap and sortedMetaMap -/

theorem mapIndex_perm {β : Type} (m1 m2 : GoMap β) (h : m1.Perm m2)
    (hn : (m1.map Prod.fst).Nodup) (k : String) : mapIndex m1 k = mapIndex m2 k := by
  have hn2 : (m2.map Prod.fst).Nodup := (h.map Prod.fst).nodup_iff.1 hn
  cases h1 : mapIndex m1 k with
  | some v =>
    exact (mapIndex_eq_some_of_mem m2 k v hn2
      (h.mem_iff.1 (mem_of_mapIndex_eq_some _ _ _ h1))).symm
  | none =>
    cases h2 : mapIndex m2 k with
    | none => rfl
    | some v =>
      have h3 := mapIndex_eq_some_of_mem m1 k v hn
        (h.mem_iff.2 (mem_of_mapIndex_eq_some _ _ _ h2))
      rw [h1] at h3
      cases h3

theorem fill_sorted_keys (m : GoMap String) (ks : List String) :
    ∀ acc : GoMap String, ks.Nodup → (∀ k ∈ ks, k ∉ acc.map Prod.fst) →
      ks.foldl (fun sorted k => mapAssign sorted k ((mapIndex m k).getD "")) acc =
        acc ++ ks.map (fun k => (k, (mapIndex m k).getD "")) := by
  induction ks with
  | nil => intro acc _ _; simp
  | cons k ks ih =>
    intro acc hn hd
    simp only [List.nodup_cons] at hn
    simp only [List.foldl_cons, List.map_cons]
    rw [mapAssign_of_not_mem acc k _ (hd k (List.mem_cons_self _ _))]
    rw [ih _ hn.2]
    · simp
    · intro k' hk'
      simp only [List.map_append, List.map_cons, List.map_nil, List.mem_append,
        List.mem_singleton, not_or]
      refine ⟨hd k' (List.mem_cons_of_mem _ hk'), ?_⟩
      intro e
      exact hn.1 (e ▸ hk')

theorem sortedLabelMap_eq_map (m : GoMap String) (h : (m.map Prod.fst).Nodup) :
    sortedLabelMap m =
      (sortStrings (m.map Prod.fst)).map (fun k => (k, (mapIndex m k).getD "")) := by
  unfold sortedLabelMap
  have hn : (sortStrings (m.map Prod.fst)).Nodup :=
    (sortSliceStable_perm strLess _).nodup_iff.2 h
  rw [fill_sorted_keys m (sortStrings (m.map Prod.fst)) [] hn (by simp)]
  simp

theorem entries_of_keys (m : GoMap String) (h : (m.map Prod.fst).Nodup) :
    (m.map Prod.fst).map (fun k => (k, (mapIndex m k).getD "")) = m := by
  rw [List.map_map]
  conv_rhs => rw [← List.map_id m]
  apply List.map_congr_left
  intro e he
  obtain ⟨k, v⟩ := e
  simp only [Function.comp_apply, id_eq]
  rw [mapIndex_eq_some_of_mem m k v h he]
  rfl

theorem sortedLabelMap_perm (m : GoMap String) (h : (m.map Prod.fst).Nodup) :
    (sortedLabelMap m).Perm m := by
  rw [sortedLabelMap_eq_map m h]
  have hp := (sortSliceStable_perm strLess (m.map Prod.fst)).map
    (fun k => (k, (mapIndex m k).getD ""))
  rw [entries_of_keys m h] at hp
  exact hp

theorem sortedLabelMap_keys (m : GoMap String) (h : (m.map Prod.fst).Nodup) :
    (sortedLabelMap m).map Prod.fst = sortStrings (m.map Prod.fst) := by
  rw [sortedLabelMap_eq_map m h, List.map_map]
  conv_rhs => rw [← List.map_id (sortStrings (m.map Prod.fst))]
  rfl

theorem sortStrings_strict (ks : List String) (h : ks.Nodup) :
    (sortStrings ks).Pairwise (fun a b => a < b) := by
  have hs : (sortStrings ks).Pairwise (fun a b => a ≤ b) :=
    sortSliceStable_sorted (fun s : String => s) strLess (fun a b => strLess_iff a b) ks
  have hn : (sortStrings ks).Nodup := (sortSliceStable_perm strLess ks).nodup_iff.2 h
  exact (hs.and hn).imp (fun h => lt_of_le_of_ne h.1 h.2)

theorem sortedLabelMap_congr (m m2 : GoMap String) (h : (m.map Prod.fst).Nodup)
    (hp : m2.Perm m) : sortedLabelMap m2 = sortedLabelMap m := by
  have h2 : (m2.map Prod.fst).Nodup := (hp.map Prod.fst).nodup_iff.2 h
  haveI : IsAntisymm (String × String) (fun x y => x.1 < y.1) :=
    ⟨fun a b h1 h2 => absurd h1 (lt_asymm h2)⟩
  apply @List.eq_of_perm_of_sorted _ (fun x y : String × String => x.1 < y.1) _ _ _
    (((sortedLabelMap_perm m2 h2).trans hp).trans (sortedLabelMap_perm m h).symm)
  · have := sortStrings_strict _ h2
    rw [← sortedLabelMap_keys m2 h2, List.pairwise_map] at this
    exact this
  · have := sortStrings_strict _ h
    rw [← sortedLabelMap_keys m h, List.pairwise_map] at this
    exact this

theorem templateRange_eq (m : GoMap String) (h : (m.map Prod.fst).Nodup) :
    templateRange m = sortedLabelMap m :=
  (sortedLabelMap_eq_map m h).symm

/-- C34, counterexample: a `range` over the map that `sortedLabelMap` returns for the labels
b=2, a=1 may visit the keys in the order b, a, which is not ascending: the result is a Go
map, and the order in which its keys were inserted is not kept. -/
theorem sortedLabelMap_range_order_open :
    mayRange (sortedLabelMap [("b", "2"), ("a", "1")]) ["b", "a"] = true ∧
      mayRange (sortedLabelMap [("b", "2"), ("a", "1")]) ["a", "b"] = true ∧
      strLess "b" "a" = false ∧
      mayRange (sortedMetaMap [("b", "2"), ("a", "1")]) ["b", "a"] = true :=
  ⟨by decide, by decide, by decide, by decide⟩

/-- C34, amended: for a label map `m`, `sortedLabelMap m` is a map with exactly the entries of
`m`, every key with the value it has in `m`, and a `range` over it may visit the keys in the
same orders as a `range` over `m`; in a template, `range` visits the entries of `m`, and
likewise of `sortedLabelMap m`, in strictly ascending order of the keys, the same for every
order in which the entries of `m` were supplied; and `sortedMetaMap` does the same for
metadata maps. -/
theorem sortedLabelMap_entries (m : GoMap String) (h : (m.map Prod.fst).Nodup) :
    ((sortedLabelMap m).Perm m ∧
      (∀ k : String, mapIndex (sortedLabelMap m) k = mapIndex m k) ∧
      (∀ ks : List String, mayRange (sortedLabelMap m) ks = mayRange m ks) ∧
      templateRange (sortedLabelMap m) = templateRange m) ∧
    ((sortedMetaMap m).Perm m ∧
      (∀ k : String, mapIndex (sortedMetaMap m) k = mapIndex m k) ∧
      (∀ ks : List String, mayRange (sortedMetaMap m) ks = mayRange m ks) ∧
      templateRange (sortedMetaMap m) = templateRange m) ∧
    ((templateRange m).Perm m ∧
      ((templateRange m).map Prod.fst).Pairwise (fun a b => a < b) ∧
      ((templateRange m).map Prod.fst).Pairwise (fun a b => strLess a b = true) ∧
      ∀ m2 : GoMap String, m2.Perm m → templateRange m2 = templateRange m) := by
  have hmeta : ∀ x : GoMap String, sortedMetaMap x = sortedLabelMap x := fun _ => rfl
  have hperm := sortedLabelMap_perm m h
  have hn : ((sortedLabelMap m).map Prod.fst).Nodup :=
    (hperm.map Prod.fst).nodup_iff.2 h
  have hlt : ((sortedLabelMap m).map Prod.fst).Pairwise (fun a b => a < b) := by
    rw [sortedLabelMap_keys m h]
    exact sortStrings_strict _ h
  have key : (sortedLabelMap m).Perm m ∧
      (∀ k : String, mapIndex (sortedLabelMap m) k = mapIndex m k) ∧
      (∀ ks : List String, mayRange (sortedLabelMap m) ks = mayRange m ks) ∧
      templateRange (sortedLabelMap m) = templateRange m := by
    refine ⟨hperm, fun k => mapIndex_perm _ _ hperm hn k, ?_, ?_⟩
    · intro ks
      unfold mayRange
      exact decide_eq_decide.2
        ⟨fun hk => hk.trans (hperm.map Prod.fst),
          fun hk => hk.trans (hperm.map Prod.fst).symm⟩
    · rw [templateRange_eq _ hn, templateRange_eq m h]
      exact sortedLabelMap_congr m (sortedLabelMap m) h hperm
  refine ⟨key, ?_, ?_⟩
  · simp only [hmeta]
    exact key
  · rw [templateRange_eq m h]
    refine ⟨hperm, hlt, hlt.imp (fun hab => (strLess_iff _ _).2 hab), ?_⟩
    intro m2 hp
    rw [templateRange_eq m2 ((hp.map Prod.fst).nodup_iff.2 h)]
    exact sortedLabelMap_congr m m2 h hp

/-- Witness for C34: the same two labels supplied in either order are visited in the order
a, b by a template. -/
theorem sortedLabelMap_entries_witness :
    ([("b", "2"), ("a", "1")].map Prod.fst).Nodup ∧
      templateRange [("a", "1"), ("b", "2")] = templateRange [("b", "2"), ("a", "1")] ∧
      templateRange (sortedLabelMap [("b", "2"), ("a", "1")]) =
        templateRange [("b", "2"), ("a", "1")] ∧
      templateRange [("b", "2"), ("a", "1")] = [("a", "1"), ("b", "2")] :=
  have h := sortedLabelMap_entries [("b", "2"), ("a", "1")] (by decide)
  ⟨by decide, h.2.2.2.2.2 [("a", "1"), ("b", "2")] (List.Perm.swap _ _ _), h.1.2.2.2,
    by decide⟩

end RancherConf

namespace RancherConf

variable (uc : FoldTable)

/-! ## GetServices on a selector that is neither a stack nor a label selector -/

/-- C35: `GetServices` is not total on selector lists: the empty selector makes `f[:1]` fail
with a slice-bounds panic in every context, alone or after other selectors, where an
"invalid argument" error was to be returned; and a list that holds a selector beginning with
neither '.' nor '@' after a malformed label selector returns the "malformed label selector"
error of the earlier one. -/
theorem getServices_empty_selector_panics (rx : RegexEngine) (c : TemplateContext) :
    GetServices uc rx c [""] = .error .sliceBounds ∧
      GetServices uc rx c ["@a=b", ""] = .error .sliceBounds ∧
      GetServices uc rx c ["x"] = .error (.other "(services) invalid argument 'x'") ∧
      GetServices uc rx c ["@a=b=c", "x"] =
        .error (.other "(services) malformed label selector '@a=b=c'") :=
  ⟨rfl, rfl, rfl, rfl⟩

/-! ## overwriteConfigFromEnv -/

/-- C36: the test on the error of `strconv.Atoi` is inverted: when RANCHER_GEN_INTERVAL holds
the decimal integer 30, `overwriteConfigFromEnv` leaves `conf.Interval` as it was and logs
the warning, and when it holds `abc`, which is no integer, `conf.Interval` is set to 0 and
nothing is logged. -/
theorem overwriteConfigFromEnv_interval_inverted (conf : Config) :
    (overwriteConfigFromEnv (envOf [("RANCHER_GEN_INTERVAL", "30")]) conf).1.Interval =
        conf.Interval ∧
      (overwriteConfigFromEnv (envOf [("RANCHER_GEN_INTERVAL", "30")]) conf).2 =
        ["Invalid value for environment variable 'RANCHER_GEN_INTERVAL': 30"] ∧
      (overwriteConfigFromEnv (envOf [("RANCHER_GEN_INTERVAL", "abc")]) conf).1.Interval = 0 ∧
      (overwriteConfigFromEnv (envOf [("RANCHER_GEN_INTERVAL", "abc")]) conf).2 = [] ∧
      Atoi "30" = (30, none) :=
  ⟨rfl, rfl, rfl, rfl, rfl⟩

/-! ## The label functions on their own results -/

/-- C37: for a list of services, containers or hosts and a non-empty label key,
`whereLabelExists` and `whereLabelEquals` succeed, and their result, a `[]interface{}`, is
rejected with "invalid input type" when it is passed as the input of `whereLabelExists`, of
`whereLabelEquals` or of `groupByLabel`. -/
theorem whereLabel_result_rejected (label value label2 value2 : String) (inp : Input)
    (hsup : inp.supported = true) (hlabel : label ≠ "") (hlabel2 : label2 ≠ "") :
    ((whereLabelExists label inp).2 = none ∧
      whereLabelExists label2 (Input.ofItems (whereLabelExists label inp).1) =
        ([], some "(whereLabelExists) invalid input type []interface {}") ∧
      whereLabelEquals uc label2 value2 (Input.ofItems (whereLabelExists label inp).1) =
        ([], some "(whereLabelEquals) invalid input type []interface {}") ∧
      groupByLabel label2 (Input.ofItems (whereLabelExists label inp).1) =
        ([], some "(groupByLabel) invalid input type []interface {}")) ∧
    ((whereLabelEquals uc label value inp).2 = none ∧
      whereLabelExists label2 (Input.ofItems (whereLabelEquals uc label value inp).1) =
        ([], some "(whereLabelExists) invalid input type []interface {}") ∧
      whereLabelEquals uc label2 value2 (Input.ofItems (whereLabelEquals uc label value inp).1) =
        ([], some "(whereLabelEquals) invalid input type []interface {}") ∧
      groupByLabel label2 (Input.ofItems (whereLabelEquals uc label value inp).1) =
        ([], some "(groupByLabel) invalid input type []interface {}")) := by
  have hok : ∀ (name : String) (test : String → Bool → Bool),
      (whereLabel name inp label test).2 = none := by
    intro name test
    unfold whereLabel
    cases inp with
    | nil => cases hsup
    | other t => cases hsup
    | services xs => simp only [if_neg hlabel]
    | containers xs => simp only [if_neg hlabel]
    | hosts xs => simp only [if_neg hlabel]
  have hrej : ∀ (name : String) (test : String → Bool → Bool) (items : List Item),
      whereLabel name (Input.ofItems items) label2 test =
        ([], some ("(" ++ name ++ ") invalid input type " ++ "[]interface {}")) := by
    intro name test items
    unfold whereLabel Input.ofItems
    simp only [if_neg hlabel2]
  have hgrp : ∀ items : List Item, groupByLabel label2 (Input.ofItems items) =
      ([], some "(groupByLabel) invalid input type []interface {}") := fun _ => rfl
  exact ⟨⟨hok _ _, hrej _ _ _, hrej _ _ _, hgrp _⟩, ⟨hok _ _, hrej _ _ _, hrej _ _ _, hgrp _⟩⟩

/-- Witness for C37: the two containers that carry the label `version`, filtered a second
time and grouped. -/
theorem whereLabel_result_rejected_witness :
    (whereLabelExists "version" (.containers versionedContainers)).2 = none ∧
      whereLabelEquals exampleFold "version" "2.0"
          (Input.ofItems (whereLabelExists "version" (.containers versionedContainers)).1) =
        ([], some "(whereLabelEquals) invalid input type []interface {}") ∧
      groupByLabel "version"
          (Input.ofItems (whereLabelExists "version" (.containers versionedContainers)).1) =
        ([], some "(groupByLabel) invalid input type []interface {}") :=
  have h := (whereLabel_result_rejected exampleFold "version" "2.0" "version" "2.0"
    (.containers versionedContainers) rfl (by decide) (by decide)).1
  ⟨h.1, h.2.2.1, h.2.2.2⟩

/-! ## Label selectors with the same key -/

theorem perm_of_mapIndex_eq (m1 m2 : GoMap String) (h1 : (m1.map Prod.fst).Nodup)
    (h2 : (m2.map Prod.fst).Nodup) (h : ∀ k : String, mapIndex m1 k = mapIndex m2 k) :
    m1.Perm m2 := by
  apply (List.perm_ext_iff_of_nodup (List.Nodup.of_map _ h1) (List.Nodup.of_map _ h2)).2
  rintro ⟨k, v⟩
  constructor
  · intro hm
    apply mem_of_mapIndex_eq_some
    rw [← h k]
    exact mapIndex_eq_some_of_mem m1 k v h1 hm
  · intro hm
    apply mem_of_mapIndex_eq_some
    rw [h k]
    exact mapIndex_eq_some_of_mem m2 k v h2 hm

theorem servicesSelectorStep_parts (f k v : String) (h : labelSelectorParts f = some (k, v))
    (st : ServiceSelectors) :
    servicesSelectorStep st f = .ok { st with labels := mapAssign st.labels k v } := by
  unfold labelSelectorParts at h
  unfold servicesSelectorStep
  split at h
  · rename_i rest hd
    rcases hs : Split (String.mk rest) '=' with _ | ⟨a, _ | ⟨b, _ | ⟨d, t⟩⟩⟩
    · rw [hs] at h; cases h
    · rw [hs] at h; cases h
    · rw [hs] at h
      cases h
      rw [hd]
      simp only [hs]
    · rw [hs] at h; cases h
  · cases h

theorem hostsSelectorStep_parts (f k v : String) (h : labelSelectorParts f = some (k, v))
    (m : LabelMap) : hostsSelectorStep m f = .ok (mapAssign m k v) := by
  unfold labelSelectorParts at h
  unfold hostsSelectorStep
  split at h
  · rename_i rest hd
    rcases hs : Split (String.mk rest) '=' with _ | ⟨a, _ | ⟨b, _ | ⟨d, t⟩⟩⟩
    · rw [hs] at h; cases h
    · rw [hs] at h; cases h
    · rw [hs] at h
      cases h
      rfl
    · rw [hs] at h; cases h
  · cases h

theorem hostsSelectorStep_no_parts (f : String) (h : labelSelectorParts f = none) :
    ∃ msg : String, ∀ m : LabelMap, hostsSelectorStep m f = .error (.other msg) := by
  unfold labelSelectorParts at h
  unfold hostsSelectorStep
  split at h
  · rename_i rest hd
    rcases hs : Split (String.mk rest) '=' with _ | ⟨a, _ | ⟨b, _ | ⟨d, t⟩⟩⟩
    · exact ⟨_, fun _ => rfl⟩
    · exact ⟨_, fun _ => rfl⟩
    · rw [hs] at h; cases h
    · exact ⟨_, fun _ => rfl⟩
  · exact ⟨_, fun _ => rfl⟩

theorem servicesSelectorStep_no_parts (f : String) (h : labelSelectorParts f = none)
    (s1 s2 : ServiceSelectors) (hst : s1.stack = s2.stack) :
    (∀ e : LookupError, servicesSelectorStep s1 f = .error e →
      servicesSelectorStep s2 f = .error e) ∧
    (∀ r1 : ServiceSelectors, servicesSelectorStep s1 f = .ok r1 →
      ∃ r2 : ServiceSelectors, servicesSelectorStep s2 f = .ok r2 ∧ r1.stack = r2.stack ∧
        r1.labels = s1.labels ∧ r2.labels = s2.labels) := by
  unfold labelSelectorParts at h
  rcases hd : f.data with _ | ⟨ch, rest⟩
  · have e : ∀ st : ServiceSelectors, servicesSelectorStep st f = .error .sliceBounds := by
      intro st
      unfold servicesSelectorStep
      rw [hd]
    rw [e s1, e s2]
    exact ⟨fun _ he => he, fun _ hr => by cases hr⟩
  · by_cases hdot : ch = '.'
    · subst hdot
      have e : ∀ st : ServiceSelectors, servicesSelectorStep st f =
          if st.stack.length > 0 then
            .error (.other ("(services) invalid use of multiple stack selectors '" ++ f ++ "'"))
          else .ok { st with stack := String.mk rest } := by
        intro st
        unfold servicesSelectorStep
        rw [hd]
        rfl
      rw [e s1, e s2, hst]
      by_cases hlen : s2.stack.length > 0
      · rw [if_pos hlen, if_pos hlen]
        exact ⟨fun _ he => he, fun _ hr => by cases hr⟩
      · rw [if_neg hlen, if_neg hlen]
        refine ⟨fun _ he => (by cases he), fun r1 hr => ?_⟩
        cases hr
        exact ⟨_, rfl, rfl, rfl, rfl⟩
    · by_cases hat : ch = '@'
      · subst hat
        rw [hd] at h
        simp only at h
        have e : ∀ st : ServiceSelectors, servicesSelectorStep st f =
            .error (.other ("(services) malformed label selector '" ++ f ++ "'")) := by
          intro st
          unfold servicesSelectorStep
          rw [hd]
          rcases hs : Split (String.mk rest) '=' with _ | ⟨a, _ | ⟨b, _ | ⟨d, t⟩⟩⟩
          · simp only [hs]
          · simp only [hs]
          · rw [hs] at h; cases h
          · simp only [hs]
        rw [e s1, e s2]
        exact ⟨fun _ he => he, fun _ hr => by cases hr⟩
      · have e : ∀ st : ServiceSelectors, servicesSelectorStep st f =
            .error (.other ("(services) invalid argument '" ++ f ++ "'")) := by
          intro st
          unfold servicesSelectorStep
          rw [hd]
          split
          · rename_i heq; cases heq
          · rename_i heq; cases heq; exact absurd rfl hdot
          · rename_i heq; cases heq; exact absurd rfl hat
          · rfl
        rw [e s1, e s2]
        exact ⟨fun _ he => he, fun _ hr => by cases hr⟩

theorem fold_dropEarlier {σ τ : Type} (step : σ → String → Except LookupError σ)
    (labels : σ → LabelMap) (other : σ → τ)
    (hsome : ∀ f k v : String, labelSelectorParts f = some (k, v) → ∀ s : σ,
      ∃ s1 : σ, step s f = .ok s1 ∧ labels s1 = mapAssign (labels s) k v ∧ other s1 = other s)
    (hnone : ∀ f : String, labelSelectorParts f = none → ∀ s1 s2 : σ, other s1 = other s2 →
      (∀ e : LookupError, step s1 f = .error e → step s2 f = .error e) ∧
      (∀ r1 : σ, step s1 f = .ok r1 → ∃ r2 : σ, step s2 f = .ok r2 ∧ other r1 = other r2 ∧
        labels r1 = labels s1 ∧ labels r2 = labels s2))
    (sels : List String) :
    ∀ s1 s2 : σ, other s1 = other s2 →
      (∀ k : String, (∀ g ∈ sels, (labelSelectorParts g).map Prod.fst ≠ some k) →
        mapIndex (labels s1) k = mapIndex (labels s2) k) →
      (∀ e : LookupError, sels.foldlM step s1 = .error e →
        (dropEarlier sels).foldlM step s2 = .error e) ∧
      (∀ r1 : σ, sels.foldlM step s1 = .ok r1 →
        ∃ r2 : σ, (dropEarlier sels).foldlM step s2 = .ok r2 ∧ other r1 = other r2 ∧
          ∀ k : String, mapIndex (labels r1) k = mapIndex (labels r2) k) := by
  induction sels with
  | nil =>
    intro s1 s2 ho hl
    refine ⟨fun e he => ?_, fun r1 hr => ?_⟩
    · simp only [List.foldlM_nil, pure, Except.pure] at he
      cases he
    · simp only [List.foldlM_nil, pure, Except.pure, Except.ok.injEq] at hr
      subst hr
      exact ⟨s2, rfl, ho, fun k => hl k (by simp)⟩
  | cons f fs ih =>
    intro s1 s2 ho hl
    cases hp : labelSelectorParts f with
    | none =>
      have hd : dropEarlier (f :: fs) = f :: dropEarlier fs := by
        rw [dropEarlier, hp]
      rw [hd, List.foldlM_cons, List.foldlM_cons]
      obtain ⟨herr, hok⟩ := hnone f hp s1 s2 ho
      cases hs : step s1 f with
      | error e0 =>
        rw [herr e0 hs]
        refine ⟨fun e he => ?_, fun r1 hr => ?_⟩
        · simp only [bind, Except.bind] at he ⊢
          exact he
        · simp only [bind, Except.bind] at hr
          cases hr
      | ok r =>
        obtain ⟨r2, h2, hor, hlr1, hlr2⟩ := hok r hs
        rw [h2]
        simp only [bind, Except.bind]
        apply ih r r2 hor
        intro k hk
        rw [hlr1, hlr2]
        apply hl k
        intro g hg
        rcases List.mem_cons.1 hg with e | hmem
        · subst e
          rw [hp]
          simp
        · exact hk g hmem
    | some kv =>
      obtain ⟨k, v⟩ := kv
      obtain ⟨t1, hs1, hl1, ho1⟩ := hsome f k v hp s1
      obtain ⟨t2, hs2, hl2, ho2⟩ := hsome f k v hp s2
      by_cases hlater :
          fs.any (fun g => decide ((labelSelectorParts g).map Prod.fst = some k)) = true
      · have hd : dropEarlier (f :: fs) = dropEarlier fs := by
          rw [dropEarlier, hp]
          simp only [hlater, if_true]
        rw [hd, List.foldlM_cons, hs1]
        simp only [bind, Except.bind]
        apply ih t1 s2 (ho1.trans ho)
        intro k2 hk2
        have hne : ¬ k = k2 := by
          intro e
          subst e
          obtain ⟨g, hg, hgk⟩ := List.any_eq_true.1 hlater
          exact hk2 g hg (of_decide_eq_true hgk)
        rw [hl1, mapIndex_mapAssign, if_neg hne]
        apply hl k2
        intro g hg
        rcases List.mem_cons.1 hg with e | hmem
        · subst e
          rw [hp]
          simpa using hne
        · exact hk2 g hmem
      · have hd : dropEarlier (f :: fs) = f :: dropEarlier fs := by
          rw [dropEarlier, hp]
          simp only [hlater]
          rfl
        rw [hd, List.foldlM_cons, List.foldlM_cons, hs1, hs2]
        simp only [bind, Except.bind]
        apply ih t1 t2 (ho1.trans (ho.trans ho2.symm))
        intro k2 hk2
        rw [hl1, hl2, mapIndex_mapAssign, mapIndex_mapAssign]
        by_cases hkk : k = k2
        · rw [if_pos hkk, if_pos hkk]
        · rw [if_neg hkk, if_neg hkk]
          apply hl k2
          intro g hg
          rcases List.mem_cons.1 hg with e | hmem
          · subst e
            rw [hp]
            simpa using hkk
          · exact hk2 g hmem

theorem fold_labels_nodup {σ τ : Type} (step : σ → String → Except LookupError σ)
    (labels : σ → LabelMap) (other : σ → τ)
    (hsome : ∀ f k v : String, labelSelectorParts f = some (k, v) → ∀ s : σ,
      ∃ s1 : σ, step s f = .ok s1 ∧ labels s1 = mapAssign (labels s) k v ∧ other s1 = other s)
    (hnone : ∀ f : String, labelSelectorParts f = none → ∀ s1 s2 : σ, other s1 = other s2 →
      (∀ e : LookupError, step s1 f = .error e → step s2 f = .error e) ∧
      (∀ r1 : σ, step s1 f = .ok r1 → ∃ r2 : σ, step s2 f = .ok r2 ∧ other r1 = other r2 ∧
        labels r1 = labels s1 ∧ labels r2 = labels s2))
    (sels : List String) (s r : σ) (hs : ((labels s).map Prod.fst).Nodup)
    (h : sels.foldlM step s = .ok r) : ((labels r).map Prod.fst).Nodup := by
  refine foldlM_inv step (fun x => ((labels x).map Prod.fst).Nodup) ?_ sels s r hs h
  intro x f y hx hxy
  cases hp : labelSelectorParts f with
  | none =>
    obtain ⟨_, _, _, hl, _⟩ := (hnone f hp x x rfl).2 y hxy
    rw [hl]
    exact hx
  | some kv =>
    obtain ⟨k, v⟩ := kv
    obtain ⟨y2, hy2, hl, _⟩ := hsome f k v hp x
    rw [hxy] at hy2
    cases hy2
    rw [hl]
    exact mapAssign_keys_nodup _ k v hx

theorem dropEarlier_ne_nil (sels : List String) (h : sels ≠ []) : dropEarlier sels ≠ [] := by
  induction sels with
  | nil => exact absurd rfl h
  | cons f fs ih =>
    cases hp : labelSelectorParts f with
    | none =>
      rw [dropEarlier, hp]
      simp
    | some kv =>
      by_cases hlater :
          fs.any (fun g => decide ((labelSelectorParts g).map Prod.fst = some kv.1)) = true
      · rw [dropEarlier, hp]
        simp only [hlater, if_true]
        apply ih
        intro e
        rw [e] at hlater
        simp at hlater
      · rw [dropEarlier, hp]
        simp only [hlater]
        simp

theorem filterHostsByLabel_perm (rx : RegexEngine) (c : TemplateContext) (n1 n2 : LabelMap)
    (h : n1.Perm n2) (ps : List Nat) :
    filterHostsByLabel uc rx c n1 ps = filterHostsByLabel uc rx c n2 ps := by
  induction ps with
  | nil => rfl
  | cons p ps ih =>
    unfold filterHostsByLabel
    rw [ih]
    cases c.hostArena[p]? with
    | none => rfl
    | some x => simp only [inLabelMap_perm uc rx x.Labels n1 n2 h]

theorem getServices_bind (rx : RegexEngine) (c : TemplateContext) (selectors : List String)
    (hne : selectors ≠ []) :
    GetServices uc rx c selectors =
      (selectors.foldlM servicesSelectorStep { labels := [], stack := "" }).bind (fun st =>
        (if st.stack.length > 0 then filterServicesByStack uc c st.stack c.Services
          else .ok c.Services).bind (fun services =>
          if st.labels.length > 0 then filterServicesByLabel uc rx c st.labels services
          else .ok services)) := by
  cases selectors with
  | nil => exact absurd rfl hne
  | cons f fs =>
    unfold GetServices
    cases (f :: fs).foldlM servicesSelectorStep { labels := [], stack := "" } with
    | error e => rfl
    | ok st =>
      simp only [Except.bind]
      cases (if st.stack.length > 0 then filterServicesByStack uc c st.stack c.Services
          else .ok c.Services) with
      | error e => rfl
      | ok services => rfl

theorem getHosts_bind (rx : RegexEngine) (c : TemplateContext) (selectors : List String)
    (hne : selectors ≠ []) :
    GetHosts uc rx c selectors =
      (selectors.foldlM hostsSelectorStep []).bind (fun labels =>
        filterHostsByLabel uc rx c labels c.Hosts) := by
  cases selectors with
  | nil => exact absurd rfl hne
  | cons f fs =>
    unfold GetHosts
    cases (f :: fs).foldlM hostsSelectorStep [] with
    | error e => rfl
    | ok st => rfl

theorem getServices_dropEarlier (rx : RegexEngine) (c : TemplateContext)
    (selectors : List String) :
    GetServices uc rx c selectors = GetServices uc rx c (dropEarlier selectors) := by
  by_cases hne : selectors = []
  · subst hne
    rfl
  · rw [getServices_bind uc rx c selectors hne,
      getServices_bind uc rx c _ (dropEarlier_ne_nil _ hne)]
    have hsome : ∀ f k v : String, labelSelectorParts f = some (k, v) →
        ∀ s : ServiceSelectors, ∃ s1 : ServiceSelectors, servicesSelectorStep s f = .ok s1 ∧
          s1.labels = mapAssign s.labels k v ∧ s1.stack = s.stack :=
      fun f k v hp s => ⟨_, servicesSelectorStep_parts f k v hp s, rfl, rfl⟩
    have key := fold_dropEarlier servicesSelectorStep (fun s => s.labels) (fun s => s.stack)
      hsome servicesSelectorStep_no_parts selectors { labels := [], stack := "" }
      { labels := [], stack := "" } rfl (fun _ _ => rfl)
    cases hf : selectors.foldlM servicesSelectorStep { labels := [], stack := "" } with
    | error e =>
      rw [key.1 e hf]
    | ok r1 =>
      obtain ⟨r2, hf2, hstack, hlab⟩ := key.2 r1 hf
      have hstack2 : r1.stack = r2.stack := hstack
      have n1 : (r1.labels.map Prod.fst).Nodup :=
        fold_labels_nodup servicesSelectorStep (fun s => s.labels) (fun s => s.stack)
          hsome servicesSelectorStep_no_parts selectors _ r1 (by simp) hf
      have n2 : (r2.labels.map Prod.fst).Nodup :=
        fold_labels_nodup servicesSelectorStep (fun s => s.labels) (fun s => s.stack)
          hsome servicesSelectorStep_no_parts (dropEarlier selectors) _ r2 (by simp) hf2
      have hperm : r1.labels.Perm r2.labels := perm_of_mapIndex_eq _ _ n1 n2 hlab
      have hfun : (fun services : List Nat =>
            if r1.labels.length > 0 then filterServicesByLabel uc rx c r1.labels services
            else Except.ok services) =
          (fun services : List Nat =>
            if r2.labels.length > 0 then filterServicesByLabel uc rx c r2.labels services
            else Except.ok services) := by
        funext services
        rw [hperm.length_eq, filterServicesByLabel_perm uc rx c _ _ hperm]
      rw [hf2]
      simp only [Except.bind]
      rw [hstack2, hfun]

theorem getHosts_dropEarlier (rx : RegexEngine) (c : TemplateContext)
    (selectors : List String) :
    GetHosts uc rx c selectors = GetHosts uc rx c (dropEarlier selectors) := by
  by_cases hne : selectors = []
  · subst hne
    rfl
  · rw [getHosts_bind uc rx c selectors hne, getHosts_bind uc rx c _ (dropEarlier_ne_nil _ hne)]
    have hsome : ∀ f k v : String, labelSelectorParts f = some (k, v) →
        ∀ s : LabelMap, ∃ s1 : LabelMap, hostsSelectorStep s f = .ok s1 ∧
          s1 = mapAssign s k v ∧ () = () :=
      fun f k v hp s => ⟨_, hostsSelectorStep_parts f k v hp s, rfl, rfl⟩
    have hnone : ∀ f : String, labelSelectorParts f = none → ∀ s1 s2 : LabelMap, () = () →
        (∀ e : LookupError, hostsSelectorStep s1 f = .error e →
          hostsSelectorStep s2 f = .error e) ∧
        (∀ r1 : LabelMap, hostsSelectorStep s1 f = .ok r1 →
          ∃ r2 : LabelMap, hostsSelectorStep s2 f = .ok r2 ∧ () = () ∧ r1 = s1 ∧ r2 = s2) := by
      intro f hp s1 s2 _
      obtain ⟨msg, hmsg⟩ := hostsSelectorStep_no_parts f hp
      rw [hmsg s1, hmsg s2]
      exact ⟨fun _ he => he, fun _ hr => by cases hr⟩
    have key := fold_dropEarlier hostsSelectorStep (fun s => s) (fun _ => ())
      hsome hnone selectors [] [] rfl (fun _ _ => rfl)
    cases hf : selectors.foldlM hostsSelectorStep [] with
    | error e =>
      rw [key.1 e hf]
    | ok r1 =>
      obtain ⟨r2, hf2, -, hlab⟩ := key.2 r1 hf
      have n1 : (r1.map Prod.fst).Nodup :=
        fold_labels_nodup hostsSelectorStep (fun s => s) (fun _ => ())
          hsome hnone selectors _ r1 (by simp) hf
      have n2 : (r2.map Prod.fst).Nodup :=
        fold_labels_nodup hostsSelectorStep (fun s => s) (fun _ => ())
          hsome hnone (dropEarlier selectors) _ r2 (by simp) hf2
      have hperm : r1.Perm r2 := perm_of_mapIndex_eq _ _ n1 n2 hlab
      rw [hf2]
      simp only [Except.bind]
      exact filterHostsByLabel_perm uc rx c _ _ hperm _

/-- C38: for every selector list, `GetServices` and `GetHosts` return the same, result or
error, for the list and for the list from which every well-formed `@key=value` selector has
been removed whose key occurs again in a later well-formed `@key=value` selector; so of
`@a=1`, `@b=2`, `@a=3` the selector `@a=1` has no effect. -/
theorem selectors_last_label_wins (rx : RegexEngine) (c : TemplateContext)
    (selectors : List String) :
    GetServices uc rx c selectors = GetServices uc rx c (dropEarlier selectors) ∧
      GetHosts uc rx c selectors = GetHosts uc rx c (dropEarlier selectors) ∧
      dropEarlier ["@a=1", ".web", "@b=2", "@a=3"] = [".web", "@b=2", "@a=3"] ∧
      dropEarlier ["@a=1", "@b=2", "@a=3"] = ["@b=2", "@a=3"] :=
  ⟨getServices_dropEarlier uc rx c selectors, getHosts_dropEarlier uc rx c selectors,
    by decide, by decide⟩

end RancherConf

namespace RancherConf

section Run

variable {cfg : Config} {metaStacks : List MetaStack} {metaServices : List MetaService}
  {metaContainers : List MetaContainer} {metaHosts : List MetaHost} {metaSelf : MetaContainer}
  {ctx : TemplateContext}

theorem run_service_flags
    (R : BuildRun cfg metaStacks metaServices metaContainers metaHosts metaSelf ctx)
    (j : Nat) (s : Service) (hs : ctx.serviceArena[j]? = some s) :
    s.Primary = !s.Sidekick := by
  obtain ⟨x, hx, hcore⟩ := run_service_to_loop R j s hs
  have hlen := (serviceLoop_arena _ _ _ _ _ R.hsvl).2.1
  simp only [List.length_nil, Nat.zero_add] at hlen
  have hj : j < metaServices.length := by
    rw [← hlen]
    exact lt_length_of_getElem?_eq_some _ _ _ hx
  obtain ⟨u, hu⟩ := (serviceLoop_arena _ _ _ _ _ R.hsvl).2.2.2 j (metaServices[j])
    (List.getElem?_eq_getElem hj)
  simp only [List.length_nil, Nat.zero_add] at hu
  rw [hx] at hu
  cases hu
  have hp := congrArg Service.Primary hcore
  have hk := congrArg Service.Sidekick hcore
  simp only [Service.core, newService] at hp hk
  rw [← hp, ← hk]
  simp

theorem run_container_flags
    (R : BuildRun cfg metaStacks metaServices metaContainers metaHosts metaSelf ctx)
    (i : Nat) (c : Container) (hc : ctx.containerArena[i]? = some c) :
    c.Primary = !c.Sidekick := by
  obtain ⟨hp, hk, -, -⟩ := run_container_fields R i c hc
  rw [hp, hk]
  simp

theorem run_parent_eq
    (R : BuildRun cfg metaStacks metaServices metaContainers metaHosts metaSelf ctx)
    (i : Nat) (c : Container) (hc : ctx.containerArena[i]? = some c) :
    c.Parent = linkedParent R.cl.deploymentParent R.cl.arena i := by
  obtain ⟨-, -, -, c0, hc0, -, -, hc0par⟩ := run_container_fields R i c hc
  have himem := run_mem_containers R i c hc
  have hpar := (run_link R).parent i
  rw [← (run_ctx_fields R).1, hc] at hpar
  simp only [hc0, Option.map_some', Option.some.injEq, himem, true_and, hc0par] at hpar
  rw [hpar]
  cases linkedParent R.cl.deploymentParent R.cl.arena i <;> rfl

theorem run_sidekicks_eq
    (R : BuildRun cfg metaStacks metaServices metaContainers metaHosts metaSelf ctx)
    (p : Nat) (P : Container) (hP : ctx.containerArena[p]? = some P) :
    P.Sidekicks = (sortSliceStable (containerLess R.cl.arena) R.cl.containers).filter
      (fun i => decide (linkedParent R.cl.deploymentParent R.cl.arena i = some p)) := by
  obtain ⟨-, -, -, P0, hP0, -, hP0sk, -⟩ := run_container_fields R p P hP
  have hsk := (run_link R).sidekicks p
  rw [← (run_ctx_fields R).1, hP] at hsk
  simp only [hP0, Option.map_some', Option.some.injEq, hP0sk, List.nil_append] at hsk
  exact hsk

theorem run_linked_sidekick
    (R : BuildRun cfg metaStacks metaServices metaContainers metaHosts metaSelf ctx)
    (i p : Nat) (h : linkedParent R.cl.deploymentParent R.cl.arena i = some p) :
    ∃ c0 : Container, R.cl.arena[i]? = some c0 ∧ c0.Sidekick = true ∧
      mapIndex R.cl.deploymentParent (c0.Labels.GetValue deploymentUnitLabel []) = some p := by
  unfold linkedParent at h
  cases hc0 : R.cl.arena[i]? with
  | none =>
    rw [hc0] at h
    cases h
  | some c0 =>
    rw [hc0] at h
    simp only at h
    by_cases hs : c0.Sidekick = true
    · rw [if_pos hs] at h
      exact ⟨c0, rfl, hs, h⟩
    · rw [if_neg hs] at h
      cases h

theorem run_hosts_perm
    (R : BuildRun cfg metaStacks metaServices metaContainers metaHosts metaSelf ctx) :
    ctx.Hosts.Perm (List.range metaHosts.length) := by
  rw [(run_ctx_fields R).2.2.2.2.2.2.1]
  have := (hostLoop_arena metaHosts { arena := [], hosts := [], hostMap := [] }).2
  simp only [List.nil_append, List.length_nil] at this
  have h2 : (hostLoop metaHosts).hosts = List.range metaHosts.length := by
    unfold hostLoop
    rw [this, List.range_eq_range']
  rw [← h2]
  exact sortSliceStable_perm _ _

theorem run_hosts_sorted
    (R : BuildRun cfg metaStacks metaServices metaContainers metaHosts metaSelf ctx) :
    ctx.Hosts.Pairwise (fun p q => hostUUID ctx.hostArena p ≤ hostUUID ctx.hostArena q) := by
  rw [(run_ctx_fields R).2.2.2.2.2.2.1]
  have hs := sortSliceStable_sorted (hostUUID (hostLoop metaHosts).arena)
    (fun i j => strLess (hostUUID (hostLoop metaHosts).arena i)
      (hostUUID (hostLoop metaHosts).arena j))
    (fun a b => strLess_iff _ _) (hostLoop metaHosts).hosts
  refine hs.imp ?_
  intro p q hpq
  have e : ∀ p, hostUUID ctx.hostArena p = hostUUID (hostLoop metaHosts).arena p := by
    intro p
    apply hostUUID_congr
    rw [(run_ctx_fields R).2.2.1]
    exact (run_link R).host p
  rw [e p, e q]
  exact hpq

theorem run_stacks_perm
    (R : BuildRun cfg metaStacks metaServices metaContainers metaHosts metaSelf ctx) :
    ctx.Stacks.Perm (List.range metaStacks.length) := by
  rw [(run_ctx_fields R).2.2.2.2.2.2.2.1]
  have := (stackLoop_arena metaStacks { arena := [], stackSlice := [], stackMap := [] }).2
  simp only [List.nil_append, List.length_nil] at this
  have h2 : (stackLoop metaStacks).stackSlice = List.range metaStacks.length := by
    unfold stackLoop
    rw [this, List.range_eq_range']
  rw [← h2]
  exact sortSliceStable_perm _ _

theorem run_stacks_sorted
    (R : BuildRun cfg metaStacks metaServices metaContainers metaHosts metaSelf ctx) :
    ctx.Stacks.Pairwise (fun p q => stackUUID ctx.stackArena p ≤ stackUUID ctx.stackArena q) := by
  rw [(run_ctx_fields R).2.2.2.2.2.2.2.1]
  have hs := sortSliceStable_sorted (stackUUID (stackLoop metaStacks).arena)
    (fun i j => strLess (stackUUID (stackLoop metaStacks).arena i)
      (stackUUID (stackLoop metaStacks).arena j))
    (fun a b => strLess_iff _ _) (stackLoop metaStacks).stackSlice
  refine hs.imp ?_
  intro p q hpq
  have e : ∀ p, stackUUID ctx.stackArena p = stackUUID (stackLoop metaStacks).arena p := by
    intro p
    apply stackUUID_congr
    rw [(run_ctx_fields R).2.2.2.1]
    exact ((nestedSortLoop_ok _ _ _ R.hns).stackMeta p).trans ((run_serviceInv R).stackMeta p)
  rw [e p, e q]
  exact hpq

end Run

/-- C39: in a graph that `createContext` returns, a container occurs in the Sidekicks of the
container `P` exactly when its Parent is `P`, and it occurs there once; a container that has a
Parent has the Sidekick flag, and its parent has the Primary flag and no Parent; and on every
container and on every service exactly one of the flags Primary and Sidekick is set. -/
theorem createContext_parent_sidekick_links (cfg : Config) (client : Client)
    (ctx : TemplateContext) (hrun : createContext cfg client = .ok ctx) :
    (∀ (p : Nat) (P : Container), ctx.containerArena[p]? = some P →
      P.Sidekicks.Nodup ∧
      ∀ i : Nat, i ∈ P.Sidekicks ↔
        ∃ C : Container, ctx.containerArena[i]? = some C ∧ C.Parent = some p) ∧
    (∀ (i : Nat) (C : Container) (p : Nat), ctx.containerArena[i]? = some C →
      C.Parent = some p →
      C.Sidekick = true ∧
        ∃ P : Container, ctx.containerArena[p]? = some P ∧ P.Primary = true ∧
          P.Parent = none) ∧
    (∀ (i : Nat) (C : Container), ctx.containerArena[i]? = some C →
      C.Primary = !C.Sidekick) ∧
    (∀ (j : Nat) (s : Service), ctx.serviceArena[j]? = some s → s.Primary = !s.Sidekick) := by
  obtain ⟨mst, msv, mc, mh, ms, -, -, -, -, -, ⟨R⟩⟩ := run_of_createContext cfg client ctx hrun
  refine ⟨?_, ?_, run_container_flags R, run_service_flags R⟩
  · intro p P hP
    rw [run_sidekicks_eq R p P hP]
    refine ⟨(run_containers_nodup R).filter _, ?_⟩
    intro i
    rw [List.mem_filter]
    constructor
    · rintro ⟨-, hlp⟩
      have hlp2 := of_decide_eq_true hlp
      obtain ⟨c0, hc0, -, -⟩ := run_linked_sidekick R i p hlp2
      obtain ⟨C, hC, -⟩ := run_container_of_loop R i c0 hc0
      exact ⟨C, hC, by rw [run_parent_eq R i C hC, hlp2]⟩
    · rintro ⟨C, hC, hpar⟩
      rw [run_parent_eq R i C hC] at hpar
      exact ⟨run_mem_containers R i C hC, decide_eq_true hpar⟩
  · intro i C p hC hpar
    rw [run_parent_eq R i C hC] at hpar
    obtain ⟨c0, hc0, hside, hmap⟩ := run_linked_sidekick R i p hpar
    obtain ⟨x, hx, hfr⟩ := run_container_to_loop R i C hC
    rw [hc0] at hx
    cases hx
    have hCs : C.Sidekick = true := by
      have := congrArg Container.Sidekick hfr
      simp only [Container.frozen] at this
      rw [← this, hside]
    obtain ⟨P0, hP0, hP0prim, -⟩ := (run_deployInv R).1 _ p hmap
    obtain ⟨P, hP, hPfr⟩ := run_container_of_loop R p P0 hP0
    have hPprim : P.Primary = true := by
      have := congrArg Container.Primary hPfr
      simp only [Container.frozen] at this
      rw [this, hP0prim]
    have hPside : P.Sidekick = false := by
      have := run_container_flags R p P hP
      rw [hPprim] at this
      cases hk : P.Sidekick with
      | false => rfl
      | true => rw [hk] at this; cases this
    have hP0side : P0.Sidekick = false := by
      have := congrArg Container.Sidekick hPfr
      simp only [Container.frozen] at this
      rw [← this, hPside]
    refine ⟨hCs, P, hP, hPprim, ?_⟩
    rw [run_parent_eq R p P hP]
    simp [linkedParent, hP0, hP0side]

/-- Witness for C39: in `sidekickGraph` the container `db-1` (pointer 1) has the Parent
`app-1` (pointer 0); it carries the Sidekick flag and occurs in the Sidekicks of `app-1`. -/
theorem createContext_parent_sidekick_links_witness :
    createContext { SelfId := "" } sidekickSnapshot = .ok sidekickGraph ∧
      (∀ C : Container, sidekickGraph.containerArena[1]? = some C → C.Parent = some 0 →
        C.Sidekick = true) ∧
      (∀ P : Container, sidekickGraph.containerArena[0]? = some P → 1 ∈ P.Sidekicks) :=
  have h := createContext_parent_sidekick_links { SelfId := "" } sidekickSnapshot sidekickGraph
    rfl
  ⟨rfl, fun C hC hp => (h.2.1 1 C 0 hC hp).1,
    fun P hP => ((h.1 0 P hP).2 1).2 ⟨_, rfl, rfl⟩⟩

/-! ## The order of Hosts and Stacks -/

theorem range_map_getElem? {α : Type} (l : List α) :
    (List.range l.length).map (fun p => l[p]?) = l.map some := by
  apply List.ext_getElem?
  intro i
  by_cases h : i < l.length
  · simp [List.getElem?_map, List.getElem?_range h, List.getElem?_eq_getElem h]
  · have h2 := Nat.le_of_not_lt h
    rw [List.getElem?_eq_none (by simpa using h2), List.getElem?_eq_none (by simpa using h2)]

theorem records_eq_of_perm {α : Type} (key : α → String) (A B : List (Option α))
    (hperm : A.Perm B)
    (hA : A.Pairwise (fun a b => (a.map key).getD "" ≤ (b.map key).getD ""))
    (hB : B.Pairwise (fun a b => (a.map key).getD "" ≤ (b.map key).getD ""))
    (hn : (A.map (fun a => (a.map key).getD "")).Nodup) : A = B := by
  have hnB : (B.map (fun a => (a.map key).getD "")).Nodup :=
    (hperm.map _).nodup_iff.1 hn
  have sA : A.Pairwise (fun a b => (a.map key).getD "" < (b.map key).getD "") :=
    (hA.and (List.pairwise_map.1 hn)).imp (fun h => lt_of_le_of_ne h.1 h.2)
  have sB : B.Pairwise (fun a b => (a.map key).getD "" < (b.map key).getD "") :=
    (hB.and (List.pairwise_map.1 hnB)).imp (fun h => lt_of_le_of_ne h.1 h.2)
  haveI : IsAntisymm (Option α) (fun a b => (a.map key).getD "" < (b.map key).getD "") :=
    ⟨fun a b h1 h2 => absurd h1 (lt_asymm h2)⟩
  exact @List.eq_of_perm_of_sorted _
    (fun a b : Option α => (a.map key).getD "" < (b.map key).getD "") _ _ _ hperm sA sB

section Run

variable {cfg : Config} {metaStacks : List MetaStack} {metaServices : List MetaService}
  {metaContainers : List MetaContainer} {metaHosts : List MetaHost} {metaSelf : MetaContainer}
  {ctx : TemplateContext}

theorem run_host_records
    (R : BuildRun cfg metaStacks metaServices metaContainers metaHosts metaSelf ctx) :
    (ctx.Hosts.map (hostRecord ctx)).Perm (metaHosts.map some) ∧
      (ctx.Hosts.map (hostRecord ctx)).Pairwise
        (fun a b => (a.map (fun h : MetaHost => h.UUID)).getD "" ≤
          (b.map (fun h : MetaHost => h.UUID)).getD "") := by
  have e : hostRecord ctx = fun p => metaHosts[p]? := by
    funext p
    exact run_host_meta R p
  constructor
  · rw [e, ← range_map_getElem?]
    exact (run_hosts_perm R).map _
  · rw [List.pairwise_map]
    refine (run_hosts_sorted R).imp ?_
    intro p q hpq
    simp only [hostUUID] at hpq
    simp only [hostRecord, Option.map_map]
    exact hpq

theorem run_stack_records
    (R : BuildRun cfg metaStacks metaServices metaContainers metaHosts metaSelf ctx) :
    (ctx.Stacks.map (stackRecord ctx)).Perm (metaStacks.map some) ∧
      (ctx.Stacks.map (stackRecord ctx)).Pairwise
        (fun a b => (a.map (fun t : MetaStack => t.UUID)).getD "" ≤
          (b.map (fun t : MetaStack => t.UUID)).getD "") := by
  have e : stackRecord ctx = fun p => metaStacks[p]? := by
    funext p
    exact run_stack_meta R p
  constructor
  · rw [e, ← range_map_getElem?]
    exact (run_stacks_perm R).map _
  · rw [List.pairwise_map]
    refine (run_stacks_sorted R).imp ?_
    intro p q hpq
    simp only [stackUUID] at hpq
    simp only [stackRecord, Option.map_map]
    exact hpq

end Run

/-- C40: when `createContext` succeeds on two inputs whose host lists are permutations of
each other and hold pairwise distinct UUIDs, the two Hosts collections hold the same host
records in the same order; and likewise the two Stacks collections, when the stack lists are
permutations of each other and hold pairwise distinct UUIDs. -/
theorem hosts_stacks_independent_of_input_order (cfg cfg2 : Config) (client client2 : Client)
    (ctx ctx2 : TemplateContext)
    (hrun : createContext cfg client = .ok ctx)
    (hrun2 : createContext cfg2 client2 = .ok ctx2) :
    (∀ hosts hosts2 : List MetaHost, client.GetHosts = .ok hosts →
      client2.GetHosts = .ok hosts2 → hosts.Perm hosts2 →
      (hosts.map (fun h => h.UUID)).Nodup →
      ctx.Hosts.map (hostRecord ctx) = ctx2.Hosts.map (hostRecord ctx2)) ∧
    (∀ records records2 : List MetaStack, client.GetStacks = .ok records →
      client2.GetStacks = .ok records2 → records.Perm records2 →
      (records.map (fun t => t.UUID)).Nodup →
      ctx.Stacks.map (stackRecord ctx) = ctx2.Stacks.map (stackRecord ctx2)) := by
  obtain ⟨mst, msv, mc, mh, ms, h1, -, -, h4, -, ⟨R⟩⟩ :=
    run_of_createContext cfg client ctx hrun
  obtain ⟨mst2, msv2, mc2, mh2, ms2, k1, -, -, k4, -, ⟨R2⟩⟩ :=
    run_of_createContext cfg2 client2 ctx2 hrun2
  constructor
  · intro hosts hosts2 hh hh2 hperm hnd
    rw [hh] at h4
    rw [hh2] at k4
    cases h4
    cases k4
    obtain ⟨p1, s1⟩ := run_host_records R
    obtain ⟨p2, s2⟩ := run_host_records R2
    apply records_eq_of_perm (fun h : MetaHost => h.UUID) _ _
      ((p1.trans (hperm.map some)).trans p2.symm) s1 s2
    have hk := (p1.map (fun a : Option MetaHost => (a.map (fun h => h.UUID)).getD "")).nodup_iff
    rw [hk, List.map_map]
    exact hnd
  · intro records records2 hh hh2 hperm hnd
    rw [hh] at h1
    rw [hh2] at k1
    cases h1
    cases k1
    obtain ⟨p1, s1⟩ := run_stack_records R
    obtain ⟨p2, s2⟩ := run_stack_records R2
    apply records_eq_of_perm (fun t : MetaStack => t.UUID) _ _
      ((p1.trans (hperm.map some)).trans p2.symm) s1 s2
    have hk := (p1.map (fun a : Option MetaStack => (a.map (fun t => t.UUID)).getD "")).nodup_iff
    rw [hk, List.map_map]
    exact hnd

/-- Witness for C40: the hosts `h2`, `h1` supplied in this order and in the reverse order. -/
theorem hosts_stacks_independent_of_input_order_witness :
    createContext { SelfId := "" } (hostsSnapshot twoHosts) =
        .ok (graphOf "" (hostsSnapshot twoHosts)) ∧
      createContext { SelfId := "" } (hostsSnapshot twoHosts.reverse) =
        .ok (graphOf "" (hostsSnapshot twoHosts.reverse)) ∧
      (graphOf "" (hostsSnapshot twoHosts)).Hosts.map
          (hostRecord (graphOf "" (hostsSnapshot twoHosts))) =
        (graphOf "" (hostsSnapshot twoHosts.reverse)).Hosts.map
          (hostRecord (graphOf "" (hostsSnapshot twoHosts.reverse))) :=
  ⟨rfl, rfl,
    (hosts_stacks_independent_of_input_order { SelfId := "" } { SelfId := "" }
      (hostsSnapshot twoHosts) (hostsSnapshot twoHosts.reverse) _ _ rfl rfl).1
      twoHosts twoHosts.reverse rfl rfl (List.reverse_perm twoHosts).symm (by decide)⟩

end RancherConf

namespace RancherConf

/-! ## The Parent of a service after the linking loop -/

theorem linkStep_svcParent (dp : GoMap Nat) (st st' : LinkLoop) (p : Nat)
    (h : linkStep dp st p = .ok st') (k : Nat) :
    (st'.serviceArena[k]?).map (fun s => s.Parent) =
      (st.serviceArena[k]?).map (fun s =>
        if (linkedParent dp st.containerArena p).isSome = true ∧
            serviceOf st.containerArena p = some k then
          (linkedParent dp st.containerArena p).bind (serviceOf st.containerArena)
        else s.Parent) := by
  unfold linkStep at h
  cases hc : st.containerArena[p]? with
  | none => simp [hc] at h
  | some c =>
    simp only [hc] at h
    cases hl : linkParent dp st p c with
    | error e => simp [hl] at h
    | ok st1 =>
      simp only [hl, Except.ok.injEq] at h
      have hso : serviceOf st.containerArena p = c.Service := by simp [serviceOf, hc]
      rcases linkParent_ok dp st st1 p c hc hl with ⟨hlp, hst1⟩ | ⟨q, sp, pc, hlp, hsp, hq, hst1⟩
      · subst hst1
        cases hcs : c.Service <;> cases hch : c.Host <;> simp only [hcs, hch] at h <;>
          subst h <;>
          simp only [hlp, hso, hcs, map_getElem?_modifyAt] <;>
          apply option_map_ext <;> intros <;> (try split_ifs) <;> simp_all
      · subst hst1
        rw [hsp] at h
        have hsq : serviceOf st.containerArena q = pc.Service := by simp [serviceOf, hq]
        cases hch : c.Host <;> simp only [hch] at h <;>
          subst h <;>
          simp only [hlp, hso, hsp, hsq, Option.some_bind, map_getElem?_modifyAt] <;>
          apply option_map_ext <;> intros <;> (try split_ifs) <;> simp_all

theorem linkLoop_svcParent (dp : GoMap Nat) (k : Nat) (L : List Nat) :
    ∀ (st r : LinkLoop), L.foldlM (linkStep dp) st = .ok r →
      (r.serviceArena[k]?).map (fun s => s.Parent) =
        (st.serviceArena[k]?).map (fun s =>
          L.foldl (fun par i =>
            if (linkedParent dp st.containerArena i).isSome = true ∧
                serviceOf st.containerArena i = some k then
              (linkedParent dp st.containerArena i).bind (serviceOf st.containerArena)
            else par) s.Parent) := by
  induction L with
  | nil =>
    intro st r h
    have := foldlM_nil_ok _ _ _ h
    subst this
    simp
  | cons p L ih =>
    intro st r h
    obtain ⟨s1, h1, h2⟩ := foldlM_cons_ok _ _ _ _ _ h
    have S := linkStep_ok dp st s1 p h1
    have hlp : ∀ i, linkedParent dp s1.containerArena i = linkedParent dp st.containerArena i :=
      fun i => linkedParent_congr dp _ _ i (S.frozen i)
    have hso : serviceOf s1.containerArena = serviceOf st.containerArena :=
      funext (fun i => serviceOf_congr _ _ i (S.frozen i))
    rw [ih s1 r h2]
    simp only [hlp, hso]
    refine (option_map_post (fun o => L.foldl (fun par i =>
      if (linkedParent dp st.containerArena i).isSome = true ∧
          serviceOf st.containerArena i = some k then
        (linkedParent dp st.containerArena i).bind (serviceOf st.containerArena)
      else par) o) (linkStep_svcParent dp st s1 p h1 k)).trans ?_
    apply option_map_ext
    intro x _
    rw [List.foldl_cons]

theorem foldl_override_none {α β : Type} (c : α → Prop) [DecidablePred c] (v : α → β)
    (l : List α) (init : β) (h : ∀ a ∈ l, ¬ c a) :
    l.foldl (fun par a => if c a then v a else par) init = init := by
  induction l generalizing init with
  | nil => rfl
  | cons a l ih =>
    rw [List.foldl_cons, if_neg (h a (List.mem_cons_self _ _))]
    exact ih init (fun b hb => h b (List.mem_cons_of_mem _ hb))

theorem foldl_override_last {α β : Type} (c : α → Prop) [DecidablePred c] (v : α → β)
    (l1 l2 : List α) (a : α) (init : β) (ha : c a) (h : ∀ b ∈ l2, ¬ c b) :
    (l1 ++ a :: l2).foldl (fun par x => if c x then v x else par) init = v a := by
  rw [List.foldl_append, List.foldl_cons, if_pos ha]
  exact foldl_override_none c v l2 (v a) h

section Run

variable {cfg : Config} {metaStacks : List MetaStack} {metaServices : List MetaService}
  {metaContainers : List MetaContainer} {metaHosts : List MetaHost} {metaSelf : MetaContainer}
  {ctx : TemplateContext}

theorem run_service_parent_written
    (R : BuildRun cfg metaStacks metaServices metaContainers metaHosts metaSelf ctx)
    (t : Nat) :
    (ctx.serviceArena[t]?).map (fun s => s.Parent) =
      (R.sa1[t]?).map (fun s =>
        ctx.Containers.foldl (fun par i =>
          if (linkedParent R.cl.deploymentParent R.cl.arena i).isSome = true ∧
              serviceOf R.cl.arena i = some t then
            (linkedParent R.cl.deploymentParent R.cl.arena i).bind (serviceOf R.cl.arena)
          else par) s.Parent) := by
  have h1 := linkLoop_svcParent R.cl.deploymentParent t _ _ _ R.hll
  rw [← (run_ctx_fields R).2.1, ← (run_ctx_fields R).2.2.2.2.1] at h1
  rw [h1]
  exact option_map_post (fun o => ctx.Containers.foldl (fun par i =>
    if (linkedParent R.cl.deploymentParent R.cl.arena i).isSome = true ∧
        serviceOf R.cl.arena i = some t then
      (linkedParent R.cl.deploymentParent R.cl.arena i).bind (serviceOf R.cl.arena)
    else par) o) ((nestedSortLoop_ok _ _ _ R.hns).parent t)

theorem run_service_parent_last
    (R : BuildRun cfg metaStacks metaServices metaContainers metaHosts metaSelf ctx)
    (t : Nat) (S : Service) (hS : ctx.serviceArena[t]? = some S)
    (l1 l2 : List Nat) (i : Nat) (c : Container) (q : Nat)
    (hsplit : ctx.Containers = l1 ++ i :: l2) (hc : ctx.containerArena[i]? = some c)
    (hsvc : c.Service = some t) (hpar : c.Parent = some q)
    (hrest : ∀ j ∈ l2, ∀ c2 : Container, ctx.containerArena[j]? = some c2 →
      c2.Service = some t → c2.Parent = none) :
    ∃ P : Container, ctx.containerArena[q]? = some P ∧ P.Primary = true ∧
      S.Parent = P.Service := by
  have hw := run_service_parent_written R t
  rw [hS, hsplit] at hw
  have hlp : linkedParent R.cl.deploymentParent R.cl.arena i = some q := by
    rw [← run_parent_eq R i c hc]
    exact hpar
  obtain ⟨c0, hc0, -, hmap⟩ := run_linked_sidekick R i q hlp
  have hsoeq : ∀ j : Nat, serviceOf ctx.containerArena j = serviceOf R.cl.arena j :=
    fun j => serviceOf_congr _ _ j (run_container_frozen R j)
  have hso : serviceOf R.cl.arena i = some t := by
    rw [← hsoeq i]
    simp [serviceOf, hc, hsvc]
  have hnone : ∀ j ∈ l2,
      ¬ ((linkedParent R.cl.deploymentParent R.cl.arena j).isSome = true ∧
        serviceOf R.cl.arena j = some t) := by
    rintro j hj ⟨h1, h2⟩
    obtain ⟨q2, hq2⟩ := Option.isSome_iff_exists.1 h1
    obtain ⟨c02, hc02, -, -⟩ := run_linked_sidekick R j q2 hq2
    obtain ⟨c2, hc2, -⟩ := run_container_of_loop R j c02 hc02
    have hp2 : c2.Parent = some q2 := by rw [run_parent_eq R j c2 hc2, hq2]
    have hs2 : c2.Service = some t := by
      have e := hsoeq j
      rw [h2] at e
      simpa [serviceOf, hc2] using e
    have e2 := hrest j hj c2 hc2 hs2
    rw [hp2] at e2
    cases e2
  have hfun : (fun s : Service =>
      (l1 ++ i :: l2).foldl (fun par j =>
        if (linkedParent R.cl.deploymentParent R.cl.arena j).isSome = true ∧
            serviceOf R.cl.arena j = some t then
          (linkedParent R.cl.deploymentParent R.cl.arena j).bind (serviceOf R.cl.arena)
        else par) s.Parent) =
      fun _ => (linkedParent R.cl.deploymentParent R.cl.arena i).bind
        (serviceOf R.cl.arena) := by
    funext s
    exact foldl_override_last
      (fun j => (linkedParent R.cl.deploymentParent R.cl.arena j).isSome = true ∧
        serviceOf R.cl.arena j = some t)
      (fun j => (linkedParent R.cl.deploymentParent R.cl.arena j).bind (serviceOf R.cl.arena))
      l1 l2 i s.Parent ⟨by rw [hlp]; rfl, hso⟩ hnone
  rw [hfun, hlp] at hw
  obtain ⟨P0, hP0, hP0prim, -⟩ := (run_deployInv R).1 _ q hmap
  obtain ⟨P, hP, hPfr⟩ := run_container_of_loop R q P0 hP0
  have hPprim : P.Primary = true := by
    have := congrArg Container.Primary hPfr
    simp only [Container.frozen] at this
    rw [this, hP0prim]
  have hPsvc : serviceOf R.cl.arena q = P.Service := by
    rw [← hsoeq q]
    simp [serviceOf, hP]
  refine ⟨P, hP, hPprim, ?_⟩
  cases hx : R.sa1[t]? with
  | none =>
    rw [hx] at hw
    simp at hw
  | some x =>
    rw [hx] at hw
    simp only [Option.map_some', Option.some_bind, Option.some.injEq] at hw
    rw [hw, hPsvc]

end Run

theorem sidekick_service_parent_undeclared (cfg : Config) (client : Client)
    (ctx : TemplateContext) (hrun : createContext cfg client = .ok ctx)
    (t : Nat) (S : Service) (hS : ctx.serviceArena[t]? = some S)
    (hdots : ∀ (j : Nat) (s : Service), ctx.serviceArena[j]? = some s →
      '.' ∉ s.metadata.StackName.data)
    (hundecl : ∀ (j : Nat) (P : Service), ctx.serviceArena[j]? = some P → P.Primary = true →
      P.metadata.StackName = S.metadata.StackName → S.metadata.Name ∉ P.metadata.Sidekicks)
    (hfree : ∀ (i : Nat) (c : Container), ctx.containerArena[i]? = some c →
      c.Service = some t → c.Parent = none) :
    S.Parent = none := by
  obtain ⟨mst, msv, mc, mh, ms, -, -, -, -, -, ⟨R⟩⟩ := run_of_createContext cfg client ctx hrun
  have hI := run_serviceInv R
  obtain ⟨xt, hxt, hxtcore⟩ := run_service_to_loop R t S hS
  have hxtq : xt.qualifiedName = S.metadata.StackName ++ "." ++ S.metadata.Name := by
    rw [qualifiedName_of_core _ _ hxtcore]
    rfl
  have hspec := sidekickLoop_ok _ _ _ _ R.hsa1
  have hkeep := hspec.parentKeep t (by
    intro e he hmap
    obtain ⟨y, hy, hyq, -⟩ := hI.mapSome e.1 t hmap
    rw [hxt] at hy
    cases hy
    have h1 := mapIndex_eq_some_of_mem _ e.1 e.2 hI.skNodup he
    obtain ⟨xp, hxp, hxpprim, ⟨sk, hskmem, hskkey⟩, -⟩ := hI.skSome _ e.2 h1
    obtain ⟨Pp, hPp, hPpcore⟩ := run_service_of_loop R e.2 xp hxp
    have e1 := congrArg Service.metadata hPpcore
    have e2 := congrArg Service.Primary hPpcore
    simp only [Service.core] at e1 e2
    rw [← hyq, hxtq, ← e1] at hskkey
    obtain ⟨hst, hnm⟩ := qualified_inj _ _ _ _ (hdots e.2 Pp hPp) (hdots t S hS) hskkey
    refine hundecl e.2 Pp hPp (by rw [e2]; exact hxpprim) hst ?_
    rw [← hnm, e1]
    exact hskmem)
  have hfinal := run_service_parent_kept R t hfree
  rw [hkeep, hS, hxt] at hfinal
  simp only [Option.map_some', Option.some.injEq] at hfinal
  rw [hfinal]
  exact (hI.fresh t xt hxt).1

/-- C4, amended: after `createContext`, the Parent of a service S is the service of the parent
container of the last container of S, in Containers order, that has a Parent, and that parent
container is a primary container.  If no container of S has a Parent and no stack name
contains a '.', then S has no Parent when no primary service of its stack T declares S.Name
as a sidekick; and when S is the last service record of its name in T and at least one
primary service of T declares S.Name, S.Parent is the last primary service of T, in input
order, whose declared sidekick-name list contains S.Name. -/
theorem sidekick_service_parent (cfg : Config) (client : Client) (ctx : TemplateContext)
    (hrun : createContext cfg client = .ok ctx)
    (t : Nat) (S : Service) (hS : ctx.serviceArena[t]? = some S) :
    (∀ (l1 l2 : List Nat) (i : Nat) (c : Container) (q : Nat),
      ctx.Containers = l1 ++ i :: l2 → ctx.containerArena[i]? = some c →
      c.Service = some t → c.Parent = some q →
      (∀ j ∈ l2, ∀ c2 : Container, ctx.containerArena[j]? = some c2 →
        c2.Service = some t → c2.Parent = none) →
      ∃ P : Container, ctx.containerArena[q]? = some P ∧ P.Primary = true ∧
        S.Parent = P.Service) ∧
    ((∀ (i : Nat) (c : Container), ctx.containerArena[i]? = some c →
        c.Service = some t → c.Parent = none) →
      (∀ (j : Nat) (s : Service), ctx.serviceArena[j]? = some s →
        '.' ∉ s.metadata.StackName.data) →
      ((∀ (j : Nat) (P : Service), ctx.serviceArena[j]? = some P → P.Primary = true →
          P.metadata.StackName = S.metadata.StackName →
          S.metadata.Name ∉ P.metadata.Sidekicks) →
        S.Parent = none) ∧
      ((∀ (j : Nat) (s : Service), t < j → ctx.serviceArena[j]? = some s →
          ¬ (s.metadata.StackName = S.metadata.StackName ∧
            s.metadata.Name = S.metadata.Name)) →
        (∃ (j : Nat) (P : Service), ctx.serviceArena[j]? = some P ∧ P.Primary = true ∧
          P.metadata.StackName = S.metadata.StackName ∧
          S.metadata.Name ∈ P.metadata.Sidekicks) →
        ∃ (p : Nat) (P : Service), S.Parent = some p ∧ ctx.serviceArena[p]? = some P ∧
          P.Primary = true ∧ P.metadata.StackName = S.metadata.StackName ∧
          S.metadata.Name ∈ P.metadata.Sidekicks ∧
          ∀ (j : Nat) (P2 : Service), p < j → ctx.serviceArena[j]? = some P2 →
            ¬ (P2.Primary = true ∧ P2.metadata.StackName = S.metadata.StackName ∧
              S.metadata.Name ∈ P2.metadata.Sidekicks))) := by
  constructor
  · intro l1 l2 i c q hsplit hc hsvc hpar hrest
    obtain ⟨mst, msv, mc, mh, ms, -, -, -, -, -, ⟨R⟩⟩ :=
      run_of_createContext cfg client ctx hrun
    exact run_service_parent_last R t S hS l1 l2 i c q hsplit hc hsvc hpar hrest
  · intro hfree hdots
    exact ⟨fun hundecl =>
        sidekick_service_parent_undeclared cfg client ctx hrun t S hS hdots hundecl hfree,
      fun hlast hdecl =>
        sidekick_service_parent_declared cfg client ctx hrun t S hS hdots hlast hdecl hfree⟩

/-- Witness for C4: in `sidekickGraph` the sidekick container `db-1` (pointer 1) of the
service `db` (pointer 1) has the Parent `app-1` (pointer 0), and the Parent of `db` is the
service of `app-1`, the primary `app` (pointer 0) that declares `db`; in
`declaredSidekickGraph`, where `db` has no container, the Parent of `db` is `app` as well. -/
theorem sidekick_service_parent_witness :
    (createContext { SelfId := "" } sidekickSnapshot = .ok sidekickGraph ∧
      sidekickGraph.Containers = [0, 1] ∧
      (sidekickGraph.containerArena[1]?).map (fun c => (c.Service, c.Parent)) =
        some (some 1, some 0) ∧
      (sidekickGraph.serviceArena[0]?).map (fun s => s.metadata.Sidekicks) = some ["db"] ∧
      ∃ S : Service, sidekickGraph.serviceArena[1]? = some S ∧
        ∃ P : Container, sidekickGraph.containerArena[0]? = some P ∧ P.Primary = true ∧
          P.Service = some 0 ∧ S.Parent = P.Service) ∧
    (createContext { SelfId := "" } declaredSidekickSnapshot = .ok declaredSidekickGraph ∧
      ∃ S : Service, declaredSidekickGraph.serviceArena[1]? = some S ∧
        ∃ (p : Nat) (P : Service), S.Parent = some p ∧
          declaredSidekickGraph.serviceArena[p]? = some P ∧ P.Primary = true ∧
          S.metadata.Name ∈ P.metadata.Sidekicks) :=
  ⟨⟨rfl, rfl, rfl, rfl, _, rfl,
    match (sidekick_service_parent { SelfId := "" } sidekickSnapshot sidekickGraph rfl 1 _
        rfl).1 [0] [] 1 _ 0 rfl rfl rfl rfl (fun j hj => absurd hj (List.not_mem_nil j)) with
    | ⟨P, hP, hprim, hpar⟩ => ⟨P, hP, hprim, (Option.some.inj hP) ▸ rfl, hpar⟩⟩,
   ⟨rfl, _, rfl,
    match ((sidekick_service_parent { SelfId := "" } declaredSidekickSnapshot
        declaredSidekickGraph rfl 1 _ rfl).2
        (forall_getElem?_of_forall_mem _ (by decide))
        (forall_getElem?_of_forall_mem _ (by decide))).2
        (fun j s hj hs => by
          have hlt := lt_length_of_getElem?_eq_some _ _ _ hs
          have hlen : declaredSidekickGraph.serviceArena.length = 2 := rfl
          omega)
        ⟨0, _, rfl, rfl, rfl, by decide⟩ with
    | ⟨p, P, h1, h2, h3, _, h5, _⟩ => ⟨p, P, h1, h2, h3, h5⟩⟩⟩

end RancherConf
